import Mathlib

/-!
# EdgeFirst camera adaptor: a verification development

Shallow embedding of the camera adaptor element
(`gst/hal/edgefirstcameraadaptor.c`) and of its Stage-2 post-processing
kernels (`gst/hal/edgefirstcameraadaptor-neon.c`).

Conventions of the embedding

* `guint` is a natural number below `2^32`; every `guint` operation that can
  leave that range is reduced `% 2^32` explicitly.  `gsize`/`size_t` is 64 bits
  wide (the AArch64 / x86-64 targets of the element).
* `gint` is an integer in `[-2^31, 2^31)`; conversions to `gint` go through
  `to_gint`, C integer division is `Int.tdiv` (truncation toward zero).
* `gfloat` values are rationals.  Every floating-point operation of the source
  is followed by a rounding function `fl : ℚ → ℚ`, a parameter of the
  definitions: `f32_round` (IEEE-754 binary32, round to nearest, ties to even)
  gives the arithmetic the compiled code performs, `id` reads the same
  expressions over exact rationals.
* A destination array is a `Buf`: its contents by element index together with
  the trace of the indices stored to, so that both the bytes written and the
  number of stores per index can be stated.
-/

namespace EdgeFirst

/-! ## Machine arithmetic -/

/-- Wrap a natural number into the range of a `guint` (32-bit unsigned). -/
def to_guint (n : Nat) : Nat := n % 2 ^ 32

/-- Value of a wrapped `gsize` (64-bit unsigned). -/
def to_gsize (n : Nat) : Nat := n % 2 ^ 64

/-- Reinterpret an integer as a 32-bit two's-complement `gint`. -/
def to_gint (z : Int) : Int := (z + 2 ^ 31) % 2 ^ 32 - 2 ^ 31

/-- The `guint` subtraction `a - b`, wrapping modulo `2^32`. -/
def guint_sub (a b : Nat) : Nat := (a + 2 ^ 32 - b % 2 ^ 32) % 2 ^ 32

/-- The glib macro `MAX (a, b)`, `((a) > (b)) ? (a) : (b)`, on integers. -/
def MAX (a b : Int) : Int := if a > b then a else b

/-- The cast `(guint) z` of a `gint`. -/
def gint_to_guint (z : Int) : Nat := (z % 2 ^ 32).toNat

/-! ## binary32 rounding -/

/-- Round a rational to the nearest integer, ties to the even one. -/
def round_half_even (q : ℚ) : ℤ :=
  let f := ⌊q⌋
  let r := q - f
  if r < 1 / 2 then f else if 1 / 2 < r then f + 1 else if f % 2 = 0 then f else f + 1

/-- Round to nearest, ties to even, onto the 24-bit significands of IEEE-754
binary32.  The exponent range is not modelled: every value the adaptor's
geometry code produces is a quotient or product of two integers below `2^32`,
far inside the normal range of binary32. -/
def f32_round (x : ℚ) : ℚ :=
  if x = 0 then 0
  else
    let e : ℤ := Int.log 2 |x|
    let ulp : ℚ := (2 : ℚ) ^ (e - 23)
    (round_half_even (x / ulp) : ℚ) * ulp

/-- The conversion `(guint) x` of a `gfloat`: truncation toward zero.  For a
value outside the range of `guint` C leaves the result undefined; the model
saturates, as the AArch64 conversion instruction does. -/
def gfloat_to_guint (x : ℚ) : Nat :=
  if x < 0 then 0 else if (2 : ℚ) ^ 32 ≤ x then 2 ^ 32 - 1 else ⌊x⌋.toNat

/-- The glib macro `MIN (a, b)`, `((a) < (b)) ? (a) : (b)`, on `gfloat`s. -/
def MIN (a b : ℚ) : ℚ := if a < b then a else b

/-! ## Configuration enumerations -/

/-- Values of `EdgefirstCameraAdaptorColorspace`. -/
inductive Colorspace
  | RGB
  | BGR
  | GRAY
  deriving DecidableEq, Repr

/-- Values of `EdgefirstCameraAdaptorLayout`. -/
inductive Layout
  | HWC
  | CHW
  deriving DecidableEq, Repr

/-- Values of `EdgefirstCameraAdaptorDtype`. -/
inductive Dtype
  | UINT8
  | INT8
  | FLOAT32
  deriving DecidableEq, Repr

/-- The `GstVideoFormat` values the element distinguishes; `OTHER` stands for
every format the `switch` statements send to their `default` branch. -/
inductive GstVideoFormat
  | NV12 | NV21 | NV16 | I420 | YV12 | YUY2 | UYVY
  | RGB | BGR | RGBA | BGRA | RGBx | BGRx | GRAY8
  | OTHER
  deriving DecidableEq, Repr

/-- The `hal_fourcc` pixel formats the element uses. -/
inductive HalFourcc
  | NV12 | NV16 | YUYV | RGB | RGBA | GREY | PLANAR_RGB
  deriving DecidableEq, Repr

/-- Values of `GstPadDirection`. -/
inductive GstPadDirection
  | GST_PAD_UNKNOWN
  | GST_PAD_SRC
  | GST_PAD_SINK
  deriving DecidableEq, Repr

/-- The part of a parsed `GstVideoInfo` the element reads. -/
structure GstVideoInfo where
  width : Nat
  height : Nat
  format : GstVideoFormat
  deriving DecidableEq, Repr

/-- A `hal_crop`: destination rectangle `(x, y, w, h)` and fill colour
`(r, g, b, a)`, both unset after `hal_crop_new`. -/
structure HalCrop where
  dst_rect : Option (Nat × Nat × Nat × Nat)
  dst_color : Option (Nat × Nat × Nat × Nat)
  deriving DecidableEq, Repr

/-- The result of `hal_crop_new ()`. -/
def hal_crop_new : HalCrop := { dst_rect := none, dst_color := none }

/-! ## Instance state -/

/-- The fields of `struct _EdgefirstCameraAdaptor` that negotiation and the
geometry code read or write.  Pointers to HAL objects are represented by the
boolean "is allocated". -/
structure EdgefirstCameraAdaptor where
  model_width : Nat
  model_height : Nat
  colorspace : Colorspace
  layout : Layout
  dtype : Dtype
  letterbox : Bool
  fill_color : Nat
  lb_scale : ℚ
  lb_top : Int
  lb_bottom : Int
  lb_left : Int
  lb_right : Int
  lb_top_override : Bool
  lb_bottom_override : Bool
  lb_left_override : Bool
  lb_right_override : Bool
  mean : Fin 3 → ℚ
  std : Fin 3 → ℚ
  in_info : Option GstVideoInfo
  in_info_valid : Bool
  crop : HalCrop
  src_fourcc : HalFourcc
  target_fourcc : HalFourcc
  in_vformat : GstVideoFormat
  needs_input_conversion : Bool
  crop_valid : Bool
  out_width : Nat
  out_height : Nat
  out_channels : Nat
  intermediate_fourcc : HalFourcc
  use_two_stage : Bool
  out_dmabuf_buf : Bool

/-- The state `edgefirst_camera_adaptor_init` establishes.  Fields the C code
leaves to the zero-filled allocation are zero / first enumerator. -/
def edgefirst_camera_adaptor_init : EdgefirstCameraAdaptor :=
  { model_width := 0, model_height := 0
    colorspace := .RGB, layout := .HWC, dtype := .UINT8
    letterbox := false
    fill_color := 0x808080FF
    lb_scale := 0
    lb_top := 0, lb_bottom := 0, lb_left := 0, lb_right := 0
    lb_top_override := false, lb_bottom_override := false
    lb_left_override := false, lb_right_override := false
    mean := fun _ => 0, std := fun _ => 1
    in_info := none, in_info_valid := false
    crop := hal_crop_new
    src_fourcc := .NV12, target_fourcc := .NV12
    in_vformat := .OTHER
    needs_input_conversion := false
    crop_valid := false
    out_width := 0, out_height := 0, out_channels := 0
    intermediate_fourcc := .NV12
    use_two_stage := false
    out_dmabuf_buf := false }

/-! ## Helpers of the element -/

/-- The function `gst_format_to_hal`. -/
def gst_format_to_hal : GstVideoFormat → HalFourcc
  | .NV12 => .NV12
  | .NV21 => .NV12
  | .I420 => .NV12
  | .YV12 => .NV12
  | .NV16 => .NV16
  | .YUY2 => .YUYV
  | .UYVY => .YUYV
  | .RGB => .RGB
  | .BGR => .RGB
  | .RGBA => .RGBA
  | .BGRA => .RGBA
  | .RGBx => .RGBA
  | .BGRx => .RGBA
  | .GRAY8 => .GREY
  | .OTHER => .RGB

/-- The function `format_needs_conversion`. -/
def format_needs_conversion : GstVideoFormat → Bool
  | .NV21 | .I420 | .YV12 | .UYVY | .BGR | .BGRA | .BGRx => true
  | _ => false

/-- The function `output_element_size`. -/
def output_element_size (dtype : Dtype) : Nat :=
  if dtype = .FLOAT32 then 4 else 1

/-- The function `compute_letterbox`.  `fl` rounds the result of each floating-point
operation; the conversions `(gfloat) dst_w` and of `src_w` to `gfloat` round as
well. -/
def compute_letterbox (fl : ℚ → ℚ) (self : EdgefirstCameraAdaptor)
    (src_w src_h : Nat) : EdgefirstCameraAdaptor :=
  let dst_w := self.out_width
  let dst_h := self.out_height
  if !self.letterbox || src_w == 0 || src_h == 0 then
    { self with
      lb_scale := 1
      lb_top := 0, lb_bottom := 0, lb_left := 0, lb_right := 0
      crop_valid := false }
  else
    let scale : ℚ := MIN (fl (fl dst_w / fl src_w)) (fl (fl dst_h / fl src_h))
    let new_w : Nat := gfloat_to_guint (fl (fl src_w * scale))
    let new_h : Nat := gfloat_to_guint (fl (fl src_h * scale))
    let total_h : Int := to_gint (guint_sub dst_h new_h)
    let total_w : Int := to_gint (guint_sub dst_w new_w)
    let lb_top := if !self.lb_top_override then total_h.tdiv 2 else self.lb_top
    let lb_bottom :=
      if !self.lb_bottom_override then to_gint (total_h - lb_top) else self.lb_bottom
    let lb_left := if !self.lb_left_override then total_w.tdiv 2 else self.lb_left
    let lb_right :=
      if !self.lb_right_override then to_gint (total_w - lb_left) else self.lb_right
    let x := gint_to_guint (MAX lb_left 0)
    let y := gint_to_guint (MAX lb_top 0)
    let w := guint_sub (guint_sub dst_w (gint_to_guint (MAX lb_left 0)))
      (gint_to_guint (MAX lb_right 0))
    let h := guint_sub (guint_sub dst_h (gint_to_guint (MAX lb_top 0)))
      (gint_to_guint (MAX lb_bottom 0))
    let r := (self.fill_color >>> 24) &&& 0xFF
    let g := (self.fill_color >>> 16) &&& 0xFF
    let b := (self.fill_color >>> 8) &&& 0xFF
    let a := self.fill_color &&& 0xFF
    { self with
      lb_scale := scale
      lb_top := lb_top, lb_bottom := lb_bottom
      lb_left := lb_left, lb_right := lb_right
      crop := { dst_rect := some (x, y, w, h), dst_color := some (r, g, b, a) }
      crop_valid := true }

/-- A property id of `edgefirst_camera_adaptor_set_property` together with the
value carried by the `GValue`.  GObject validates the value against the
`GParamSpec` before the setter runs, so integer padding values lie in
`[0, G_MAXINT]` and unsigned ones in `[0, G_MAXUINT]`.  For `model-mean` and
`model-std` the value is the string already split at commas and converted:
`none` for a `NULL` string. -/
inductive PropertyValue
  | PROP_MODEL_WIDTH (v : Nat)
  | PROP_MODEL_HEIGHT (v : Nat)
  | PROP_COLORSPACE (v : Colorspace)
  | PROP_LAYOUT (v : Layout)
  | PROP_DTYPE (v : Dtype)
  | PROP_LETTERBOX (v : Bool)
  | PROP_FILL_COLOR (v : Nat)
  | PROP_LETTERBOX_SCALE
  | PROP_LETTERBOX_TOP (v : Int)
  | PROP_LETTERBOX_BOTTOM (v : Int)
  | PROP_LETTERBOX_LEFT (v : Int)
  | PROP_LETTERBOX_RIGHT (v : Int)
  | PROP_MEAN (parts : Option (List ℚ))
  | PROP_STD (parts : Option (List ℚ))

/-- The function `parse_float_list (str, out, 3)` on an already split and converted string:
`out[i] = parts[i]` for `i < 3` and `i` below the number of parts. -/
def parse_float_list (parts : Option (List ℚ)) (out : Fin 3 → ℚ) : Fin 3 → ℚ :=
  match parts with
  | none => out
  | some l => fun i => if i.val < l.length then l.getD i.val 0 else out i

/-- The function `edgefirst_camera_adaptor_set_property`.  The read-only `letterbox-scale`
takes the `default` branch, which only warns. -/
def edgefirst_camera_adaptor_set_property (self : EdgefirstCameraAdaptor) :
    PropertyValue → EdgefirstCameraAdaptor
  | .PROP_MODEL_WIDTH v => { self with model_width := v }
  | .PROP_MODEL_HEIGHT v => { self with model_height := v }
  | .PROP_COLORSPACE v => { self with colorspace := v }
  | .PROP_LAYOUT v => { self with layout := v }
  | .PROP_DTYPE v => { self with dtype := v }
  | .PROP_LETTERBOX v => { self with letterbox := v }
  | .PROP_FILL_COLOR v => { self with fill_color := v }
  | .PROP_LETTERBOX_SCALE => self
  | .PROP_LETTERBOX_TOP v => { self with lb_top := v, lb_top_override := true }
  | .PROP_LETTERBOX_BOTTOM v => { self with lb_bottom := v, lb_bottom_override := true }
  | .PROP_LETTERBOX_LEFT v => { self with lb_left := v, lb_left_override := true }
  | .PROP_LETTERBOX_RIGHT v => { self with lb_right := v, lb_right_override := true }
  | .PROP_MEAN parts => { self with mean := parse_float_list parts self.mean }
  | .PROP_STD parts => { self with std := parse_float_list parts self.std }

/-- The element after `g_object_set` of the listed properties, in order, on a
freshly initialised instance. -/
def configure (props : List PropertyValue) : EdgefirstCameraAdaptor :=
  props.foldl edgefirst_camera_adaptor_set_property edgefirst_camera_adaptor_init

/-- The function `edgefirst_camera_adaptor_set_caps`; `incaps` is the result of
`gst_video_info_from_caps` (`none` when the caps do not parse).  Returns the
`gboolean` result and the new state. -/
def edgefirst_camera_adaptor_set_caps (fl : ℚ → ℚ) (self : EdgefirstCameraAdaptor)
    (incaps : Option GstVideoInfo) : Bool × EdgefirstCameraAdaptor :=
  match incaps with
  | none => (false, self)
  | some info =>
    let src_w := info.width
    let src_h := info.height
    let vfmt := info.format
    let self : EdgefirstCameraAdaptor := { self with
      in_info := some info
      in_info_valid := true
      in_vformat := vfmt
      src_fourcc := gst_format_to_hal vfmt
      needs_input_conversion := format_needs_conversion vfmt }
    let self : EdgefirstCameraAdaptor := { self with
      out_width := if self.model_width > 0 then self.model_width else src_w
      out_height := if self.model_height > 0 then self.model_height else src_h
      out_channels := if self.colorspace = Colorspace.GRAY then 1 else 3 }
    let self : EdgefirstCameraAdaptor := { self with
      target_fourcc :=
        if self.colorspace = Colorspace.GRAY then HalFourcc.GREY
        else if self.layout = Layout.CHW then HalFourcc.PLANAR_RGB
        else HalFourcc.RGB }
    let self : EdgefirstCameraAdaptor := { self with
      intermediate_fourcc := if self.colorspace = Colorspace.GRAY then HalFourcc.GREY else HalFourcc.RGBA }
    (true, compute_letterbox fl self src_w src_h)

/-- The function `edgefirst_camera_adaptor_transform_size`: `none` is the result `FALSE`,
`some n` the result `TRUE` with `*othersize = n`.  `caps` is the result of
`gst_video_info_from_caps` on the caps argument.  The product `w * h * c` is
formed in `guint` and widened to `gsize` by the last factor. -/
def edgefirst_camera_adaptor_transform_size (self : EdgefirstCameraAdaptor)
    (direction : GstPadDirection) (caps : Option GstVideoInfo) : Option Nat :=
  if direction = .GST_PAD_SINK then
    let w := self.out_width
    let h := self.out_height
    let c := self.out_channels
    let whc : Nat × Nat × Nat :=
      if w == 0 || h == 0 then
        let wh : Nat × Nat :=
          match caps with
          | some info =>
            (if w == 0 then
                (if self.model_width > 0 then self.model_width else info.width)
              else w,
             if h == 0 then
                (if self.model_height > 0 then self.model_height else info.height)
              else h)
          | none => (w, h)
        (wh.1, wh.2, if c == 0 then (if self.colorspace = .GRAY then 1 else 3) else c)
      else (w, h, c)
    let w := whc.1
    let h := whc.2.1
    let c := whc.2.2
    if w == 0 || h == 0 then none
    else some (to_gsize (to_guint (to_guint (w * h) * c) * output_element_size self.dtype))
  else none

/-- What `edgefirst_camera_adaptor_prepare_output_buffer` hands out: the
persistent DMA-BUF buffer, or a fresh system-memory buffer of the given size. -/
inductive OutputBuffer
  | persistent
  | allocated (out_size : Nat)
  deriving DecidableEq, Repr

/-- The function `edgefirst_camera_adaptor_prepare_output_buffer` (allocation assumed to
succeed). -/
def edgefirst_camera_adaptor_prepare_output_buffer (self : EdgefirstCameraAdaptor) :
    OutputBuffer :=
  if self.out_dmabuf_buf then .persistent
  else
    .allocated (to_gsize (to_guint (to_guint (self.out_width * self.out_height)
      * self.out_channels) * output_element_size self.dtype))

/-! ## Destination buffers and loops -/

/-- A destination array: contents by element index, and the indices stored to
(most recent first). -/
structure Buf (α : Type) where
  data : Nat → α
  log : List Nat

/-- The assignment `dst[i] = v`. -/
def Buf.store {α : Type} (b : Buf α) (i : Nat) (v : α) : Buf α :=
  { data := fun j => if j = i then v else b.data j, log := i :: b.log }

/-- A buffer on which no store has been traced yet. -/
def Buf.fresh {α : Type} (data : Nat → α) : Buf α := { data := data, log := [] }

/-- The first `k` elements of a buffer, as a list. -/
def Buf.take {α : Type} (b : Buf α) (k : Nat) : List α := (List.range k).map b.data

/-- Two buffers agree: same contents, same number of stores to every index. -/
def Buf.same {α : Type} (b b' : Buf α) : Prop :=
  (∀ j, b.data j = b'.data j) ∧ ∀ j, b.log.count j = b'.log.count j

/-- The loop `for (; i + w <= n; i += w) body (i)`, run for at most `fuel`
iterations; returns the final `i` and the final state. -/
def for_blocks {σ : Type} (w n : Nat) (body : Nat → σ → σ) : Nat → Nat → σ → Nat × σ
  | 0, i, s => (i, s)
  | fuel + 1, i, s =>
    if i + w ≤ n then for_blocks w n body fuel (i + w) (body i s) else (i, s)

/-- The loop `for (; i < n; i++) body (i)`, run for at most `fuel` iterations. -/
def for_each {σ : Type} (n : Nat) (body : Nat → σ → σ) : Nat → Nat → σ → σ
  | 0, _, s => s
  | fuel + 1, i, s => if i < n then for_each n body fuel (i + 1) (body i s) else s

/-- Apply `body` to the lanes `0, 1, ..., k - 1` of a vector register in order. -/
def lanes {σ : Type} (body : Nat → σ → σ) : Nat → σ → σ
  | 0, s => s
  | k + 1, s => body k (lanes body k s)

/-! ## NEON intrinsics

Vector registers are given by lane index; the intrinsics follow the Arm C
Language Extensions. -/

/-- Vector of 8-bit lanes (`uint8x16_t`, `uint8x8_t`). -/
abbrev U8Lanes := Nat → Nat

/-- Vector of binary32 lanes (`float32x4_t`). -/
abbrev F32Lanes := Nat → ℚ

/-- Four de-interleaved byte vectors (`uint8x16x4_t`, `uint8x8x4_t`). -/
structure U8Lanes4 where
  val0 : U8Lanes
  val1 : U8Lanes
  val2 : U8Lanes
  val3 : U8Lanes

/-- Three byte vectors (`uint8x16x3_t`). -/
structure U8Lanes3 where
  val0 : U8Lanes
  val1 : U8Lanes
  val2 : U8Lanes

/-- Three float vectors (`float32x4x3_t`). -/
structure F32Lanes3 where
  val0 : F32Lanes
  val1 : F32Lanes
  val2 : F32Lanes

/-- The intrinsics `vld4q_u8 (src + p)` and `vld4_u8 (src + p)`: de-interleaving load, lane `l`
of vector `k` is `src[p + 4 * l + k]`. -/
def vld4q_u8 (src : Nat → Nat) (p : Nat) : U8Lanes4 :=
  { val0 := fun l => src (p + 4 * l)
    val1 := fun l => src (p + 4 * l + 1)
    val2 := fun l => src (p + 4 * l + 2)
    val3 := fun l => src (p + 4 * l + 3) }

/-- The intrinsics `vld1q_u8 (src + p)` and `vld1_u8 (src + p)`: contiguous load. -/
def vld1q_u8 (src : Nat → Nat) (p : Nat) : U8Lanes := fun l => src (p + l)

/-- The intrinsic `vdupq_n_u8 (x)`. -/
def vdupq_n_u8 (x : Nat) : U8Lanes := fun _ => x

/-- The intrinsic `veorq_u8 (a, b)`: lane-wise exclusive or of 8-bit lanes. -/
def veorq_u8 (a b : U8Lanes) : U8Lanes := fun l => (a l ^^^ b l) % 256

/-- The intrinsic `vst3q_u8 (dst + p, v)`: interleaving store of 16 lanes of three vectors. -/
def vst3q_u8 (dst : Buf Nat) (p : Nat) (v : U8Lanes3) : Buf Nat :=
  lanes (fun l b =>
    ((b.store (p + 3 * l) (v.val0 l)).store (p + 3 * l + 1) (v.val1 l)).store
      (p + 3 * l + 2) (v.val2 l)) 16 dst

/-- The intrinsic `vst1q_u8 (dst + p, v)`: contiguous store of 16 lanes. -/
def vst1q_u8 (dst : Buf Nat) (p : Nat) (v : U8Lanes) : Buf Nat :=
  lanes (fun l b => b.store (p + l) (v l)) 16 dst

/-- The intrinsic `vdupq_n_f32 (x)`. -/
def vdupq_n_f32 (x : ℚ) : F32Lanes := fun _ => x

/-- The conversion `vcvtq_f32_u32 (vmovl_u16 (vget_low_u16 (vmovl_u8 (v))))`: lanes `0..3` of a
byte vector widened and converted to binary32. -/
def widen_low_to_f32 (fl : ℚ → ℚ) (v : U8Lanes) : F32Lanes := fun l => fl (v l)

/-- The conversion `vcvtq_f32_u32 (vmovl_u16 (vget_high_u16 (vmovl_u8 (v))))`: lanes `4..7`. -/
def widen_high_to_f32 (fl : ℚ → ℚ) (v : U8Lanes) : F32Lanes := fun l => fl (v (l + 4))

/-- The intrinsic `vmulq_f32 (a, b)`. -/
def vmulq_f32 (fl : ℚ → ℚ) (a b : F32Lanes) : F32Lanes := fun l => fl (a l * b l)

/-- The intrinsic `vmlsq_f32 (a, b, c)`: `a - b * c` per lane, the product rounded before the
subtraction (the unfused multiply-subtract of the Arm C Language Extensions). -/
def vmlsq_f32 (fl : ℚ → ℚ) (a b c : F32Lanes) : F32Lanes :=
  fun l => fl (a l - fl (b l * c l))

/-- The intrinsic `vst3q_f32 (dst + p, v)`: interleaving store of 4 lanes of three vectors. -/
def vst3q_f32 (dst : Buf ℚ) (p : Nat) (v : F32Lanes3) : Buf ℚ :=
  lanes (fun l b =>
    ((b.store (p + 3 * l) (v.val0 l)).store (p + 3 * l + 1) (v.val1 l)).store
      (p + 3 * l + 2) (v.val2 l)) 4 dst

/-- The intrinsic `vst1q_f32 (dst + p, v)`: contiguous store of 4 lanes. -/
def vst1q_f32 (dst : Buf ℚ) (p : Nat) (v : F32Lanes) : Buf ℚ :=
  lanes (fun l b => b.store (p + l) (v l)) 4 dst

/-! ## Stage-2 kernels

Each kernel takes the preprocessor symbol `__ARM_NEON` as its first argument:
`true` selects the intrinsics path (vector blocks, then the scalar tail),
`false` the portable scalar loop.  `src` is the source array by byte index. -/

/-- Scalar loop body of `edgefirst_neon_rgba_to_rgb_u8`. -/
def rgba_to_rgb_u8_pixel (src : Nat → Nat) (bgr : Bool) (i : Nat) (dst : Buf Nat) :
    Buf Nat :=
  let p := i * 4
  let d := i * 3
  if bgr then
    ((dst.store (d + 0) (src (p + 2))).store (d + 1) (src (p + 1))).store (d + 2) (src (p + 0))
  else
    ((dst.store (d + 0) (src (p + 0))).store (d + 1) (src (p + 1))).store (d + 2) (src (p + 2))

/-- Vector loop body of `edgefirst_neon_rgba_to_rgb_u8` (16 pixels). -/
def rgba_to_rgb_u8_block (src : Nat → Nat) (bgr : Bool) (i : Nat) (dst : Buf Nat) :
    Buf Nat :=
  let rgba := vld4q_u8 src (i * 4)
  let rgb : U8Lanes3 :=
    if bgr then { val0 := rgba.val2, val1 := rgba.val1, val2 := rgba.val0 }
    else { val0 := rgba.val0, val1 := rgba.val1, val2 := rgba.val2 }
  vst3q_u8 dst (i * 3) rgb

/-- The function `edgefirst_neon_rgba_to_rgb_u8`. -/
def edgefirst_neon_rgba_to_rgb_u8 (arm_neon : Bool) (src : Nat → Nat) (dst : Buf Nat)
    (npixels : Nat) (bgr : Bool) : Buf Nat :=
  if arm_neon then
    let r := for_blocks 16 npixels (rgba_to_rgb_u8_block src bgr) npixels 0 dst
    for_each npixels (rgba_to_rgb_u8_pixel src bgr) npixels r.1 r.2
  else
    for_each npixels (rgba_to_rgb_u8_pixel src bgr) npixels 0 dst

/-- Scalar loop body of `edgefirst_neon_rgba_to_rgb_i8`; the value stored is
converted to `uint8_t`. -/
def rgba_to_rgb_i8_pixel (src : Nat → Nat) (bgr : Bool) (i : Nat) (dst : Buf Nat) :
    Buf Nat :=
  let p := i * 4
  let d := i * 3
  if bgr then
    ((dst.store (d + 0) ((src (p + 2) ^^^ 0x80) % 256)).store (d + 1)
      ((src (p + 1) ^^^ 0x80) % 256)).store (d + 2) ((src (p + 0) ^^^ 0x80) % 256)
  else
    ((dst.store (d + 0) ((src (p + 0) ^^^ 0x80) % 256)).store (d + 1)
      ((src (p + 1) ^^^ 0x80) % 256)).store (d + 2) ((src (p + 2) ^^^ 0x80) % 256)

/-- Vector loop body of `edgefirst_neon_rgba_to_rgb_i8` (16 pixels). -/
def rgba_to_rgb_i8_block (src : Nat → Nat) (bgr : Bool) (i : Nat) (dst : Buf Nat) :
    Buf Nat :=
  let xor_val := vdupq_n_u8 0x80
  let rgba := vld4q_u8 src (i * 4)
  let rgb : U8Lanes3 :=
    if bgr then
      { val0 := veorq_u8 rgba.val2 xor_val
        val1 := veorq_u8 rgba.val1 xor_val
        val2 := veorq_u8 rgba.val0 xor_val }
    else
      { val0 := veorq_u8 rgba.val0 xor_val
        val1 := veorq_u8 rgba.val1 xor_val
        val2 := veorq_u8 rgba.val2 xor_val }
  vst3q_u8 dst (i * 3) rgb

/-- The function `edgefirst_neon_rgba_to_rgb_i8`. -/
def edgefirst_neon_rgba_to_rgb_i8 (arm_neon : Bool) (src : Nat → Nat) (dst : Buf Nat)
    (npixels : Nat) (bgr : Bool) : Buf Nat :=
  if arm_neon then
    let r := for_blocks 16 npixels (rgba_to_rgb_i8_block src bgr) npixels 0 dst
    for_each npixels (rgba_to_rgb_i8_pixel src bgr) npixels r.1 r.2
  else
    for_each npixels (rgba_to_rgb_i8_pixel src bgr) npixels 0 dst

/-- The expression `((float) p / 255.0f - mean) / std` of the scalar float
paths. -/
def normalize_f32 (fl : ℚ → ℚ) (p : Nat) (mean std : ℚ) : ℚ :=
  fl (fl (fl (fl (p : ℚ) / 255) - mean) / std)

/-- Scalar loop body of `edgefirst_neon_rgba_to_rgb_f32`. -/
def rgba_to_rgb_f32_pixel (fl : ℚ → ℚ) (src : Nat → Nat) (mean std : Fin 3 → ℚ)
    (bgr : Bool) (i : Nat) (dst : Buf ℚ) : Buf ℚ :=
  let ch_r := if bgr then 2 else 0
  let ch_b := if bgr then 0 else 2
  let p := i * 4
  let d := i * 3
  ((dst.store (d + 0) (normalize_f32 fl (src (p + ch_r)) (mean 0) (std 0))).store (d + 1)
    (normalize_f32 fl (src (p + 1)) (mean 1) (std 1))).store (d + 2)
    (normalize_f32 fl (src (p + ch_b)) (mean 2) (std 2))

/-- One channel of the vector float paths: `vmlsq_f32 (vmulq_f32 (f, v_scale),
v_mean, v_inv_std)` with `inv_std = 1.0f / std` and `scale = inv_std / 255.0f`. -/
def normalize_f32_lanes (fl : ℚ → ℚ) (f : F32Lanes) (mean std : ℚ) : F32Lanes :=
  let inv_std := fl (1 / std)
  let scale := fl (inv_std / 255)
  vmlsq_f32 fl (vmulq_f32 fl f (vdupq_n_f32 scale)) (vdupq_n_f32 mean) (vdupq_n_f32 inv_std)

/-- The value the vector float paths compute for the byte `p`: one lane of
`normalize_f32_lanes` on the widened, converted byte. -/
def normalize_f32_vec (fl : ℚ → ℚ) (p : Nat) (mean std : ℚ) : ℚ :=
  normalize_f32_lanes fl (fun _ => fl (p : ℚ)) mean std 0

/-- Vector loop body of `edgefirst_neon_rgba_to_rgb_f32` (8 pixels). -/
def rgba_to_rgb_f32_block (fl : ℚ → ℚ) (src : Nat → Nat) (mean std : Fin 3 → ℚ)
    (bgr : Bool) (i : Nat) (dst : Buf ℚ) : Buf ℚ :=
  let rgba := vld4q_u8 src (i * 4)
  let ch0 := if bgr then rgba.val2 else rgba.val0
  let ch1 := rgba.val1
  let ch2 := if bgr then rgba.val0 else rgba.val2
  let out_lo : F32Lanes3 :=
    { val0 := normalize_f32_lanes fl (widen_low_to_f32 fl ch0) (mean 0) (std 0)
      val1 := normalize_f32_lanes fl (widen_low_to_f32 fl ch1) (mean 1) (std 1)
      val2 := normalize_f32_lanes fl (widen_low_to_f32 fl ch2) (mean 2) (std 2) }
  let out_hi : F32Lanes3 :=
    { val0 := normalize_f32_lanes fl (widen_high_to_f32 fl ch0) (mean 0) (std 0)
      val1 := normalize_f32_lanes fl (widen_high_to_f32 fl ch1) (mean 1) (std 1)
      val2 := normalize_f32_lanes fl (widen_high_to_f32 fl ch2) (mean 2) (std 2) }
  vst3q_f32 (vst3q_f32 dst (i * 3) out_lo) ((i + 4) * 3) out_hi

/-- The function `edgefirst_neon_rgba_to_rgb_f32`. -/
def edgefirst_neon_rgba_to_rgb_f32 (arm_neon : Bool) (fl : ℚ → ℚ) (src : Nat → Nat)
    (dst : Buf ℚ) (npixels : Nat) (mean std : Fin 3 → ℚ) (bgr : Bool) : Buf ℚ :=
  if arm_neon then
    let r := for_blocks 8 npixels (rgba_to_rgb_f32_block fl src mean std bgr) npixels 0 dst
    for_each npixels (rgba_to_rgb_f32_pixel fl src mean std bgr) npixels r.1 r.2
  else
    for_each npixels (rgba_to_rgb_f32_pixel fl src mean std bgr) npixels 0 dst

/-- Scalar loop body of `edgefirst_neon_rgba_to_planar_u8`; `plane0`, `plane1`
and `plane2` are the offsets of the three planes in `dst`. -/
def rgba_to_planar_u8_pixel (src : Nat → Nat) (plane0 plane1 plane2 : Nat) (bgr : Bool)
    (i : Nat) (dst : Buf Nat) : Buf Nat :=
  let p := i * 4
  if bgr then
    ((dst.store (plane0 + i) (src (p + 2))).store (plane1 + i) (src (p + 1))).store
      (plane2 + i) (src (p + 0))
  else
    ((dst.store (plane0 + i) (src (p + 0))).store (plane1 + i) (src (p + 1))).store
      (plane2 + i) (src (p + 2))

/-- Vector loop body of `edgefirst_neon_rgba_to_planar_u8` (16 pixels). -/
def rgba_to_planar_u8_block (src : Nat → Nat) (plane0 plane1 plane2 : Nat) (bgr : Bool)
    (i : Nat) (dst : Buf Nat) : Buf Nat :=
  let rgba := vld4q_u8 src (i * 4)
  if bgr then
    vst1q_u8 (vst1q_u8 (vst1q_u8 dst (plane0 + i) rgba.val2) (plane1 + i) rgba.val1)
      (plane2 + i) rgba.val0
  else
    vst1q_u8 (vst1q_u8 (vst1q_u8 dst (plane0 + i) rgba.val0) (plane1 + i) rgba.val1)
      (plane2 + i) rgba.val2

/-- The function `edgefirst_neon_rgba_to_planar_u8`. -/
def edgefirst_neon_rgba_to_planar_u8 (arm_neon : Bool) (src : Nat → Nat) (dst : Buf Nat)
    (npixels : Nat) (bgr : Bool) : Buf Nat :=
  let plane0 := 0
  let plane1 := npixels
  let plane2 := npixels * 2
  if arm_neon then
    let r := for_blocks 16 npixels (rgba_to_planar_u8_block src plane0 plane1 plane2 bgr)
      npixels 0 dst
    for_each npixels (rgba_to_planar_u8_pixel src plane0 plane1 plane2 bgr) npixels r.1 r.2
  else
    for_each npixels (rgba_to_planar_u8_pixel src plane0 plane1 plane2 bgr) npixels 0 dst

/-- Scalar loop body of `edgefirst_neon_rgba_to_planar_i8`. -/
def rgba_to_planar_i8_pixel (src : Nat → Nat) (plane0 plane1 plane2 : Nat) (bgr : Bool)
    (i : Nat) (dst : Buf Nat) : Buf Nat :=
  let p := i * 4
  if bgr then
    ((dst.store (plane0 + i) ((src (p + 2) ^^^ 0x80) % 256)).store (plane1 + i)
      ((src (p + 1) ^^^ 0x80) % 256)).store (plane2 + i) ((src (p + 0) ^^^ 0x80) % 256)
  else
    ((dst.store (plane0 + i) ((src (p + 0) ^^^ 0x80) % 256)).store (plane1 + i)
      ((src (p + 1) ^^^ 0x80) % 256)).store (plane2 + i) ((src (p + 2) ^^^ 0x80) % 256)

/-- Vector loop body of `edgefirst_neon_rgba_to_planar_i8` (16 pixels). -/
def rgba_to_planar_i8_block (src : Nat → Nat) (plane0 plane1 plane2 : Nat) (bgr : Bool)
    (i : Nat) (dst : Buf Nat) : Buf Nat :=
  let xor_val := vdupq_n_u8 0x80
  let rgba := vld4q_u8 src (i * 4)
  if bgr then
    vst1q_u8 (vst1q_u8 (vst1q_u8 dst (plane0 + i) (veorq_u8 rgba.val2 xor_val))
      (plane1 + i) (veorq_u8 rgba.val1 xor_val)) (plane2 + i) (veorq_u8 rgba.val0 xor_val)
  else
    vst1q_u8 (vst1q_u8 (vst1q_u8 dst (plane0 + i) (veorq_u8 rgba.val0 xor_val))
      (plane1 + i) (veorq_u8 rgba.val1 xor_val)) (plane2 + i) (veorq_u8 rgba.val2 xor_val)

/-- The function `edgefirst_neon_rgba_to_planar_i8`. -/
def edgefirst_neon_rgba_to_planar_i8 (arm_neon : Bool) (src : Nat → Nat) (dst : Buf Nat)
    (npixels : Nat) (bgr : Bool) : Buf Nat :=
  let plane0 := 0
  let plane1 := npixels
  let plane2 := npixels * 2
  if arm_neon then
    let r := for_blocks 16 npixels (rgba_to_planar_i8_block src plane0 plane1 plane2 bgr)
      npixels 0 dst
    for_each npixels (rgba_to_planar_i8_pixel src plane0 plane1 plane2 bgr) npixels r.1 r.2
  else
    for_each npixels (rgba_to_planar_i8_pixel src plane0 plane1 plane2 bgr) npixels 0 dst

/-- Scalar loop body of `edgefirst_neon_rgba_to_planar_f32`. -/
def rgba_to_planar_f32_pixel (fl : ℚ → ℚ) (src : Nat → Nat) (plane0 plane1 plane2 : Nat)
    (mean std : Fin 3 → ℚ) (bgr : Bool) (i : Nat) (dst : Buf ℚ) : Buf ℚ :=
  let ch_r := if bgr then 2 else 0
  let ch_b := if bgr then 0 else 2
  let p := i * 4
  ((dst.store (plane0 + i) (normalize_f32 fl (src (p + ch_r)) (mean 0) (std 0))).store
    (plane1 + i) (normalize_f32 fl (src (p + 1)) (mean 1) (std 1))).store
    (plane2 + i) (normalize_f32 fl (src (p + ch_b)) (mean 2) (std 2))

/-- Vector loop body of `edgefirst_neon_rgba_to_planar_f32` (8 pixels): for
each channel in turn the low and the high four lanes are stored to its plane. -/
def rgba_to_planar_f32_block (fl : ℚ → ℚ) (src : Nat → Nat) (plane0 plane1 plane2 : Nat)
    (mean std : Fin 3 → ℚ) (bgr : Bool) (i : Nat) (dst : Buf ℚ) : Buf ℚ :=
  let rgba := vld4q_u8 src (i * 4)
  let ch0 := if bgr then rgba.val2 else rgba.val0
  let ch1 := rgba.val1
  let ch2 := if bgr then rgba.val0 else rgba.val2
  let dst := vst1q_f32 (vst1q_f32 dst (plane0 + i)
    (normalize_f32_lanes fl (widen_low_to_f32 fl ch0) (mean 0) (std 0))) (plane0 + i + 4)
    (normalize_f32_lanes fl (widen_high_to_f32 fl ch0) (mean 0) (std 0))
  let dst := vst1q_f32 (vst1q_f32 dst (plane1 + i)
    (normalize_f32_lanes fl (widen_low_to_f32 fl ch1) (mean 1) (std 1))) (plane1 + i + 4)
    (normalize_f32_lanes fl (widen_high_to_f32 fl ch1) (mean 1) (std 1))
  vst1q_f32 (vst1q_f32 dst (plane2 + i)
    (normalize_f32_lanes fl (widen_low_to_f32 fl ch2) (mean 2) (std 2))) (plane2 + i + 4)
    (normalize_f32_lanes fl (widen_high_to_f32 fl ch2) (mean 2) (std 2))

/-- The function `edgefirst_neon_rgba_to_planar_f32`. -/
def edgefirst_neon_rgba_to_planar_f32 (arm_neon : Bool) (fl : ℚ → ℚ) (src : Nat → Nat)
    (dst : Buf ℚ) (npixels : Nat) (mean std : Fin 3 → ℚ) (bgr : Bool) : Buf ℚ :=
  let plane0 := 0
  let plane1 := npixels
  let plane2 := npixels * 2
  if arm_neon then
    let r := for_blocks 8 npixels
      (rgba_to_planar_f32_block fl src plane0 plane1 plane2 mean std bgr) npixels 0 dst
    for_each npixels (rgba_to_planar_f32_pixel fl src plane0 plane1 plane2 mean std bgr)
      npixels r.1 r.2
  else
    for_each npixels (rgba_to_planar_f32_pixel fl src plane0 plane1 plane2 mean std bgr)
      npixels 0 dst

/-- Scalar loop body of `edgefirst_neon_planar_u8_to_i8`. -/
def planar_u8_to_i8_elem (src : Nat → Nat) (i : Nat) (dst : Buf Nat) : Buf Nat :=
  dst.store i ((src i ^^^ 0x80) % 256)

/-- Vector loop body of `edgefirst_neon_planar_u8_to_i8` (16 bytes). -/
def planar_u8_to_i8_block (src : Nat → Nat) (i : Nat) (dst : Buf Nat) : Buf Nat :=
  let xor_val := vdupq_n_u8 0x80
  let v := vld1q_u8 src i
  vst1q_u8 dst i (veorq_u8 v xor_val)

/-- The function `edgefirst_neon_planar_u8_to_i8`. -/
def edgefirst_neon_planar_u8_to_i8 (arm_neon : Bool) (src : Nat → Nat) (dst : Buf Nat)
    (nbytes : Nat) : Buf Nat :=
  if arm_neon then
    let r := for_blocks 16 nbytes (planar_u8_to_i8_block src) nbytes 0 dst
    for_each nbytes (planar_u8_to_i8_elem src) nbytes r.1 r.2
  else
    for_each nbytes (planar_u8_to_i8_elem src) nbytes 0 dst

/-- Scalar loop body of `edgefirst_neon_planar_u8_to_f32`. -/
def planar_u8_to_f32_elem (fl : ℚ → ℚ) (src : Nat → Nat) (mean std : ℚ) (i : Nat)
    (dst : Buf ℚ) : Buf ℚ :=
  dst.store i (normalize_f32 fl (src i) mean std)

/-- Vector loop body of `edgefirst_neon_planar_u8_to_f32` (8 elements). -/
def planar_u8_to_f32_block (fl : ℚ → ℚ) (src : Nat → Nat) (mean std : ℚ) (i : Nat)
    (dst : Buf ℚ) : Buf ℚ :=
  let v8 := vld1q_u8 src i
  vst1q_f32 (vst1q_f32 dst i (normalize_f32_lanes fl (widen_low_to_f32 fl v8) mean std))
    (i + 4) (normalize_f32_lanes fl (widen_high_to_f32 fl v8) mean std)

/-- The function `edgefirst_neon_planar_u8_to_f32`. -/
def edgefirst_neon_planar_u8_to_f32 (arm_neon : Bool) (fl : ℚ → ℚ) (src : Nat → Nat)
    (dst : Buf ℚ) (count : Nat) (mean std : ℚ) : Buf ℚ :=
  if arm_neon then
    let r := for_blocks 8 count (planar_u8_to_f32_block fl src mean std) count 0 dst
    for_each count (planar_u8_to_f32_elem fl src mean std) count r.1 r.2
  else
    for_each count (planar_u8_to_f32_elem fl src mean std) count 0 dst

/-- The source array holding the bytes of a list (zero beyond its end). -/
def bytes_of (l : List Nat) : Nat → Nat := fun i => l.getD i 0

/-! ## Per-frame processing

The HAL and GStreamer calls of the per-frame code are collaborators outside the
element: what they return, and the bytes they leave in the tensors they fill,
are inputs of the embedding. -/

/-- The values of `GstFlowReturn` the element returns. -/
inductive GstFlowReturn
  | GST_FLOW_OK
  | GST_FLOW_ERROR
  deriving DecidableEq, Repr

/-- The Stage-1 entry points of the HAL, with the format and crop arguments
the element passes. -/
inductive HalCall
  | hal_image_processor_convert (crop : Option HalCrop)
  | hal_image_processor_convert_ref (target_fourcc : HalFourcc) (crop : Option HalCrop)
  deriving DecidableEq, Repr

/-- The tensors `decide_allocation` leaves in the instance: whether
`work_tensor` is non-`NULL`, and the mapped contents of the work tensor and of
the float tensor. -/
structure Runtime where
  work_tensor : Bool
  work : Buf Nat
  out_float : Buf ℚ

/-- The loop `for (i = 0; i < n; i += step) body (i)`, run for at most `fuel`
iterations. -/
def for_stride {σ : Type} (step n : Nat) (body : Nat → σ → σ) : Nat → Nat → σ → σ
  | 0, _, s => s
  | fuel + 1, i, s => if i < n then for_stride step n body fuel (i + step) (body i s) else s

/-- The call `memcpy (dst + d, src + s, n)`. -/
def memcpy (dst : Buf Nat) (d : Nat) (src : Nat → Nat) (s n : Nat) : Buf Nat :=
  for_each n (fun i b => b.store (d + i) (src (s + i))) n 0 dst

/-- The element `a[ch]` of a three-element `gfloat` array; an index outside the
array reads as `0`. -/
def at3 (a : Fin 3 → ℚ) (ch : Nat) : ℚ := if h : ch < 3 then a ⟨ch, h⟩ else 0

/-- What one frame leaves behind: the flow return, the tensors, and the mapped
output buffer seen as bytes (`omap.data`) and as floats (`(float *) omap.data`). -/
structure FrameOutput where
  flow : GstFlowReturn
  rt : Runtime
  outbuf : Buf Nat
  outbuf_f32 : Buf ℚ

/-- The function `camera_adaptor_stage2`.  `isrc` is the mapped intermediate image
(`none` when `hal_tensor_image_map_create` fails), `omap_ok` the result of
`gst_buffer_map` on the output buffer. -/
def camera_adaptor_stage2 (arm_neon : Bool) (fl : ℚ → ℚ) (self : EdgefirstCameraAdaptor)
    (rt : Runtime) (isrc : Option (Nat → Nat)) (omap_ok : Bool)
    (outbuf : Buf Nat) (outbuf_f32 : Buf ℚ) : FrameOutput :=
  let npixels := to_guint (self.out_width * self.out_height)
  let bgr : Bool := self.colorspace = Colorspace.BGR
  match isrc with
  | none => { flow := .GST_FLOW_ERROR, rt := rt, outbuf := outbuf, outbuf_f32 := outbuf_f32 }
  | some isrc =>
    if self.out_dmabuf_buf then
      let rt : Runtime :=
        if self.layout = Layout.HWC then
          match self.dtype with
          | .UINT8 =>
            { rt with work := edgefirst_neon_rgba_to_rgb_u8 arm_neon isrc rt.work npixels bgr }
          | .INT8 =>
            { rt with work := edgefirst_neon_rgba_to_rgb_i8 arm_neon isrc rt.work npixels bgr }
          | .FLOAT32 => { rt with
              out_float := edgefirst_neon_rgba_to_rgb_f32 arm_neon fl isrc rt.out_float npixels
                self.mean self.std bgr }
        else
          match self.dtype with
          | .UINT8 =>
            { rt with work := edgefirst_neon_rgba_to_planar_u8 arm_neon isrc rt.work npixels bgr }
          | .INT8 =>
            { rt with work := edgefirst_neon_rgba_to_planar_i8 arm_neon isrc rt.work npixels bgr }
          | .FLOAT32 => { rt with
              out_float := edgefirst_neon_rgba_to_planar_f32 arm_neon fl isrc rt.out_float
                npixels self.mean self.std bgr }
      { flow := .GST_FLOW_OK, rt := rt, outbuf := outbuf, outbuf_f32 := outbuf_f32 }
    else if !omap_ok then
      { flow := .GST_FLOW_ERROR, rt := rt, outbuf := outbuf, outbuf_f32 := outbuf_f32 }
    else if self.layout = Layout.HWC then
      match self.dtype with
      | .UINT8 =>
        { flow := .GST_FLOW_OK, rt := rt
          outbuf := edgefirst_neon_rgba_to_rgb_u8 arm_neon isrc outbuf npixels bgr
          outbuf_f32 := outbuf_f32 }
      | .INT8 =>
        { flow := .GST_FLOW_OK, rt := rt
          outbuf := edgefirst_neon_rgba_to_rgb_i8 arm_neon isrc outbuf npixels bgr
          outbuf_f32 := outbuf_f32 }
      | .FLOAT32 =>
        { flow := .GST_FLOW_OK, rt := rt, outbuf := outbuf
          outbuf_f32 := edgefirst_neon_rgba_to_rgb_f32 arm_neon fl isrc outbuf_f32 npixels
            self.mean self.std bgr }
    else
      match self.dtype with
      | .UINT8 =>
        { flow := .GST_FLOW_OK, rt := rt
          outbuf := edgefirst_neon_rgba_to_planar_u8 arm_neon isrc outbuf npixels bgr
          outbuf_f32 := outbuf_f32 }
      | .INT8 =>
        { flow := .GST_FLOW_OK, rt := rt
          outbuf := edgefirst_neon_rgba_to_planar_i8 arm_neon isrc outbuf npixels bgr
          outbuf_f32 := outbuf_f32 }
      | .FLOAT32 =>
        { flow := .GST_FLOW_OK, rt := rt, outbuf := outbuf
          outbuf_f32 := edgefirst_neon_rgba_to_planar_f32 arm_neon fl isrc outbuf_f32 npixels
            self.mean self.std bgr }

/-! ## Input adaptation -/

/-- The cast `(gsize) stride` of a `gint`. -/
def gint_to_gsize (z : Int) : Nat := (z % 2 ^ 64).toNat

/-- What `create_input_image` learns about the frame and from the calls it
makes: whether plane-0 memory is a DMA-BUF, the plane-0 stride of the negotiated
video info (a `gint`), the descriptor `dup` returns, and which of the HAL and
GStreamer calls succeed. -/
structure InputBuffer where
  is_dmabuf : Bool
  stride : Int
  dup_fd : Int
  tensor_from_fd : Bool
  image_from_fd_tensor : Bool
  tensor_new : Bool
  tensor_map : Bool
  frame_map : Bool
  image_from_tensor : Bool

/-- The calls `create_input_image` makes that acquire or release a resource. -/
inductive InputOp
  | dup
  | hal_tensor_from_fd
  | hal_tensor_image_from_tensor
  | hal_tensor_free
  | close
  | hal_tensor_new
  | hal_tensor_map_create
  | gst_video_frame_map
  deriving DecidableEq, Repr

/-- The tensor image `create_input_image` returns: a view of the frame's own
memory, or an owned tensor filled by the copy loops; with its pixel format and
tensor shape. -/
inductive InputImage
  | wrapped (fourcc : HalFourcc) (shape : List Nat)
  | copied (fourcc : HalFourcc) (shape : List Nat)
  deriving DecidableEq, Repr

/-- The system-memory path of `create_input_image`, from `hal_tensor_new` on.
The bytes the copy loops write are not part of this definition. -/
def create_input_image_copy (fourcc : HalFourcc) (shape : List Nat) (buf : InputBuffer) :
    List InputOp × Option InputImage :=
  if !buf.tensor_new then ([.hal_tensor_new], none)
  else if !buf.tensor_map then
    ([.hal_tensor_new, .hal_tensor_map_create, .hal_tensor_free], none)
  else if !buf.frame_map then
    ([.hal_tensor_new, .hal_tensor_map_create, .gst_video_frame_map, .hal_tensor_free], none)
  else
    ([.hal_tensor_new, .hal_tensor_map_create, .gst_video_frame_map,
        .hal_tensor_image_from_tensor],
      if buf.image_from_tensor then some (.copied fourcc shape) else none)

/-- The DMA-BUF block of `create_input_image`: the zero-copy wrap, tried when
the format needs no conversion, the memory is a DMA-BUF and the plane-0 stride
is the tight row size `row_bytes`.  `none` when the block falls through to the
copy path. -/
def create_input_image_wrap (self : EdgefirstCameraAdaptor) (fourcc : HalFourcc)
    (shape : List Nat) (row_bytes : Nat) (buf : InputBuffer) :
    List InputOp × Option InputImage :=
  if !self.needs_input_conversion && buf.is_dmabuf then
    let tight : Bool := gint_to_gsize buf.stride == row_bytes
    if tight then
      if buf.dup_fd ≥ 0 then
        if buf.tensor_from_fd then
          if buf.image_from_fd_tensor then
            ([.dup, .hal_tensor_from_fd, .hal_tensor_image_from_tensor],
              some (.wrapped fourcc shape))
          else
            ([.dup, .hal_tensor_from_fd, .hal_tensor_image_from_tensor, .hal_tensor_free],
              none)
        else ([.dup, .hal_tensor_from_fd, .close], none)
      else ([.dup], none)
    else ([], none)
  else ([], none)

/-- The tensor shape and the tight row size `create_input_image` derives from
the pixel format (`none` in the `default` branch); `width * 3` and the like are
`guint` products. -/
def input_geometry (fourcc : HalFourcc) (width height : Nat) : Option (List Nat × Nat) :=
  match fourcc with
  | .RGB => some ([height, width, 3], to_guint (width * 3))
  | .RGBA => some ([height, width, 4], to_guint (width * 4))
  | .GREY => some ([height, width, 1], width)
  | .YUYV => some ([height, width, 2], to_guint (width * 2))
  | .NV12 => some ([to_guint (height * 3) / 2, width], width)
  | .NV16 => some ([to_guint (height * 2), width], width)
  | .PLANAR_RGB => none

/-- The function `create_input_image`: the calls made, in order, and the image
returned (`none` for `NULL`). -/
def create_input_image (self : EdgefirstCameraAdaptor) (buf : InputBuffer) :
    List InputOp × Option InputImage :=
  let width := match self.in_info with
    | some info => info.width
    | none => 0
  let height := match self.in_info with
    | some info => info.height
    | none => 0
  let fourcc := self.src_fourcc
  match input_geometry fourcc width height with
  | none => ([], none)
  | some (shape, row_bytes) =>
    let wrap := create_input_image_wrap self fourcc shape row_bytes buf
    match wrap.2 with
    | some img => (wrap.1, some img)
    | none =>
      let copy := create_input_image_copy fourcc shape buf
      (wrap.1 ++ copy.1, copy.2)

/-! ## The fallback post-processing -/

/-- Body of the in-place exchange loops:
`tmp = data[i]; data[i] = data[i + 2]; data[i + 2] = tmp`. -/
def swap_first_third (i : Nat) (data : Buf Nat) : Buf Nat :=
  let tmp := data.data i
  let data := data.store i (data.data (i + 2))
  data.store (i + 2) tmp

/-- Body of the float loops of the fallback:
`ch = (layout == HWC) ? (i % c) : (i / (out_width * out_height))` and
`dst[i] = ((float) src[i] / 255.0f - mean[ch]) / std[ch]`. -/
def fallback_f32_elem (fl : ℚ → ℚ) (self : EdgefirstCameraAdaptor) (src : Nat → Nat)
    (i : Nat) (dst : Buf ℚ) : Buf ℚ :=
  let c := self.out_channels
  let ch := to_guint (if self.layout = Layout.HWC then i % c
    else i / to_guint (self.out_width * self.out_height))
  dst.store i (normalize_f32 fl (src i) (at3 self.mean ch) (at3 self.std ch))

/-- The post-processing of `transform` when a persistent DMA-BUF output exists:
in place on the work tensor, or from the work tensor into the float tensor. -/
def fallback_dmabuf (fl : ℚ → ℚ) (self : EdgefirstCameraAdaptor) (rt : Runtime) : Runtime :=
  let out_size := to_guint (to_guint (self.out_width * self.out_height) * self.out_channels)
  if self.dtype = Dtype.INT8 then
    let data := for_each out_size
      (fun i (data : Buf Nat) => data.store i ((data.data i ^^^ 0x80) % 256)) out_size 0 rt.work
    let data :=
      if self.colorspace = Colorspace.BGR ∧ self.layout = Layout.HWC then
        for_stride 3 out_size swap_first_third out_size 0 data
      else data
    { rt with work := data }
  else if self.dtype = Dtype.FLOAT32 then
    { rt with
      out_float := for_each out_size (fallback_f32_elem fl self rt.work.data) out_size 0
        rt.out_float }
  else if self.colorspace = Colorspace.BGR ∧ self.layout = Layout.HWC then
    { rt with work := for_stride 3 out_size swap_first_third out_size 0 rt.work }
  else rt

/-- The post-processing of `transform` for a system-memory output: from the
work tensor `src` into the mapped output buffer. -/
def fallback_sysmem (fl : ℚ → ℚ) (self : EdgefirstCameraAdaptor) (src : Nat → Nat)
    (omap : Buf Nat) (omap_f32 : Buf ℚ) : Buf Nat × Buf ℚ :=
  let out_size := to_guint (to_guint (self.out_width * self.out_height) * self.out_channels)
  match self.dtype with
  | .UINT8 =>
    if self.colorspace = Colorspace.BGR ∧ self.layout = Layout.HWC then
      (for_stride 3 out_size
        (fun i (o : Buf Nat) =>
          ((o.store i (src (i + 2))).store (i + 1) (src (i + 1))).store (i + 2) (src i))
        out_size 0 omap, omap_f32)
    else if self.colorspace = Colorspace.BGR ∧ self.layout = Layout.CHW then
      let plane := to_guint (self.out_width * self.out_height)
      (memcpy (memcpy (memcpy omap 0 src (2 * plane) plane) plane src plane plane)
        (2 * plane) src 0 plane, omap_f32)
    else (memcpy omap 0 src 0 out_size, omap_f32)
  | .INT8 =>
    let o := for_each out_size (fun i (o : Buf Nat) => o.store i ((src i ^^^ 0x80) % 256))
      out_size 0 omap
    (if self.colorspace = Colorspace.BGR ∧ self.layout = Layout.HWC then
        for_stride 3 out_size swap_first_third out_size 0 o
      else o, omap_f32)
  | .FLOAT32 =>
    (omap, for_each out_size (fallback_f32_elem fl self src) out_size 0 omap_f32)

/-! ## transform -/

/-- One call of `transform`: the input buffer, what the HAL calls return and
leave in the tensors they fill, whether the output buffer maps, and the output
buffer handed in. -/
structure Frame where
  input : InputBuffer
  convert_ret : Int
  intermediate : Nat → Nat
  imap_ok : Bool
  convert_ref_ret : Int
  ref_data : Nat → Nat
  omap_ok : Bool
  outbuf : Buf Nat
  outbuf_f32 : Buf ℚ

/-- The outcome of one `transform` call: the flow return, the instance and its
tensors afterwards, the Stage-1 calls made, and the output buffer. -/
structure TransformResult where
  flow : GstFlowReturn
  self : EdgefirstCameraAdaptor
  rt : Runtime
  calls : List HalCall
  outbuf : Buf Nat
  outbuf_f32 : Buf ℚ

/-- The part of `edgefirst_camera_adaptor_transform` from the work-tensor check
on: `convert_ref`, then the post-processing.  `calls` are the Stage-1 calls
already made. -/
def transform_fallback (fl : ℚ → ℚ) (self : EdgefirstCameraAdaptor) (rt : Runtime)
    (frame : Frame) (calls : List HalCall) : TransformResult :=
  if !rt.work_tensor then
    { flow := .GST_FLOW_ERROR, self := self, rt := rt, calls := calls
      outbuf := frame.outbuf, outbuf_f32 := frame.outbuf_f32 }
  else
    let calls := calls ++ [HalCall.hal_image_processor_convert_ref self.target_fourcc
      (if self.crop_valid then some self.crop else none)]
    if frame.convert_ref_ret ≠ 0 then
      { flow := .GST_FLOW_ERROR, self := self, rt := rt, calls := calls
        outbuf := frame.outbuf, outbuf_f32 := frame.outbuf_f32 }
    else
      let rt : Runtime := { rt with work := { data := frame.ref_data, log := rt.work.log } }
      if self.out_dmabuf_buf then
        { flow := .GST_FLOW_OK, self := self, rt := fallback_dmabuf fl self rt, calls := calls
          outbuf := frame.outbuf, outbuf_f32 := frame.outbuf_f32 }
      else if !frame.omap_ok then
        { flow := .GST_FLOW_ERROR, self := self, rt := rt, calls := calls
          outbuf := frame.outbuf, outbuf_f32 := frame.outbuf_f32 }
      else
        let out := fallback_sysmem fl self rt.work.data frame.outbuf frame.outbuf_f32
        { flow := .GST_FLOW_OK, self := self, rt := rt, calls := calls
          outbuf := out.1, outbuf_f32 := out.2 }

/-- The function `edgefirst_camera_adaptor_transform`. -/
def edgefirst_camera_adaptor_transform (arm_neon : Bool) (fl : ℚ → ℚ)
    (self : EdgefirstCameraAdaptor) (rt : Runtime) (frame : Frame) : TransformResult :=
  match (create_input_image self frame.input).2 with
  | none =>
    { flow := .GST_FLOW_ERROR, self := self, rt := rt, calls := []
      outbuf := frame.outbuf, outbuf_f32 := frame.outbuf_f32 }
  | some _ =>
    if self.use_two_stage then
      let calls := [HalCall.hal_image_processor_convert
        (if self.crop_valid then some self.crop else none)]
      if frame.convert_ret ≠ 0 then
        transform_fallback fl { self with use_two_stage := false } rt frame calls
      else
        let out := camera_adaptor_stage2 arm_neon fl self rt
          (if frame.imap_ok then some frame.intermediate else none) frame.omap_ok
          frame.outbuf frame.outbuf_f32
        { flow := out.flow, self := self, rt := out.rt, calls := calls
          outbuf := out.outbuf, outbuf_f32 := out.outbuf_f32 }
    else transform_fallback fl self rt frame []

/-- The instance and its tensors after `transform` has run on each frame of a
list in turn, with no renegotiation in between. -/
def transform_frames (arm_neon : Bool) (fl : ℚ → ℚ) :
    EdgefirstCameraAdaptor × Runtime → List Frame → EdgefirstCameraAdaptor × Runtime
  | s, [] => s
  | s, frame :: frames =>
    let r := edgefirst_camera_adaptor_transform arm_neon fl s.1 s.2 frame
    transform_frames arm_neon fl (r.self, r.rt) frames

/-! ## Caps -/

/-- The function `dtype_to_nnstreamer_string`. -/
def dtype_to_nnstreamer_string : Dtype → String
  | .INT8 => "int8"
  | .FLOAT32 => "float32"
  | _ => "uint8"

/-- The fields `transform_caps` reads from the first structure of the caps it
is given: the integers `width` and `height` and the `framerate` value, each
absent or present. -/
structure CapsStructure where
  width : Option Int
  height : Option Int
  framerate : Option (Int × Int)
  deriving DecidableEq, Repr

/-- The caps `transform_caps` builds before the filter is applied:
`other/tensors, num_tensors=1, format=static`, with the `types`, `dimensions`
and `framerate` fields when set; or the caps of the sink pad template. -/
inductive ElementCaps
  | other_tensors (types dimensions : Option String) (framerate : Option (Int × Int))
  | sink_template
  deriving DecidableEq, Repr

/-- The formats listed in the sink pad template. -/
def sink_template_formats : List GstVideoFormat :=
  [.NV12, .NV21, .NV16, .I420, .YV12, .YUY2, .UYVY, .RGB, .BGR, .RGBA, .BGRA, .RGBx, .BGRx,
    .GRAY8]

/-- Whether raw video of the given format and size lies within the sink pad
template: `format` in the list, `width` and `height` in `[1, MAX]`. -/
def sink_template_accepts (info : GstVideoInfo) : Bool :=
  decide (info.format ∈ sink_template_formats) && decide (1 ≤ info.width) &&
    decide (info.width ≤ 2 ^ 31 - 1) && decide (1 ≤ info.height) &&
    decide (info.height ≤ 2 ^ 31 - 1)

/-- The function `edgefirst_camera_adaptor_transform_caps`.  `s` is the first
structure of `caps` (`none` for `NULL`); the filter, when present, is applied by
`gst_caps_intersect_full`, a collaborator. -/
def edgefirst_camera_adaptor_transform_caps {F : Type}
    (gst_caps_intersect_full : ElementCaps → F → ElementCaps)
    (self : EdgefirstCameraAdaptor) (direction : GstPadDirection)
    (s : Option CapsStructure) (filter : Option F) : ElementCaps :=
  let result : ElementCaps :=
    if direction = .GST_PAD_SINK then
      let width := self.model_width
      let height := self.model_height
      let wh : Nat × Nat :=
        if width == 0 || height == 0 then
          let w : Int := match s with
            | some st => st.width.getD 0
            | none => 0
          let h : Int := match s with
            | some st => st.height.getD 0
            | none => 0
          (if width == 0 && decide (w > 0) then gint_to_guint w else width,
           if height == 0 && decide (h > 0) then gint_to_guint h else height)
        else (width, height)
      let width := wh.1
      let height := wh.2
      if width == 0 || height == 0 then
        ElementCaps.other_tensors none none none
      else
        let channels := if self.colorspace = Colorspace.GRAY then 1 else 3
        let type_str := dtype_to_nnstreamer_string self.dtype
        let dims :=
          if self.layout = Layout.HWC then
            toString channels ++ ":" ++ toString width ++ ":" ++ toString height ++ ":1"
          else
            toString width ++ ":" ++ toString height ++ ":" ++ toString channels ++ ":1"
        let framerate := match s with
          | some st => st.framerate
          | none => none
        ElementCaps.other_tensors (some type_str) (some dims) framerate
    else ElementCaps.sink_template
  match filter with
  | some f => gst_caps_intersect_full result f
  | none => result

/-! ## Example inputs -/

/-- An input buffer in system memory for which every call succeeds. -/
def sysmem_input : InputBuffer :=
  { is_dmabuf := false, stride := 8, dup_fd := -1
    tensor_from_fd := false, image_from_fd_tensor := false
    tensor_new := true, tensor_map := true, frame_map := true, image_from_tensor := true }

/-- A frame on which the hardware convert returns `ret`; every other call
succeeds, and the tensors and the output buffer hold zeros. -/
def frame_with (ret : Int) : Frame :=
  { input := sysmem_input
    convert_ret := ret
    intermediate := fun _ => 0
    imap_ok := true
    convert_ref_ret := 0
    ref_data := fun _ => 0
    omap_ok := true
    outbuf := Buf.fresh fun _ => 0
    outbuf_f32 := Buf.fresh fun _ => 0 }

/-- The instance after negotiating 2x2 RGBA input with the listed properties
set, with the intermediate image allocated (`use_two_stage` set). -/
def negotiated (props : List PropertyValue) : EdgefirstCameraAdaptor :=
  { (edgefirst_camera_adaptor_set_caps f32_round (configure props)
      (some { width := 2, height := 2, format := .RGBA })).2 with use_two_stage := true }

/-- Tensors as `decide_allocation` leaves them when allocation succeeds,
zero-filled. -/
def allocated : Runtime :=
  { work_tensor := true, work := Buf.fresh fun _ => 0, out_float := Buf.fresh fun _ => 0 }

/-! ## Signed reading of output bytes -/

/-- The value of a byte read as an `int8_t` (two's complement): the consumer of
an int8 tensor reads the bytes the int8 kernels store in this way. -/
def int8_of_byte (b : Nat) : Int := if b < 128 then (b : Int) else (b : Int) - 256

/-! ## Rigid transforms

Embedding of `gst-libs/gst/edgefirst/edgefirsttransformmeta.c`.  `gdouble`
values are elements of a commutative ring `K` (the rationals to compute, the
reals to state the geometry); `fl` rounds the result of each floating-point
operation, `id` reads the expressions exactly. -/

/-- The struct `EdgefirstTransformData`; the quaternion is stored as
`(x, y, z, w)`. -/
structure EdgefirstTransformData (K : Type) where
  translation : Fin 3 → K
  rotation : Fin 4 → K
  child_frame_id : List Char
  parent_frame_id : List Char
  timestamp_ns : Nat

/-- The function `edgefirst_transform_data_set_identity`. -/
def edgefirst_transform_data_set_identity {K : Type} [CommRing K]
    (_transform : EdgefirstTransformData K) : EdgefirstTransformData K :=
  { translation := fun _ => 0
    rotation := fun i => if i = 3 then 1 else 0
    child_frame_id := []
    parent_frame_id := []
    timestamp_ns := 0 }

/-- The function `edgefirst_transform_data_apply` on the point `(*x, *y, *z)`; the
result is the point left in `(*x, *y, *z)`. -/
def edgefirst_transform_data_apply {K : Type} [CommRing K] (fl : K → K)
    (transform : EdgefirstTransformData K) (p : K × K × K) : K × K × K :=
  let qx := transform.rotation 0
  let qy := transform.rotation 1
  let qz := transform.rotation 2
  let qw := transform.rotation 3
  let px := p.1
  let py := p.2.1
  let pz := p.2.2
  let tx := fl (2 * fl (fl (qy * pz) - fl (qz * py)))
  let ty := fl (2 * fl (fl (qz * px) - fl (qx * pz)))
  let tz := fl (2 * fl (fl (qx * py) - fl (qy * px)))
  (fl (fl (fl (px + fl (qw * tx)) + fl (fl (qy * tz) - fl (qz * ty))) + transform.translation 0),
   fl (fl (fl (py + fl (qw * ty)) + fl (fl (qz * tx) - fl (qx * tz))) + transform.translation 1),
   fl (fl (fl (pz + fl (qw * tz)) + fl (fl (qx * ty) - fl (qy * tx))) + transform.translation 2))

/-- The rotation matrix of the quaternion `q = (x, y, z, w)` applied to `p`, as
the textbooks give it for a unit quaternion. -/
def rotation_matrix_apply {K : Type} [CommRing K] (q : Fin 4 → K) (p : K × K × K) :
    K × K × K :=
  let x := q 0
  let y := q 1
  let z := q 2
  let w := q 3
  ((1 - 2 * (y * y + z * z)) * p.1 + 2 * (x * y - z * w) * p.2.1 + 2 * (x * z + y * w) * p.2.2,
   2 * (x * y + z * w) * p.1 + (1 - 2 * (x * x + z * z)) * p.2.1 + 2 * (y * z - x * w) * p.2.2,
   2 * (x * z - y * w) * p.1 + 2 * (y * z + x * w) * p.2.1 + (1 - 2 * (x * x + y * y)) * p.2.2)

/-- The quaternion with real part `w` and imaginary part `(x, y, z)` for the
stored `(x, y, z, w)`. -/
def to_quaternion {K : Type} [CommRing K] (q : Fin 4 → K) : Quaternion K :=
  ⟨q 3, q 0, q 1, q 2⟩

/-- The rotation of `p` by the quaternion `q`, as conjugation `q p q*` of the
pure quaternion of `p` (for a unit `q`, `q*` is the inverse of `q`). -/
def quaternion_rotate {K : Type} [CommRing K] (q : Fin 4 → K) (p : K × K × K) :
    Quaternion K :=
  to_quaternion q * ⟨0, p.1, p.2.1, p.2.2⟩ * star (to_quaternion q)

/-- The squared Euclidean norm of a point. -/
def norm_sq3 {K : Type} [CommRing K] (p : K × K × K) : K :=
  p.1 * p.1 + p.2.1 * p.2.1 + p.2.2 * p.2.2

/-! ## Point-field descriptors

Embedding of the point-field utilities of
`gst-libs/gst/edgefirst/edgefirstpointcloud2meta.c`.  A C string is the list of
its characters before the terminating NUL; the GLib and C library functions the
code calls are given by their documented behaviour. -/

/-- The GLib function `g_ascii_isspace`: space, form feed, newline, carriage return,
horizontal and vertical tab. -/
def g_ascii_isspace (c : Char) : Bool :=
  c.toNat = 32 || (9 ≤ c.toNat && c.toNat ≤ 13)

/-- The GLib function `g_ascii_isdigit`. -/
def g_ascii_isdigit (c : Char) : Bool := 48 ≤ c.toNat && c.toNat ≤ 57

/-- The GLib function `g_ascii_tolower`. -/
def g_ascii_tolower (c : Char) : Char :=
  if 65 ≤ c.toNat ∧ c.toNat ≤ 90 then Char.ofNat (c.toNat + 32) else c

/-- The GLib function `g_strchug`: remove leading whitespace. -/
def g_strchug (s : List Char) : List Char := s.dropWhile g_ascii_isspace

/-- The GLib function `g_strchomp`: remove trailing whitespace. -/
def g_strchomp (s : List Char) : List Char := (s.reverse.dropWhile g_ascii_isspace).reverse

/-- The GLib macro `g_strstrip`: `g_strchomp (g_strchug (s))`. -/
def g_strstrip (s : List Char) : List Char := g_strchomp (g_strchug s)

/-- The call `g_strsplit (string, delimiter, -1)` for a one-character delimiter: the
pieces between the delimiters; the empty string gives the empty vector. -/
def g_strsplit (string : List Char) (delimiter : Char) : List (List Char) :=
  if string = [] then [] else string.splitOn delimiter

/-- The GLib function `g_ascii_strcasecmp`: the difference of the first pair of
characters that differ after ASCII lower-casing, `0` for none. -/
def g_ascii_strcasecmp : List Char → List Char → Int
  | [], [] => 0
  | [], c :: _ => -((g_ascii_tolower c).toNat : Int)
  | c :: _, [] => ((g_ascii_tolower c).toNat : Int)
  | c1 :: s1, c2 :: s2 =>
    if g_ascii_tolower c1 = g_ascii_tolower c2 then g_ascii_strcasecmp s1 s2
    else ((g_ascii_tolower c1).toNat : Int) - ((g_ascii_tolower c2).toNat : Int)

/-- The call `g_strlcpy (dest, src, dest_size)`: what `dest` holds afterwards. -/
def g_strlcpy (src : List Char) (dest_size : Nat) : List Char := src.take (dest_size - 1)

/-- The call `g_ascii_strtoull (nptr, NULL, 10)`: leading whitespace is skipped, an
optional sign is read, then decimal digits up to the first other character; a
value that does not fit 64 bits gives `G_MAXUINT64`, a minus sign negates
modulo `2^64`. -/
def g_ascii_strtoull (nptr : List Char) : Nat :=
  let s := nptr.dropWhile g_ascii_isspace
  let neg : Bool := s.head? = some (Char.ofNat 45)
  let s := if s.head? = some (Char.ofNat 45) ∨ s.head? = some (Char.ofNat 43) then s.tail else s
  let v := (s.takeWhile g_ascii_isdigit).foldl (fun acc c => acc * 10 + (c.toNat - 48)) 0
  if 2 ^ 64 ≤ v then 2 ^ 64 - 1 else if neg then (2 ^ 64 - v) % 2 ^ 64 else v

/-- Decimal digits of `n`, least significant first, as the conversion `%u` produces
them; `fuel` bounds the number of digits. -/
def utoa_rev : Nat → Nat → List Char
  | 0, _ => []
  | fuel + 1, n =>
    Char.ofNat (48 + n % 10) :: (if n / 10 = 0 then [] else utoa_rev fuel (n / 10))

/-- The conversion `%u` of `printf`. -/
def printf_u (n : Nat) : List Char := (utoa_rev (n + 1) n).reverse

/-- The struct `EdgefirstPointFieldDesc`; `name` is the string held in
`gchar name[64]`. -/
structure EdgefirstPointFieldDesc where
  name : List Char
  datatype : Nat
  offset : Nat
  count : Nat
  deriving DecidableEq, Repr

/-- The table `_datatype_table`: datatype constant, short name, long name, size. -/
def _datatype_table : List (Nat × List Char × List Char × Nat) :=
  [(1, "I8".toList, "INT8".toList, 1),
   (2, "U8".toList, "UINT8".toList, 1),
   (3, "I16".toList, "INT16".toList, 2),
   (4, "U16".toList, "UINT16".toList, 2),
   (5, "I32".toList, "INT32".toList, 4),
   (6, "U32".toList, "UINT32".toList, 4),
   (7, "F32".toList, "FLOAT32".toList, 4),
   (8, "F64".toList, "FLOAT64".toList, 8)]

/-- The function `edgefirst_point_field_datatype_to_string`. -/
def edgefirst_point_field_datatype_to_string (datatype : Nat) : List Char :=
  match _datatype_table.find? (fun e => e.1 == datatype) with
  | some e => e.2.1
  | none => "UNKNOWN".toList

/-- The function `edgefirst_point_field_datatype_from_string` (`none` for `NULL`). -/
def edgefirst_point_field_datatype_from_string (str : Option (List Char)) : Nat :=
  match str with
  | none => 0
  | some str =>
    match _datatype_table.find? (fun e =>
      g_ascii_strcasecmp str e.2.1 == 0 || g_ascii_strcasecmp str e.2.2.1 == 0) with
    | some e => e.1
    | none => 0

/-- The function `edgefirst_point_field_datatype_size`. -/
def edgefirst_point_field_datatype_size (datatype : Nat) : Nat :=
  match _datatype_table.find? (fun e => e.1 == datatype) with
  | some e => e.2.2.2
  | none => 0

/-- Body of the token loop of `edgefirst_parse_point_fields`: the descriptor
written to `out_fields[count]` when the token makes `count` advance, `none`
when it does not. -/
def parse_point_field (token : List Char) : Option EdgefirstPointFieldDesc :=
  let trimmed := g_strstrip token
  if trimmed = [] then none
  else
    let parts := g_strsplit trimmed (Char.ofNat 58)
    let num_parts := parts.length
    if num_parts ≥ 3 then
      let f : EdgefirstPointFieldDesc :=
        { name := g_strlcpy (g_strstrip (parts.getD 0 [])) 64
          datatype := edgefirst_point_field_datatype_from_string
            (some (g_strstrip (parts.getD 1 [])))
          offset := g_ascii_strtoull (g_strstrip (parts.getD 2 [])) % 2 ^ 32
          count := 1 }
      if f.datatype ≠ 0 ∧ f.name ≠ [] then some f else none
    else none

/-- The token loop `for (i = 0; tokens[i] && count < max_fields; i++)`; `out` holds the
`count` descriptors accepted so far. -/
def parse_point_tokens (max_fields : Nat) :
    List (List Char) → List EdgefirstPointFieldDesc → List EdgefirstPointFieldDesc
  | [], out => out
  | token :: tokens, out =>
    if out.length < max_fields then
      match parse_point_field token with
      | some f => parse_point_tokens max_fields tokens (out ++ [f])
      | none => parse_point_tokens max_fields tokens out
    else out

/-- The function `edgefirst_parse_point_fields`, given a non-`NULL` `out_fields`: the
first `count` entries of `out_fields`, `count` being the value returned
(`fields_str` is `none` for `NULL`). -/
def edgefirst_parse_point_fields (fields_str : Option (List Char)) (max_fields : Nat) :
    List EdgefirstPointFieldDesc :=
  match fields_str with
  | none => []
  | some fields_str =>
    if max_fields = 0 then []
    else parse_point_tokens max_fields (g_strsplit fields_str (Char.ofNat 44)) []

/-- The conversion `"%s:%s:%u"` of one descriptor. -/
def format_point_field (f : EdgefirstPointFieldDesc) : List Char :=
  f.name ++ [Char.ofNat 58] ++ edgefirst_point_field_datatype_to_string f.datatype
    ++ [Char.ofNat 58] ++ printf_u f.offset

/-- The loop of `edgefirst_format_point_fields` from index `i` on, appending to `s`. -/
def format_point_fields_from : Nat → List EdgefirstPointFieldDesc → List Char → List Char
  | _, [], s => s
  | i, f :: fields, s =>
    let s := if i > 0 then s ++ [Char.ofNat 44] else s
    format_point_fields_from (i + 1) fields (s ++ format_point_field f)

/-- The function `edgefirst_format_point_fields` on the array `fields` of `num_fields`
descriptors (`none` for `NULL`). -/
def edgefirst_format_point_fields (fields : Option (List EdgefirstPointFieldDesc)) :
    List Char :=
  match fields with
  | none => []
  | some fields => if fields.length = 0 then [] else format_point_fields_from 0 fields []

/-- The descriptors the round trip through the caps string is stated for: a
non-empty name shorter than 64 bytes, free of `,` and `:` and neither beginning
nor ending with whitespace, a known datatype constant `1..8`, an offset that
is a `guint32`, and count 1. -/
def round_trip_field (f : EdgefirstPointFieldDesc) : Bool :=
  f.name ≠ [] && f.name.length < 64 && !f.name.contains (Char.ofNat 44)
    && !f.name.contains (Char.ofNat 58)
    && !f.name.head?.any g_ascii_isspace && !f.name.getLast?.any g_ascii_isspace
    && 1 ≤ f.datatype && f.datatype ≤ 8 && f.offset < 2 ^ 32 && f.count = 1

/-! ## The copy loops of `create_input_image`

The system-memory path of `create_input_image` fills the tensor it allocated
from the mapped video frame.  `width`, `height`, the loop counters and the
products formed from them are `guint`; a stride is a `gint` and is converted
to `guint` where it is multiplied by a `guint` row index; `row_bytes` is a
`size_t`.  Unit-step counters stay below a `guint` bound and cannot wrap;
the counters of the 2- and 4-byte steps wrap as `guint` does. -/

/-- A mapped `GstVideoFrame`: the bytes of each plane by offset from
`GST_VIDEO_FRAME_PLANE_DATA`, and `GST_VIDEO_FRAME_PLANE_STRIDE` of each plane. -/
structure GstVideoFrame where
  data : Nat → Nat → Nat
  stride : Nat → Int

/-- The loop `for (guint x = 0; x < n; x += step) body (x)`, run for at most `fuel`
iterations, the counter wrapping modulo `2^32`. -/
def for_stride_guint {σ : Type} (step n : Nat) (body : Nat → σ → σ) : Nat → Nat → σ → σ
  | 0, _, s => s
  | fuel + 1, i, s =>
    if i < n then for_stride_guint step n body fuel (to_guint (i + step)) (body i s) else s

/-- The loop `for (guint y = 0; y < rows; y++) memcpy (base + y * width, data + y * stride, width)`
of the planar formats; `base` is the offset of the destination plane in the
tensor. -/
def copy_plane_rows (dst : Buf Nat) (base width rows : Nat) (data : Nat → Nat) (stride : Int) :
    Buf Nat :=
  for_each rows (fun y d =>
    memcpy d (base + to_guint (y * width)) data (to_guint (y * gint_to_guint stride)) width)
    rows 0 dst

/-- The number of bytes of the tensor `hal_tensor_new` allocates for a shape. -/
def tensor_size (shape : List Nat) : Nat := shape.prod

/-- The copy loops of `create_input_image`: the contents of the mapped tensor
`dst` after the branch selected by the canonical format and the negotiated video
format has run on the mapped frame. -/
def create_input_image_fill (self : EdgefirstCameraAdaptor) (frame : GstVideoFrame)
    (dst : Buf Nat) : Buf Nat :=
  let width := match self.in_info with
    | some info => info.width
    | none => 0
  let height := match self.in_info with
    | some info => info.height
    | none => 0
  let fourcc := self.src_fourcc
  match input_geometry fourcc width height with
  | none => dst
  | some (_, row_bytes) =>
    let vfmt := self.in_vformat
    if fourcc = HalFourcc.NV12 ∧ vfmt = GstVideoFormat.NV12 then
      let dst := copy_plane_rows dst 0 width height (frame.data 0) (frame.stride 0)
      let uv_dst := to_guint (height * width)
      copy_plane_rows dst uv_dst width (height / 2) (frame.data 1) (frame.stride 1)
    else if fourcc = HalFourcc.NV12 ∧ vfmt = GstVideoFormat.NV21 then
      let dst := copy_plane_rows dst 0 width height (frame.data 0) (frame.stride 0)
      let vu_data := frame.data 1
      let vu_stride := frame.stride 1
      let uv_dst := to_guint (height * width)
      for_each (height / 2) (fun y d =>
        let vu_row := to_guint (y * gint_to_guint vu_stride)
        let uv_row := uv_dst + to_guint (y * width)
        for_stride_guint 2 width (fun x d =>
          (d.store (uv_row + x) (vu_data (vu_row + to_guint (x + 1)))).store
            (uv_row + to_guint (x + 1)) (vu_data (vu_row + x))) width 0 d)
        (height / 2) 0 dst
    else if fourcc = HalFourcc.NV12 ∧
        (vfmt = GstVideoFormat.I420 ∨ vfmt = GstVideoFormat.YV12) then
      let dst := copy_plane_rows dst 0 width height (frame.data 0) (frame.stride 0)
      let u_plane := if vfmt = GstVideoFormat.I420 then 1 else 2
      let v_plane := if vfmt = GstVideoFormat.I420 then 2 else 1
      let u_data := frame.data u_plane
      let u_stride := frame.stride u_plane
      let v_data := frame.data v_plane
      let v_stride := frame.stride v_plane
      let half_w := width / 2
      let uv_dst := to_guint (height * width)
      for_each (height / 2) (fun y d =>
        let u_row := to_guint (y * gint_to_guint u_stride)
        let v_row := to_guint (y * gint_to_guint v_stride)
        let uv_row := uv_dst + to_guint (y * width)
        for_each half_w (fun x d =>
          (d.store (uv_row + to_guint (x * 2)) (u_data (u_row + x))).store
            (uv_row + to_guint (to_guint (x * 2) + 1)) (v_data (v_row + x))) half_w 0 d)
        (height / 2) 0 dst
    else if fourcc = HalFourcc.NV16 then
      let dst := copy_plane_rows dst 0 width height (frame.data 0) (frame.stride 0)
      let uv_dst := to_guint (height * width)
      copy_plane_rows dst uv_dst width height (frame.data 1) (frame.stride 1)
    else if fourcc = HalFourcc.YUYV ∧ vfmt = GstVideoFormat.UYVY then
      let src_data := frame.data 0
      let stride := frame.stride 0
      for_each height (fun y d =>
        let srow := to_guint (y * gint_to_guint stride)
        let drow := to_gsize (y * row_bytes)
        for_stride_guint 4 row_bytes (fun x d =>
          (((d.store (drow + x) (src_data (srow + to_guint (x + 1)))).store
            (drow + to_guint (x + 1)) (src_data (srow + x))).store
            (drow + to_guint (x + 2)) (src_data (srow + to_guint (x + 3)))).store
            (drow + to_guint (x + 3)) (src_data (srow + to_guint (x + 2)))) row_bytes 0 d)
        height 0 dst
    else if fourcc = HalFourcc.RGB ∧ vfmt = GstVideoFormat.BGR then
      let src_data := frame.data 0
      let stride := frame.stride 0
      for_each height (fun y d =>
        let srow := to_guint (y * gint_to_guint stride)
        let drow := to_gsize (y * row_bytes)
        for_each width (fun x d =>
          ((d.store (drow + to_guint (x * 3))
              (src_data (srow + to_guint (to_guint (x * 3) + 2)))).store
            (drow + to_guint (to_guint (x * 3) + 1))
              (src_data (srow + to_guint (to_guint (x * 3) + 1)))).store
            (drow + to_guint (to_guint (x * 3) + 2)) (src_data (srow + to_guint (x * 3))))
          width 0 d)
        height 0 dst
    else if fourcc = HalFourcc.RGBA ∧
        (vfmt = GstVideoFormat.BGRA ∨ vfmt = GstVideoFormat.BGRx) then
      let src_data := frame.data 0
      let stride := frame.stride 0
      for_each height (fun y d =>
        let srow := to_guint (y * gint_to_guint stride)
        let drow := to_gsize (y * row_bytes)
        for_each width (fun x d =>
          (((d.store (drow + to_guint (x * 4))
              (src_data (srow + to_guint (to_guint (x * 4) + 2)))).store
            (drow + to_guint (to_guint (x * 4) + 1))
              (src_data (srow + to_guint (to_guint (x * 4) + 1)))).store
            (drow + to_guint (to_guint (x * 4) + 2)) (src_data (srow + to_guint (x * 4)))).store
            (drow + to_guint (to_guint (x * 4) + 3))
              (src_data (srow + to_guint (to_guint (x * 4) + 3))))
          width 0 d)
        height 0 dst
    else
      let src_data := frame.data 0
      let stride := frame.stride 0
      if gint_to_gsize stride = row_bytes then
        memcpy dst 0 src_data 0 (to_gsize (row_bytes * height))
      else
        for_each height (fun y d =>
          memcpy d (to_gsize (y * row_bytes)) src_data (to_guint (y * gint_to_guint stride))
            row_bytes) height 0 dst

/-- A video frame whose plane `p` holds the byte `(16 * p + i) % 256` at offset
`i`, every plane with the stride given. -/
def ramp_frame (stride : Int) : GstVideoFrame :=
  { data := fun p i => (16 * p + i) % 256, stride := fun _ => stride }

/-- The frame with the two chroma planes exchanged: planes 1 and 2 of `frame`,
bytes and strides, trade places; every other plane stays. -/
def exchange_chroma_planes (frame : GstVideoFrame) : GstVideoFrame :=
  { data := fun p => frame.data (match p with
      | 1 => 2
      | 2 => 1
      | p => p)
    stride := fun p => frame.stride (match p with
      | 1 => 2
      | 2 => 1
      | p => p) }

/-! ## Sequences of calls on the element -/

/-- A call that changes the letterbox state of the element: `g_object_set` of one
property, or a caps negotiation reaching `set_caps` with caps that parse to the
given video info. -/
inductive ElementCall
  | set_property (p : PropertyValue)
  | set_caps (info : GstVideoInfo)

/-- The state after one call. -/
def apply_call (fl : ℚ → ℚ) (self : EdgefirstCameraAdaptor) : ElementCall → EdgefirstCameraAdaptor
  | .set_property p => edgefirst_camera_adaptor_set_property self p
  | .set_caps info => (edgefirst_camera_adaptor_set_caps fl self (some info)).2

/-- The state after the calls of a list, in order. -/
def run_calls (fl : ℚ → ℚ) (self : EdgefirstCameraAdaptor) (calls : List ElementCall) :
    EdgefirstCameraAdaptor :=
  calls.foldl (apply_call fl) self

/-- Every `set_caps` of the list runs with letterbox enabled and non-zero source
dimensions, that is, none of them takes the early return of
`compute_letterbox`. -/
def letterbox_computed_at_every_set_caps (fl : ℚ → ℚ) :
    EdgefirstCameraAdaptor → List ElementCall → Bool
  | _, [] => true
  | self, .set_property p :: calls =>
    letterbox_computed_at_every_set_caps fl (edgefirst_camera_adaptor_set_property self p) calls
  | self, .set_caps info :: calls =>
    self.letterbox && info.width != 0 && info.height != 0 &&
      letterbox_computed_at_every_set_caps fl
        (edgefirst_camera_adaptor_set_caps fl self (some info)).2 calls

/-- The padding property a call sets, if it sets one: 0 top, 1 bottom, 2 left,
3 right. -/
def edge_set_by : ElementCall → Option Nat
  | .set_property (.PROP_LETTERBOX_TOP _) => some 0
  | .set_property (.PROP_LETTERBOX_BOTTOM _) => some 1
  | .set_property (.PROP_LETTERBOX_LEFT _) => some 2
  | .set_property (.PROP_LETTERBOX_RIGHT _) => some 3
  | _ => none

/-! ## Loop and store lemmas -/

/-! ### Loops -/

theorem lanes_succ_front {σ : Type} (f : Nat → σ → σ) (k : Nat) (s : σ) :
    lanes f (k + 1) s = lanes (fun l => f (l + 1)) k (f 0 s) := by
  induction k with
  | zero => rfl
  | succ k ih =>
    show f (k + 1) (lanes f (k + 1) s) = f (k + 1) (lanes (fun l => f (l + 1)) k (f 0 s))
    rw [ih]

theorem lanes_add {σ : Type} (f : Nat → σ → σ) (a c : Nat) (s : σ) :
    lanes f (a + c) s = lanes (fun l => f (a + l)) c (lanes f a s) := by
  induction c with
  | zero => rfl
  | succ c ih =>
    show f (a + c) (lanes f (a + c) s) = f (a + c) (lanes (fun l => f (a + l)) c (lanes f a s))
    rw [ih]

theorem for_each_eq_lanes {σ : Type} (n : Nat) (body : Nat → σ → σ) (fuel i : Nat) (s : σ)
    (hfuel : n - i ≤ fuel) :
    for_each n body fuel i s = lanes (fun l => body (i + l)) (n - i) s := by
  induction fuel generalizing i s with
  | zero =>
    have h0 : n - i = 0 := by omega
    rw [h0]; rfl
  | succ fuel ih =>
    unfold for_each
    by_cases h : i < n
    · rw [if_pos h, ih (i + 1) (body i s) (by omega)]
      have hk : n - i = (n - (i + 1)) + 1 := by omega
      rw [hk, lanes_succ_front]
      have hf : (fun l => body (i + 1 + l)) = (fun l => body (i + (l + 1))) := by
        funext l
        have : i + 1 + l = i + (l + 1) := by omega
        rw [this]
      rw [hf]; rfl
    · rw [if_neg h]
      have h0 : n - i = 0 := by omega
      rw [h0]; rfl

theorem for_blocks_eq_lanes {σ : Type} (w n : Nat) (hw : 0 < w) (body : Nat → σ → σ)
    (fuel i : Nat) (s : σ) (hfuel : (n - i) / w ≤ fuel) (hi : i ≤ n) :
    for_blocks w n body fuel i s
      = (i + w * ((n - i) / w), lanes (fun k => body (i + w * k)) ((n - i) / w) s) := by
  induction fuel generalizing i s with
  | zero =>
    have h0 : (n - i) / w = 0 := Nat.le_zero.mp hfuel
    rw [h0]; rfl
  | succ fuel ih =>
    unfold for_blocks
    by_cases h : i + w ≤ n
    · have hq : (n - i) / w = (n - (i + w)) / w + 1 := by
        have : n - i = (n - (i + w)) + w := by omega
        rw [this, Nat.add_div_right _ hw]
      have hfuel2 : (n - (i + w)) / w ≤ fuel := by
        rw [hq] at hfuel; exact Nat.le_of_succ_le_succ hfuel
      rw [if_pos h, ih (i + w) (body i s) hfuel2 h, hq, lanes_succ_front]
      have hf : (fun k => body (i + w + w * k)) = (fun k => body (i + w * (k + 1))) := by
        funext k
        have : i + w + w * k = i + w * (k + 1) := by rw [Nat.mul_add]; omega
        rw [this]
      rw [hf, Nat.mul_add]
      simp only [Nat.mul_zero, Nat.add_zero, Nat.mul_one]
      congr 1; omega
    · rw [if_neg h]
      have h0 : (n - i) / w = 0 := by
        apply Nat.div_eq_of_lt; omega
      rw [h0]; rfl

theorem store_count {α : Type} (b : Buf α) (i : Nat) (v : α) (j : Nat) :
    (b.store i v).log.count j = b.log.count j + (if j = i then 1 else 0) := by
  simp only [Buf.store, List.count_cons]
  by_cases h : j = i
  · subst h; simp
  · have h' : ¬ i = j := fun e => h e.symm
    simp [h, h']

theorem lanes_contig_data {α : Type} (p : Nat) (g : Nat → α) (k : Nat) (b : Buf α) (j : Nat) :
    (lanes (fun l b => b.store (p + l) (g l)) k b).data j
      = if p ≤ j ∧ j < p + k then g (j - p) else b.data j := by
  induction k with
  | zero => rw [if_neg (by omega)]; rfl
  | succ k ih =>
    show (if j = p + k then g k else (lanes (fun l b => b.store (p + l) (g l)) k b).data j) = _
    rw [ih]
    by_cases hj : j = p + k
    · subst hj
      simp
    · have hiff : (p ≤ j ∧ j < p + (k + 1)) ↔ (p ≤ j ∧ j < p + k) := by omega
      simp only [hj, if_false, hiff]

theorem lanes_contig_count {α : Type} (p : Nat) (g : Nat → α) (k : Nat) (b : Buf α) (j : Nat) :
    (lanes (fun l b => b.store (p + l) (g l)) k b).log.count j
      = b.log.count j + (if p ≤ j ∧ j < p + k then 1 else 0) := by
  induction k with
  | zero => rw [if_neg (by omega)]; rfl
  | succ k ih =>
    show ((lanes (fun l b => b.store (p + l) (g l)) k b).store (p + k) (g k)).log.count j = _
    rw [store_count, ih]
    by_cases hj : j = p + k
    · subst hj
      simp
    · have hiff : (p ≤ j ∧ j < p + (k + 1)) ↔ (p ≤ j ∧ j < p + k) := by omega
      simp only [hj, if_false, hiff, Nat.add_zero]

theorem lanes_interleaved_data {α : Type} (p : Nat) (g0 g1 g2 : Nat → α) (k : Nat)
    (b : Buf α) (j : Nat) :
    (lanes (fun l b => ((b.store (p + 3 * l) (g0 l)).store (p + 3 * l + 1) (g1 l)).store
        (p + 3 * l + 2) (g2 l)) k b).data j
      = if p ≤ j ∧ j < p + 3 * k then
          (if (j - p) % 3 = 0 then g0 ((j - p) / 3)
            else if (j - p) % 3 = 1 then g1 ((j - p) / 3) else g2 ((j - p) / 3))
        else b.data j := by
  induction k with
  | zero => rw [if_neg (by omega)]; rfl
  | succ k ih =>
    show (if j = p + 3 * k + 2 then g2 k else if j = p + 3 * k + 1 then g1 k
      else if j = p + 3 * k then g0 k else
        (lanes (fun l b => ((b.store (p + 3 * l) (g0 l)).store (p + 3 * l + 1) (g1 l)).store
        (p + 3 * l + 2) (g2 l)) k b).data j) = _
    rw [ih]
    by_cases h2 : j = p + 3 * k + 2
    · subst h2
      have e1 : p + 3 * k + 2 - p = 3 * k + 2 := by omega
      have e2 : (3 * k + 2) % 3 = 2 := by omega
      have e3 : (3 * k + 2) / 3 = k := by omega
      have e4 : p ≤ p + 3 * k + 2 ∧ p + 3 * k + 2 < p + 3 * (k + 1) := by omega
      simp [e1, e2, e3, e4]
    · by_cases h1 : j = p + 3 * k + 1
      · subst h1
        have e1 : p + 3 * k + 1 - p = 3 * k + 1 := by omega
        have e2 : (3 * k + 1) % 3 = 1 := by omega
        have e3 : (3 * k + 1) / 3 = k := by omega
        have e4 : p ≤ p + 3 * k + 1 ∧ p + 3 * k + 1 < p + 3 * (k + 1) := by omega
        simp [e1, e2, e3, e4]
      · by_cases h0 : j = p + 3 * k
        · subst h0
          have e1 : p + 3 * k - p = 3 * k := by omega
          have e2 : (3 * k) % 3 = 0 := by omega
          have e3 : (3 * k) / 3 = k := by omega
          have e4 : p ≤ p + 3 * k ∧ p + 3 * k < p + 3 * (k + 1) := by omega
          simp [e1, e2, e3, e4]
        · have hiff : (p ≤ j ∧ j < p + 3 * (k + 1)) ↔ (p ≤ j ∧ j < p + 3 * k) := by omega
          simp only [h2, h1, h0, if_false, hiff]

theorem lanes_interleaved_count {α : Type} (p : Nat) (g0 g1 g2 : Nat → α) (k : Nat)
    (b : Buf α) (j : Nat) :
    (lanes (fun l b => ((b.store (p + 3 * l) (g0 l)).store (p + 3 * l + 1) (g1 l)).store
        (p + 3 * l + 2) (g2 l)) k b).log.count j
      = b.log.count j + (if p ≤ j ∧ j < p + 3 * k then 1 else 0) := by
  induction k with
  | zero => rw [if_neg (by omega)]; rfl
  | succ k ih =>
    show ((((lanes (fun l b => ((b.store (p + 3 * l) (g0 l)).store (p + 3 * l + 1)
      (g1 l)).store (p + 3 * l + 2) (g2 l)) k b).store (p + 3 * k) (g0 k)).store
      (p + 3 * k + 1) (g1 k)).store (p + 3 * k + 2) (g2 k)).log.count j = _
    rw [store_count, store_count, store_count, ih]
    split_ifs <;> omega

theorem lanes_planar_data {α : Type} (p0 p1 p2 : Nat) (g0 g1 g2 : Nat → α) (k : Nat)
    (b : Buf α) (j : Nat) (h01 : p0 + k ≤ p1) (h12 : p1 + k ≤ p2) :
    (lanes (fun l b => ((b.store (p0 + l) (g0 l)).store (p1 + l) (g1 l)).store
        (p2 + l) (g2 l)) k b).data j
      = if p0 ≤ j ∧ j < p0 + k then g0 (j - p0)
        else if p1 ≤ j ∧ j < p1 + k then g1 (j - p1)
        else if p2 ≤ j ∧ j < p2 + k then g2 (j - p2)
        else b.data j := by
  induction k with
  | zero => rw [if_neg (by omega), if_neg (by omega), if_neg (by omega)]; rfl
  | succ k ih =>
    show (if j = p2 + k then g2 k else if j = p1 + k then g1 k
      else if j = p0 + k then g0 k else
        (lanes (fun l b => ((b.store (p0 + l) (g0 l)).store (p1 + l) (g1 l)).store
        (p2 + l) (g2 l)) k b).data j) = _
    rw [ih (by omega) (by omega)]
    by_cases h2 : j = p2 + k
    · subst h2
      have e0 : ¬ (p0 ≤ p2 + k ∧ p2 + k < p0 + (k + 1)) := by omega
      have e1 : ¬ (p1 ≤ p2 + k ∧ p2 + k < p1 + (k + 1)) := by omega
      have e2 : p2 ≤ p2 + k ∧ p2 + k < p2 + (k + 1) := by omega
      simp [e0, e1, e2]
    · by_cases h1 : j = p1 + k
      · subst h1
        have e0 : ¬ (p0 ≤ p1 + k ∧ p1 + k < p0 + (k + 1)) := by omega
        have e1 : p1 ≤ p1 + k ∧ p1 + k < p1 + (k + 1) := by omega
        simp [e0, e1, h2]
      · by_cases h0 : j = p0 + k
        · subst h0
          have e0 : p0 ≤ p0 + k ∧ p0 + k < p0 + (k + 1) := by omega
          simp [e0, h2, h1]
        · have i0 : (p0 ≤ j ∧ j < p0 + (k + 1)) ↔ (p0 ≤ j ∧ j < p0 + k) := by omega
          have i1 : (p1 ≤ j ∧ j < p1 + (k + 1)) ↔ (p1 ≤ j ∧ j < p1 + k) := by omega
          have i2 : (p2 ≤ j ∧ j < p2 + (k + 1)) ↔ (p2 ≤ j ∧ j < p2 + k) := by omega
          simp only [h2, h1, h0, if_false, i0, i1, i2]

theorem lanes_planar_count {α : Type} (p0 p1 p2 : Nat) (g0 g1 g2 : Nat → α) (k : Nat)
    (b : Buf α) (j : Nat) (h01 : p0 + k ≤ p1) (h12 : p1 + k ≤ p2) :
    (lanes (fun l b => ((b.store (p0 + l) (g0 l)).store (p1 + l) (g1 l)).store
        (p2 + l) (g2 l)) k b).log.count j
      = b.log.count j + (if (p0 ≤ j ∧ j < p0 + k) ∨ (p1 ≤ j ∧ j < p1 + k) ∨
          (p2 ≤ j ∧ j < p2 + k) then 1 else 0) := by
  induction k with
  | zero => rw [if_neg (by omega)]; rfl
  | succ k ih =>
    show ((((lanes (fun l b => ((b.store (p0 + l) (g0 l)).store (p1 + l) (g1 l)).store
      (p2 + l) (g2 l)) k b).store (p0 + k) (g0 k)).store (p1 + k) (g1 k)).store
      (p2 + k) (g2 k)).log.count j = _
    rw [store_count, store_count, store_count, ih (by omega) (by omega)]
    split_ifs <;> omega

theorem same_refl {α : Type} (b : Buf α) : b.same b := ⟨fun _ => rfl, fun _ => rfl⟩

theorem same_trans {α : Type} {a b c : Buf α} (h1 : a.same b) (h2 : b.same c) : a.same c :=
  ⟨fun j => (h1.1 j).trans (h2.1 j), fun j => (h1.2 j).trans (h2.2 j)⟩

theorem store_same {α : Type} {b b' : Buf α} (h : b.same b') (i : Nat) (v : α) :
    (b.store i v).same (b'.store i v) := by
  refine ⟨fun j => ?_, fun j => ?_⟩
  · show (if j = i then v else b.data j) = (if j = i then v else b'.data j)
    rw [h.1 j]
  · rw [store_count, store_count, h.2 j]

theorem lanes_same {α : Type} (f f' : Nat → Buf α → Buf α) (k : Nat) (b b' : Buf α)
    (hf : ∀ l, l < k → ∀ c c' : Buf α, c.same c' → (f l c).same (f' l c'))
    (h : b.same b') : (lanes f k b).same (lanes f' k b') := by
  induction k with
  | zero => exact h
  | succ k ih =>
    exact hf k (Nat.lt_succ_self k) _ _ (ih (fun l hl => hf l (Nat.lt_succ_of_lt hl)))

theorem lanes_flatten {σ : Type} (f : Nat → σ → σ) (w m : Nat) (s : σ) :
    lanes (fun K => lanes (fun l => f (w * K + l)) w) m s = lanes f (w * m) s := by
  induction m with
  | zero => rfl
  | succ m ih =>
    show lanes (fun l => f (w * m + l)) w (lanes (fun K => lanes (fun l => f (w * K + l)) w) m s)
      = lanes f (w * (m + 1)) s
    rw [ih, Nat.mul_succ, lanes_add]

/-- Blocks followed by the scalar tail leave the buffer the scalar loop leaves,
provided every block does what its `w` scalar iterations do. -/
theorem blocks_then_tail_same {α : Type} (w n : Nat) (hw : 0 < w)
    (pixel block : Nat → Buf α → Buf α) (dst : Buf α)
    (hpix : ∀ i (b b' : Buf α), b.same b' → (pixel i b).same (pixel i b'))
    (hblk : ∀ i (b : Buf α), i + w ≤ n →
      (block i b).same (lanes (fun l => pixel (i + l)) w b)) :
    (for_each n pixel n (for_blocks w n block n 0 dst).1
      (for_blocks w n block n 0 dst).2).same (for_each n pixel n 0 dst) := by
  have hdiv : n / w ≤ n := Nat.div_le_self n w
  rw [for_blocks_eq_lanes w n hw block n 0 dst (by simpa using hdiv) (Nat.zero_le n)]
  simp only [Nat.sub_zero, Nat.zero_add]
  have hle : w * (n / w) ≤ n := Nat.mul_div_le n w
  rw [for_each_eq_lanes n pixel n (w * (n / w)) _ (by omega),
    for_each_eq_lanes n pixel n 0 dst (by omega)]
  simp only [Nat.sub_zero, Nat.zero_add]
  have hsplit : lanes (fun l => pixel l) n dst
      = lanes (fun l => pixel (w * (n / w) + l)) (n - w * (n / w))
          (lanes (fun l => pixel l) (w * (n / w)) dst) := by
    rw [← lanes_add]
    congr 1; omega
  rw [hsplit, ← lanes_flatten]
  apply lanes_same
  · intro l _ c c' hc
    exact hpix _ _ _ hc
  · apply lanes_same
    · intro K hK c c' hc
      have hKw : w * K + w ≤ n := by
        have h1 : K + 1 ≤ n / w := hK
        have h2 : w * (K + 1) ≤ w * (n / w) := Nat.mul_le_mul_left w h1
        rw [Nat.mul_succ] at h2
        omega
      refine same_trans (hblk (w * K) c hKw) ?_
      apply lanes_same
      · intro l _ d d' hd
        exact hpix _ _ _ hd
      · exact hc
    · exact same_refl dst

/-! ## Output size -/

theorem compute_letterbox_frame (fl : ℚ → ℚ) (self : EdgefirstCameraAdaptor) (src_w src_h : Nat) :
    (compute_letterbox fl self src_w src_h).out_width = self.out_width ∧
    (compute_letterbox fl self src_w src_h).out_height = self.out_height ∧
    (compute_letterbox fl self src_w src_h).out_channels = self.out_channels ∧
    (compute_letterbox fl self src_w src_h).colorspace = self.colorspace ∧
    (compute_letterbox fl self src_w src_h).model_width = self.model_width ∧
    (compute_letterbox fl self src_w src_h).model_height = self.model_height := by
  unfold compute_letterbox
  split <;> simp

theorem set_caps_resolved (fl : ℚ → ℚ) (self : EdgefirstCameraAdaptor) (info : GstVideoInfo) :
    (edgefirst_camera_adaptor_set_caps fl self (some info)).2.out_width
      = (if self.model_width > 0 then self.model_width else info.width) ∧
    (edgefirst_camera_adaptor_set_caps fl self (some info)).2.out_height
      = (if self.model_height > 0 then self.model_height else info.height) ∧
    (edgefirst_camera_adaptor_set_caps fl self (some info)).2.out_channels
      = (if self.colorspace = Colorspace.GRAY then 1 else 3) ∧
    (edgefirst_camera_adaptor_set_caps fl self (some info)).2.colorspace = self.colorspace ∧
    (edgefirst_camera_adaptor_set_caps fl self (some info)).2.model_width = self.model_width ∧
    (edgefirst_camera_adaptor_set_caps fl self (some info)).2.model_height
      = self.model_height := by
  simp only [edgefirst_camera_adaptor_set_caps]
  refine ⟨?_, ?_, ?_, ?_, ?_, ?_⟩
  · rw [(compute_letterbox_frame fl _ _ _).1]
  · rw [(compute_letterbox_frame fl _ _ _).2.1]
  · rw [(compute_letterbox_frame fl _ _ _).2.2.1]
  · rw [(compute_letterbox_frame fl _ _ _).2.2.2.1]
  · rw [(compute_letterbox_frame fl _ _ _).2.2.2.2.1]
  · rw [(compute_letterbox_frame fl _ _ _).2.2.2.2.2]

theorem size_product_exact (w h c e : Nat) (hlt : w * h * c < 2 ^ 32) (hc : 1 ≤ c) (he : e ≤ 4) :
    to_gsize (to_guint (to_guint (w * h) * c) * e) = w * h * c * e := by
  unfold to_gsize to_guint
  have h1 : w * h ≤ w * h * c := Nat.le_mul_of_pos_right _ hc
  have h2 : w * h < 2 ^ 32 := lt_of_le_of_lt h1 hlt
  rw [Nat.mod_eq_of_lt h2, Nat.mod_eq_of_lt hlt]
  apply Nat.mod_eq_of_lt
  have : w * h * c * e ≤ w * h * c * 4 := Nat.mul_le_mul_left _ he
  omega

/-- C1: after `set_caps`, with resolved output width `w ≥ 1`, height `h ≥ 1` and
`w * h * channels < 2^32`, `transform_size` (sink direction) and
`prepare_output_buffer` (no persistent buffer) compute exactly
`w * h * channels * element_size` bytes for every dtype and layout the
properties are then set to, `channels` being 1 for GRAY and 3 for RGB/BGR and
`element_size` 4 for float32 and 1 for uint8/int8. -/
theorem output_size_exact (fl : ℚ → ℚ) (self : EdgefirstCameraAdaptor)
    (info : GstVideoInfo) (caps : Option GstVideoInfo) (layout : Layout) (dtype : Dtype)
    (w h : Nat)
    (hres : (edgefirst_camera_adaptor_set_caps fl self (some info)).2.out_width = w ∧
      (edgefirst_camera_adaptor_set_caps fl self (some info)).2.out_height = h)
    (hw : 1 ≤ w) (hh : 1 ≤ h)
    (hlt : w * h * (if self.colorspace = Colorspace.GRAY then 1 else 3) < 2 ^ 32) :
    edgefirst_camera_adaptor_transform_size
        { (edgefirst_camera_adaptor_set_caps fl self (some info)).2 with
          layout := layout, dtype := dtype }
        GstPadDirection.GST_PAD_SINK caps
      = some (w * h * (if self.colorspace = Colorspace.GRAY then 1 else 3) *
          (if dtype = Dtype.FLOAT32 then 4 else 1)) ∧
    edgefirst_camera_adaptor_prepare_output_buffer
        { (edgefirst_camera_adaptor_set_caps fl self (some info)).2 with
          layout := layout, dtype := dtype, out_dmabuf_buf := false }
      = OutputBuffer.allocated (w * h * (if self.colorspace = Colorspace.GRAY then 1 else 3) *
          (if dtype = Dtype.FLOAT32 then 4 else 1)) := by
  obtain ⟨e1, e2, e3, -, -, -⟩ := set_caps_resolved fl self info
  obtain ⟨hw', hh'⟩ := hres
  have hw0 : w ≠ 0 := by omega
  have hh0 : h ≠ 0 := by omega
  have hc : 1 ≤ (if self.colorspace = Colorspace.GRAY then 1 else 3) := by split <;> omega
  have he : (if dtype = Dtype.FLOAT32 then 4 else 1) ≤ 4 := by split <;> omega
  generalize (if self.colorspace = Colorspace.GRAY then 1 else 3) = c at e3 hlt hc ⊢
  generalize hes : (if dtype = Dtype.FLOAT32 then 4 else 1) = es at he ⊢
  constructor
  · simp only [edgefirst_camera_adaptor_transform_size, hw', hh', e3, output_element_size, hes]
    simp [hw0, hh0, size_product_exact _ _ _ _ hlt hc he]
  · simp only [edgefirst_camera_adaptor_prepare_output_buffer, hw', hh', e3,
      output_element_size, hes]
    simp [size_product_exact _ _ _ _ hlt hc he]

theorem output_size_exact_witness :
    edgefirst_camera_adaptor_transform_size
        { (edgefirst_camera_adaptor_set_caps f32_round
            { edgefirst_camera_adaptor_init with model_width := 320, model_height := 240 }
            (some { width := 640, height := 480, format := GstVideoFormat.RGB })).2 with
          layout := Layout.HWC, dtype := Dtype.FLOAT32 }
        GstPadDirection.GST_PAD_SINK none
      = some 921600 ∧
    edgefirst_camera_adaptor_prepare_output_buffer
        { (edgefirst_camera_adaptor_set_caps f32_round
            { edgefirst_camera_adaptor_init with model_width := 320, model_height := 240 }
            (some { width := 640, height := 480, format := GstVideoFormat.RGB })).2 with
          layout := Layout.HWC, dtype := Dtype.FLOAT32, out_dmabuf_buf := false }
      = OutputBuffer.allocated 921600 :=
  output_size_exact f32_round
    { edgefirst_camera_adaptor_init with model_width := 320, model_height := 240 }
    { width := 640, height := 480, format := GstVideoFormat.RGB } none Layout.HWC
    Dtype.FLOAT32 320 240 ⟨by decide, by decide⟩ (by decide) (by decide) (by decide)

/-! ## Kernel shapes -/

/-- The scalar loop of an interleaved kernel. -/
theorem interleaved_scalar_spec {α : Type} (pixel : Nat → Buf α → Buf α)
    (g0 g1 g2 : Nat → α) (n : Nat) (dst : Buf α)
    (hp : ∀ i (b : Buf α), pixel i b
      = ((b.store (i * 3 + 0) (g0 i)).store (i * 3 + 1) (g1 i)).store (i * 3 + 2) (g2 i)) :
    (∀ j, (for_each n pixel n 0 dst).data j
      = if j < 3 * n then
          (if j % 3 = 0 then g0 (j / 3) else if j % 3 = 1 then g1 (j / 3) else g2 (j / 3))
        else dst.data j) ∧
    (∀ j, (for_each n pixel n 0 dst).log.count j
      = dst.log.count j + (if j < 3 * n then 1 else 0)) := by
  have hscalar : for_each n pixel n 0 dst
      = lanes (fun l b => ((b.store (0 + 3 * l) (g0 l)).store (0 + 3 * l + 1)
          (g1 l)).store (0 + 3 * l + 2) (g2 l)) n dst := by
    rw [for_each_eq_lanes n pixel n 0 dst (by omega)]
    congr 1
    funext l b
    have e : (0 + l) * 3 = 0 + 3 * l := by omega
    rw [hp, e, Nat.add_zero, Nat.zero_add l]
  constructor
  · intro j
    rw [hscalar, lanes_interleaved_data]
    simp only [Nat.sub_zero, Nat.zero_add, Nat.zero_le, true_and]
  · intro j
    rw [hscalar, lanes_interleaved_count]
    simp only [Nat.zero_add, Nat.zero_le, true_and]

/-- The vector blocks and tail of an interleaved kernel agree with its scalar
loop. -/
theorem interleaved_neon_same {α : Type} (w : Nat) (hw : 0 < w)
    (pixel block : Nat → Buf α → Buf α) (g0 g1 g2 : Nat → α) (n : Nat) (dst : Buf α)
    (hp : ∀ i (b : Buf α), pixel i b
      = ((b.store (i * 3 + 0) (g0 i)).store (i * 3 + 1) (g1 i)).store (i * 3 + 2) (g2 i))
    (hb : ∀ i (b : Buf α), block i b
      = lanes (fun l b => ((b.store (i * 3 + 3 * l) (g0 (i + l))).store (i * 3 + 3 * l + 1)
          (g1 (i + l))).store (i * 3 + 3 * l + 2) (g2 (i + l))) w b) :
    (for_each n pixel n (for_blocks w n block n 0 dst).1
      (for_blocks w n block n 0 dst).2).same (for_each n pixel n 0 dst) := by
  apply blocks_then_tail_same w n hw
  · intro i b b' h
    rw [hp, hp]
    exact store_same (store_same (store_same h _ _) _ _) _ _
  · intro i b _
    rw [hb]
    have hshift : (fun l => pixel (i + l))
        = (fun l b => ((b.store (i * 3 + 3 * l) (g0 (i + l))).store (i * 3 + 3 * l + 1)
            (g1 (i + l))).store (i * 3 + 3 * l + 2) (g2 (i + l))) := by
      funext l b
      have e : (i + l) * 3 = i * 3 + 3 * l := by omega
      rw [hp, e, Nat.add_zero]
    rw [hshift]
    exact same_refl _

/-- The scalar loop of a planar kernel. -/
theorem planar_scalar_spec {α : Type} (pixel : Nat → Buf α → Buf α)
    (g0 g1 g2 : Nat → α) (n : Nat) (dst : Buf α)
    (hp : ∀ i (b : Buf α), pixel i b
      = ((b.store (0 + i) (g0 i)).store (n + i) (g1 i)).store (n * 2 + i) (g2 i)) :
    (∀ j, (for_each n pixel n 0 dst).data j
      = if j < n then g0 j else if j < 2 * n then g1 (j - n)
        else if j < 3 * n then g2 (j - 2 * n) else dst.data j) ∧
    (∀ j, (for_each n pixel n 0 dst).log.count j
      = dst.log.count j + (if j < 3 * n then 1 else 0)) := by
  have hscalar : for_each n pixel n 0 dst
      = lanes (fun l b => ((b.store (0 + l) (g0 l)).store (n + l)
          (g1 l)).store (n * 2 + l) (g2 l)) n dst := by
    rw [for_each_eq_lanes n pixel n 0 dst (by omega)]
    congr 1
    funext l b
    rw [hp]
    simp only [Nat.zero_add]
  constructor
  · intro j
    rw [hscalar, lanes_planar_data 0 n (n * 2) _ _ _ n dst j (by omega) (by omega)]
    by_cases h0 : j < n
    · have a0 : 0 ≤ j ∧ j < 0 + n := by omega
      simp only [a0, h0, if_true, and_self, Nat.sub_zero]
    · by_cases h1 : j < 2 * n
      · have a0 : ¬ (0 ≤ j ∧ j < 0 + n) := by omega
        have a1 : n ≤ j ∧ j < n + n := by omega
        simp only [a0, a1, h0, h1, if_true, if_false, and_self]
      · by_cases h2 : j < 3 * n
        · have a0 : ¬ (0 ≤ j ∧ j < 0 + n) := by omega
          have a1 : ¬ (n ≤ j ∧ j < n + n) := by omega
          have a2 : n * 2 ≤ j ∧ j < n * 2 + n := by omega
          have e2 : j - n * 2 = j - 2 * n := by omega
          simp only [a0, a1, a2, h0, h1, h2, if_true, if_false, and_self, e2]
        · have a0 : ¬ (0 ≤ j ∧ j < 0 + n) := by omega
          have a1 : ¬ (n ≤ j ∧ j < n + n) := by omega
          have a2 : ¬ (n * 2 ≤ j ∧ j < n * 2 + n) := by omega
          simp only [a0, a1, a2, h0, h1, h2, if_false]
  · intro j
    rw [hscalar, lanes_planar_count 0 n (n * 2) _ _ _ n dst j (by omega) (by omega)]
    have hiff : ((0 ≤ j ∧ j < 0 + n) ∨ (n ≤ j ∧ j < n + n) ∨
        (n * 2 ≤ j ∧ j < n * 2 + n)) ↔ j < 3 * n := by omega
    simp only [hiff]

/-- The vector blocks and tail of a planar kernel agree with its scalar loop. -/
theorem planar_neon_same {α : Type} (w : Nat) (hw : 0 < w)
    (pixel block : Nat → Buf α → Buf α) (g0 g1 g2 : Nat → α) (n : Nat) (dst : Buf α)
    (hp : ∀ i (b : Buf α), pixel i b
      = ((b.store (0 + i) (g0 i)).store (n + i) (g1 i)).store (n * 2 + i) (g2 i))
    (hb : ∀ i (b : Buf α), block i b
      = lanes (fun l b => b.store (n * 2 + i + l) (g2 (i + l))) w
          (lanes (fun l b => b.store (n + i + l) (g1 (i + l))) w
            (lanes (fun l b => b.store (0 + i + l) (g0 (i + l))) w b))) :
    (for_each n pixel n (for_blocks w n block n 0 dst).1
      (for_blocks w n block n 0 dst).2).same (for_each n pixel n 0 dst) := by
  apply blocks_then_tail_same w n hw
  · intro i b b' h
    rw [hp, hp]
    exact store_same (store_same (store_same h _ _) _ _) _ _
  · intro i b hi
    have hshift : (fun l => pixel (i + l))
        = (fun l b => ((b.store (0 + i + l) (g0 (i + l))).store (n + i + l)
            (g1 (i + l))).store (n * 2 + i + l) (g2 (i + l))) := by
      funext l b
      rw [hp, Nat.add_assoc 0 i l, Nat.add_assoc n i l, Nat.add_assoc (n * 2) i l]
    rw [hb, hshift]
    refine ⟨fun j => ?_, fun j => ?_⟩
    · rw [lanes_contig_data, lanes_contig_data, lanes_contig_data,
        lanes_planar_data (0 + i) (n + i) (n * 2 + i) _ _ _ w b j (by omega) (by omega)]
      split_ifs <;> first | rfl | omega
    · rw [lanes_contig_count, lanes_contig_count, lanes_contig_count,
        lanes_planar_count (0 + i) (n + i) (n * 2 + i) _ _ _ w b j (by omega) (by omega)]
      split_ifs <;> omega

/-- The scalar loop of an element-wise kernel. -/
theorem linear_scalar_spec {α : Type} (elem : Nat → Buf α → Buf α) (g : Nat → α)
    (n : Nat) (dst : Buf α) (hp : ∀ i (b : Buf α), elem i b = b.store i (g i)) :
    (∀ j, (for_each n elem n 0 dst).data j = if j < n then g j else dst.data j) ∧
    (∀ j, (for_each n elem n 0 dst).log.count j
      = dst.log.count j + (if j < n then 1 else 0)) := by
  have hscalar : for_each n elem n 0 dst = lanes (fun l b => b.store (0 + l) (g l)) n dst := by
    rw [for_each_eq_lanes n elem n 0 dst (by omega)]
    congr 1
    funext l b
    rw [hp, Nat.zero_add l]
  constructor
  · intro j
    rw [hscalar, lanes_contig_data 0 g n dst j]
    simp only [Nat.sub_zero, Nat.zero_add, Nat.zero_le, true_and]
  · intro j
    rw [hscalar, lanes_contig_count 0 g n dst j]
    simp only [Nat.zero_add, Nat.zero_le, true_and]

/-- The vector blocks and tail of an element-wise kernel agree with its scalar
loop. -/
theorem linear_neon_same {α : Type} (w : Nat) (hw : 0 < w)
    (elem block : Nat → Buf α → Buf α) (g : Nat → α) (n : Nat) (dst : Buf α)
    (hp : ∀ i (b : Buf α), elem i b = b.store i (g i))
    (hb : ∀ i (b : Buf α), block i b = lanes (fun l b => b.store (i + l) (g (i + l))) w b) :
    (for_each n elem n (for_blocks w n block n 0 dst).1
      (for_blocks w n block n 0 dst).2).same (for_each n elem n 0 dst) := by
  apply blocks_then_tail_same w n hw
  · intro i b b' h
    rw [hp, hp]
    exact store_same h _ _
  · intro i b _
    have hshift : (fun l => elem (i + l)) = (fun l b => b.store (i + l) (g (i + l))) := by
      funext l b
      rw [hp]
    rw [hb, hshift]
    exact same_refl _

/-! ## The 8-bit kernels -/

theorem rgba_to_rgb_u8_pixel_shape (src : Nat → Nat) (bgr : Bool) (i : Nat) (b : Buf Nat) :
    rgba_to_rgb_u8_pixel src bgr i b
      = ((b.store (i * 3 + 0) (src (i * 4 + (if bgr then 2 else 0)))).store (i * 3 + 1)
          (src (i * 4 + 1))).store (i * 3 + 2) (src (i * 4 + (if bgr then 0 else 2))) := by
  cases bgr <;> rfl

theorem rgba_to_rgb_u8_block_shape (src : Nat → Nat) (bgr : Bool) (i : Nat) (b : Buf Nat) :
    rgba_to_rgb_u8_block src bgr i b
      = lanes (fun l b => ((b.store (i * 3 + 3 * l)
          (src ((i + l) * 4 + (if bgr then 2 else 0)))).store (i * 3 + 3 * l + 1)
          (src ((i + l) * 4 + 1))).store (i * 3 + 3 * l + 2)
          (src ((i + l) * 4 + (if bgr then 0 else 2)))) 16 b := by
  have e : ∀ l, i * 4 + 4 * l = (i + l) * 4 := fun l => by omega
  cases bgr <;>
    simp only [rgba_to_rgb_u8_block, vst3q_u8, vld4q_u8, e, Bool.false_eq_true, if_false,
      if_true, Nat.add_zero]

/-- Contents and store counts after `edgefirst_neon_rgba_to_rgb_u8`, either
compile-time variant. -/
theorem rgba_to_rgb_u8_spec (arm_neon : Bool) (src : Nat → Nat) (dst : Buf Nat) (n : Nat)
    (bgr : Bool) :
    (∀ j, (edgefirst_neon_rgba_to_rgb_u8 arm_neon src dst n bgr).data j
      = if j < 3 * n then
          (if j % 3 = 0 then src (j / 3 * 4 + (if bgr then 2 else 0))
            else if j % 3 = 1 then src (j / 3 * 4 + 1)
            else src (j / 3 * 4 + (if bgr then 0 else 2)))
        else dst.data j) ∧
    (∀ j, (edgefirst_neon_rgba_to_rgb_u8 arm_neon src dst n bgr).log.count j
      = dst.log.count j + (if j < 3 * n then 1 else 0)) := by
  have hs := interleaved_scalar_spec (rgba_to_rgb_u8_pixel src bgr) _ _ _ n dst
    (rgba_to_rgb_u8_pixel_shape src bgr)
  have hn := interleaved_neon_same 16 (by omega) (rgba_to_rgb_u8_pixel src bgr)
    (rgba_to_rgb_u8_block src bgr) _ _ _ n dst (rgba_to_rgb_u8_pixel_shape src bgr)
    (rgba_to_rgb_u8_block_shape src bgr)
  cases arm_neon
  · exact hs
  · exact ⟨fun j => (hn.1 j).trans (hs.1 j), fun j => (hn.2 j).trans (hs.2 j)⟩

theorem rgba_to_rgb_i8_pixel_shape (src : Nat → Nat) (bgr : Bool) (i : Nat) (b : Buf Nat) :
    rgba_to_rgb_i8_pixel src bgr i b
      = ((b.store (i * 3 + 0) ((src (i * 4 + (if bgr then 2 else 0)) ^^^ 0x80) % 256)).store
          (i * 3 + 1) ((src (i * 4 + 1) ^^^ 0x80) % 256)).store (i * 3 + 2)
          ((src (i * 4 + (if bgr then 0 else 2)) ^^^ 0x80) % 256) := by
  cases bgr <;> rfl

theorem rgba_to_rgb_i8_block_shape (src : Nat → Nat) (bgr : Bool) (i : Nat) (b : Buf Nat) :
    rgba_to_rgb_i8_block src bgr i b
      = lanes (fun l b => ((b.store (i * 3 + 3 * l)
          ((src ((i + l) * 4 + (if bgr then 2 else 0)) ^^^ 0x80) % 256)).store
          (i * 3 + 3 * l + 1) ((src ((i + l) * 4 + 1) ^^^ 0x80) % 256)).store
          (i * 3 + 3 * l + 2)
          ((src ((i + l) * 4 + (if bgr then 0 else 2)) ^^^ 0x80) % 256)) 16 b := by
  have e : ∀ l, i * 4 + 4 * l = (i + l) * 4 := fun l => by omega
  cases bgr <;>
    simp only [rgba_to_rgb_i8_block, vst3q_u8, vld4q_u8, veorq_u8, vdupq_n_u8, e,
      Bool.false_eq_true, if_false, if_true, Nat.add_zero]

/-- Contents and store counts after `edgefirst_neon_rgba_to_rgb_i8`. -/
theorem rgba_to_rgb_i8_spec (arm_neon : Bool) (src : Nat → Nat) (dst : Buf Nat) (n : Nat)
    (bgr : Bool) :
    (∀ j, (edgefirst_neon_rgba_to_rgb_i8 arm_neon src dst n bgr).data j
      = if j < 3 * n then
          (if j % 3 = 0 then (src (j / 3 * 4 + (if bgr then 2 else 0)) ^^^ 0x80) % 256
            else if j % 3 = 1 then (src (j / 3 * 4 + 1) ^^^ 0x80) % 256
            else (src (j / 3 * 4 + (if bgr then 0 else 2)) ^^^ 0x80) % 256)
        else dst.data j) ∧
    (∀ j, (edgefirst_neon_rgba_to_rgb_i8 arm_neon src dst n bgr).log.count j
      = dst.log.count j + (if j < 3 * n then 1 else 0)) := by
  have hs := interleaved_scalar_spec (rgba_to_rgb_i8_pixel src bgr) _ _ _ n dst
    (rgba_to_rgb_i8_pixel_shape src bgr)
  have hn := interleaved_neon_same 16 (by omega) (rgba_to_rgb_i8_pixel src bgr)
    (rgba_to_rgb_i8_block src bgr) _ _ _ n dst (rgba_to_rgb_i8_pixel_shape src bgr)
    (rgba_to_rgb_i8_block_shape src bgr)
  cases arm_neon
  · exact hs
  · exact ⟨fun j => (hn.1 j).trans (hs.1 j), fun j => (hn.2 j).trans (hs.2 j)⟩

theorem rgba_to_planar_u8_pixel_shape (src : Nat → Nat) (n : Nat) (bgr : Bool) (i : Nat)
    (b : Buf Nat) :
    rgba_to_planar_u8_pixel src 0 n (n * 2) bgr i b
      = ((b.store (0 + i) (src (i * 4 + (if bgr then 2 else 0)))).store (n + i)
          (src (i * 4 + 1))).store (n * 2 + i) (src (i * 4 + (if bgr then 0 else 2))) := by
  cases bgr <;> rfl

theorem rgba_to_planar_u8_block_shape (src : Nat → Nat) (n : Nat) (bgr : Bool) (i : Nat)
    (b : Buf Nat) :
    rgba_to_planar_u8_block src 0 n (n * 2) bgr i b
      = lanes (fun l b => b.store (n * 2 + i + l)
            (src ((i + l) * 4 + (if bgr then 0 else 2)))) 16
          (lanes (fun l b => b.store (n + i + l) (src ((i + l) * 4 + 1))) 16
            (lanes (fun l b => b.store (0 + i + l)
              (src ((i + l) * 4 + (if bgr then 2 else 0)))) 16 b)) := by
  have e : ∀ l, i * 4 + 4 * l = (i + l) * 4 := fun l => by omega
  cases bgr <;>
    simp only [rgba_to_planar_u8_block, vst1q_u8, vld4q_u8, e, Bool.false_eq_true, if_false,
      if_true, Nat.add_zero]

/-- Contents and store counts after `edgefirst_neon_rgba_to_planar_u8`. -/
theorem rgba_to_planar_u8_spec (arm_neon : Bool) (src : Nat → Nat) (dst : Buf Nat) (n : Nat)
    (bgr : Bool) :
    (∀ j, (edgefirst_neon_rgba_to_planar_u8 arm_neon src dst n bgr).data j
      = if j < n then src (j * 4 + (if bgr then 2 else 0))
        else if j < 2 * n then src ((j - n) * 4 + 1)
        else if j < 3 * n then src ((j - 2 * n) * 4 + (if bgr then 0 else 2))
        else dst.data j) ∧
    (∀ j, (edgefirst_neon_rgba_to_planar_u8 arm_neon src dst n bgr).log.count j
      = dst.log.count j + (if j < 3 * n then 1 else 0)) := by
  have hs := planar_scalar_spec (rgba_to_planar_u8_pixel src 0 n (n * 2) bgr) _ _ _ n dst
    (rgba_to_planar_u8_pixel_shape src n bgr)
  have hn := planar_neon_same 16 (by omega) (rgba_to_planar_u8_pixel src 0 n (n * 2) bgr)
    (rgba_to_planar_u8_block src 0 n (n * 2) bgr) _ _ _ n dst
    (rgba_to_planar_u8_pixel_shape src n bgr) (rgba_to_planar_u8_block_shape src n bgr)
  cases arm_neon
  · exact hs
  · exact ⟨fun j => (hn.1 j).trans (hs.1 j), fun j => (hn.2 j).trans (hs.2 j)⟩

theorem rgba_to_planar_i8_pixel_shape (src : Nat → Nat) (n : Nat) (bgr : Bool) (i : Nat)
    (b : Buf Nat) :
    rgba_to_planar_i8_pixel src 0 n (n * 2) bgr i b
      = ((b.store (0 + i) ((src (i * 4 + (if bgr then 2 else 0)) ^^^ 0x80) % 256)).store
          (n + i) ((src (i * 4 + 1) ^^^ 0x80) % 256)).store (n * 2 + i)
          ((src (i * 4 + (if bgr then 0 else 2)) ^^^ 0x80) % 256) := by
  cases bgr <;> rfl

theorem rgba_to_planar_i8_block_shape (src : Nat → Nat) (n : Nat) (bgr : Bool) (i : Nat)
    (b : Buf Nat) :
    rgba_to_planar_i8_block src 0 n (n * 2) bgr i b
      = lanes (fun l b => b.store (n * 2 + i + l)
            ((src ((i + l) * 4 + (if bgr then 0 else 2)) ^^^ 0x80) % 256)) 16
          (lanes (fun l b => b.store (n + i + l) ((src ((i + l) * 4 + 1) ^^^ 0x80) % 256)) 16
            (lanes (fun l b => b.store (0 + i + l)
              ((src ((i + l) * 4 + (if bgr then 2 else 0)) ^^^ 0x80) % 256)) 16 b)) := by
  have e : ∀ l, i * 4 + 4 * l = (i + l) * 4 := fun l => by omega
  cases bgr <;>
    simp only [rgba_to_planar_i8_block, vst1q_u8, vld4q_u8, veorq_u8, vdupq_n_u8, e,
      Bool.false_eq_true, if_false, if_true, Nat.add_zero]

/-- Contents and store counts after `edgefirst_neon_rgba_to_planar_i8`. -/
theorem rgba_to_planar_i8_spec (arm_neon : Bool) (src : Nat → Nat) (dst : Buf Nat) (n : Nat)
    (bgr : Bool) :
    (∀ j, (edgefirst_neon_rgba_to_planar_i8 arm_neon src dst n bgr).data j
      = if j < n then (src (j * 4 + (if bgr then 2 else 0)) ^^^ 0x80) % 256
        else if j < 2 * n then (src ((j - n) * 4 + 1) ^^^ 0x80) % 256
        else if j < 3 * n then (src ((j - 2 * n) * 4 + (if bgr then 0 else 2)) ^^^ 0x80) % 256
        else dst.data j) ∧
    (∀ j, (edgefirst_neon_rgba_to_planar_i8 arm_neon src dst n bgr).log.count j
      = dst.log.count j + (if j < 3 * n then 1 else 0)) := by
  have hs := planar_scalar_spec (rgba_to_planar_i8_pixel src 0 n (n * 2) bgr) _ _ _ n dst
    (rgba_to_planar_i8_pixel_shape src n bgr)
  have hn := planar_neon_same 16 (by omega) (rgba_to_planar_i8_pixel src 0 n (n * 2) bgr)
    (rgba_to_planar_i8_block src 0 n (n * 2) bgr) _ _ _ n dst
    (rgba_to_planar_i8_pixel_shape src n bgr) (rgba_to_planar_i8_block_shape src n bgr)
  cases arm_neon
  · exact hs
  · exact ⟨fun j => (hn.1 j).trans (hs.1 j), fun j => (hn.2 j).trans (hs.2 j)⟩

/-- Contents and store counts after `edgefirst_neon_planar_u8_to_i8`. -/
theorem planar_u8_to_i8_spec (arm_neon : Bool) (src : Nat → Nat) (dst : Buf Nat)
    (n : Nat) :
    (∀ j, (edgefirst_neon_planar_u8_to_i8 arm_neon src dst n).data j
      = if j < n then (src j ^^^ 0x80) % 256 else dst.data j) ∧
    (∀ j, (edgefirst_neon_planar_u8_to_i8 arm_neon src dst n).log.count j
      = dst.log.count j + (if j < n then 1 else 0)) := by
  have hs := linear_scalar_spec (planar_u8_to_i8_elem src) (fun i => (src i ^^^ 0x80) % 256)
    n dst (fun _ _ => rfl)
  have hn := linear_neon_same 16 (by omega) (planar_u8_to_i8_elem src)
    (planar_u8_to_i8_block src) (fun i => (src i ^^^ 0x80) % 256) n dst (fun _ _ => rfl)
    (fun _ _ => rfl)
  cases arm_neon
  · exact hs
  · exact ⟨fun j => (hn.1 j).trans (hs.1 j), fun j => (hn.2 j).trans (hs.2 j)⟩

/-! ## The float kernels, scalar path -/

theorem rgba_to_rgb_f32_pixel_shape (fl : ℚ → ℚ) (src : Nat → Nat) (mean std : Fin 3 → ℚ)
    (bgr : Bool) (i : Nat) (b : Buf ℚ) :
    rgba_to_rgb_f32_pixel fl src mean std bgr i b
      = ((b.store (i * 3 + 0)
          (normalize_f32 fl (src (i * 4 + (if bgr then 2 else 0))) (mean 0) (std 0))).store
          (i * 3 + 1) (normalize_f32 fl (src (i * 4 + 1)) (mean 1) (std 1))).store (i * 3 + 2)
          (normalize_f32 fl (src (i * 4 + (if bgr then 0 else 2))) (mean 2) (std 2)) := by
  cases bgr <;> rfl

/-- Contents and store counts after the scalar `edgefirst_neon_rgba_to_rgb_f32`. -/
theorem rgba_to_rgb_f32_scalar_spec (fl : ℚ → ℚ) (src : Nat → Nat) (dst : Buf ℚ) (n : Nat)
    (mean std : Fin 3 → ℚ) (bgr : Bool) :
    (∀ j, (edgefirst_neon_rgba_to_rgb_f32 false fl src dst n mean std bgr).data j
      = if j < 3 * n then
          (if j % 3 = 0 then
              normalize_f32 fl (src (j / 3 * 4 + (if bgr then 2 else 0))) (mean 0) (std 0)
            else if j % 3 = 1 then normalize_f32 fl (src (j / 3 * 4 + 1)) (mean 1) (std 1)
            else normalize_f32 fl (src (j / 3 * 4 + (if bgr then 0 else 2))) (mean 2) (std 2))
        else dst.data j) ∧
    (∀ j, (edgefirst_neon_rgba_to_rgb_f32 false fl src dst n mean std bgr).log.count j
      = dst.log.count j + (if j < 3 * n then 1 else 0)) :=
  interleaved_scalar_spec (rgba_to_rgb_f32_pixel fl src mean std bgr) _ _ _ n dst
    (rgba_to_rgb_f32_pixel_shape fl src mean std bgr)

theorem rgba_to_planar_f32_pixel_shape (fl : ℚ → ℚ) (src : Nat → Nat) (n : Nat)
    (mean std : Fin 3 → ℚ) (bgr : Bool) (i : Nat) (b : Buf ℚ) :
    rgba_to_planar_f32_pixel fl src 0 n (n * 2) mean std bgr i b
      = ((b.store (0 + i)
          (normalize_f32 fl (src (i * 4 + (if bgr then 2 else 0))) (mean 0) (std 0))).store
          (n + i) (normalize_f32 fl (src (i * 4 + 1)) (mean 1) (std 1))).store (n * 2 + i)
          (normalize_f32 fl (src (i * 4 + (if bgr then 0 else 2))) (mean 2) (std 2)) := by
  cases bgr <;> rfl

/-- Contents and store counts after the scalar `edgefirst_neon_rgba_to_planar_f32`. -/
theorem rgba_to_planar_f32_scalar_spec (fl : ℚ → ℚ) (src : Nat → Nat) (dst : Buf ℚ)
    (n : Nat) (mean std : Fin 3 → ℚ) (bgr : Bool) :
    (∀ j, (edgefirst_neon_rgba_to_planar_f32 false fl src dst n mean std bgr).data j
      = if j < n then
          normalize_f32 fl (src (j * 4 + (if bgr then 2 else 0))) (mean 0) (std 0)
        else if j < 2 * n then normalize_f32 fl (src ((j - n) * 4 + 1)) (mean 1) (std 1)
        else if j < 3 * n then
          normalize_f32 fl (src ((j - 2 * n) * 4 + (if bgr then 0 else 2))) (mean 2) (std 2)
        else dst.data j) ∧
    (∀ j, (edgefirst_neon_rgba_to_planar_f32 false fl src dst n mean std bgr).log.count j
      = dst.log.count j + (if j < 3 * n then 1 else 0)) :=
  planar_scalar_spec (rgba_to_planar_f32_pixel fl src 0 n (n * 2) mean std bgr) _ _ _ n dst
    (rgba_to_planar_f32_pixel_shape fl src n mean std bgr)

/-! ## The float kernels, vector path -/

/-- Blocks computed by one per-element rule followed by a tail computed by
another leave the buffer the element-wise loop leaves that switches rule at the
end of the last whole block. -/
theorem blocks_then_tail_hybrid {α : Type} (w n : Nat) (hw : 0 < w)
    (pixelS pixelV block : Nat → Buf α → Buf α) (dst : Buf α)
    (hpixS : ∀ i (b b' : Buf α), b.same b' → (pixelS i b).same (pixelS i b'))
    (hpixV : ∀ i (b b' : Buf α), b.same b' → (pixelV i b).same (pixelV i b'))
    (hblk : ∀ i (b : Buf α), i + w ≤ n →
      (block i b).same (lanes (fun l => pixelV (i + l)) w b)) :
    (for_each n pixelS n (for_blocks w n block n 0 dst).1
      (for_blocks w n block n 0 dst).2).same
      (lanes (fun l => if l < w * (n / w) then pixelV l else pixelS l) n dst) := by
  have hdiv : n / w ≤ n := Nat.div_le_self n w
  rw [for_blocks_eq_lanes w n hw block n 0 dst (by simpa using hdiv) (Nat.zero_le n)]
  simp only [Nat.sub_zero, Nat.zero_add]
  have hle : w * (n / w) ≤ n := Nat.mul_div_le n w
  rw [for_each_eq_lanes n pixelS n (w * (n / w)) _ (by omega)]
  have hsplit : lanes (fun l => if l < w * (n / w) then pixelV l else pixelS l) n dst
      = lanes (fun l => if w * (n / w) + l < w * (n / w) then pixelV (w * (n / w) + l)
            else pixelS (w * (n / w) + l)) (n - w * (n / w))
          (lanes (fun l => if l < w * (n / w) then pixelV l else pixelS l)
            (w * (n / w)) dst) := by
    rw [← lanes_add (fun l => if l < w * (n / w) then pixelV l else pixelS l)]
    congr 1; omega
  rw [hsplit]
  apply lanes_same
  · intro l _ c c' hc
    rw [if_neg (by omega)]
    exact hpixS _ _ _ hc
  · have hflat : (lanes (fun K => block (w * K)) (n / w) dst).same
        (lanes pixelV (w * (n / w)) dst) := by
      rw [← lanes_flatten]
      apply lanes_same
      · intro K hK c c' hc
        have hKw : w * K + w ≤ n := by
          have h1 : K + 1 ≤ n / w := hK
          have h2 : w * (K + 1) ≤ w * (n / w) := Nat.mul_le_mul_left w h1
          rw [Nat.mul_succ] at h2
          omega
        refine same_trans (hblk (w * K) c hKw) ?_
        apply lanes_same
        · intro l _ d d' hd
          exact hpixV _ _ _ hd
        · exact hc
      · exact same_refl dst
    refine same_trans hflat ?_
    apply lanes_same
    · intro l hl c c' hc
      rw [if_pos hl]
      exact hpixV _ _ _ hc
    · exact same_refl dst

theorem rgba_to_rgb_f32_block_shape (fl : ℚ → ℚ) (src : Nat → Nat) (mean std : Fin 3 → ℚ)
    (bgr : Bool) (i : Nat) (b : Buf ℚ) :
    rgba_to_rgb_f32_block fl src mean std bgr i b
      = lanes (fun l b => ((b.store ((i + l) * 3 + 0)
          (normalize_f32_vec fl (src ((i + l) * 4 + (if bgr then 2 else 0))) (mean 0)
            (std 0))).store ((i + l) * 3 + 1)
          (normalize_f32_vec fl (src ((i + l) * 4 + 1)) (mean 1) (std 1))).store
          ((i + l) * 3 + 2)
          (normalize_f32_vec fl (src ((i + l) * 4 + (if bgr then 0 else 2))) (mean 2)
            (std 2))) 8 b := by
  have e4 : ∀ l, i * 4 + 4 * l = (i + l) * 4 := fun l => by omega
  have e3 : ∀ l, i * 3 + 3 * l = (i + l) * 3 := fun l => by omega
  have h4 : ∀ l, (i + (l + 4)) * 4 = (i + (4 + l)) * 4 := fun l => by omega
  have h3 : ∀ l, (i + 4) * 3 + 3 * l = (i + (4 + l)) * 3 := fun l => by omega
  rw [show (8 : Nat) = 4 + 4 from rfl, lanes_add]
  cases bgr <;>
    simp only [rgba_to_rgb_f32_block, vst3q_f32, vld4q_u8, normalize_f32_lanes,
      normalize_f32_vec, widen_low_to_f32, widen_high_to_f32, vmlsq_f32, vmulq_f32,
      vdupq_n_f32, e4, e3, h4, h3, Bool.false_eq_true, if_false, if_true, Nat.add_zero]

theorem lanes_eq_for_each {σ : Type} (n : Nat) (body : Nat → σ → σ) (s : σ) :
    lanes body n s = for_each n body n 0 s := by
  rw [for_each_eq_lanes n body n 0 s (by omega)]
  simp only [Nat.sub_zero, Nat.zero_add]

/-- The vector blocks and scalar tail of an interleaved kernel whose vector
lanes compute `v0 v1 v2` and whose scalar body computes `g0 g1 g2`. -/
theorem interleaved_hybrid_spec {α : Type} (w : Nat) (hw : 0 < w)
    (pixel block : Nat → Buf α → Buf α) (g0 g1 g2 v0 v1 v2 : Nat → α) (n : Nat)
    (dst : Buf α)
    (hp : ∀ i (b : Buf α), pixel i b
      = ((b.store (i * 3 + 0) (g0 i)).store (i * 3 + 1) (g1 i)).store (i * 3 + 2) (g2 i))
    (hb : ∀ i (b : Buf α), block i b
      = lanes (fun l b => ((b.store ((i + l) * 3 + 0) (v0 (i + l))).store ((i + l) * 3 + 1)
          (v1 (i + l))).store ((i + l) * 3 + 2) (v2 (i + l))) w b) :
    (∀ j, (for_each n pixel n (for_blocks w n block n 0 dst).1
        (for_blocks w n block n 0 dst).2).data j
      = if j < 3 * n then
          (if j % 3 = 0 then (if j / 3 < w * (n / w) then v0 (j / 3) else g0 (j / 3))
            else if j % 3 = 1 then (if j / 3 < w * (n / w) then v1 (j / 3) else g1 (j / 3))
            else (if j / 3 < w * (n / w) then v2 (j / 3) else g2 (j / 3)))
        else dst.data j) ∧
    (∀ j, (for_each n pixel n (for_blocks w n block n 0 dst).1
        (for_blocks w n block n 0 dst).2).log.count j
      = dst.log.count j + (if j < 3 * n then 1 else 0)) := by
  have hsame := blocks_then_tail_hybrid w n hw pixel
    (fun i b => ((b.store (i * 3 + 0) (v0 i)).store (i * 3 + 1) (v1 i)).store (i * 3 + 2)
      (v2 i)) block dst
    (fun i b b' h => by
      rw [hp, hp]
      exact store_same (store_same (store_same h _ _) _ _) _ _)
    (fun i b b' h => store_same (store_same (store_same h _ _) _ _) _ _)
    (fun i b _ => by rw [hb]; exact same_refl _)
  rw [lanes_eq_for_each] at hsame
  obtain ⟨hd, hc⟩ := interleaved_scalar_spec
    (fun l => if l < w * (n / w) then
      (fun b => ((b.store (l * 3 + 0) (v0 l)).store (l * 3 + 1) (v1 l)).store (l * 3 + 2)
        (v2 l)) else pixel l)
    (fun i => if i < w * (n / w) then v0 i else g0 i)
    (fun i => if i < w * (n / w) then v1 i else g1 i)
    (fun i => if i < w * (n / w) then v2 i else g2 i) n dst
    (fun i b => by
      by_cases h : i < w * (n / w)
      · simp only [if_pos h]
      · simp only [if_neg h]
        exact hp i b)
  exact ⟨fun j => (hsame.1 j).trans (hd j), fun j => (hsame.2 j).trans (hc j)⟩

/-- The vector blocks and scalar tail of a planar kernel whose vector lanes
compute `v0 v1 v2` and whose scalar body computes `g0 g1 g2`. -/
theorem planar_hybrid_spec {α : Type} (w : Nat) (hw : 0 < w)
    (pixel block : Nat → Buf α → Buf α) (g0 g1 g2 v0 v1 v2 : Nat → α) (n : Nat)
    (dst : Buf α)
    (hp : ∀ i (b : Buf α), pixel i b
      = ((b.store (0 + i) (g0 i)).store (n + i) (g1 i)).store (n * 2 + i) (g2 i))
    (hb : ∀ i (b : Buf α), block i b
      = lanes (fun l b => b.store (n * 2 + i + l) (v2 (i + l))) w
          (lanes (fun l b => b.store (n + i + l) (v1 (i + l))) w
            (lanes (fun l b => b.store (0 + i + l) (v0 (i + l))) w b))) :
    (∀ j, (for_each n pixel n (for_blocks w n block n 0 dst).1
        (for_blocks w n block n 0 dst).2).data j
      = if j < n then (if j < w * (n / w) then v0 j else g0 j)
        else if j < 2 * n then (if j - n < w * (n / w) then v1 (j - n) else g1 (j - n))
        else if j < 3 * n then
          (if j - 2 * n < w * (n / w) then v2 (j - 2 * n) else g2 (j - 2 * n))
        else dst.data j) ∧
    (∀ j, (for_each n pixel n (for_blocks w n block n 0 dst).1
        (for_blocks w n block n 0 dst).2).log.count j
      = dst.log.count j + (if j < 3 * n then 1 else 0)) := by
  have hsame := blocks_then_tail_hybrid w n hw pixel
    (fun i b => ((b.store (0 + i) (v0 i)).store (n + i) (v1 i)).store (n * 2 + i) (v2 i))
    block dst
    (fun i b b' h => by
      rw [hp, hp]
      exact store_same (store_same (store_same h _ _) _ _) _ _)
    (fun i b b' h => store_same (store_same (store_same h _ _) _ _) _ _)
    (fun i b hi => by
      have hshift : (fun l b => ((b.store (0 + (i + l)) (v0 (i + l))).store (n + (i + l))
            (v1 (i + l))).store (n * 2 + (i + l)) (v2 (i + l)))
          = (fun l (b : Buf α) => ((b.store (0 + i + l) (v0 (i + l))).store (n + i + l)
            (v1 (i + l))).store (n * 2 + i + l) (v2 (i + l))) := by
        funext l b
        rw [Nat.add_assoc 0 i l, Nat.add_assoc n i l, Nat.add_assoc (n * 2) i l]
      rw [hb, hshift]
      refine ⟨fun j => ?_, fun j => ?_⟩
      · rw [lanes_contig_data, lanes_contig_data, lanes_contig_data,
          lanes_planar_data (0 + i) (n + i) (n * 2 + i) _ _ _ w b j (by omega) (by omega)]
        split_ifs <;> first | rfl | omega
      · rw [lanes_contig_count, lanes_contig_count, lanes_contig_count,
          lanes_planar_count (0 + i) (n + i) (n * 2 + i) _ _ _ w b j (by omega) (by omega)]
        split_ifs <;> omega)
  rw [lanes_eq_for_each] at hsame
  obtain ⟨hd, hc⟩ := planar_scalar_spec
    (fun l => if l < w * (n / w) then
      (fun b => ((b.store (0 + l) (v0 l)).store (n + l) (v1 l)).store (n * 2 + l) (v2 l))
      else pixel l)
    (fun i => if i < w * (n / w) then v0 i else g0 i)
    (fun i => if i < w * (n / w) then v1 i else g1 i)
    (fun i => if i < w * (n / w) then v2 i else g2 i) n dst
    (fun i b => by
      by_cases h : i < w * (n / w)
      · simp only [if_pos h]
      · simp only [if_neg h]
        exact hp i b)
  exact ⟨fun j => (hsame.1 j).trans (hd j), fun j => (hsame.2 j).trans (hc j)⟩

theorem rgba_to_planar_f32_block_shape (fl : ℚ → ℚ) (src : Nat → Nat) (n : Nat)
    (mean std : Fin 3 → ℚ) (bgr : Bool) (i : Nat) (b : Buf ℚ) :
    rgba_to_planar_f32_block fl src 0 n (n * 2) mean std bgr i b
      = lanes (fun l b => b.store (n * 2 + i + l)
          (normalize_f32_vec fl (src ((i + l) * 4 + (if bgr then 0 else 2))) (mean 2)
            (std 2))) 8
          (lanes (fun l b => b.store (n + i + l)
            (normalize_f32_vec fl (src ((i + l) * 4 + 1)) (mean 1) (std 1))) 8
            (lanes (fun l b => b.store (0 + i + l)
              (normalize_f32_vec fl (src ((i + l) * 4 + (if bgr then 2 else 0))) (mean 0)
                (std 0))) 8 b)) := by
  have e4 : ∀ l, i * 4 + 4 * l = (i + l) * 4 := fun l => by omega
  have h4 : ∀ l, (i + (l + 4)) * 4 = (i + (4 + l)) * 4 := fun l => by omega
  have a0 : ∀ l, 0 + i + 4 + l = 0 + i + (4 + l) := fun l => by omega
  have a1 : ∀ l, n + i + 4 + l = n + i + (4 + l) := fun l => by omega
  have a2 : ∀ l, n * 2 + i + 4 + l = n * 2 + i + (4 + l) := fun l => by omega
  rw [show (8 : Nat) = 4 + 4 from rfl, lanes_add, lanes_add, lanes_add]
  cases bgr <;>
    simp only [rgba_to_planar_f32_block, vst1q_f32, vld4q_u8, normalize_f32_lanes,
      normalize_f32_vec, widen_low_to_f32, widen_high_to_f32, vmlsq_f32, vmulq_f32,
      vdupq_n_f32, e4, h4, a0, a1, a2, Bool.false_eq_true, if_false, if_true, Nat.add_zero]

/-- Contents and store counts after the vector path of
`edgefirst_neon_rgba_to_rgb_f32`: pixels of whole blocks of 8 hold the vector
expression, the remaining pixels the scalar one. -/
theorem rgba_to_rgb_f32_neon_spec (fl : ℚ → ℚ) (src : Nat → Nat) (dst : Buf ℚ) (n : Nat)
    (mean std : Fin 3 → ℚ) (bgr : Bool) :
    (∀ j, (edgefirst_neon_rgba_to_rgb_f32 true fl src dst n mean std bgr).data j
      = if j < 3 * n then
          (if j % 3 = 0 then
              (if j / 3 < 8 * (n / 8) then
                normalize_f32_vec fl (src (j / 3 * 4 + (if bgr then 2 else 0))) (mean 0) (std 0)
              else
                normalize_f32 fl (src (j / 3 * 4 + (if bgr then 2 else 0))) (mean 0) (std 0))
            else if j % 3 = 1 then
              (if j / 3 < 8 * (n / 8) then
                normalize_f32_vec fl (src (j / 3 * 4 + 1)) (mean 1) (std 1)
              else normalize_f32 fl (src (j / 3 * 4 + 1)) (mean 1) (std 1))
            else
              (if j / 3 < 8 * (n / 8) then
                normalize_f32_vec fl (src (j / 3 * 4 + (if bgr then 0 else 2))) (mean 2) (std 2)
              else
                normalize_f32 fl (src (j / 3 * 4 + (if bgr then 0 else 2))) (mean 2) (std 2)))
        else dst.data j) ∧
    (∀ j, (edgefirst_neon_rgba_to_rgb_f32 true fl src dst n mean std bgr).log.count j
      = dst.log.count j + (if j < 3 * n then 1 else 0)) :=
  interleaved_hybrid_spec 8 (by decide) (rgba_to_rgb_f32_pixel fl src mean std bgr)
    (rgba_to_rgb_f32_block fl src mean std bgr) _ _ _
    (fun i => normalize_f32_vec fl (src (i * 4 + (if bgr then 2 else 0))) (mean 0) (std 0))
    (fun i => normalize_f32_vec fl (src (i * 4 + 1)) (mean 1) (std 1))
    (fun i => normalize_f32_vec fl (src (i * 4 + (if bgr then 0 else 2))) (mean 2) (std 2))
    n dst (rgba_to_rgb_f32_pixel_shape fl src mean std bgr)
    (rgba_to_rgb_f32_block_shape fl src mean std bgr)

/-- Contents and store counts after the vector path of
`edgefirst_neon_rgba_to_planar_f32`. -/
theorem rgba_to_planar_f32_neon_spec (fl : ℚ → ℚ) (src : Nat → Nat) (dst : Buf ℚ)
    (n : Nat) (mean std : Fin 3 → ℚ) (bgr : Bool) :
    (∀ j, (edgefirst_neon_rgba_to_planar_f32 true fl src dst n mean std bgr).data j
      = if j < n then
          (if j < 8 * (n / 8) then
            normalize_f32_vec fl (src (j * 4 + (if bgr then 2 else 0))) (mean 0) (std 0)
          else normalize_f32 fl (src (j * 4 + (if bgr then 2 else 0))) (mean 0) (std 0))
        else if j < 2 * n then
          (if j - n < 8 * (n / 8) then
            normalize_f32_vec fl (src ((j - n) * 4 + 1)) (mean 1) (std 1)
          else normalize_f32 fl (src ((j - n) * 4 + 1)) (mean 1) (std 1))
        else if j < 3 * n then
          (if j - 2 * n < 8 * (n / 8) then
            normalize_f32_vec fl (src ((j - 2 * n) * 4 + (if bgr then 0 else 2))) (mean 2)
              (std 2)
          else
            normalize_f32 fl (src ((j - 2 * n) * 4 + (if bgr then 0 else 2))) (mean 2) (std 2))
        else dst.data j) ∧
    (∀ j, (edgefirst_neon_rgba_to_planar_f32 true fl src dst n mean std bgr).log.count j
      = dst.log.count j + (if j < 3 * n then 1 else 0)) :=
  planar_hybrid_spec 8 (by decide)
    (rgba_to_planar_f32_pixel fl src 0 n (n * 2) mean std bgr)
    (rgba_to_planar_f32_block fl src 0 n (n * 2) mean std bgr) _ _ _
    (fun i => normalize_f32_vec fl (src (i * 4 + (if bgr then 2 else 0))) (mean 0) (std 0))
    (fun i => normalize_f32_vec fl (src (i * 4 + 1)) (mean 1) (std 1))
    (fun i => normalize_f32_vec fl (src (i * 4 + (if bgr then 0 else 2))) (mean 2) (std 2))
    n dst (rgba_to_planar_f32_pixel_shape fl src n mean std bgr)
    (rgba_to_planar_f32_block_shape fl src n mean std bgr)

/-- On either path the float planar kernel's output is the channel-major
rearrangement of the float interleaved kernel's output on the same path. -/
theorem planar_f32_rearranged (af : Bool) (fl : ℚ → ℚ) (src : Nat → Nat)
    (fdst fdst' : Buf ℚ) (n : Nat) (mean std : Fin 3 → ℚ) (bgr : Bool) :
    (∀ i c, i < n → c < 3 →
      (edgefirst_neon_rgba_to_planar_f32 af fl src fdst n mean std bgr).data (c * n + i)
        = (edgefirst_neon_rgba_to_rgb_f32 af fl src fdst' n mean std bgr).data (3 * i + c)) ∧
    (∀ j, (edgefirst_neon_rgba_to_planar_f32 af fl src fdst n mean std bgr).log.count j
      = fdst.log.count j + (if j < 3 * n then 1 else 0)) ∧
    (∀ j, 3 * n ≤ j →
      (edgefirst_neon_rgba_to_planar_f32 af fl src fdst n mean std bgr).data j
        = fdst.data j) := by
  have key : ∀ (P I : Nat → ℚ) (g0 g1 g2 : Nat → ℚ),
      (∀ j, P j = if j < n then g0 j else if j < 2 * n then g1 (j - n)
        else if j < 3 * n then g2 (j - 2 * n) else fdst.data j) →
      (∀ j, I j = if j < 3 * n then
          (if j % 3 = 0 then g0 (j / 3) else if j % 3 = 1 then g1 (j / 3) else g2 (j / 3))
        else fdst'.data j) →
      (∀ i c, i < n → c < 3 → P (c * n + i) = I (3 * i + c)) ∧
      (∀ j, 3 * n ≤ j → P j = fdst.data j) := by
    intro P I g0 g1 g2 hP hI
    refine ⟨fun i c hi hc => ?_, fun j hj => ?_⟩
    · have hlt : 3 * i + c < 3 * n := by omega
      have e2 : (3 * i + c) / 3 = i := by omega
      rw [hP, hI, if_pos hlt, e2]
      have hc3 : c = 0 ∨ c = 1 ∨ c = 2 := by omega
      rcases hc3 with h | h | h
      · subst h
        have e1 : (3 * i + 0) % 3 = 0 := by omega
        simp only [Nat.zero_mul, Nat.zero_add, if_pos hi, if_pos e1]
      · subst h
        have e1 : (3 * i + 1) % 3 = 1 := by omega
        have e0 : ¬ (3 * i + 1) % 3 = 0 := by omega
        have g0 : ¬ (1 * n + i < n) := by omega
        have g1 : 1 * n + i < 2 * n := by omega
        have g2 : 1 * n + i - n = i := by omega
        simp only [if_neg g0, if_pos g1, g2, if_neg e0, if_pos e1]
      · subst h
        have e1 : ¬ (3 * i + 2) % 3 = 1 := by omega
        have e0 : ¬ (3 * i + 2) % 3 = 0 := by omega
        have g0 : ¬ (2 * n + i < n) := by omega
        have g1 : ¬ (2 * n + i < 2 * n) := by omega
        have g3 : 2 * n + i < 3 * n := by omega
        have g2 : 2 * n + i - 2 * n = i := by omega
        simp only [if_neg g0, if_neg g1, if_pos g3, g2, if_neg e0, if_neg e1]
    · have g0 : ¬ (j < n) := by omega
      have g1 : ¬ (j < 2 * n) := by omega
      have g2 : ¬ (j < 3 * n) := by omega
      rw [hP]
      simp only [if_neg g0, if_neg g1, if_neg g2]
  cases af
  · obtain ⟨pf, cf⟩ := rgba_to_planar_f32_scalar_spec fl src fdst n mean std bgr
    obtain ⟨jf, -⟩ := rgba_to_rgb_f32_scalar_spec fl src fdst' n mean std bgr
    obtain ⟨k1, k2⟩ := key _ _
      (fun i => normalize_f32 fl (src (i * 4 + (if bgr then 2 else 0))) (mean 0) (std 0))
      (fun i => normalize_f32 fl (src (i * 4 + 1)) (mean 1) (std 1))
      (fun i => normalize_f32 fl (src (i * 4 + (if bgr then 0 else 2))) (mean 2) (std 2))
      pf jf
    exact ⟨k1, cf, k2⟩
  · obtain ⟨pf, cf⟩ := rgba_to_planar_f32_neon_spec fl src fdst n mean std bgr
    obtain ⟨jf, -⟩ := rgba_to_rgb_f32_neon_spec fl src fdst' n mean std bgr
    obtain ⟨k1, k2⟩ := key _ _
      (fun i => if i < 8 * (n / 8) then
        normalize_f32_vec fl (src (i * 4 + (if bgr then 2 else 0))) (mean 0) (std 0)
        else normalize_f32 fl (src (i * 4 + (if bgr then 2 else 0))) (mean 0) (std 0))
      (fun i => if i < 8 * (n / 8) then
        normalize_f32_vec fl (src (i * 4 + 1)) (mean 1) (std 1)
        else normalize_f32 fl (src (i * 4 + 1)) (mean 1) (std 1))
      (fun i => if i < 8 * (n / 8) then
        normalize_f32_vec fl (src (i * 4 + (if bgr then 0 else 2))) (mean 2) (std 2)
        else normalize_f32 fl (src (i * 4 + (if bgr then 0 else 2))) (mean 2) (std 2))
      pf jf
    exact ⟨k1, cf, k2⟩

/-- The vector blocks and scalar tail of an element-wise kernel whose vector
lanes compute `v` and whose scalar body computes `g`. -/
theorem linear_hybrid_spec {α : Type} (w : Nat) (hw : 0 < w)
    (elem block : Nat → Buf α → Buf α) (g v : Nat → α) (n : Nat) (dst : Buf α)
    (hp : ∀ i (b : Buf α), elem i b = b.store i (g i))
    (hb : ∀ i (b : Buf α), block i b = lanes (fun l b => b.store (i + l) (v (i + l))) w b) :
    (∀ j, (for_each n elem n (for_blocks w n block n 0 dst).1
        (for_blocks w n block n 0 dst).2).data j
      = if j < n then (if j < w * (n / w) then v j else g j) else dst.data j) ∧
    (∀ j, (for_each n elem n (for_blocks w n block n 0 dst).1
        (for_blocks w n block n 0 dst).2).log.count j
      = dst.log.count j + (if j < n then 1 else 0)) := by
  have hsame := blocks_then_tail_hybrid w n hw elem (fun i b => b.store i (v i)) block dst
    (fun i b b' h => by
      rw [hp, hp]
      exact store_same h _ _)
    (fun i b b' h => store_same h _ _)
    (fun i b _ => by rw [hb]; exact same_refl _)
  rw [lanes_eq_for_each] at hsame
  obtain ⟨hd, hc⟩ := linear_scalar_spec
    (fun l => if l < w * (n / w) then (fun b => b.store l (v l)) else elem l)
    (fun i => if i < w * (n / w) then v i else g i) n dst
    (fun i b => by
      by_cases h : i < w * (n / w)
      · simp only [if_pos h]
      · simp only [if_neg h]
        exact hp i b)
  exact ⟨fun j => (hsame.1 j).trans (hd j), fun j => (hsame.2 j).trans (hc j)⟩

theorem planar_u8_to_f32_block_shape (fl : ℚ → ℚ) (src : Nat → Nat) (mean std : ℚ)
    (i : Nat) (b : Buf ℚ) :
    planar_u8_to_f32_block fl src mean std i b
      = lanes (fun l b => b.store (i + l) (normalize_f32_vec fl (src (i + l)) mean std)) 8 b := by
  have a0 : ∀ l, i + 4 + l = i + (4 + l) := fun l => by omega
  have a1 : ∀ l, i + (l + 4) = i + (4 + l) := fun l => by omega
  rw [show (8 : Nat) = 4 + 4 from rfl, lanes_add]
  simp only [planar_u8_to_f32_block, vst1q_f32, vld1q_u8, normalize_f32_lanes,
    normalize_f32_vec, widen_low_to_f32, widen_high_to_f32, vmlsq_f32, vmulq_f32,
    vdupq_n_f32, a0, a1]

/-- Contents and store counts after the scalar `edgefirst_neon_planar_u8_to_f32`. -/
theorem planar_u8_to_f32_scalar_spec (fl : ℚ → ℚ) (src : Nat → Nat) (dst : Buf ℚ)
    (n : Nat) (mean std : ℚ) :
    (∀ j, (edgefirst_neon_planar_u8_to_f32 false fl src dst n mean std).data j
      = if j < n then normalize_f32 fl (src j) mean std else dst.data j) ∧
    (∀ j, (edgefirst_neon_planar_u8_to_f32 false fl src dst n mean std).log.count j
      = dst.log.count j + (if j < n then 1 else 0)) :=
  linear_scalar_spec (planar_u8_to_f32_elem fl src mean std)
    (fun i => normalize_f32 fl (src i) mean std) n dst (fun _ _ => rfl)

/-- Contents and store counts after the vector path of
`edgefirst_neon_planar_u8_to_f32`. -/
theorem planar_u8_to_f32_neon_spec (fl : ℚ → ℚ) (src : Nat → Nat) (dst : Buf ℚ)
    (n : Nat) (mean std : ℚ) :
    (∀ j, (edgefirst_neon_planar_u8_to_f32 true fl src dst n mean std).data j
      = if j < n then
          (if j < 8 * (n / 8) then normalize_f32_vec fl (src j) mean std
            else normalize_f32 fl (src j) mean std)
        else dst.data j) ∧
    (∀ j, (edgefirst_neon_planar_u8_to_f32 true fl src dst n mean std).log.count j
      = dst.log.count j + (if j < n then 1 else 0)) :=
  linear_hybrid_spec 8 (by decide) (planar_u8_to_f32_elem fl src mean std)
    (planar_u8_to_f32_block fl src mean std) (fun i => normalize_f32 fl (src i) mean std)
    (fun i => normalize_f32_vec fl (src i) mean std) n dst (fun _ _ => rfl)
    (planar_u8_to_f32_block_shape fl src mean std)

/-- Over exact rationals the vector expression is the scalar expression. -/
theorem normalize_f32_vec_exact (p : Nat) (mean std : ℚ) (hstd : std ≠ 0) :
    normalize_f32_vec id p mean std = normalize_f32 id p mean std := by
  simp only [normalize_f32_vec, normalize_f32_lanes, vmlsq_f32, vmulq_f32, vdupq_n_f32,
    normalize_f32, id]
  field_simp
  ring

/-! ## Claims on the Stage-2 kernels -/

/-- C2: for every pixel count `n`, source `src` and `bgr`, in either compile-time
variant, `edgefirst_neon_rgba_to_rgb_u8` leaves `(dst[3i], dst[3i+1], dst[3i+2])`
equal to `(src[4i], src[4i+1], src[4i+2])`, or to `(src[4i+2], src[4i+1], src[4i])`
when `bgr` is set, for every `i < n`; it stores exactly once to each index below
`3n` and to no other index, leaving `dst` unchanged from `3n` on; the output does
not depend on the alpha bytes `src[4i+3]` (nor on anything beyond `src[4n)`); and
`[10,20,30,255]` with `bgr` gives `[30,20,10]`. -/
theorem rgba_to_rgb_u8_correct (arm_neon : Bool) (src : Nat → Nat) (dst : Buf Nat)
    (n : Nat) (bgr : Bool) :
    (∀ i, i < n →
      (edgefirst_neon_rgba_to_rgb_u8 arm_neon src dst n bgr).data (3 * i)
          = (if bgr then src (4 * i + 2) else src (4 * i)) ∧
      (edgefirst_neon_rgba_to_rgb_u8 arm_neon src dst n bgr).data (3 * i + 1)
          = src (4 * i + 1) ∧
      (edgefirst_neon_rgba_to_rgb_u8 arm_neon src dst n bgr).data (3 * i + 2)
          = (if bgr then src (4 * i) else src (4 * i + 2))) ∧
    (∀ j, 3 * n ≤ j →
      (edgefirst_neon_rgba_to_rgb_u8 arm_neon src dst n bgr).data j = dst.data j) ∧
    (∀ j, (edgefirst_neon_rgba_to_rgb_u8 arm_neon src dst n bgr).log.count j
      = dst.log.count j + (if j < 3 * n then 1 else 0)) ∧
    (∀ src' : Nat → Nat,
      (∀ i, i < n → src' (4 * i) = src (4 * i) ∧ src' (4 * i + 1) = src (4 * i + 1) ∧
        src' (4 * i + 2) = src (4 * i + 2)) →
      ∀ j, (edgefirst_neon_rgba_to_rgb_u8 arm_neon src' dst n bgr).data j
        = (edgefirst_neon_rgba_to_rgb_u8 arm_neon src dst n bgr).data j) ∧
    (edgefirst_neon_rgba_to_rgb_u8 arm_neon (bytes_of [10, 20, 30, 255]) dst 1 true).take 3
      = [30, 20, 10] := by
  obtain ⟨hd, hc⟩ := rgba_to_rgb_u8_spec arm_neon src dst n bgr
  refine ⟨fun i hi => ⟨?_, ?_, ?_⟩, fun j hj => ?_, hc, fun src' hsrc j => ?_, ?_⟩
  · have e1 : (3 * i) % 3 = 0 := by omega
    have e2 : (3 * i) / 3 = i := by omega
    have e3 : i * 4 = 4 * i := by omega
    rw [hd, if_pos (by omega), if_pos e1, e2, e3]
    cases bgr <;> simp
  · have e1 : (3 * i + 1) % 3 = 1 := by omega
    have e2 : (3 * i + 1) / 3 = i := by omega
    have e3 : i * 4 = 4 * i := by omega
    rw [hd, if_pos (by omega), if_neg (by omega), if_pos e1, e2, e3]
  · have e1 : (3 * i + 2) % 3 = 2 := by omega
    have e2 : (3 * i + 2) / 3 = i := by omega
    have e3 : i * 4 = 4 * i := by omega
    rw [hd, if_pos (by omega), if_neg (by omega), if_neg (by omega), e2, e3]
    cases bgr <;> simp
  · rw [hd, if_neg (by omega)]
  · rw [hd, (rgba_to_rgb_u8_spec arm_neon src' dst n bgr).1 j]
    by_cases hj : j < 3 * n
    · have hi : j / 3 < n := by omega
      obtain ⟨h0, h1, h2⟩ := hsrc (j / 3) hi
      have e3 : j / 3 * 4 = 4 * (j / 3) := by omega
      rw [if_pos hj, if_pos hj, e3]
      cases bgr <;> simp [h0, h1, h2]
    · rw [if_neg hj, if_neg hj]
  · cases arm_neon <;> rfl

/-- C3: for every `n`, `src` and `bgr`, the output of
`edgefirst_neon_rgba_to_rgb_i8` is the output of `edgefirst_neon_rgba_to_rgb_u8`
on the same arguments with every byte XORed with `0x80` (whichever compile-time
variant either kernel is built in), so the XOR commutes with the R/B swap and
alpha is dropped; the XOR maps 0, 127, 128, 255 to 0x80, 0xFF, 0x00, 0x7F, and
the reduction to 8 bits is the identity on bytes. -/
theorem rgba_to_rgb_i8_is_u8_xor (a a' : Bool) (src : Nat → Nat) (dst : Buf Nat)
    (n : Nat) (bgr : Bool) :
    (∀ j, j < 3 * n →
      (edgefirst_neon_rgba_to_rgb_i8 a src dst n bgr).data j
        = ((edgefirst_neon_rgba_to_rgb_u8 a' src dst n bgr).data j ^^^ 0x80) % 256) ∧
    (∀ j, 3 * n ≤ j →
      (edgefirst_neon_rgba_to_rgb_i8 a src dst n bgr).data j = dst.data j) ∧
    (∀ j, (edgefirst_neon_rgba_to_rgb_i8 a src dst n bgr).log.count j
      = dst.log.count j + (if j < 3 * n then 1 else 0)) ∧
    (∀ x, x < 256 → (x ^^^ 0x80) % 256 = x ^^^ 0x80) ∧
    (edgefirst_neon_rgba_to_rgb_i8 a (bytes_of [0, 127, 128, 255, 255, 0, 1, 200]) dst 2
        false).take 6 = [0x80, 0xFF, 0x00, 0x7F, 0x80, 0x81] := by
  obtain ⟨hd, hc⟩ := rgba_to_rgb_i8_spec a src dst n bgr
  obtain ⟨hu, -⟩ := rgba_to_rgb_u8_spec a' src dst n bgr
  refine ⟨fun j hj => ?_, fun j hj => ?_, hc, ?_, ?_⟩
  · rw [hd, hu, if_pos hj, if_pos hj]
    split_ifs <;> rfl
  · rw [hd, if_neg (by omega)]
  · intro x hx
    exact Nat.mod_eq_of_lt (Nat.xor_lt_two_pow (n := 8) hx (by norm_num))
  · have h := (rgba_to_rgb_i8_spec a (bytes_of [0, 127, 128, 255, 255, 0, 1, 200]) dst 2
      false).1
    simp [Buf.take, List.range_succ, h, bytes_of]

/-- C4: read over exact rationals (`fl = id`), with every `std[c]` non-zero, the
scalar path of `edgefirst_neon_rgba_to_rgb_f32` writes at output position
`3i + c`, for every pixel `i < n` and output channel `c`, the value
`(p / 255 - mean[c]) / std[c]` where `p` is the byte the u8 kernel places at
that position: mean and std are indexed by output channel, after the optional
R/B swap, and the division by 255 precedes the subtraction.  It writes nothing
from `3n` on. -/
theorem rgba_to_rgb_f32_normalizes (a : Bool) (src : Nat → Nat) (dst : Buf ℚ)
    (udst : Buf Nat) (n : Nat) (mean std : Fin 3 → ℚ) (bgr : Bool)
    (_hstd : ∀ c, std c ≠ 0) :
    (∀ i, i < n → ∀ c : Fin 3,
      (edgefirst_neon_rgba_to_rgb_f32 false id src dst n mean std bgr).data (3 * i + c.val)
        = (((edgefirst_neon_rgba_to_rgb_u8 a src udst n bgr).data (3 * i + c.val) : ℚ) / 255
            - mean c) / std c) ∧
    (∀ j, 3 * n ≤ j →
      (edgefirst_neon_rgba_to_rgb_f32 false id src dst n mean std bgr).data j = dst.data j) ∧
    (∀ j, (edgefirst_neon_rgba_to_rgb_f32 false id src dst n mean std bgr).log.count j
      = dst.log.count j + (if j < 3 * n then 1 else 0)) := by
  obtain ⟨hd, hc⟩ := rgba_to_rgb_f32_scalar_spec id src dst n mean std bgr
  obtain ⟨hu, -⟩ := rgba_to_rgb_u8_spec a src udst n bgr
  refine ⟨fun i hi c => ?_, fun j hj => ?_, hc⟩
  · have hlt : 3 * i + c.val < 3 * n := by have := c.isLt; omega
    have e2 : (3 * i + c.val) / 3 = i := by have := c.isLt; omega
    rw [hd, hu, if_pos hlt, if_pos hlt, e2]
    fin_cases c
    · simp [normalize_f32]
    · have e1 : (3 * i + 1) % 3 = 1 := by omega
      simp [normalize_f32, e1]
    · have e1 : (3 * i + 2) % 3 = 2 := by omega
      simp [normalize_f32, e1]
  · rw [hd, if_neg (by omega)]

theorem rgba_to_rgb_f32_normalizes_witness :
    (edgefirst_neon_rgba_to_rgb_f32 false id (bytes_of [255, 0, 128, 255])
        (Buf.fresh fun _ => 0) 1 (fun _ => 0) (fun _ => 1) false).data 0 = 1 ∧
    (edgefirst_neon_rgba_to_rgb_f32 false id (bytes_of [255, 0, 128, 255])
        (Buf.fresh fun _ => 0) 1 (fun _ => 0) (fun _ => 1) false).data 1 = 0 := by
  have h := (rgba_to_rgb_f32_normalizes false (bytes_of [255, 0, 128, 255])
    (Buf.fresh fun _ => 0) (Buf.fresh fun _ => 0) 1 (fun _ => 0) (fun _ => 1) false
    (fun _ => one_ne_zero)).1 0 (by decide)
  have e0 : (edgefirst_neon_rgba_to_rgb_u8 false (bytes_of [255, 0, 128, 255])
    (Buf.fresh fun _ => 0) 1 false).data 0 = 255 := rfl
  have e1 : (edgefirst_neon_rgba_to_rgb_u8 false (bytes_of [255, 0, 128, 255])
    (Buf.fresh fun _ => 0) 1 false).data 1 = 0 := rfl
  have h0 := h 0
  have h1 := h 1
  simp only [Fin.val_zero, Fin.val_one, Nat.mul_zero, Nat.zero_add, e0, e1] at h0 h1
  constructor
  · rw [h0]; norm_num
  · rw [h1]; norm_num

/-- C5: for every `n`, `src` and `bgr` and each dtype (u8, i8 on any pair of
paths; f32 with the same mean, std and rounding, both kernels on the scalar path
or both on the vector path), the planar kernel's output is the channel-major
rearrangement of the interleaved kernel's output,
`planar[c * n + i] = interleaved[3 * i + c]` for `i < n`, `c < 3`; each planar
kernel stores exactly once to each index below `3n` (three contiguous planes of
`n` elements) and leaves the rest of `dst` alone. -/
theorem planar_is_rearranged_interleaved (a a' af : Bool) (fl : ℚ → ℚ) (src : Nat → Nat)
    (dst dst' : Buf Nat) (fdst fdst' : Buf ℚ) (n : Nat) (mean std : Fin 3 → ℚ)
    (bgr : Bool) :
    (∀ i c, i < n → c < 3 →
      (edgefirst_neon_rgba_to_planar_u8 a src dst n bgr).data (c * n + i)
        = (edgefirst_neon_rgba_to_rgb_u8 a' src dst' n bgr).data (3 * i + c) ∧
      (edgefirst_neon_rgba_to_planar_i8 a src dst n bgr).data (c * n + i)
        = (edgefirst_neon_rgba_to_rgb_i8 a' src dst' n bgr).data (3 * i + c) ∧
      (edgefirst_neon_rgba_to_planar_f32 af fl src fdst n mean std bgr).data (c * n + i)
        = (edgefirst_neon_rgba_to_rgb_f32 af fl src fdst' n mean std bgr).data
            (3 * i + c)) ∧
    (∀ j,
      (edgefirst_neon_rgba_to_planar_u8 a src dst n bgr).log.count j
        = dst.log.count j + (if j < 3 * n then 1 else 0) ∧
      (edgefirst_neon_rgba_to_planar_i8 a src dst n bgr).log.count j
        = dst.log.count j + (if j < 3 * n then 1 else 0) ∧
      (edgefirst_neon_rgba_to_planar_f32 af fl src fdst n mean std bgr).log.count j
        = fdst.log.count j + (if j < 3 * n then 1 else 0)) ∧
    (∀ j, 3 * n ≤ j →
      (edgefirst_neon_rgba_to_planar_u8 a src dst n bgr).data j = dst.data j ∧
      (edgefirst_neon_rgba_to_planar_i8 a src dst n bgr).data j = dst.data j ∧
      (edgefirst_neon_rgba_to_planar_f32 af fl src fdst n mean std bgr).data j
        = fdst.data j) := by
  obtain ⟨pu, cu⟩ := rgba_to_planar_u8_spec a src dst n bgr
  obtain ⟨pi, ci⟩ := rgba_to_planar_i8_spec a src dst n bgr
  obtain ⟨ff, cf, tf⟩ := planar_f32_rearranged af fl src fdst fdst' n mean std bgr
  obtain ⟨iu, -⟩ := rgba_to_rgb_u8_spec a' src dst' n bgr
  obtain ⟨ii, -⟩ := rgba_to_rgb_i8_spec a' src dst' n bgr
  refine ⟨fun i c hi hc => ?_, fun j => ⟨cu j, ci j, cf j⟩, fun j hj => ?_⟩
  · refine ⟨?_, ?_, ff i c hi hc⟩
    all_goals
      have hlt : 3 * i + c < 3 * n := by omega
      have e2 : (3 * i + c) / 3 = i := by omega
      have hc3 : c = 0 ∨ c = 1 ∨ c = 2 := by omega
    · rw [pu, iu, if_pos hlt, e2]
      rcases hc3 with h | h | h
      · subst h
        have e1 : (3 * i + 0) % 3 = 0 := by omega
        simp only [Nat.zero_mul, Nat.zero_add, if_pos hi, if_pos e1]
      · subst h
        have e1 : (3 * i + 1) % 3 = 1 := by omega
        have e0 : ¬ (3 * i + 1) % 3 = 0 := by omega
        have g0 : ¬ (1 * n + i < n) := by omega
        have g1 : 1 * n + i < 2 * n := by omega
        have g2 : 1 * n + i - n = i := by omega
        simp only [if_neg g0, if_pos g1, g2, if_neg e0, if_pos e1]
      · subst h
        have e1 : ¬ (3 * i + 2) % 3 = 1 := by omega
        have e0 : ¬ (3 * i + 2) % 3 = 0 := by omega
        have g0 : ¬ (2 * n + i < n) := by omega
        have g1 : ¬ (2 * n + i < 2 * n) := by omega
        have g3 : 2 * n + i < 3 * n := by omega
        have g2 : 2 * n + i - 2 * n = i := by omega
        simp only [if_neg g0, if_neg g1, if_pos g3, g2, if_neg e0, if_neg e1]
    · rw [pi, ii, if_pos hlt, e2]
      rcases hc3 with h | h | h
      · subst h
        have e1 : (3 * i + 0) % 3 = 0 := by omega
        simp only [Nat.zero_mul, Nat.zero_add, if_pos hi, if_pos e1]
      · subst h
        have e1 : (3 * i + 1) % 3 = 1 := by omega
        have e0 : ¬ (3 * i + 1) % 3 = 0 := by omega
        have g0 : ¬ (1 * n + i < n) := by omega
        have g1 : 1 * n + i < 2 * n := by omega
        have g2 : 1 * n + i - n = i := by omega
        simp only [if_neg g0, if_pos g1, g2, if_neg e0, if_pos e1]
      · subst h
        have e1 : ¬ (3 * i + 2) % 3 = 1 := by omega
        have e0 : ¬ (3 * i + 2) % 3 = 0 := by omega
        have g0 : ¬ (2 * n + i < n) := by omega
        have g1 : ¬ (2 * n + i < 2 * n) := by omega
        have g3 : 2 * n + i < 3 * n := by omega
        have g2 : 2 * n + i - 2 * n = i := by omega
        simp only [if_neg g0, if_neg g1, if_pos g3, g2, if_neg e0, if_neg e1]
  · have g0 : ¬ (j < n) := by omega
    have g1 : ¬ (j < 2 * n) := by omega
    have g2 : ¬ (j < 3 * n) := by omega
    refine ⟨?_, ?_, tf j hj⟩
    · rw [pu]
      simp only [if_neg g0, if_neg g1, if_neg g2]
    · rw [pi]
      simp only [if_neg g0, if_neg g1, if_neg g2]

/-- C6: for each 8-bit kernel (`rgba_to_rgb_u8`, `rgba_to_rgb_i8`,
`rgba_to_planar_u8`, `rgba_to_planar_i8`, `planar_u8_to_i8`) the vectorized path,
whole blocks of 16 elements followed by the scalar tail, leaves the same bytes in
`dst` as the scalar path, for every element count `n`, every input and either
`bgr`; and it stores exactly once to every output index in range (below `3n`,
below `n` for `planar_u8_to_i8`) and to no other index. -/
theorem neon_matches_scalar_8bit (src : Nat → Nat) (dst : Buf Nat) (n : Nat) (bgr : Bool) :
    ((edgefirst_neon_rgba_to_rgb_u8 true src dst n bgr).data
        = (edgefirst_neon_rgba_to_rgb_u8 false src dst n bgr).data ∧
      ∀ j, (edgefirst_neon_rgba_to_rgb_u8 true src dst n bgr).log.count j
        = dst.log.count j + (if j < 3 * n then 1 else 0)) ∧
    ((edgefirst_neon_rgba_to_rgb_i8 true src dst n bgr).data
        = (edgefirst_neon_rgba_to_rgb_i8 false src dst n bgr).data ∧
      ∀ j, (edgefirst_neon_rgba_to_rgb_i8 true src dst n bgr).log.count j
        = dst.log.count j + (if j < 3 * n then 1 else 0)) ∧
    ((edgefirst_neon_rgba_to_planar_u8 true src dst n bgr).data
        = (edgefirst_neon_rgba_to_planar_u8 false src dst n bgr).data ∧
      ∀ j, (edgefirst_neon_rgba_to_planar_u8 true src dst n bgr).log.count j
        = dst.log.count j + (if j < 3 * n then 1 else 0)) ∧
    ((edgefirst_neon_rgba_to_planar_i8 true src dst n bgr).data
        = (edgefirst_neon_rgba_to_planar_i8 false src dst n bgr).data ∧
      ∀ j, (edgefirst_neon_rgba_to_planar_i8 true src dst n bgr).log.count j
        = dst.log.count j + (if j < 3 * n then 1 else 0)) ∧
    ((edgefirst_neon_planar_u8_to_i8 true src dst n).data
        = (edgefirst_neon_planar_u8_to_i8 false src dst n).data ∧
      ∀ j, (edgefirst_neon_planar_u8_to_i8 true src dst n).log.count j
        = dst.log.count j + (if j < n then 1 else 0)) := by
  refine ⟨⟨?_, (rgba_to_rgb_u8_spec true src dst n bgr).2⟩,
    ⟨?_, (rgba_to_rgb_i8_spec true src dst n bgr).2⟩,
    ⟨?_, (rgba_to_planar_u8_spec true src dst n bgr).2⟩,
    ⟨?_, (rgba_to_planar_i8_spec true src dst n bgr).2⟩,
    ⟨?_, (planar_u8_to_i8_spec true src dst n).2⟩⟩
  · funext j
    rw [(rgba_to_rgb_u8_spec true src dst n bgr).1, (rgba_to_rgb_u8_spec false src dst n bgr).1]
  · funext j
    rw [(rgba_to_rgb_i8_spec true src dst n bgr).1, (rgba_to_rgb_i8_spec false src dst n bgr).1]
  · funext j
    rw [(rgba_to_planar_u8_spec true src dst n bgr).1,
      (rgba_to_planar_u8_spec false src dst n bgr).1]
  · funext j
    rw [(rgba_to_planar_i8_spec true src dst n bgr).1,
      (rgba_to_planar_i8_spec false src dst n bgr).1]
  · funext j
    rw [(planar_u8_to_i8_spec true src dst n).1, (planar_u8_to_i8_spec false src dst n).1]

/-! ## binary32 rounding -/

theorem round_half_even_cases (z : ℚ) :
    round_half_even z = ⌊z⌋ ∨ (round_half_even z = ⌊z⌋ + 1 ∧ (1 : ℚ) / 2 ≤ z - ⌊z⌋) := by
  unfold round_half_even
  simp only
  by_cases h1 : z - (⌊z⌋ : ℚ) < 1 / 2
  · left; rw [if_pos h1]
  · rw [if_neg h1]
    have h1' : (1 : ℚ) / 2 ≤ z - ⌊z⌋ := not_lt.mp h1
    by_cases h2 : (1 : ℚ) / 2 < z - ⌊z⌋
    · right; rw [if_pos h2]; exact ⟨rfl, h1'⟩
    · rw [if_neg h2]
      by_cases h3 : ⌊z⌋ % 2 = 0
      · left; rw [if_pos h3]
      · right; rw [if_neg h3]; exact ⟨rfl, h1'⟩

theorem round_half_even_le_add_half (z : ℚ) : (round_half_even z : ℚ) ≤ z + 1 / 2 := by
  rcases round_half_even_cases z with h | ⟨h, hr⟩
  · rw [h]
    have := Int.floor_le z
    linarith
  · rw [h]
    push_cast
    linarith

theorem round_half_even_le_of_le_int (z : ℚ) (N : ℤ) (h : z ≤ N) : round_half_even z ≤ N := by
  have hf : ⌊z⌋ ≤ N := by
    apply Int.le_of_lt_add_one
    rw [Int.floor_lt]
    push_cast
    linarith
  rcases round_half_even_cases z with h1 | ⟨h1, hr⟩
  · rw [h1]; exact hf
  · rw [h1]
    by_contra hc
    have hN : ⌊z⌋ = N := by omega
    have : (1 : ℚ) / 2 ≤ z - N := by rw [← hN]; exact hr
    linarith

theorem round_half_even_ge_of_int_le (z : ℚ) (N : ℤ) (h : (N : ℚ) ≤ z) :
    N ≤ round_half_even z := by
  have hf : N ≤ ⌊z⌋ := Int.le_floor.mpr h
  rcases round_half_even_cases z with h1 | ⟨h1, _⟩
  · rw [h1]; exact hf
  · rw [h1]; omega

theorem round_half_even_int (N : ℤ) : round_half_even (N : ℚ) = N :=
  le_antisymm (round_half_even_le_of_le_int _ N le_rfl) (round_half_even_ge_of_int_le _ N le_rfl)

theorem two_zpow_pos (e : ℤ) : (0 : ℚ) < (2 : ℚ) ^ e := zpow_pos (by norm_num) e

theorem int_log_two_eq (x : ℚ) (e : ℤ) (h1 : (2 : ℚ) ^ e ≤ x) (h2 : x < (2 : ℚ) ^ (e + 1)) :
    Int.log 2 x = e := by
  have hx : 0 < x := lt_of_lt_of_le (two_zpow_pos e) h1
  have a1 : e ≤ Int.log 2 x := by
    rw [← Int.zpow_le_iff_le_log (by norm_num) hx]
    exact_mod_cast h1
  have a2 : Int.log 2 x < e + 1 := by
    rw [← Int.lt_zpow_iff_log_lt (by norm_num) hx]
    exact_mod_cast h2
  omega

theorem int_log_two_bounds (x : ℚ) (hx : 0 < x) :
    (2 : ℚ) ^ (Int.log 2 x) ≤ x ∧ x < (2 : ℚ) ^ (Int.log 2 x + 1) := by
  constructor
  · have := Int.zpow_log_le_self (b := 2) (by norm_num) hx
    exact_mod_cast this
  · have := Int.lt_zpow_succ_log_self (b := 2) (by norm_num) x
    exact_mod_cast this

theorem f32_round_pos_eq (x : ℚ) (hx : 0 < x) :
    f32_round x
      = (round_half_even (x / (2 : ℚ) ^ (Int.log 2 x - 23)) : ℚ) * (2 : ℚ) ^ (Int.log 2 x - 23) := by
  unfold f32_round
  rw [if_neg (ne_of_gt hx), abs_of_pos hx]

theorem f32_round_of_binade (x : ℚ) (e : ℤ) (h1 : (2 : ℚ) ^ e ≤ x)
    (h2 : x < (2 : ℚ) ^ (e + 1)) :
    f32_round x = (round_half_even (x / (2 : ℚ) ^ (e - 23)) : ℚ) * (2 : ℚ) ^ (e - 23) := by
  have hx : 0 < x := lt_of_lt_of_le (two_zpow_pos e) h1
  rw [f32_round_pos_eq x hx, int_log_two_eq x e h1 h2]

/-- A value `m * 2^j` with `m < 2^24` lies on the rounding grid of every binade
that starts at or below it. -/
theorem grid_int (m : ℕ) (hm : m < 2 ^ 24) (j e : ℤ)
    (h : (2 : ℚ) ^ e ≤ (m : ℚ) * (2 : ℚ) ^ j) :
    ∃ N : ℤ, (m : ℚ) * (2 : ℚ) ^ j / (2 : ℚ) ^ (e - 23) = (N : ℚ) := by
  have hm' : (m : ℚ) < (2 : ℚ) ^ (24 : ℤ) := by
    calc (m : ℚ) < (2 : ℚ) ^ (24 : ℕ) := by exact_mod_cast hm
      _ = (2 : ℚ) ^ (24 : ℤ) := by norm_num
  have hlt : (2 : ℚ) ^ e < (2 : ℚ) ^ (24 + j) := by
    calc (2 : ℚ) ^ e ≤ (m : ℚ) * (2 : ℚ) ^ j := h
      _ < (2 : ℚ) ^ (24 : ℤ) * (2 : ℚ) ^ j :=
          mul_lt_mul_of_pos_right hm' (two_zpow_pos j)
      _ = (2 : ℚ) ^ (24 + j) := by rw [← zpow_add₀ (by norm_num : (2 : ℚ) ≠ 0)]
  have hej : e < 24 + j := (zpow_lt_zpow_iff_right₀ (by norm_num : (1 : ℚ) < 2)).mp hlt
  obtain ⟨K, hK⟩ : ∃ K : ℕ, (K : ℤ) = j - (e - 23) := ⟨(j - (e - 23)).toNat, by omega⟩
  refine ⟨(m : ℤ) * 2 ^ K, ?_⟩
  rw [mul_div_assoc, ← zpow_sub₀ (by norm_num : (2 : ℚ) ≠ 0), ← hK, zpow_natCast]
  push_cast
  rfl

/-- Values `m * 2^j` with a significand below `2^24` are fixed by the rounding. -/
theorem f32_round_exact (m : ℕ) (j : ℤ) (hm : m < 2 ^ 24) :
    f32_round ((m : ℚ) * (2 : ℚ) ^ j) = (m : ℚ) * (2 : ℚ) ^ j := by
  by_cases h0 : m = 0
  · subst h0
    simp [f32_round]
  have hx : 0 < (m : ℚ) * (2 : ℚ) ^ j :=
    mul_pos (by exact_mod_cast Nat.pos_of_ne_zero h0) (two_zpow_pos j)
  obtain ⟨hlo, -⟩ := int_log_two_bounds _ hx
  obtain ⟨N, hN⟩ := grid_int m hm j _ hlo
  rw [f32_round_pos_eq _ hx, hN, round_half_even_int, ← hN]
  exact div_mul_cancel₀ _ (ne_of_gt (two_zpow_pos _))

theorem f32_round_natCast (n : ℕ) (hn : n < 2 ^ 24) : f32_round (n : ℚ) = n := by
  have := f32_round_exact n 0 hn
  simpa using this

theorem f32_round_zero : f32_round 0 = 0 := by simp [f32_round]

/-- Rounding does not jump over a representable value above. -/
theorem f32_round_le_of_le (y : ℚ) (hy : 0 < y) (m : ℕ) (j : ℤ) (hm : m < 2 ^ 24)
    (h : y ≤ (m : ℚ) * (2 : ℚ) ^ j) : f32_round y ≤ (m : ℚ) * (2 : ℚ) ^ j := by
  obtain ⟨hlo, -⟩ := int_log_two_bounds y hy
  obtain ⟨N, hN⟩ := grid_int m hm j _ (hlo.trans h)
  have hu := two_zpow_pos (Int.log 2 y - 23)
  have hz : y / (2 : ℚ) ^ (Int.log 2 y - 23) ≤ (N : ℚ) := by
    rw [← hN]
    exact div_le_div_of_nonneg_right h (le_of_lt hu)
  have hr : (round_half_even (y / (2 : ℚ) ^ (Int.log 2 y - 23)) : ℚ) ≤ (N : ℚ) := by
    exact_mod_cast round_half_even_le_of_le_int _ N hz
  rw [f32_round_pos_eq y hy]
  calc (round_half_even (y / (2 : ℚ) ^ (Int.log 2 y - 23)) : ℚ) * (2 : ℚ) ^ (Int.log 2 y - 23)
      ≤ (N : ℚ) * (2 : ℚ) ^ (Int.log 2 y - 23) := mul_le_mul_of_nonneg_right hr (le_of_lt hu)
    _ = (m : ℚ) * (2 : ℚ) ^ j := by
        rw [← hN]
        exact div_mul_cancel₀ _ (ne_of_gt hu)

/-- A positive value rounds to at least the start of its binade. -/
theorem f32_round_pos (y : ℚ) (hy : 0 < y) : 0 < f32_round y := by
  obtain ⟨hlo, -⟩ := int_log_two_bounds y hy
  have hu := two_zpow_pos (Int.log 2 y - 23)
  have hz : (((2 : ℤ) ^ 23 : ℤ) : ℚ) ≤ y / (2 : ℚ) ^ (Int.log 2 y - 23) := by
    rw [le_div_iff₀ hu]
    have e : (((2 : ℤ) ^ 23 : ℤ) : ℚ) * (2 : ℚ) ^ (Int.log 2 y - 23)
        = (2 : ℚ) ^ (Int.log 2 y) := by
      have e23 : (((2 : ℤ) ^ 23 : ℤ) : ℚ) = (2 : ℚ) ^ (23 : ℤ) := by norm_num
      rw [e23, ← zpow_add₀ (by norm_num : (2 : ℚ) ≠ 0)]
      congr 1
      ring
    rw [e]
    exact hlo
  have hr := round_half_even_ge_of_int_le _ _ hz
  rw [f32_round_pos_eq y hy]
  apply mul_pos _ hu
  have : (0 : ℤ) < round_half_even (y / (2 : ℚ) ^ (Int.log 2 y - 23)) :=
    lt_of_lt_of_le (by norm_num) hr
  exact_mod_cast this

theorem f32_round_nonneg (y : ℚ) (hy : 0 ≤ y) : 0 ≤ f32_round y := by
  rcases eq_or_lt_of_le hy with h | h
  · rw [← h, f32_round_zero]
  · exact le_of_lt (f32_round_pos y h)

/-- Relative error of rounding a positive value: at most `2^-24`. -/
theorem f32_round_le_rel (y : ℚ) (hy : 0 < y) : f32_round y ≤ y + y / 2 ^ 24 := by
  obtain ⟨hlo, -⟩ := int_log_two_bounds y hy
  have hu := two_zpow_pos (Int.log 2 y - 23)
  have hr := round_half_even_le_add_half (y / (2 : ℚ) ^ (Int.log 2 y - 23))
  have e : (2 : ℚ) ^ (Int.log 2 y - 23) = (2 : ℚ) ^ (Int.log 2 y) / 2 ^ 23 := by
    rw [zpow_sub₀ (by norm_num : (2 : ℚ) ≠ 0)]
    norm_num
  rw [f32_round_pos_eq y hy]
  calc (round_half_even (y / (2 : ℚ) ^ (Int.log 2 y - 23)) : ℚ) * (2 : ℚ) ^ (Int.log 2 y - 23)
      ≤ (y / (2 : ℚ) ^ (Int.log 2 y - 23) + 1 / 2) * (2 : ℚ) ^ (Int.log 2 y - 23) :=
        mul_le_mul_of_nonneg_right hr (le_of_lt hu)
    _ = y + (2 : ℚ) ^ (Int.log 2 y - 23) / 2 := by
        rw [add_mul, div_mul_cancel₀ _ (ne_of_gt hu)]
        ring
    _ ≤ y + y / 2 ^ 24 := by
        rw [e]
        have : (2 : ℚ) ^ (Int.log 2 y) / 2 ^ 23 / 2 ≤ y / 2 ^ 24 := by
          rw [div_div]
          norm_num
          exact div_le_div_of_nonneg_right hlo (by norm_num)
        linarith

/-! ## Letterbox geometry -/

theorem guint_sub_of_le (a b : ℕ) (hb : b ≤ a) (ha : a < 2 ^ 32) : guint_sub a b = a - b := by
  unfold guint_sub
  have h1 : b % 2 ^ 32 = b := Nat.mod_eq_of_lt (by omega)
  rw [h1]
  omega

theorem to_gint_of_range (z : ℤ) (h1 : -2 ^ 31 ≤ z) (h2 : z < 2 ^ 31) : to_gint z = z := by
  unfold to_gint
  omega

/-- With at most 23 significant bits in the target dimension, the scaled
dimension computed in binary32 does not exceed the target. -/
theorem scaled_fits (a b : ℕ) (ha : a < 2 ^ 23) (hb : 1 ≤ b) (s : ℚ) (hs0 : 0 ≤ s)
    (hs : s ≤ f32_round (f32_round a / f32_round b)) :
    gfloat_to_guint (f32_round (f32_round b * s)) ≤ a := by
  have hA : f32_round (a : ℚ) = a := f32_round_natCast a (by omega)
  have hB : 0 < f32_round (b : ℚ) := f32_round_pos _ (by exact_mod_cast hb)
  rw [hA] at hs
  have hy0 : 0 ≤ f32_round (b : ℚ) * s := mul_nonneg (le_of_lt hB) hs0
  have haQ : (a : ℚ) < 2 ^ 23 := by exact_mod_cast ha
  have hy : f32_round (b : ℚ) * s ≤ (a : ℚ) + 1 / 2 := by
    rcases Nat.eq_zero_or_pos a with h0 | hpos
    · subst h0
      simp only [Nat.cast_zero, zero_div, f32_round_zero] at hs
      have : s = 0 := le_antisymm hs hs0
      rw [this]; norm_num
    · have hq : 0 < (a : ℚ) / f32_round (b : ℚ) := div_pos (by exact_mod_cast hpos) hB
      have hrel := f32_round_le_rel _ hq
      have h1 : f32_round (b : ℚ) * s
          ≤ f32_round (b : ℚ) * ((a : ℚ) / f32_round b + (a : ℚ) / f32_round b / 2 ^ 24) :=
        mul_le_mul_of_nonneg_left (hs.trans hrel) (le_of_lt hB)
      have h2 : f32_round (b : ℚ) * ((a : ℚ) / f32_round b + (a : ℚ) / f32_round b / 2 ^ 24)
          = (a : ℚ) + (a : ℚ) / 2 ^ 24 := by
        have hBne : f32_round (b : ℚ) ≠ 0 := ne_of_gt hB
        field_simp
        ring
      rw [h2] at h1
      have h3 : (a : ℚ) / 2 ^ 24 ≤ 1 / 2 := by
        rw [div_le_iff₀ (by norm_num)]
        linarith
      linarith
  have hr : f32_round (f32_round (b : ℚ) * s) ≤ (a : ℚ) + 1 / 2 := by
    rcases eq_or_lt_of_le hy0 with h0 | hpos
    · rw [← h0, f32_round_zero]
      have : (0 : ℚ) ≤ a := Nat.cast_nonneg a
      linarith
    · have ht : (a : ℚ) + 1 / 2 = ((2 * a + 1 : ℕ) : ℚ) * (2 : ℚ) ^ (-1 : ℤ) := by
        push_cast
        norm_num
        ring
      rw [ht] at hy ⊢
      exact f32_round_le_of_le _ hpos (2 * a + 1) (-1) (by omega) hy
  have hr0 : 0 ≤ f32_round (f32_round (b : ℚ) * s) := f32_round_nonneg _ hy0
  unfold gfloat_to_guint
  rw [if_neg (not_lt.mpr hr0)]
  have hlt32 : ¬ ((2 : ℚ) ^ 32 ≤ f32_round (f32_round (b : ℚ) * s)) := by
    rw [not_le]
    have : (a : ℚ) + 1 / 2 < 2 ^ 32 := by
      have : (2 : ℚ) ^ 23 + 1 / 2 < 2 ^ 32 := by norm_num
      linarith
    linarith
  rw [if_neg hlt32]
  have hfl : ⌊f32_round (f32_round (b : ℚ) * s)⌋ < (a : ℤ) + 1 := by
    rw [Int.floor_lt]
    push_cast
    linarith
  have hfl0 : 0 ≤ ⌊f32_round (f32_round (b : ℚ) * s)⌋ := Int.floor_nonneg.mpr hr0
  omega

/-- The fields `compute_letterbox` writes when letterboxing is enabled and the
source dimensions are non-zero. -/
theorem compute_letterbox_enabled (fl : ℚ → ℚ) (self : EdgefirstCameraAdaptor)
    (src_w src_h : ℕ) (hlb : self.letterbox = true) (hsw : src_w ≠ 0) (hsh : src_h ≠ 0)
    (scale : ℚ) (total_w total_h : ℤ)
    (hscale : scale = MIN (fl (fl self.out_width / fl src_w))
      (fl (fl self.out_height / fl src_h)))
    (htw : total_w = to_gint (guint_sub self.out_width
      (gfloat_to_guint (fl (fl src_w * scale)))))
    (hth : total_h = to_gint (guint_sub self.out_height
      (gfloat_to_guint (fl (fl src_h * scale))))) :
    (compute_letterbox fl self src_w src_h).lb_scale = scale ∧
    (compute_letterbox fl self src_w src_h).lb_top
      = (if self.lb_top_override then self.lb_top else total_h.tdiv 2) ∧
    (compute_letterbox fl self src_w src_h).lb_bottom
      = (if self.lb_bottom_override then self.lb_bottom
          else to_gint (total_h - (compute_letterbox fl self src_w src_h).lb_top)) ∧
    (compute_letterbox fl self src_w src_h).lb_left
      = (if self.lb_left_override then self.lb_left else total_w.tdiv 2) ∧
    (compute_letterbox fl self src_w src_h).lb_right
      = (if self.lb_right_override then self.lb_right
          else to_gint (total_w - (compute_letterbox fl self src_w src_h).lb_left)) ∧
    (compute_letterbox fl self src_w src_h).crop_valid = true := by
  have hc : (!self.letterbox || src_w == 0 || src_h == 0) = false := by
    simp [hlb, hsw, hsh]
  rw [htw, hth, hscale]
  unfold compute_letterbox
  simp only [hc, Bool.false_eq_true, if_false]
  refine ⟨trivial, ?_, ?_, ?_, ?_, trivial⟩
  · cases self.lb_top_override <;> simp
  · cases self.lb_bottom_override <;> simp
  · cases self.lb_left_override <;> simp
  · cases self.lb_right_override <;> simp

/-- The identity geometry `compute_letterbox` writes otherwise. -/
theorem compute_letterbox_disabled (fl : ℚ → ℚ) (self : EdgefirstCameraAdaptor)
    (src_w src_h : ℕ) (h : self.letterbox = false ∨ src_w = 0 ∨ src_h = 0) :
    (compute_letterbox fl self src_w src_h).lb_scale = 1 ∧
    (compute_letterbox fl self src_w src_h).lb_top = 0 ∧
    (compute_letterbox fl self src_w src_h).lb_bottom = 0 ∧
    (compute_letterbox fl self src_w src_h).lb_left = 0 ∧
    (compute_letterbox fl self src_w src_h).lb_right = 0 ∧
    (compute_letterbox fl self src_w src_h).crop_valid = false := by
  unfold compute_letterbox
  have hc : (!self.letterbox || src_w == 0 || src_h == 0) = true := by
    rcases h with h | h | h <;> simp [h]
  simp only [hc, if_true]
  simp

theorem MIN_le_left (a b : ℚ) : MIN a b ≤ a := by
  unfold MIN
  split
  · exact le_rfl
  · rename_i h; exact not_lt.mp h

theorem MIN_le_right (a b : ℚ) : MIN a b ≤ b := by
  unfold MIN
  split
  · rename_i h; exact le_of_lt h
  · exact le_rfl

theorem MIN_pos (a b : ℚ) (ha : 0 < a) (hb : 0 < b) : 0 < MIN a b := by
  unfold MIN
  split <;> assumption

theorem MIN_nonneg (a b : ℚ) (ha : 0 ≤ a) (hb : 0 ≤ b) : 0 ≤ MIN a b := by
  unfold MIN
  split <;> assumption

/-- In binary32, for target dimensions below `2^23`, the scaled size fits the
target, so the leftover `total` is the exact non-negative difference. -/
theorem letterbox_totals (self : EdgefirstCameraAdaptor) (src_w src_h : ℕ)
    (hsw : src_w ≠ 0) (hsh : src_h ≠ 0)
    (hdw : self.out_width < 2 ^ 23) (hdh : self.out_height < 2 ^ 23)
    (scale : ℚ) (scaled_w scaled_h : ℕ)
    (hscale : scale = MIN (f32_round (f32_round self.out_width / f32_round src_w))
      (f32_round (f32_round self.out_height / f32_round src_h)))
    (hnw : scaled_w = gfloat_to_guint (f32_round (f32_round src_w * scale)))
    (hnh : scaled_h = gfloat_to_guint (f32_round (f32_round src_h * scale))) :
    scaled_w ≤ self.out_width ∧ scaled_h ≤ self.out_height ∧
    to_gint (guint_sub self.out_width scaled_w) = (self.out_width : ℤ) - scaled_w ∧
    to_gint (guint_sub self.out_height scaled_h) = (self.out_height : ℤ) - scaled_h := by
  have hBw : 0 < f32_round (src_w : ℚ) :=
    f32_round_pos _ (by exact_mod_cast Nat.pos_of_ne_zero hsw)
  have hBh : 0 < f32_round (src_h : ℚ) :=
    f32_round_pos _ (by exact_mod_cast Nat.pos_of_ne_zero hsh)
  have hq1 : 0 ≤ f32_round (f32_round (self.out_width : ℚ) / f32_round src_w) :=
    f32_round_nonneg _ (div_nonneg (f32_round_nonneg _ (Nat.cast_nonneg _)) (le_of_lt hBw))
  have hq2 : 0 ≤ f32_round (f32_round (self.out_height : ℚ) / f32_round src_h) :=
    f32_round_nonneg _ (div_nonneg (f32_round_nonneg _ (Nat.cast_nonneg _)) (le_of_lt hBh))
  have hs0 : 0 ≤ scale := by rw [hscale]; exact MIN_nonneg _ _ hq1 hq2
  have hw : scaled_w ≤ self.out_width := by
    rw [hnw]
    exact scaled_fits _ _ hdw (Nat.pos_of_ne_zero hsw) scale hs0
      (by rw [hscale]; exact MIN_le_left _ _)
  have hh : scaled_h ≤ self.out_height := by
    rw [hnh]
    exact scaled_fits _ _ hdh (Nat.pos_of_ne_zero hsh) scale hs0
      (by rw [hscale]; exact MIN_le_right _ _)
  refine ⟨hw, hh, ?_, ?_⟩
  · rw [guint_sub_of_le _ _ hw (by omega), to_gint_of_range _ (by omega) (by omega)]
    omega
  · rw [guint_sub_of_le _ _ hh (by omega), to_gint_of_range _ (by omega) (by omega)]
    omega

theorem round_half_even_ge_sub_half (z : ℚ) : z - 1 / 2 ≤ (round_half_even z : ℚ) := by
  unfold round_half_even
  simp only
  have hfl := Int.lt_floor_add_one z
  by_cases h1 : z - (⌊z⌋ : ℚ) < 1 / 2
  · rw [if_pos h1]; linarith
  · rw [if_neg h1]
    by_cases h2 : (1 : ℚ) / 2 < z - ⌊z⌋
    · rw [if_pos h2]; push_cast; linarith
    · rw [if_neg h2]
      have h3 : z - (⌊z⌋ : ℚ) = 1 / 2 := le_antisymm (not_lt.mp h2) (not_lt.mp h1)
      split
      · linarith
      · push_cast; linarith

theorem round_half_even_eq_of_near (z : ℚ) (N : ℤ) (h1 : (N : ℚ) - 1 / 2 < z)
    (h2 : z < (N : ℚ) + 1 / 2) : round_half_even z = N := by
  have hu := round_half_even_le_add_half z
  have hl := round_half_even_ge_sub_half z
  have a1 : (round_half_even z : ℚ) < (N : ℚ) + 1 := by linarith
  have a2 : (N : ℚ) - 1 < (round_half_even z : ℚ) := by linarith
  have b1 : round_half_even z < N + 1 := by exact_mod_cast a1
  have b2 : N - 1 < round_half_even z := by exact_mod_cast a2
  omega

theorem round_half_even_tie_odd (k : ℤ) (hk : k % 2 = 1) :
    round_half_even ((k : ℚ) + 1 / 2) = k + 1 := by
  have hf : ⌊(k : ℚ) + 1 / 2⌋ = k := by
    rw [Int.floor_eq_iff]
    constructor <;> linarith
  unfold round_half_even
  simp only [hf]
  have e : (k : ℚ) + 1 / 2 - k = 1 / 2 := by ring
  rw [e, if_neg (lt_irrefl _), if_neg (lt_irrefl _), if_neg (by omega)]

theorem f32_round_two_thirds : f32_round (2 / 3) = 11184811 / 16777216 := by
  rw [f32_round_of_binade (2 / 3) (-1) (by norm_num) (by norm_num),
    round_half_even_eq_of_near _ 11184811 (by norm_num) (by norm_num)]
  norm_num

theorem f32_round_16777219 : f32_round 16777219 = 16777220 := by
  rw [f32_round_of_binade 16777219 24 (by norm_num) (by norm_num)]
  have e : (16777219 : ℚ) / 2 ^ ((24 : ℤ) - 23) = ((8388609 : ℤ) : ℚ) + 1 / 2 := by norm_num
  rw [e, round_half_even_tie_odd 8388609 (by norm_num)]
  norm_num

theorem f32_round_ofNat (n : ℕ) (hn : n < 2 ^ 24) : f32_round (n : ℚ) = (n : ℚ) :=
  f32_round_natCast n hn

theorem f32_round_half : f32_round (1 / 2) = 1 / 2 := by
  have := f32_round_exact 1 (-1) (by norm_num)
  norm_num at this
  simpa using this

theorem f32_round_16777220 : f32_round 16777220 = 16777220 := by
  have := f32_round_exact 4194305 2 (by norm_num)
  norm_num at this
  exact this

theorem gfloat_to_guint_natCast (n : ℕ) (hn : n < 2 ^ 32) : gfloat_to_guint (n : ℚ) = n := by
  unfold gfloat_to_guint
  have h0 : ¬ ((n : ℚ) < 0) := not_lt.mpr (Nat.cast_nonneg n)
  have h1 : ¬ ((2 : ℚ) ^ 32 ≤ (n : ℚ)) := by
    rw [not_le]
    exact_mod_cast hn
  rw [if_neg h0, if_neg h1, Int.floor_natCast, Int.toNat_ofNat]

/-- `set_caps` ends in `compute_letterbox` on the state with resolved output
dimensions. -/
theorem set_caps_letterbox (fl : ℚ → ℚ) (self : EdgefirstCameraAdaptor) (info : GstVideoInfo) :
    ∃ s : EdgefirstCameraAdaptor,
      (edgefirst_camera_adaptor_set_caps fl self (some info)).2
        = compute_letterbox fl s info.width info.height ∧
      s.letterbox = self.letterbox ∧
      s.out_width = (if self.model_width > 0 then self.model_width else info.width) ∧
      s.out_height = (if self.model_height > 0 then self.model_height else info.height) ∧
      s.lb_top = self.lb_top ∧ s.lb_bottom = self.lb_bottom ∧
      s.lb_left = self.lb_left ∧ s.lb_right = self.lb_right ∧
      s.lb_top_override = self.lb_top_override ∧
      s.lb_bottom_override = self.lb_bottom_override ∧
      s.lb_left_override = self.lb_left_override ∧
      s.lb_right_override = self.lb_right_override := by
  simp only [edgefirst_camera_adaptor_set_caps]
  exact ⟨_, rfl, rfl, rfl, rfl, rfl, rfl, rfl, rfl, rfl, rfl, rfl, rfl⟩

/-- The geometry for a 640x480 source in a 320x320 target, with any overrides:
scale 1/2, scaled size 320x240, leftover 0 across and 80 down. -/
theorem letterbox_640x480_into_320x320 (self : EdgefirstCameraAdaptor)
    (hlb : self.letterbox = true) (hw : self.out_width = 320) (hh : self.out_height = 320) :
    (compute_letterbox f32_round self 640 480).lb_scale = 1 / 2 ∧
    gfloat_to_guint (f32_round (f32_round ((640 : ℕ) : ℚ) * (1 / 2))) = 320 ∧
    gfloat_to_guint (f32_round (f32_round ((480 : ℕ) : ℚ) * (1 / 2))) = 240 ∧
    (compute_letterbox f32_round self 640 480).lb_top
      = (if self.lb_top_override then self.lb_top else 40) ∧
    (compute_letterbox f32_round self 640 480).lb_bottom
      = (if self.lb_bottom_override then self.lb_bottom
          else to_gint (80 - (compute_letterbox f32_round self 640 480).lb_top)) ∧
    (compute_letterbox f32_round self 640 480).lb_left
      = (if self.lb_left_override then self.lb_left else 0) ∧
    (compute_letterbox f32_round self 640 480).lb_right
      = (if self.lb_right_override then self.lb_right
          else to_gint (0 - (compute_letterbox f32_round self 640 480).lb_left)) := by
  have e320 : f32_round ((320 : ℕ) : ℚ) = 320 := by
    rw [f32_round_natCast 320 (by norm_num)]; norm_num
  have e640 : f32_round ((640 : ℕ) : ℚ) = 640 := by
    rw [f32_round_natCast 640 (by norm_num)]; norm_num
  have e480 : f32_round ((480 : ℕ) : ℚ) = 480 := by
    rw [f32_round_natCast 480 (by norm_num)]; norm_num
  have q1 : f32_round ((320 : ℚ) / 640) = 1 / 2 := by
    rw [show (320 : ℚ) / 640 = 1 / 2 by norm_num, f32_round_half]
  have q2 : f32_round ((320 : ℚ) / 480) = 11184811 / 16777216 := by
    rw [show (320 : ℚ) / 480 = 2 / 3 by norm_num, f32_round_two_thirds]
  have hscale : (1 / 2 : ℚ) = MIN (f32_round (f32_round self.out_width / f32_round ((640 : ℕ) : ℚ)))
      (f32_round (f32_round self.out_height / f32_round ((480 : ℕ) : ℚ))) := by
    rw [hw, hh, e320, e640, e480, q1, q2]
    unfold MIN
    norm_num
  have p1 : f32_round ((640 : ℚ) * (1 / 2)) = ((320 : ℕ) : ℚ) := by
    rw [show (640 : ℚ) * (1 / 2) = ((320 : ℕ) : ℚ) by norm_num, f32_round_natCast 320 (by norm_num)]
  have p2 : f32_round ((480 : ℚ) * (1 / 2)) = ((240 : ℕ) : ℚ) := by
    rw [show (480 : ℚ) * (1 / 2) = ((240 : ℕ) : ℚ) by norm_num, f32_round_natCast 240 (by norm_num)]
  have n1 : gfloat_to_guint (f32_round (f32_round ((640 : ℕ) : ℚ) * (1 / 2))) = 320 := by
    rw [e640, p1, gfloat_to_guint_natCast 320 (by norm_num)]
  have n2 : gfloat_to_guint (f32_round (f32_round ((480 : ℕ) : ℚ) * (1 / 2))) = 240 := by
    rw [e480, p2, gfloat_to_guint_natCast 240 (by norm_num)]
  have htw : (0 : ℤ) = to_gint (guint_sub self.out_width
      (gfloat_to_guint (f32_round (f32_round ((640 : ℕ) : ℚ) * (1 / 2))))) := by
    rw [n1, hw]; decide
  have hth : (80 : ℤ) = to_gint (guint_sub self.out_height
      (gfloat_to_guint (f32_round (f32_round ((480 : ℕ) : ℚ) * (1 / 2))))) := by
    rw [n2, hh]; decide
  obtain ⟨a, b, c, d, e, -⟩ := compute_letterbox_enabled f32_round self 640 480 hlb
    (by norm_num) (by norm_num) (1 / 2) 0 80 hscale htw hth
  refine ⟨a, n1, n2, ?_, c, ?_, e⟩
  · rw [b]; rfl
  · rw [d]; rfl

/-! ## Claims on the letterbox geometry -/

/-- C7, as amended: with letterbox enabled, non-zero source dimensions, no edge
overridden and both target dimensions below `2^23`, `compute_letterbox` (every
float operation rounded to binary32) sets `scale = MIN (target_w / source_w,
target_h / source_h)`; with `scaled_w = floor (source_w * scale)` and
`scaled_h = floor (source_h * scale)` the scaled size fits the target,
`top = floor ((target_h - scaled_h) / 2)`, `bottom = (target_h - scaled_h) - top`,
`left = floor ((target_w - scaled_w) / 2)`, `right = (target_w - scaled_w) - left`,
and the trailing edge exceeds the leading edge by 0 or 1. -/
theorem letterbox_centered (self r : EdgefirstCameraAdaptor) (src_w src_h : ℕ)
    (scaled_w scaled_h : ℕ)
    (hlb : self.letterbox = true) (hsw : src_w ≠ 0) (hsh : src_h ≠ 0)
    (hno : self.lb_top_override = false ∧ self.lb_bottom_override = false ∧
      self.lb_left_override = false ∧ self.lb_right_override = false)
    (hdw : self.out_width < 2 ^ 23) (hdh : self.out_height < 2 ^ 23)
    (hr : r = compute_letterbox f32_round self src_w src_h)
    (hnw : scaled_w = gfloat_to_guint (f32_round (f32_round src_w * r.lb_scale)))
    (hnh : scaled_h = gfloat_to_guint (f32_round (f32_round src_h * r.lb_scale))) :
    r.lb_scale = MIN (f32_round (f32_round self.out_width / f32_round src_w))
      (f32_round (f32_round self.out_height / f32_round src_h)) ∧
    scaled_w ≤ self.out_width ∧ scaled_h ≤ self.out_height ∧
    r.lb_top = ((self.out_height : ℤ) - scaled_h) / 2 ∧
    r.lb_bottom = ((self.out_height : ℤ) - scaled_h) - r.lb_top ∧
    r.lb_left = ((self.out_width : ℤ) - scaled_w) / 2 ∧
    r.lb_right = ((self.out_width : ℤ) - scaled_w) - r.lb_left ∧
    (r.lb_bottom - r.lb_top = 0 ∨ r.lb_bottom - r.lb_top = 1) ∧
    (r.lb_right - r.lb_left = 0 ∨ r.lb_right - r.lb_left = 1) := by
  obtain ⟨h1, h2, h3, h4⟩ := hno
  obtain ⟨es, et, eb, el, er, -⟩ := compute_letterbox_enabled f32_round self src_w src_h hlb
    hsw hsh _ _ _ rfl rfl rfl
  rw [← hr] at es et eb el er
  rw [← es] at et eb el er
  rw [← hnh] at et eb
  rw [← hnw] at el er
  obtain ⟨fw, fh, tw, th⟩ := letterbox_totals self src_w src_h hsw hsh hdw hdh r.lb_scale
    scaled_w scaled_h es hnw hnh
  rw [h1, th] at et
  rw [h2, th] at eb
  rw [h3, tw] at el
  rw [h4, tw] at er
  simp only [Bool.false_eq_true, if_false] at et eb el er
  have hth0 : (0 : ℤ) ≤ (self.out_height : ℤ) - scaled_h := by omega
  have htw0 : (0 : ℤ) ≤ (self.out_width : ℤ) - scaled_w := by omega
  rw [Int.tdiv_eq_ediv hth0 (by norm_num)] at et
  rw [Int.tdiv_eq_ediv htw0 (by norm_num)] at el
  have eb' : r.lb_bottom = (self.out_height : ℤ) - scaled_h - r.lb_top := by
    rw [eb, to_gint_of_range _ (by omega) (by omega)]
  have er' : r.lb_right = (self.out_width : ℤ) - scaled_w - r.lb_left := by
    rw [er, to_gint_of_range _ (by omega) (by omega)]
  refine ⟨es, fw, fh, et, eb', el, er', ?_, ?_⟩
  · omega
  · omega

theorem letterbox_centered_witness :
    (compute_letterbox f32_round
      { edgefirst_camera_adaptor_init with
        letterbox := true, out_width := 320, out_height := 320 } 640 480).lb_scale = 1 / 2 ∧
    gfloat_to_guint (f32_round (f32_round ((640 : ℕ) : ℚ) * (1 / 2))) = 320 ∧
    gfloat_to_guint (f32_round (f32_round ((480 : ℕ) : ℚ) * (1 / 2))) = 240 ∧
    (compute_letterbox f32_round
      { edgefirst_camera_adaptor_init with
        letterbox := true, out_width := 320, out_height := 320 } 640 480).lb_top = 40 ∧
    (compute_letterbox f32_round
      { edgefirst_camera_adaptor_init with
        letterbox := true, out_width := 320, out_height := 320 } 640 480).lb_bottom = 40 ∧
    (compute_letterbox f32_round
      { edgefirst_camera_adaptor_init with
        letterbox := true, out_width := 320, out_height := 320 } 640 480).lb_left = 0 ∧
    (compute_letterbox f32_round
      { edgefirst_camera_adaptor_init with
        letterbox := true, out_width := 320, out_height := 320 } 640 480).lb_right = 0 := by
  obtain ⟨sc, n1, n2, -⟩ := letterbox_640x480_into_320x320
    { edgefirst_camera_adaptor_init with letterbox := true, out_width := 320, out_height := 320 }
    rfl rfl rfl
  obtain ⟨-, -, -, ht, hb, hl, hrr, -, -⟩ := letterbox_centered
    { edgefirst_camera_adaptor_init with letterbox := true, out_width := 320, out_height := 320 }
    _ 640 480 320 240 rfl (by decide) (by decide) ⟨rfl, rfl, rfl, rfl⟩ (by decide) (by decide) rfl
    (by rw [sc]; exact n1.symm) (by rw [sc]; exact n2.symm)
  rw [ht] at hb
  rw [hl] at hrr
  exact ⟨sc, n1, n2, ht, hb, hl, hrr⟩

/-- C7 fails as stated: for a 1x1 source and a 16777219x16777219 target (no
overrides) binary32 rounds the target to 16777220, the scaled height 16777220
exceeds the target, the leftover wraps to -1, and `compute_letterbox` sets
top 0 and bottom -1: top is not `floor (-1 / 2) = -1` and the trailing edge is
one less than the leading edge. -/
theorem binary32_overshoot_breaks_centering :
    (compute_letterbox f32_round
      { edgefirst_camera_adaptor_init with
        letterbox := true, out_width := 16777219, out_height := 16777219 } 1 1).lb_scale
      = 16777220 ∧
    gfloat_to_guint (f32_round (f32_round ((1 : ℕ) : ℚ) * 16777220)) = 16777220 ∧
    (compute_letterbox f32_round
      { edgefirst_camera_adaptor_init with
        letterbox := true, out_width := 16777219, out_height := 16777219 } 1 1).lb_top = 0 ∧
    (compute_letterbox f32_round
      { edgefirst_camera_adaptor_init with
        letterbox := true, out_width := 16777219, out_height := 16777219 } 1 1).lb_bottom = -1 ∧
    (compute_letterbox f32_round
      { edgefirst_camera_adaptor_init with
        letterbox := true, out_width := 16777219, out_height := 16777219 } 1 1).lb_top
      ≠ ((16777219 : ℤ) - 16777220) / 2 ∧
    ¬ ((compute_letterbox f32_round
      { edgefirst_camera_adaptor_init with
        letterbox := true, out_width := 16777219, out_height := 16777219 } 1 1).lb_bottom
      - (compute_letterbox f32_round
      { edgefirst_camera_adaptor_init with
        letterbox := true, out_width := 16777219, out_height := 16777219 } 1 1).lb_top = 0 ∨
      (compute_letterbox f32_round
      { edgefirst_camera_adaptor_init with
        letterbox := true, out_width := 16777219, out_height := 16777219 } 1 1).lb_bottom
      - (compute_letterbox f32_round
      { edgefirst_camera_adaptor_init with
        letterbox := true, out_width := 16777219, out_height := 16777219 } 1 1).lb_top = 1) := by
  have e1 : f32_round ((1 : ℕ) : ℚ) = 1 := by
    rw [f32_round_natCast 1 (by norm_num)]; norm_num
  have eT : f32_round ((16777219 : ℕ) : ℚ) = 16777220 := by
    rw [show ((16777219 : ℕ) : ℚ) = 16777219 by norm_num, f32_round_16777219]
  have q : f32_round ((16777220 : ℚ) / 1) = 16777220 := by
    rw [div_one, f32_round_16777220]
  have hscale : (16777220 : ℚ) = MIN
      (f32_round (f32_round ((16777219 : ℕ) : ℚ) / f32_round ((1 : ℕ) : ℚ)))
      (f32_round (f32_round ((16777219 : ℕ) : ℚ) / f32_round ((1 : ℕ) : ℚ))) := by
    rw [eT, e1, q]
    unfold MIN
    norm_num
  have n1 : gfloat_to_guint (f32_round (f32_round ((1 : ℕ) : ℚ) * 16777220)) = 16777220 := by
    rw [e1, one_mul, f32_round_16777220,
      show (16777220 : ℚ) = ((16777220 : ℕ) : ℚ) by norm_num,
      gfloat_to_guint_natCast 16777220 (by norm_num)]
  have htot : (-1 : ℤ) = to_gint (guint_sub 16777219
      (gfloat_to_guint (f32_round (f32_round ((1 : ℕ) : ℚ) * 16777220)))) := by
    rw [n1]; decide
  obtain ⟨a, b, c, -⟩ := compute_letterbox_enabled f32_round
    { edgefirst_camera_adaptor_init with
      letterbox := true, out_width := 16777219, out_height := 16777219 } 1 1 rfl
    (by decide) (by decide) 16777220 (-1) (-1) hscale htot htot
  have b' : (compute_letterbox f32_round
      { edgefirst_camera_adaptor_init with
        letterbox := true, out_width := 16777219, out_height := 16777219 } 1 1).lb_top = 0 := by
    rw [b]; rfl
  have c' : (compute_letterbox f32_round
      { edgefirst_camera_adaptor_init with
        letterbox := true, out_width := 16777219, out_height := 16777219 } 1 1).lb_bottom
      = -1 := by
    rw [c, b']; rfl
  refine ⟨a, n1, b', c', ?_, ?_⟩
  · rw [b']; decide
  · rw [b', c']; decide

theorem leading_edge_range (total v lead : ℤ) (ovr : Bool) (h0 : 0 ≤ total)
    (h1 : total < 2 ^ 23) (hv : ovr = true → 0 ≤ v ∧ v < 2 ^ 31)
    (hlead : lead = if ovr = true then v else total.tdiv 2) :
    0 ≤ lead ∧ lead < 2 ^ 31 := by
  cases ovr
  · simp only [Bool.false_eq_true, if_false] at hlead
    rw [hlead, Int.tdiv_eq_ediv h0 (by norm_num)]
    omega
  · simp only [if_true] at hlead
    rw [hlead]
    exact hv rfl

theorem trailing_edge_sum (total lead trail : ℤ) (h0 : 0 ≤ total) (h1 : total < 2 ^ 23)
    (hl : 0 ≤ lead ∧ lead < 2 ^ 31) (ht : trail = to_gint (total - lead)) :
    lead + trail = total := by
  rw [ht, to_gint_of_range _ (by omega) (by omega)]
  omega

/-- C8, as amended: after `compute_letterbox` with letterbox enabled, non-zero
source dimensions, target dimensions below `2^23` and override values in the
property range `[0, G_MAXINT]`, `target_width = left + right + floor
(source_width * scale)` holds whenever the right edge is not overridden, and
`target_height = top + bottom + floor (source_height * scale)` whenever the
bottom edge is not overridden, whatever the override of the leading edge. -/
theorem letterbox_sum_invariant (self r : EdgefirstCameraAdaptor) (src_w src_h : ℕ)
    (scaled_w scaled_h : ℕ)
    (hlb : self.letterbox = true) (hsw : src_w ≠ 0) (hsh : src_h ≠ 0)
    (hdw : self.out_width < 2 ^ 23) (hdh : self.out_height < 2 ^ 23)
    (hleft : self.lb_left_override = true → 0 ≤ self.lb_left ∧ self.lb_left < 2 ^ 31)
    (htop : self.lb_top_override = true → 0 ≤ self.lb_top ∧ self.lb_top < 2 ^ 31)
    (hr : r = compute_letterbox f32_round self src_w src_h)
    (hnw : scaled_w = gfloat_to_guint (f32_round (f32_round src_w * r.lb_scale)))
    (hnh : scaled_h = gfloat_to_guint (f32_round (f32_round src_h * r.lb_scale))) :
    (self.lb_right_override = false →
      (self.out_width : ℤ) = r.lb_left + r.lb_right + scaled_w) ∧
    (self.lb_bottom_override = false →
      (self.out_height : ℤ) = r.lb_top + r.lb_bottom + scaled_h) := by
  obtain ⟨es, et, eb, el, er, -⟩ := compute_letterbox_enabled f32_round self src_w src_h hlb
    hsw hsh _ _ _ rfl rfl rfl
  rw [← hr] at es et eb el er
  rw [← es] at et eb el er
  rw [← hnh] at et eb
  rw [← hnw] at el er
  obtain ⟨fw, fh, tw, th⟩ := letterbox_totals self src_w src_h hsw hsh hdw hdh r.lb_scale
    scaled_w scaled_h es hnw hnh
  rw [th] at et eb
  rw [tw] at el er
  have hth0 : (0 : ℤ) ≤ (self.out_height : ℤ) - scaled_h :=
    Int.sub_nonneg_of_le (by exact_mod_cast fh)
  have htw0 : (0 : ℤ) ≤ (self.out_width : ℤ) - scaled_w :=
    Int.sub_nonneg_of_le (by exact_mod_cast fw)
  have hth1 : (self.out_height : ℤ) - scaled_h < 2 ^ 23 := by
    have : (self.out_height : ℤ) < 2 ^ 23 := by exact_mod_cast hdh
    have : (0 : ℤ) ≤ (scaled_h : ℤ) := Int.natCast_nonneg _
    linarith
  have htw1 : (self.out_width : ℤ) - scaled_w < 2 ^ 23 := by
    have : (self.out_width : ℤ) < 2 ^ 23 := by exact_mod_cast hdw
    have : (0 : ℤ) ≤ (scaled_w : ℤ) := Int.natCast_nonneg _
    linarith
  have hl := leading_edge_range _ _ _ _ htw0 htw1 hleft el
  have ht := leading_edge_range _ _ _ _ hth0 hth1 htop et
  constructor
  · intro h
    rw [h] at er
    simp only [Bool.false_eq_true, if_false] at er
    have := trailing_edge_sum _ _ _ htw0 htw1 hl er
    linarith
  · intro h
    rw [h] at eb
    simp only [Bool.false_eq_true, if_false] at eb
    have := trailing_edge_sum _ _ _ hth0 hth1 ht eb
    linarith

theorem overridden_kept_aux (fl : ℚ → ℚ) (self : EdgefirstCameraAdaptor)
    (src_w src_h : ℕ) (hlb : self.letterbox = true) (hsw : src_w ≠ 0) (hsh : src_h ≠ 0) :
    (self.lb_top_override = true →
      (compute_letterbox fl self src_w src_h).lb_top = self.lb_top) ∧
    (self.lb_bottom_override = true →
      (compute_letterbox fl self src_w src_h).lb_bottom = self.lb_bottom) ∧
    (self.lb_left_override = true →
      (compute_letterbox fl self src_w src_h).lb_left = self.lb_left) ∧
    (self.lb_right_override = true →
      (compute_letterbox fl self src_w src_h).lb_right = self.lb_right) := by
  obtain ⟨-, et, eb, el, er, -⟩ := compute_letterbox_enabled fl self src_w src_h hlb
    hsw hsh _ _ _ rfl rfl rfl
  refine ⟨fun h => ?_, fun h => ?_, fun h => ?_, fun h => ?_⟩
  · rw [et, if_pos h]
  · rw [eb, if_pos h]
  · rw [el, if_pos h]
  · rw [er, if_pos h]

theorem letterbox_sum_invariant_witness :
    (320 : ℤ)
      = (compute_letterbox f32_round
          { configure [.PROP_LETTERBOX true, .PROP_LETTERBOX_TOP 10] with
            out_width := 320, out_height := 320 } 640 480).lb_left
        + (compute_letterbox f32_round
          { configure [.PROP_LETTERBOX true, .PROP_LETTERBOX_TOP 10] with
            out_width := 320, out_height := 320 } 640 480).lb_right + 320 ∧
    (320 : ℤ)
      = (compute_letterbox f32_round
          { configure [.PROP_LETTERBOX true, .PROP_LETTERBOX_TOP 10] with
            out_width := 320, out_height := 320 } 640 480).lb_top
        + (compute_letterbox f32_round
          { configure [.PROP_LETTERBOX true, .PROP_LETTERBOX_TOP 10] with
            out_width := 320, out_height := 320 } 640 480).lb_bottom + 240 := by
  obtain ⟨sc, n1, n2, -⟩ := letterbox_640x480_into_320x320
    { configure [.PROP_LETTERBOX true, .PROP_LETTERBOX_TOP 10] with
      out_width := 320, out_height := 320 } rfl rfl rfl
  obtain ⟨hw, hh⟩ := letterbox_sum_invariant
    { configure [.PROP_LETTERBOX true, .PROP_LETTERBOX_TOP 10] with
      out_width := 320, out_height := 320 } _ 640 480 320 240 rfl (by decide) (by decide)
    (by decide) (by decide) (fun h => by cases h) (fun _ => by decide) rfl
    (by rw [sc]; exact n1.symm) (by rw [sc]; exact n2.symm)
  exact ⟨hw rfl, hh rfl⟩

/-- C8 fails as stated: 640x480 into 320x320 with the bottom edge overridden to
0 gives top 40, bottom 0 and scaled height 240, which sum to 280, not 320. -/
theorem override_breaks_sum_invariant :
    (compute_letterbox f32_round
      { configure [.PROP_LETTERBOX true, .PROP_LETTERBOX_BOTTOM 0] with
        out_width := 320, out_height := 320 } 640 480).lb_scale = 1 / 2 ∧
    gfloat_to_guint (f32_round (f32_round ((480 : ℕ) : ℚ) * (1 / 2))) = 240 ∧
    (compute_letterbox f32_round
      { configure [.PROP_LETTERBOX true, .PROP_LETTERBOX_BOTTOM 0] with
        out_width := 320, out_height := 320 } 640 480).lb_top = 40 ∧
    (compute_letterbox f32_round
      { configure [.PROP_LETTERBOX true, .PROP_LETTERBOX_BOTTOM 0] with
        out_width := 320, out_height := 320 } 640 480).lb_bottom = 0 ∧
    (320 : ℤ)
      ≠ (compute_letterbox f32_round
          { configure [.PROP_LETTERBOX true, .PROP_LETTERBOX_BOTTOM 0] with
            out_width := 320, out_height := 320 } 640 480).lb_top
        + (compute_letterbox f32_round
          { configure [.PROP_LETTERBOX true, .PROP_LETTERBOX_BOTTOM 0] with
            out_width := 320, out_height := 320 } 640 480).lb_bottom + 240 := by
  obtain ⟨sc, -, n2, ht, hb, -, -⟩ := letterbox_640x480_into_320x320
    { configure [.PROP_LETTERBOX true, .PROP_LETTERBOX_BOTTOM 0] with
      out_width := 320, out_height := 320 } rfl rfl rfl
  have ht' : (compute_letterbox f32_round
      { configure [.PROP_LETTERBOX true, .PROP_LETTERBOX_BOTTOM 0] with
        out_width := 320, out_height := 320 } 640 480).lb_top = 40 := ht
  have hb' : (compute_letterbox f32_round
      { configure [.PROP_LETTERBOX true, .PROP_LETTERBOX_BOTTOM 0] with
        out_width := 320, out_height := 320 } 640 480).lb_bottom = 0 := hb
  refine ⟨sc, n2, ht', hb', ?_⟩
  rw [ht', hb']
  decide

theorem trailing_edge_nonneg (total lead trail : ℤ) (h0 : 0 ≤ total) (h1 : total < 2 ^ 23)
    (hlead : lead = total.tdiv 2) (ht : trail = to_gint (total - lead)) : 0 ≤ trail := by
  rw [Int.tdiv_eq_ediv h0 (by norm_num)] at hlead
  rw [ht, to_gint_of_range _ (by omega) (by omega)]
  omega

theorem leading_edge_nonneg (total v lead : ℤ) (ovr : Bool) (h0 : 0 ≤ total)
    (hv : ovr = true → 0 ≤ v) (hlead : lead = if ovr = true then v else total.tdiv 2) :
    0 ≤ lead := by
  cases ovr
  · simp only [Bool.false_eq_true, if_false] at hlead
    rw [hlead]
    exact Int.tdiv_nonneg h0 (by norm_num)
  · simp only [if_true] at hlead
    rw [hlead]
    exact hv rfl

/-- C10, as amended: after the `compute_letterbox` call of `set_caps` with source
width and height at least 1, resolved target dimensions below `2^23` and
override values in `[0, G_MAXINT]`, the scale is positive, top and left are
non-negative, bottom is non-negative whenever bottom is overridden or top is
not, and right is non-negative whenever right is overridden or left is not. -/
theorem letterbox_well_formed (self r : EdgefirstCameraAdaptor) (info : GstVideoInfo)
    (hiw : 1 ≤ info.width) (hih : 1 ≤ info.height)
    (hr : r = (edgefirst_camera_adaptor_set_caps f32_round self (some info)).2)
    (hdw : r.out_width < 2 ^ 23) (hdh : r.out_height < 2 ^ 23)
    (hov : (self.lb_top_override = true → 0 ≤ self.lb_top) ∧
      (self.lb_bottom_override = true → 0 ≤ self.lb_bottom) ∧
      (self.lb_left_override = true → 0 ≤ self.lb_left) ∧
      (self.lb_right_override = true → 0 ≤ self.lb_right)) :
    0 < r.lb_scale ∧ 0 ≤ r.lb_top ∧ 0 ≤ r.lb_left ∧
    (self.lb_bottom_override = true ∨ self.lb_top_override = false → 0 ≤ r.lb_bottom) ∧
    (self.lb_right_override = true ∨ self.lb_left_override = false → 0 ≤ r.lb_right) := by
  obtain ⟨s, hs, hlb, hw, hh, vt, vb, vl, vr, ot, ob, ol, or'⟩ :=
    set_caps_letterbox f32_round self info
  rw [hs] at hr
  obtain ⟨fw, fh, -⟩ := compute_letterbox_frame f32_round s info.width info.height
  rw [← hr] at fw fh
  rw [fw] at hdw
  rw [fh] at hdh
  rw [← vt, ← vb, ← vl, ← vr, ← ot, ← ob, ← ol, ← or'] at hov
  rw [← ot, ← ob, ← ol, ← or']
  obtain ⟨pt, pb, pl, pr⟩ := hov
  have hsw : info.width ≠ 0 := by omega
  have hsh : info.height ≠ 0 := by omega
  by_cases hl : s.letterbox = true
  · obtain ⟨es, et, eb, el, er, -⟩ := compute_letterbox_enabled f32_round s info.width
      info.height hl hsw hsh _ _ _ rfl rfl rfl
    rw [← hr] at es et eb el er
    rw [← es] at et eb el er
    obtain ⟨gw, gh, tw, th⟩ := letterbox_totals s info.width info.height hsw hsh hdw hdh
      r.lb_scale _ _ es rfl rfl
    rw [th] at et eb
    rw [tw] at el er
    have hth0 : (0 : ℤ) ≤ (s.out_height : ℤ)
        - (gfloat_to_guint (f32_round (f32_round info.height * r.lb_scale)) : ℕ) :=
      Int.sub_nonneg_of_le (by exact_mod_cast gh)
    have htw0 : (0 : ℤ) ≤ (s.out_width : ℤ)
        - (gfloat_to_guint (f32_round (f32_round info.width * r.lb_scale)) : ℕ) :=
      Int.sub_nonneg_of_le (by exact_mod_cast gw)
    have hth1 : (s.out_height : ℤ)
        - (gfloat_to_guint (f32_round (f32_round info.height * r.lb_scale)) : ℕ) < 2 ^ 23 := by
      have a1 : (s.out_height : ℤ) < 2 ^ 23 := by exact_mod_cast hdh
      have a2 : (0 : ℤ) ≤ ((gfloat_to_guint (f32_round (f32_round info.height * r.lb_scale))
        : ℕ) : ℤ) := Int.natCast_nonneg _
      linarith
    have htw1 : (s.out_width : ℤ)
        - (gfloat_to_guint (f32_round (f32_round info.width * r.lb_scale)) : ℕ) < 2 ^ 23 := by
      have a1 : (s.out_width : ℤ) < 2 ^ 23 := by exact_mod_cast hdw
      have a2 : (0 : ℤ) ≤ ((gfloat_to_guint (f32_round (f32_round info.width * r.lb_scale))
        : ℕ) : ℤ) := Int.natCast_nonneg _
      linarith
    have hdw1 : 1 ≤ s.out_width := by rw [hw]; split <;> omega
    have hdh1 : 1 ≤ s.out_height := by rw [hh]; split <;> omega
    have hBw : 0 < f32_round (info.width : ℚ) := f32_round_pos _ (by exact_mod_cast hiw)
    have hBh : 0 < f32_round (info.height : ℚ) := f32_round_pos _ (by exact_mod_cast hih)
    have hAw : 0 < f32_round (s.out_width : ℚ) := f32_round_pos _ (by exact_mod_cast hdw1)
    have hAh : 0 < f32_round (s.out_height : ℚ) := f32_round_pos _ (by exact_mod_cast hdh1)
    refine ⟨?_, ?_, ?_, ?_, ?_⟩
    · rw [es]
      exact MIN_pos _ _ (f32_round_pos _ (div_pos hAw hBw)) (f32_round_pos _ (div_pos hAh hBh))
    · exact leading_edge_nonneg _ _ _ _ hth0 pt et
    · exact leading_edge_nonneg _ _ _ _ htw0 pl el
    · intro hcase
      by_cases hb : s.lb_bottom_override = true
      · rw [eb, if_pos hb]
        exact pb hb
      · have htf : s.lb_top_override = false := by
          rcases hcase with h | h
          · exact absurd h hb
          · exact h
        rw [htf] at et
        simp only [Bool.false_eq_true, if_false] at et
        rw [if_neg hb] at eb
        exact trailing_edge_nonneg _ _ _ hth0 hth1 et eb
    · intro hcase
      by_cases hb : s.lb_right_override = true
      · rw [er, if_pos hb]
        exact pr hb
      · have htf : s.lb_left_override = false := by
          rcases hcase with h | h
          · exact absurd h hb
          · exact h
        rw [htf] at el
        simp only [Bool.false_eq_true, if_false] at el
        rw [if_neg hb] at er
        exact trailing_edge_nonneg _ _ _ htw0 htw1 el er
  · have hl' : s.letterbox = false := by
      cases h : s.letterbox
      · rfl
      · exact absurd h hl
    obtain ⟨es, et, eb, el, er, -⟩ := compute_letterbox_disabled f32_round s info.width
      info.height (Or.inl hl')
    rw [← hr] at es et eb el er
    rw [es, et, eb, el, er]
    exact ⟨by norm_num, le_rfl, le_rfl, fun _ => le_rfl, fun _ => le_rfl⟩

theorem letterbox_well_formed_witness :
    0 < (edgefirst_camera_adaptor_set_caps f32_round
      (configure [.PROP_MODEL_WIDTH 320, .PROP_MODEL_HEIGHT 320, .PROP_LETTERBOX true])
      (some { width := 640, height := 480, format := .RGB })).2.lb_scale ∧
    0 ≤ (edgefirst_camera_adaptor_set_caps f32_round
      (configure [.PROP_MODEL_WIDTH 320, .PROP_MODEL_HEIGHT 320, .PROP_LETTERBOX true])
      (some { width := 640, height := 480, format := .RGB })).2.lb_top ∧
    0 ≤ (edgefirst_camera_adaptor_set_caps f32_round
      (configure [.PROP_MODEL_WIDTH 320, .PROP_MODEL_HEIGHT 320, .PROP_LETTERBOX true])
      (some { width := 640, height := 480, format := .RGB })).2.lb_bottom := by
  obtain ⟨h1, h2, -, h4, -⟩ := letterbox_well_formed
    (configure [.PROP_MODEL_WIDTH 320, .PROP_MODEL_HEIGHT 320, .PROP_LETTERBOX true]) _
    { width := 640, height := 480, format := .RGB } (by decide) (by decide) rfl
    (by rw [(set_caps_resolved f32_round _ _).1]; decide)
    (by rw [(set_caps_resolved f32_round _ _).2.1]; decide)
    ⟨fun h => (by cases h), fun h => (by cases h), fun h => (by cases h),
      fun h => (by cases h)⟩
  exact ⟨h1, h2, h4 (Or.inr rfl)⟩

/-- C10 fails as stated: 640x480 into 320x320 with letterbox enabled and the top
edge set to 100 (inside the property range) leaves bottom at 80 - 100 = -20 after
`set_caps`. -/
theorem pinned_top_gives_negative_bottom :
    (edgefirst_camera_adaptor_set_caps f32_round
      (configure [.PROP_MODEL_WIDTH 320, .PROP_MODEL_HEIGHT 320, .PROP_LETTERBOX true,
        .PROP_LETTERBOX_TOP 100])
      (some { width := 640, height := 480, format := .RGB })).2.lb_top = 100 ∧
    (edgefirst_camera_adaptor_set_caps f32_round
      (configure [.PROP_MODEL_WIDTH 320, .PROP_MODEL_HEIGHT 320, .PROP_LETTERBOX true,
        .PROP_LETTERBOX_TOP 100])
      (some { width := 640, height := 480, format := .RGB })).2.lb_bottom = -20 ∧
    ¬ (0 ≤ (edgefirst_camera_adaptor_set_caps f32_round
      (configure [.PROP_MODEL_WIDTH 320, .PROP_MODEL_HEIGHT 320, .PROP_LETTERBOX true,
        .PROP_LETTERBOX_TOP 100])
      (some { width := 640, height := 480, format := .RGB })).2.lb_bottom) := by
  obtain ⟨s, hs, hlb, hw, hh, vt, -, -, -, ot, ob, -, -⟩ := set_caps_letterbox f32_round
    (configure [.PROP_MODEL_WIDTH 320, .PROP_MODEL_HEIGHT 320, .PROP_LETTERBOX true,
      .PROP_LETTERBOX_TOP 100]) { width := 640, height := 480, format := .RGB }
  have hs' : (edgefirst_camera_adaptor_set_caps f32_round
      (configure [.PROP_MODEL_WIDTH 320, .PROP_MODEL_HEIGHT 320, .PROP_LETTERBOX true,
        .PROP_LETTERBOX_TOP 100])
      (some { width := 640, height := 480, format := .RGB })).2
      = compute_letterbox f32_round s 640 480 := hs
  obtain ⟨-, -, -, ht, hb, -, -⟩ := letterbox_640x480_into_320x320 s (hlb.trans rfl)
    (hw.trans rfl) (hh.trans rfl)
  rw [ot, vt] at ht
  rw [ob] at hb
  have ht' : (compute_letterbox f32_round s 640 480).lb_top = 100 := ht
  have hb' : (compute_letterbox f32_round s 640 480).lb_bottom = -20 := by
    rw [hb, ht']; rfl
  rw [hs']
  refine ⟨ht', hb', ?_⟩
  rw [hb']
  decide

/-! ## Identity geometry -/

/-- C11: `compute_letterbox` yields the identity geometry (scale 1, zero padding
on all four edges, `crop_valid` false, so that no destination rectangle is
passed to Stage 1) whenever letterbox is disabled or a source dimension is
zero; and on every call there is, the one `set_caps` makes after resolving the
target, also whenever a target dimension is zero: a target dimension resolves
to zero only when the model dimension is unset and the source dimension is
zero. -/
theorem identity_geometry (fl : ℚ → ℚ) (self : EdgefirstCameraAdaptor) :
    (∀ src_w src_h : Nat, (self.letterbox = false ∨ src_w = 0 ∨ src_h = 0) →
      (compute_letterbox fl self src_w src_h).lb_scale = 1 ∧
      (compute_letterbox fl self src_w src_h).lb_top = 0 ∧
      (compute_letterbox fl self src_w src_h).lb_bottom = 0 ∧
      (compute_letterbox fl self src_w src_h).lb_left = 0 ∧
      (compute_letterbox fl self src_w src_h).lb_right = 0 ∧
      (compute_letterbox fl self src_w src_h).crop_valid = false) ∧
    (∀ info : GstVideoInfo,
      (self.letterbox = false ∨ info.width = 0 ∨ info.height = 0 ∨
        (edgefirst_camera_adaptor_set_caps fl self (some info)).2.out_width = 0 ∨
        (edgefirst_camera_adaptor_set_caps fl self (some info)).2.out_height = 0) →
      (edgefirst_camera_adaptor_set_caps fl self (some info)).2.lb_scale = 1 ∧
      (edgefirst_camera_adaptor_set_caps fl self (some info)).2.lb_top = 0 ∧
      (edgefirst_camera_adaptor_set_caps fl self (some info)).2.lb_bottom = 0 ∧
      (edgefirst_camera_adaptor_set_caps fl self (some info)).2.lb_left = 0 ∧
      (edgefirst_camera_adaptor_set_caps fl self (some info)).2.lb_right = 0 ∧
      (edgefirst_camera_adaptor_set_caps fl self (some info)).2.crop_valid = false) := by
  refine ⟨fun src_w src_h h => compute_letterbox_disabled fl self src_w src_h h,
    fun info h => ?_⟩
  obtain ⟨hw, hh, -⟩ := set_caps_resolved fl self info
  have hsrc : self.letterbox = false ∨ info.width = 0 ∨ info.height = 0 := by
    rcases h with h | h | h | h | h
    · exact Or.inl h
    · exact Or.inr (Or.inl h)
    · exact Or.inr (Or.inr h)
    · rw [hw] at h
      by_cases hm : self.model_width > 0
      · rw [if_pos hm] at h; omega
      · rw [if_neg hm] at h; exact Or.inr (Or.inl h)
    · rw [hh] at h
      by_cases hm : self.model_height > 0
      · rw [if_pos hm] at h; omega
      · rw [if_neg hm] at h; exact Or.inr (Or.inr h)
  simp only [edgefirst_camera_adaptor_set_caps]
  exact compute_letterbox_disabled fl _ info.width info.height hsrc

/-! ## The Stage-1 state machine -/

theorem create_input_image_flag (self : EdgefirstCameraAdaptor) (buf : InputBuffer) (b : Bool) :
    create_input_image { self with use_two_stage := b } buf = create_input_image self buf :=
  rfl

/-- The software path leaves the instance alone and makes at most the
`convert_ref` call. -/
theorem transform_fallback_spec (fl : ℚ → ℚ) (self : EdgefirstCameraAdaptor) (rt : Runtime)
    (frame : Frame) (calls : List HalCall) :
    (transform_fallback fl self rt frame calls).self = self ∧
    (transform_fallback fl self rt frame calls).calls
      = calls ++ (if rt.work_tensor then
          [HalCall.hal_image_processor_convert_ref self.target_fourcc
            (if self.crop_valid then some self.crop else none)]
        else []) ∧
    ((transform_fallback fl self rt frame calls).flow = GstFlowReturn.GST_FLOW_ERROR ↔
      (rt.work_tensor = false ∨ frame.convert_ref_ret ≠ 0 ∨
        (self.out_dmabuf_buf = false ∧ frame.omap_ok = false))) := by
  unfold transform_fallback
  cases hw : rt.work_tensor
  · simp
  · by_cases hr : frame.convert_ref_ret = 0
    · cases hd : self.out_dmabuf_buf
      · cases ho : frame.omap_ok <;> simp [hr]
      · simp [hr]
    · simp [hr]

/-- The results of the software path do not depend on the calls made before
it, which are only recorded. -/
theorem transform_fallback_calls (fl : ℚ → ℚ) (self : EdgefirstCameraAdaptor) (rt : Runtime)
    (frame : Frame) (calls : List HalCall) :
    (transform_fallback fl self rt frame calls).flow
      = (transform_fallback fl self rt frame []).flow ∧
    (transform_fallback fl self rt frame calls).rt
      = (transform_fallback fl self rt frame []).rt ∧
    (transform_fallback fl self rt frame calls).outbuf
      = (transform_fallback fl self rt frame []).outbuf ∧
    (transform_fallback fl self rt frame calls).outbuf_f32
      = (transform_fallback fl self rt frame []).outbuf_f32 := by
  unfold transform_fallback
  cases hw : rt.work_tensor
  · simp
  · by_cases hr : frame.convert_ref_ret = 0
    · cases hd : self.out_dmabuf_buf
      · cases ho : frame.omap_ok <;> simp [hr]
      · simp [hr]
    · simp [hr]

/-- The software path with the flag cleared differs from the software path of
the same instance only in the flag. -/
theorem transform_fallback_flag (fl : ℚ → ℚ) (self : EdgefirstCameraAdaptor) (rt : Runtime)
    (frame : Frame) (calls : List HalCall) (b : Bool) :
    (transform_fallback fl { self with use_two_stage := b } rt frame calls).flow
      = (transform_fallback fl self rt frame calls).flow ∧
    (transform_fallback fl { self with use_two_stage := b } rt frame calls).rt
      = (transform_fallback fl self rt frame calls).rt ∧
    (transform_fallback fl { self with use_two_stage := b } rt frame calls).outbuf
      = (transform_fallback fl self rt frame calls).outbuf ∧
    (transform_fallback fl { self with use_two_stage := b } rt frame calls).outbuf_f32
      = (transform_fallback fl self rt frame calls).outbuf_f32 ∧
    (transform_fallback fl { self with use_two_stage := b } rt frame calls).calls
      = (transform_fallback fl self rt frame calls).calls := by
  unfold transform_fallback
  cases hw : rt.work_tensor
  · simp
  · by_cases hr : frame.convert_ref_ret = 0
    · cases hd : self.out_dmabuf_buf
      · cases ho : frame.omap_ok
        · simp [hr, hd]
        · simp only [hr, hd, ho]
          refine ⟨?_, ?_, ?_, ?_, ?_⟩ <;> rfl
      · simp only [hr, hd]
        refine ⟨?_, ?_, ?_, ?_, ?_⟩ <;> rfl
    · simp [hr]

/-- Once the flag is clear, a `transform` call keeps it clear, calls no
hardware convert, and is the software path. -/
theorem transform_of_fallback (arm_neon : Bool) (fl : ℚ → ℚ) (self : EdgefirstCameraAdaptor)
    (rt : Runtime) (frame : Frame) (h : self.use_two_stage = false) :
    (edgefirst_camera_adaptor_transform arm_neon fl self rt frame).self.use_two_stage = false ∧
    (∀ crop, HalCall.hal_image_processor_convert crop
      ∉ (edgefirst_camera_adaptor_transform arm_neon fl self rt frame).calls) ∧
    ((edgefirst_camera_adaptor_transform arm_neon fl self rt frame).calls = [] ∨
      (edgefirst_camera_adaptor_transform arm_neon fl self rt frame).calls
        = [HalCall.hal_image_processor_convert_ref self.target_fourcc
            (if self.crop_valid then some self.crop else none)]) := by
  unfold edgefirst_camera_adaptor_transform
  cases hi : (create_input_image self frame.input).2 with
  | none => simp [h]
  | some img =>
    simp only [h, Bool.false_eq_true, if_false]
    obtain ⟨h1, h2, -⟩ := transform_fallback_spec fl self rt frame []
    rw [h1, h2]
    refine ⟨h, ?_, ?_⟩
    · intro crop
      cases rt.work_tensor <;> simp
    · cases rt.work_tensor <;> simp

/-- The flag never goes from clear to set in `transform`. -/
theorem transform_flag_mono (arm_neon : Bool) (fl : ℚ → ℚ) (self : EdgefirstCameraAdaptor)
    (rt : Runtime) (frame : Frame)
    (h : (edgefirst_camera_adaptor_transform arm_neon fl self rt frame).self.use_two_stage
      = true) : self.use_two_stage = true := by
  cases hs : self.use_two_stage
  · rw [(transform_of_fallback arm_neon fl self rt frame hs).1] at h
    exact h
  · rfl

theorem transform_frames_of_fallback (arm_neon : Bool) (fl : ℚ → ℚ) (frames : List Frame) :
    ∀ (s : EdgefirstCameraAdaptor × Runtime), s.1.use_two_stage = false →
      (transform_frames arm_neon fl s frames).1.use_two_stage = false := by
  induction frames with
  | nil => intro s h; exact h
  | cons f fs ih =>
    intro s h
    simp only [transform_frames]
    exact ih _ (transform_of_fallback arm_neon fl s.1 s.2 f h).1

theorem transform_frames_append (arm_neon : Bool) (fl : ℚ → ℚ) (pre post : List Frame) :
    ∀ (s : EdgefirstCameraAdaptor × Runtime),
      transform_frames arm_neon fl s (pre ++ post)
        = transform_frames arm_neon fl (transform_frames arm_neon fl s pre) post := by
  induction pre with
  | nil => intro s; rfl
  | cons f fs ih =>
    intro s
    simp only [List.cons_append, transform_frames]
    exact ih _

/-- A frame on which the hardware convert is called and fails: what
`transform` does. -/
theorem transform_of_failure (arm_neon : Bool) (fl : ℚ → ℚ) (self : EdgefirstCameraAdaptor)
    (rt : Runtime) (frame : Frame) (htwo : self.use_two_stage = true)
    (himg : (create_input_image self frame.input).2 ≠ none)
    (hret : frame.convert_ret ≠ 0) :
    edgefirst_camera_adaptor_transform arm_neon fl self rt frame
      = transform_fallback fl { self with use_two_stage := false } rt frame
          [HalCall.hal_image_processor_convert
            (if self.crop_valid then some self.crop else none)] := by
  unfold edgefirst_camera_adaptor_transform
  cases hi : (create_input_image self frame.input).2 with
  | none => exact absurd hi himg
  | some img => simp [htwo, hret]

/-- The hardware convert is called exactly on frames whose input image was
created while the flag is set. -/
theorem convert_called_iff (arm_neon : Bool) (fl : ℚ → ℚ) (self : EdgefirstCameraAdaptor)
    (rt : Runtime) (frame : Frame) (crop : Option HalCrop)
    (h : HalCall.hal_image_processor_convert crop
      ∈ (edgefirst_camera_adaptor_transform arm_neon fl self rt frame).calls) :
    self.use_two_stage = true ∧ (create_input_image self frame.input).2 ≠ none := by
  cases hs : self.use_two_stage
  · exact absurd h ((transform_of_fallback arm_neon fl self rt frame hs).2.1 crop)
  · refine ⟨rfl, ?_⟩
    intro hn
    unfold edgefirst_camera_adaptor_transform at h
    rw [hn] at h
    simp at h

/-- C12: within one negotiated session (a run of `transform` calls) the
Stage-1 flag never goes from clear back to set; and after a frame K on which
the hardware convert is called and returns non-zero, the flag is clear after
any number of further frames, and every later call makes no hardware convert
call: its Stage-1 calls are the `convert_ref` call alone (or none, when the
input image or the work tensor is missing). -/
theorem fallback_is_permanent (arm_neon : Bool) (fl : ℚ → ℚ)
    (self : EdgefirstCameraAdaptor) (rt : Runtime) (pre : List Frame) (frameK : Frame)
    (post : List Frame) (later : Frame) (crop : Option HalCrop)
    (hcall : HalCall.hal_image_processor_convert crop
      ∈ (edgefirst_camera_adaptor_transform arm_neon fl
          (transform_frames arm_neon fl (self, rt) pre).1
          (transform_frames arm_neon fl (self, rt) pre).2 frameK).calls)
    (hret : frameK.convert_ret ≠ 0) :
    (∀ (s : EdgefirstCameraAdaptor) (r : Runtime) (f : Frame), s.use_two_stage = false →
      (edgefirst_camera_adaptor_transform arm_neon fl s r f).self.use_two_stage = false) ∧
    (transform_frames arm_neon fl (self, rt) (pre ++ frameK :: post)).1.use_two_stage
      = false ∧
    (∀ c, HalCall.hal_image_processor_convert c
      ∉ (edgefirst_camera_adaptor_transform arm_neon fl
          (transform_frames arm_neon fl (self, rt) (pre ++ frameK :: post)).1
          (transform_frames arm_neon fl (self, rt) (pre ++ frameK :: post)).2 later).calls) ∧
    ((edgefirst_camera_adaptor_transform arm_neon fl
        (transform_frames arm_neon fl (self, rt) (pre ++ frameK :: post)).1
        (transform_frames arm_neon fl (self, rt) (pre ++ frameK :: post)).2 later).calls = [] ∨
      (edgefirst_camera_adaptor_transform arm_neon fl
        (transform_frames arm_neon fl (self, rt) (pre ++ frameK :: post)).1
        (transform_frames arm_neon fl (self, rt) (pre ++ frameK :: post)).2 later).calls
        = [HalCall.hal_image_processor_convert_ref
            (transform_frames arm_neon fl (self, rt) (pre ++ frameK :: post)).1.target_fourcc
            (if (transform_frames arm_neon fl (self, rt) (pre ++ frameK :: post)).1.crop_valid
              then some (transform_frames arm_neon fl (self, rt) (pre ++ frameK :: post)).1.crop
              else none)]) ∧
    (edgefirst_camera_adaptor_transform arm_neon fl
        (transform_frames arm_neon fl (self, rt) (pre ++ frameK :: post)).1
        (transform_frames arm_neon fl (self, rt) (pre ++ frameK :: post)).2
        later).self.use_two_stage = false := by
  obtain ⟨htwo, himg⟩ := convert_called_iff arm_neon fl _ _ frameK crop hcall
  have hK : (edgefirst_camera_adaptor_transform arm_neon fl
      (transform_frames arm_neon fl (self, rt) pre).1
      (transform_frames arm_neon fl (self, rt) pre).2 frameK).self.use_two_stage = false := by
    rw [transform_of_failure arm_neon fl _ _ frameK htwo himg hret,
      (transform_fallback_spec fl _ _ frameK _).1]
  have hflag : (transform_frames arm_neon fl (self, rt) (pre ++ frameK :: post)).1.use_two_stage
      = false := by
    rw [transform_frames_append]
    simp only [transform_frames]
    exact transform_frames_of_fallback arm_neon fl post _ hK
  obtain ⟨h1, h2, h3⟩ := transform_of_fallback arm_neon fl _
    (transform_frames arm_neon fl (self, rt) (pre ++ frameK :: post)).2 later hflag
  exact ⟨fun s r f hs => (transform_of_fallback arm_neon fl s r f hs).1, hflag, h2, h3, h1⟩

theorem fallback_is_permanent_witness :
    (transform_frames true f32_round (negotiated [], allocated)
      ([frame_with 0] ++ frame_with (-1) :: [frame_with 0])).1.use_two_stage = false ∧
    ∀ c, HalCall.hal_image_processor_convert c
      ∉ (edgefirst_camera_adaptor_transform true f32_round
          (transform_frames true f32_round (negotiated [], allocated)
            ([frame_with 0] ++ frame_with (-1) :: [frame_with 0])).1
          (transform_frames true f32_round (negotiated [], allocated)
            ([frame_with 0] ++ frame_with (-1) :: [frame_with 0])).2 (frame_with 0)).calls :=
  have h := fallback_is_permanent true f32_round (negotiated []) allocated [frame_with 0]
    (frame_with (-1)) [frame_with 0] (frame_with 0) none
    (by
      have hs : (transform_frames true f32_round (negotiated [], allocated)
          [frame_with 0]).1.use_two_stage = true := rfl
      have hc : (transform_frames true f32_round (negotiated [], allocated)
          [frame_with 0]).1.crop_valid = false := rfl
      have hi : (create_input_image (transform_frames true f32_round (negotiated [], allocated)
          [frame_with 0]).1 (frame_with (-1)).input).2 ≠ none := by decide
      rw [transform_of_failure true f32_round _ _ (frame_with (-1)) hs hi (by decide),
        (transform_fallback_spec f32_round _ _ (frame_with (-1)) _).2.1, hc]
      simp)
    (by decide)
  ⟨h.2.1, h.2.2.1⟩

/-- C13: on a frame whose input image was created and on which the hardware
convert returns non-zero while the flag is set, `transform` clears the flag and
continues on the software path in the same call: its flow return, tensors and
output are those of the software path alone, the `convert_ref` call follows the
failed convert whenever the work tensor exists, and `GST_FLOW_ERROR` is
returned only for a missing work tensor, a failing `convert_ref` or an output
buffer that does not map; with those three in order the call returns
`GST_FLOW_OK`. -/
theorem hardware_failure_not_surfaced (arm_neon : Bool) (fl : ℚ → ℚ)
    (self : EdgefirstCameraAdaptor) (rt : Runtime) (frame : Frame)
    (htwo : self.use_two_stage = true)
    (himg : (create_input_image self frame.input).2 ≠ none)
    (hret : frame.convert_ret ≠ 0) :
    (edgefirst_camera_adaptor_transform arm_neon fl self rt frame).self.use_two_stage = false ∧
    (edgefirst_camera_adaptor_transform arm_neon fl self rt frame).flow
      = (transform_fallback fl self rt frame []).flow ∧
    (edgefirst_camera_adaptor_transform arm_neon fl self rt frame).rt
      = (transform_fallback fl self rt frame []).rt ∧
    (edgefirst_camera_adaptor_transform arm_neon fl self rt frame).outbuf
      = (transform_fallback fl self rt frame []).outbuf ∧
    (edgefirst_camera_adaptor_transform arm_neon fl self rt frame).outbuf_f32
      = (transform_fallback fl self rt frame []).outbuf_f32 ∧
    (edgefirst_camera_adaptor_transform arm_neon fl self rt frame).calls
      = HalCall.hal_image_processor_convert (if self.crop_valid then some self.crop else none)
        :: (if rt.work_tensor then
            [HalCall.hal_image_processor_convert_ref self.target_fourcc
              (if self.crop_valid then some self.crop else none)]
          else []) ∧
    ((edgefirst_camera_adaptor_transform arm_neon fl self rt frame).flow
        = GstFlowReturn.GST_FLOW_ERROR ↔
      (rt.work_tensor = false ∨ frame.convert_ref_ret ≠ 0 ∨
        (self.out_dmabuf_buf = false ∧ frame.omap_ok = false))) ∧
    (rt.work_tensor = true → frame.convert_ref_ret = 0 →
      (self.out_dmabuf_buf = true ∨ frame.omap_ok = true) →
      (edgefirst_camera_adaptor_transform arm_neon fl self rt frame).flow
        = GstFlowReturn.GST_FLOW_OK) := by
  rw [transform_of_failure arm_neon fl self rt frame htwo himg hret]
  obtain ⟨s1, s2, s3⟩ := transform_fallback_spec fl { self with use_two_stage := false } rt
    frame [HalCall.hal_image_processor_convert
      (if self.crop_valid then some self.crop else none)]
  obtain ⟨c1, c2, c3, c4⟩ := transform_fallback_calls fl { self with use_two_stage := false }
    rt frame [HalCall.hal_image_processor_convert
      (if self.crop_valid then some self.crop else none)]
  obtain ⟨f1, f2, f3, f4, -⟩ := transform_fallback_flag fl self rt frame [] false
  refine ⟨by rw [s1], c1.trans f1, c2.trans f2, c3.trans f3, c4.trans f4, ?_, s3, ?_⟩
  · rw [s2]
    rfl
  · intro hw hr ho
    cases hflow : (transform_fallback fl { self with use_two_stage := false } rt frame
        [HalCall.hal_image_processor_convert
          (if self.crop_valid then some self.crop else none)]).flow with
    | GST_FLOW_OK => rfl
    | GST_FLOW_ERROR =>
      rcases s3.mp hflow with h | h | ⟨h1, h2⟩
      · rw [hw] at h; cases h
      · exact absurd hr h
      · rcases ho with ho | ho
        · have : self.out_dmabuf_buf = false := h1
          rw [ho] at this; cases this
        · rw [ho] at h2; cases h2

theorem hardware_failure_not_surfaced_witness :
    (negotiated []).use_two_stage = true ∧
    (frame_with (-1)).convert_ret ≠ 0 ∧
    (edgefirst_camera_adaptor_transform true f32_round (negotiated []) allocated
      (frame_with (-1))).flow = GstFlowReturn.GST_FLOW_OK ∧
    (edgefirst_camera_adaptor_transform true f32_round (negotiated []) allocated
      (frame_with (-1))).self.use_two_stage = false :=
  have h := hardware_failure_not_surfaced true f32_round (negotiated []) allocated
    (frame_with (-1)) rfl (by decide) (by decide)
  ⟨rfl, by decide, h.2.2.2.2.2.2.2 rfl rfl (Or.inr rfl), h.1⟩

/-! ## Stage 2 and the output buffer -/

/-- C15 fails for colorspace GRAY: with a 1x1 GRAY uint8 configuration the
intermediate image is GREY (one byte) and the output buffer is one byte, but
`camera_adaptor_stage2` runs the RGBA kernel on one pixel: it stores to output
indices 1 and 2, beyond the buffer, and the bytes it stores there are source
bytes 1 and 2, beyond the intermediate image. -/
theorem stage2_gray_overruns :
    (negotiated [.PROP_COLORSPACE .GRAY, .PROP_MODEL_WIDTH 1,
      .PROP_MODEL_HEIGHT 1]).intermediate_fourcc = HalFourcc.GREY ∧
    edgefirst_camera_adaptor_prepare_output_buffer
      (negotiated [.PROP_COLORSPACE .GRAY, .PROP_MODEL_WIDTH 1, .PROP_MODEL_HEIGHT 1])
      = OutputBuffer.allocated 1 ∧
    (edgefirst_camera_adaptor_transform false f32_round
      (negotiated [.PROP_COLORSPACE .GRAY, .PROP_MODEL_WIDTH 1, .PROP_MODEL_HEIGHT 1])
      allocated { frame_with 0 with intermediate := bytes_of [7, 8, 9] }).flow
      = GstFlowReturn.GST_FLOW_OK ∧
    (edgefirst_camera_adaptor_transform false f32_round
      (negotiated [.PROP_COLORSPACE .GRAY, .PROP_MODEL_WIDTH 1, .PROP_MODEL_HEIGHT 1])
      allocated { frame_with 0 with intermediate := bytes_of [7, 8, 9] }).outbuf.log
      = [2, 1, 0] ∧
    (edgefirst_camera_adaptor_transform false f32_round
      (negotiated [.PROP_COLORSPACE .GRAY, .PROP_MODEL_WIDTH 1, .PROP_MODEL_HEIGHT 1])
      allocated { frame_with 0 with intermediate := bytes_of [7, 8, 9] }).outbuf.take 3
      = [7, 8, 9] ∧
    (edgefirst_camera_adaptor_transform false f32_round
      (negotiated [.PROP_COLORSPACE .GRAY, .PROP_MODEL_WIDTH 1, .PROP_MODEL_HEIGHT 1])
      allocated { frame_with 0 with intermediate := bytes_of [7, 1, 2] }).outbuf.take 3
      = [7, 1, 2] ∧
    (edgefirst_camera_adaptor_transform true f32_round
      (negotiated [.PROP_COLORSPACE .GRAY, .PROP_MODEL_WIDTH 1, .PROP_MODEL_HEIGHT 1])
      allocated { frame_with 0 with intermediate := bytes_of [7, 8, 9] }).outbuf.log
      = [2, 1, 0] := by
  refine ⟨by decide, by decide, by decide, by decide, by decide, by decide, by decide⟩

/-! ## The shape descriptor -/

/-- A positive `gint` read from the caps converts to the same `guint`. -/
theorem gint_to_guint_natCast (n : Nat) (h : n < 2 ^ 31) : gint_to_guint (n : Int) = n := by
  unfold gint_to_guint
  have h1 : ((n : Int) % 2 ^ 32) = (n : Int) := by
    apply Int.emod_eq_of_lt
    · exact Int.natCast_nonneg n
    · have : (n : Int) < 2 ^ 31 := by exact_mod_cast h
      omega
  rw [h1]
  exact Int.toNat_natCast n

/-- C16: when the width `W` and height `H` resolve to non-zero values (each
the model dimension when that is non-zero, otherwise the positive value of the
input caps), `transform_caps` in the sink-to-source direction builds
`other/tensors` caps whose `types` string is `uint8`, `int8` or `float32`
according to the dtype and whose `dimensions` string is `C:W:H:1` for the
interleaved layout and `W:H:C:1` for the planar layout, with `C = 1` for GRAY
and `3` otherwise; the input framerate is carried over and the filter, when
given, is applied to these caps. -/
theorem transform_caps_shape {F : Type}
    (gst_caps_intersect_full : ElementCaps → F → ElementCaps)
    (self : EdgefirstCameraAdaptor) (s : Option CapsStructure) (filter : Option F)
    (W H : Nat)
    (hW : (self.model_width ≠ 0 ∧ W = self.model_width) ∨
      (self.model_width = 0 ∧ 0 < W ∧ W < 2 ^ 31 ∧
        ∃ st, s = some st ∧ st.width = some (W : Int)))
    (hH : (self.model_height ≠ 0 ∧ H = self.model_height) ∨
      (self.model_height = 0 ∧ 0 < H ∧ H < 2 ^ 31 ∧
        ∃ st, s = some st ∧ st.height = some (H : Int))) :
    edgefirst_camera_adaptor_transform_caps gst_caps_intersect_full self
        GstPadDirection.GST_PAD_SINK s filter
      = (match filter with
        | some f =>
          gst_caps_intersect_full
            (ElementCaps.other_tensors
              (some (match self.dtype with
                | .UINT8 => "uint8"
                | .INT8 => "int8"
                | .FLOAT32 => "float32"))
              (some (if self.layout = Layout.HWC then
                  toString (if self.colorspace = Colorspace.GRAY then 1 else 3) ++ ":"
                    ++ toString W ++ ":" ++ toString H ++ ":1"
                else
                  toString W ++ ":" ++ toString H ++ ":"
                    ++ toString (if self.colorspace = Colorspace.GRAY then 1 else 3) ++ ":1"))
              (s.bind CapsStructure.framerate)) f
        | none =>
          ElementCaps.other_tensors
            (some (match self.dtype with
              | .UINT8 => "uint8"
              | .INT8 => "int8"
              | .FLOAT32 => "float32"))
            (some (if self.layout = Layout.HWC then
                toString (if self.colorspace = Colorspace.GRAY then 1 else 3) ++ ":"
                  ++ toString W ++ ":" ++ toString H ++ ":1"
              else
                toString W ++ ":" ++ toString H ++ ":"
                  ++ toString (if self.colorspace = Colorspace.GRAY then 1 else 3) ++ ":1"))
            (s.bind CapsStructure.framerate)) := by
  have hty : dtype_to_nnstreamer_string self.dtype
      = (match self.dtype with
        | .UINT8 => "uint8"
        | .INT8 => "int8"
        | .FLOAT32 => "float32") := by
    cases self.dtype <;> rfl
  unfold edgefirst_camera_adaptor_transform_caps
  rw [hty]
  rcases hW with ⟨hw0, hw⟩ | ⟨hw0, hwp, hwlt, st, hst, hsw⟩
  · rcases hH with ⟨hh0, hh⟩ | ⟨hh0, hhp, hhlt, st', hst', hsh⟩
    · subst hw hh
      cases s <;> cases filter <;> simp [hw0, hh0]
    · subst hst' hw
      have hp : (0 : Int) < (H : Int) := by exact_mod_cast hhp
      have hH0 : H ≠ 0 := by omega
      cases filter <;> simp [hw0, hh0, hsh, hp, gint_to_guint_natCast H hhlt, hH0]
  · subst hst
    have hp : (0 : Int) < (W : Int) := by exact_mod_cast hwp
    have hW0 : W ≠ 0 := by omega
    rcases hH with ⟨hh0, hh⟩ | ⟨hh0, hhp, hhlt, st', hst', hsh⟩
    · subst hh
      cases filter <;> simp [hw0, hh0, hsw, hp, gint_to_guint_natCast W hwlt, hW0]
    · have hst'' : st' = st := (Option.some.inj hst').symm
      subst hst''
      have hp' : (0 : Int) < (H : Int) := by exact_mod_cast hhp
      have hH0 : H ≠ 0 := by omega
      cases filter <;>
        simp [hw0, hh0, hsw, hsh, hp, hp', gint_to_guint_natCast W hwlt,
          gint_to_guint_natCast H hhlt, hW0, hH0]

theorem transform_caps_shape_witness :
    edgefirst_camera_adaptor_transform_caps (fun (c : ElementCaps) (_ : Unit) => c)
        (configure [.PROP_LAYOUT .CHW, .PROP_DTYPE .INT8, .PROP_MODEL_WIDTH 320])
        GstPadDirection.GST_PAD_SINK
        (some { width := some 640, height := some 240, framerate := some (30, 1) }) none
      = ElementCaps.other_tensors (some "int8") (some "320:240:3:1") (some (30, 1)) :=
  (transform_caps_shape (fun (c : ElementCaps) (_ : Unit) => c)
    (configure [.PROP_LAYOUT .CHW, .PROP_DTYPE .INT8, .PROP_MODEL_WIDTH 320])
    (some { width := some 640, height := some 240, framerate := some (30, 1) }) none 320 240
    (Or.inl ⟨by decide, rfl⟩)
    (Or.inr ⟨rfl, by decide, by decide, _, rfl, rfl⟩)).trans (by decide)

/-! ## Zero-copy or copy -/

/-- The input fields pass through `compute_letterbox`. -/
theorem compute_letterbox_input (fl : ℚ → ℚ) (self : EdgefirstCameraAdaptor)
    (src_w src_h : Nat) :
    (compute_letterbox fl self src_w src_h).in_info = self.in_info ∧
    (compute_letterbox fl self src_w src_h).src_fourcc = self.src_fourcc ∧
    (compute_letterbox fl self src_w src_h).needs_input_conversion
      = self.needs_input_conversion ∧
    (compute_letterbox fl self src_w src_h).in_vformat = self.in_vformat := by
  unfold compute_letterbox
  split <;> simp

/-- The input fields `set_caps` records. -/
theorem set_caps_input (fl : ℚ → ℚ) (self : EdgefirstCameraAdaptor) (info : GstVideoInfo) :
    (edgefirst_camera_adaptor_set_caps fl self (some info)).2.in_info = some info ∧
    (edgefirst_camera_adaptor_set_caps fl self (some info)).2.src_fourcc
      = gst_format_to_hal info.format ∧
    (edgefirst_camera_adaptor_set_caps fl self (some info)).2.needs_input_conversion
      = format_needs_conversion info.format ∧
    (edgefirst_camera_adaptor_set_caps fl self (some info)).2.in_vformat = info.format := by
  simp only [edgefirst_camera_adaptor_set_caps]
  refine ⟨?_, ?_, ?_, ?_⟩
  · rw [(compute_letterbox_input fl _ _ _).1]
  · rw [(compute_letterbox_input fl _ _ _).2.1]
  · rw [(compute_letterbox_input fl _ _ _).2.2.1]
  · rw [(compute_letterbox_input fl _ _ _).2.2.2]

theorem gint_to_gsize_eq_iff (z : Int) (n : Nat) (hz : -2 ^ 31 ≤ z ∧ z < 2 ^ 31)
    (hn : n < 2 ^ 32) : gint_to_gsize z = n ↔ z = (n : Int) := by
  unfold gint_to_gsize
  constructor
  · intro h
    have h0 : 0 ≤ z % 2 ^ 64 := Int.emod_nonneg z (by norm_num)
    have h1 : z % 2 ^ 64 = (n : Int) := by
      rw [← h]
      exact (Int.toNat_of_nonneg h0).symm
    have hn' : (n : Int) < 2 ^ 32 := by exact_mod_cast hn
    omega
  · intro h
    subst h
    have hn' : (n : Int) < 2 ^ 32 := by exact_mod_cast hn
    have : (n : Int) % 2 ^ 64 = (n : Int) := by
      apply Int.emod_eq_of_lt (Int.natCast_nonneg n)
      omega
    rw [this]
    exact Int.toNat_natCast n

/-- The copy path makes no `dup` call and returns no wrapped image; it returns
an image exactly when its four calls succeed. -/
theorem create_input_image_copy_spec (fourcc : HalFourcc) (shape : List Nat)
    (buf : InputBuffer) :
    InputOp.dup ∉ (create_input_image_copy fourcc shape buf).1 ∧
    (∀ f s, (create_input_image_copy fourcc shape buf).2 ≠ some (InputImage.wrapped f s)) ∧
    ((create_input_image_copy fourcc shape buf).2 = some (InputImage.copied fourcc shape) ↔
      (buf.tensor_new = true ∧ buf.tensor_map = true ∧ buf.frame_map = true ∧
        buf.image_from_tensor = true)) ∧
    ((create_input_image_copy fourcc shape buf).2 = none ∨
      (create_input_image_copy fourcc shape buf).2 = some (InputImage.copied fourcc shape)) := by
  unfold create_input_image_copy
  cases buf.tensor_new <;> cases buf.tensor_map <;> cases buf.frame_map <;>
    cases buf.image_from_tensor <;> simp

/-- The zero-copy block: when it calls `dup`, and when it returns an image. -/
theorem create_input_image_wrap_spec (self : EdgefirstCameraAdaptor) (fourcc : HalFourcc)
    (shape : List Nat) (row : Nat) (buf : InputBuffer) (hrow : row < 2 ^ 32)
    (hs : -2 ^ 31 ≤ buf.stride ∧ buf.stride < 2 ^ 31) :
    (InputOp.dup ∈ (create_input_image_wrap self fourcc shape row buf).1 ↔
      (buf.is_dmabuf = true ∧ self.needs_input_conversion = false ∧
        buf.stride = (row : Int))) ∧
    ((create_input_image_wrap self fourcc shape row buf).2
        = some (InputImage.wrapped fourcc shape) ↔
      (buf.is_dmabuf = true ∧ self.needs_input_conversion = false ∧
        buf.stride = (row : Int) ∧ buf.dup_fd ≥ 0 ∧ buf.tensor_from_fd = true ∧
        buf.image_from_fd_tensor = true)) ∧
    ((create_input_image_wrap self fourcc shape row buf).2 = none ∨
      (create_input_image_wrap self fourcc shape row buf).2
        = some (InputImage.wrapped fourcc shape)) := by
  have hst := gint_to_gsize_eq_iff buf.stride row hs hrow
  unfold create_input_image_wrap
  cases hn : self.needs_input_conversion
  · cases hm : buf.is_dmabuf
    · simp
    · by_cases ht : gint_to_gsize buf.stride = row
      · have ht' : (buf.stride = (row : Int)) = True := eq_true (hst.mp ht)
        by_cases hf : buf.dup_fd ≥ 0
        · cases h1 : buf.tensor_from_fd
          · simp [ht, ht', hf]
          · cases h2 : buf.image_from_fd_tensor <;> simp [ht, ht', hf]
        · simp [ht, ht', hf]
      · have ht' : (buf.stride = (row : Int)) = False := eq_false (fun h => ht (hst.mpr h))
        simp [ht, ht']
  · simp

/-- The two blocks put together, for a format with a shape and row size. -/
theorem create_input_image_spec (self : EdgefirstCameraAdaptor) (buf : InputBuffer)
    (info : GstVideoInfo) (shape : List Nat) (row : Nat)
    (hin : self.in_info = some info)
    (hg : input_geometry self.src_fourcc info.width info.height = some (shape, row))
    (hrow : row < 2 ^ 32) (hs : -2 ^ 31 ≤ buf.stride ∧ buf.stride < 2 ^ 31) :
    (InputOp.dup ∈ (create_input_image self buf).1 ↔
      (buf.is_dmabuf = true ∧ self.needs_input_conversion = false ∧
        buf.stride = (row : Int))) ∧
    ((create_input_image self buf).2 = some (InputImage.wrapped self.src_fourcc shape) ↔
      (buf.is_dmabuf = true ∧ self.needs_input_conversion = false ∧
        buf.stride = (row : Int) ∧ buf.dup_fd ≥ 0 ∧ buf.tensor_from_fd = true ∧
        buf.image_from_fd_tensor = true)) ∧
    ((create_input_image self buf).2 ≠ some (InputImage.wrapped self.src_fourcc shape) →
      (create_input_image self buf).2
        = (create_input_image_copy self.src_fourcc shape buf).2) := by
  obtain ⟨w1, w2, w3⟩ := create_input_image_wrap_spec self self.src_fourcc shape row buf hrow hs
  obtain ⟨c1, c2, -, -⟩ := create_input_image_copy_spec self.src_fourcc shape buf
  unfold create_input_image
  simp only [hin, hg]
  rcases w3 with hw | hw
  · have hno : ¬ (buf.is_dmabuf = true ∧ self.needs_input_conversion = false ∧
        buf.stride = (row : Int) ∧ buf.dup_fd ≥ 0 ∧ buf.tensor_from_fd = true ∧
        buf.image_from_fd_tensor = true) := by
      intro h
      rw [w2.mpr h] at hw
      cases hw
    simp only [hw]
    refine ⟨?_, ?_, fun _ => trivial⟩
    · rw [List.mem_append, w1]
      constructor
      · rintro (h | h)
        · exact h
        · exact absurd h c1
      · exact fun h => Or.inl h
    · constructor
      · intro h
        exact absurd h (c2 _ _)
      · intro h
        exact absurd h hno
  · simp only [hw]
    have hall := w2.mp hw
    refine ⟨?_, ?_, fun h => absurd rfl h⟩
    · rw [w1]
    · exact ⟨fun _ => hall, fun _ => trivial⟩

theorem gst_format_to_hal_geometry (fmt : GstVideoFormat) (w h : Nat)
    (hw : (match gst_format_to_hal fmt with
      | .RGB => 3 * w
      | .RGBA => 4 * w
      | .YUYV => 2 * w
      | _ => w) < 2 ^ 32) :
    ∃ shape, input_geometry (gst_format_to_hal fmt) w h
      = some (shape, (match gst_format_to_hal fmt with
          | .RGB => 3 * w
          | .RGBA => 4 * w
          | .YUYV => 2 * w
          | _ => w)) := by
  have e : ∀ k, k * w < 2 ^ 32 → to_guint (w * k) = k * w := by
    intro k hk
    unfold to_guint
    rw [Nat.mul_comm w k, Nat.mod_eq_of_lt hk]
  cases fmt <;> simp only [gst_format_to_hal] at hw ⊢ <;>
    first
    | (simp only [input_geometry, e _ hw, Option.some.injEq, Prod.mk.injEq, and_true,
        exists_eq'])
    | (simp only [input_geometry, Option.some.injEq, Prod.mk.injEq, and_true, exists_eq'])

/-- C17: for a negotiated format (any state `set_caps` leaves; the tight row
size fits a `guint` and the plane-0 stride is a `gint`, as for every video info
GStreamer hands over),
`create_input_image` attempts the zero-copy wrap (calls `dup`) if and only if
the memory is a DMA-BUF, `format_needs_conversion` is false for the format and
the stride equals the tight row size of the canonical format: `3w` for RGB, `4w`
for RGBA, `2w` for YUYV, `w` for GREY, NV12 and NV16.  It returns the wrapped
image exactly when, in addition, `dup`, `hal_tensor_from_fd` and
`hal_tensor_image_from_tensor` succeed; in every other case the frame is
produced by the copy path: the result is the copy path's result, an owned image
whenever the copy path's own calls succeed. -/
theorem zero_copy_iff_tight (fl : ℚ → ℚ) (self : EdgefirstCameraAdaptor)
    (info : GstVideoInfo) (buf : InputBuffer)
    (hrow : (match gst_format_to_hal info.format with
      | .RGB => 3 * info.width
      | .RGBA => 4 * info.width
      | .YUYV => 2 * info.width
      | _ => info.width) < 2 ^ 32)
    (hs : -2 ^ 31 ≤ buf.stride ∧ buf.stride < 2 ^ 31) :
    (InputOp.dup ∈ (create_input_image
        (edgefirst_camera_adaptor_set_caps fl self (some info)).2 buf).1 ↔
      (buf.is_dmabuf = true ∧ format_needs_conversion info.format = false ∧
        buf.stride = (((match gst_format_to_hal info.format with
          | .RGB => 3 * info.width
          | .RGBA => 4 * info.width
          | .YUYV => 2 * info.width
          | _ => info.width) : Nat) : Int))) ∧
    ((∃ f s, (create_input_image
        (edgefirst_camera_adaptor_set_caps fl self (some info)).2 buf).2
          = some (InputImage.wrapped f s)) ↔
      (InputOp.dup ∈ (create_input_image
          (edgefirst_camera_adaptor_set_caps fl self (some info)).2 buf).1 ∧
        buf.dup_fd ≥ 0 ∧ buf.tensor_from_fd = true ∧ buf.image_from_fd_tensor = true)) ∧
    ((¬ ∃ f s, (create_input_image
        (edgefirst_camera_adaptor_set_caps fl self (some info)).2 buf).2
          = some (InputImage.wrapped f s)) →
      ∃ shape,
        (create_input_image (edgefirst_camera_adaptor_set_caps fl self (some info)).2 buf).2
          = (create_input_image_copy (gst_format_to_hal info.format) shape buf).2 ∧
        ((buf.tensor_new = true ∧ buf.tensor_map = true ∧ buf.frame_map = true ∧
            buf.image_from_tensor = true) →
          (create_input_image
            (edgefirst_camera_adaptor_set_caps fl self (some info)).2 buf).2
            = some (InputImage.copied (gst_format_to_hal info.format) shape))) := by
  obtain ⟨hin, hfc, hnc, -⟩ := set_caps_input fl self info
  obtain ⟨shape, hg⟩ := gst_format_to_hal_geometry info.format info.width info.height hrow
  generalize hr : (match gst_format_to_hal info.format with
      | .RGB => 3 * info.width
      | .RGBA => 4 * info.width
      | .YUYV => 2 * info.width
      | _ => info.width) = row at hg hrow ⊢
  rw [← hfc] at hg
  obtain ⟨s1, s2, s3⟩ := create_input_image_spec _ buf info shape row hin hg hrow hs
  rw [hfc] at s2 s3
  rw [hnc] at s1 s2
  obtain ⟨c1, c2, c3, c4⟩ := create_input_image_copy_spec (gst_format_to_hal info.format)
    shape buf
  have hwr : (∃ f s, (create_input_image
      (edgefirst_camera_adaptor_set_caps fl self (some info)).2 buf).2
        = some (InputImage.wrapped f s)) ↔
      (create_input_image (edgefirst_camera_adaptor_set_caps fl self (some info)).2 buf).2
        = some (InputImage.wrapped (gst_format_to_hal info.format) shape) := by
    constructor
    · rintro ⟨f, s, hfs⟩
      by_contra hne
      have := s3 hne
      rw [this] at hfs
      exact c2 f s hfs
    · exact fun h => ⟨_, _, h⟩
  refine ⟨s1, ?_, ?_⟩
  · rw [hwr, s2, s1]
    constructor
    · rintro ⟨a, b, c, d, e, f⟩
      exact ⟨⟨a, b, c⟩, d, e, f⟩
    · rintro ⟨⟨a, b, c⟩, d, e, f⟩
      exact ⟨a, b, c, d, e, f⟩
  · intro hno
    have hne := fun h => hno (hwr.mpr h)
    refine ⟨shape, s3 hne, fun hok => ?_⟩
    rw [s3 hne]
    exact c3.mpr hok

theorem zero_copy_iff_tight_witness :
    InputOp.dup ∈ (create_input_image
      (edgefirst_camera_adaptor_set_caps f32_round (configure [])
        (some { width := 640, height := 480, format := .RGBA })).2
      { sysmem_input with is_dmabuf := true, stride := 2560 }).1 ∧
    InputOp.dup ∉ (create_input_image
      (edgefirst_camera_adaptor_set_caps f32_round (configure [])
        (some { width := 640, height := 480, format := .BGRA })).2
      { sysmem_input with is_dmabuf := true, stride := 2560 }).1 :=
  ⟨(zero_copy_iff_tight f32_round (configure [])
      { width := 640, height := 480, format := .RGBA }
      { sysmem_input with is_dmabuf := true, stride := 2560 } (by decide)
      (by decide)).1.mpr ⟨rfl, rfl, by decide⟩,
    fun h => absurd ((zero_copy_iff_tight f32_round (configure [])
      { width := 640, height := 480, format := .BGRA }
      { sysmem_input with is_dmabuf := true, stride := 2560 } (by decide)
      (by decide)).1.mp h).2.1 (by decide)⟩

/-! ## Formats at negotiation -/

/-- C18 (amended): a pixel format outside the fourteen listed ones is kept out
at negotiation by the sink pad template, which does not accept it; `set_caps`
itself makes no format check.  It returns `FALSE`, leaving the state as it was,
exactly when the caps do not parse; given parsed caps of a format outside the
list it returns `TRUE` and configures the conversion state, with source format
RGB (the `default` branch of `gst_format_to_hal`) and no input conversion. -/
theorem unlisted_format_left_to_template (fl : ℚ → ℚ) (self : EdgefirstCameraAdaptor)
    (w h : Nat) :
    (∀ fmt : GstVideoFormat, fmt ∈ sink_template_formats ↔ fmt ≠ GstVideoFormat.OTHER) ∧
    sink_template_accepts { width := w, height := h, format := .OTHER } = false ∧
    (∀ incaps, (edgefirst_camera_adaptor_set_caps fl self incaps).1 = false ↔ incaps = none) ∧
    (edgefirst_camera_adaptor_set_caps fl self none).2 = self ∧
    (edgefirst_camera_adaptor_set_caps fl self
      (some { width := w, height := h, format := .OTHER })).1 = true ∧
    (edgefirst_camera_adaptor_set_caps fl self
      (some { width := w, height := h, format := .OTHER })).2.src_fourcc = HalFourcc.RGB ∧
    (edgefirst_camera_adaptor_set_caps fl self
      (some { width := w, height := h, format := .OTHER })).2.needs_input_conversion = false ∧
    (edgefirst_camera_adaptor_set_caps fl self
      (some { width := w, height := h, format := .OTHER })).2.in_vformat
      = GstVideoFormat.OTHER := by
  obtain ⟨-, h2, h3, h4⟩ := set_caps_input fl self { width := w, height := h, format := .OTHER }
  refine ⟨fun fmt => ?_, ?_, fun incaps => ?_, rfl, rfl, h2, h3, h4⟩
  · cases fmt <;> simp [sink_template_formats]
  · simp [sink_template_accepts, sink_template_formats]
  · cases incaps with
    | none => simp [edgefirst_camera_adaptor_set_caps]
    | some info => simp [edgefirst_camera_adaptor_set_caps]

/-- C18, as stated, fails: for 640x480 caps of a format outside the list
`set_caps` on a fresh instance returns `TRUE` and records RGB as the source
format. -/
theorem set_caps_accepts_unlisted_format :
    (edgefirst_camera_adaptor_set_caps f32_round edgefirst_camera_adaptor_init
      (some { width := 640, height := 480, format := .OTHER })).1 = true ∧
    (edgefirst_camera_adaptor_set_caps f32_round edgefirst_camera_adaptor_init
      (some { width := 640, height := 480, format := .OTHER })).2.in_info_valid = true ∧
    (edgefirst_camera_adaptor_set_caps f32_round edgefirst_camera_adaptor_init
      (some { width := 640, height := 480, format := .OTHER })).2.src_fourcc
      = HalFourcc.RGB := by
  refine ⟨rfl, ?_, ?_⟩
  · simp [edgefirst_camera_adaptor_set_caps, compute_letterbox, edgefirst_camera_adaptor_init]
  · simp [edgefirst_camera_adaptor_set_caps, compute_letterbox, edgefirst_camera_adaptor_init,
      gst_format_to_hal]

/-! ## The int8 conversion -/

theorem xor_0x80_twice (x : Nat) (hx : x < 256) : ((x ^^^ 0x80) % 256 ^^^ 0x80) % 256 = x := by
  have h1 : x ^^^ 0x80 < 256 := Nat.xor_lt_two_pow (n := 8) hx (by norm_num)
  rw [Nat.mod_eq_of_lt h1, Nat.xor_assoc, Nat.xor_self, Nat.xor_zero, Nat.mod_eq_of_lt hx]

theorem bytes_of_lt (l : List Nat) (h : ∀ x ∈ l, x < 256) (i : Nat) : bytes_of l i < 256 := by
  unfold bytes_of
  by_cases hi : i < l.length
  · rw [List.getD_eq_getElem l 0 hi]
    exact h _ (List.getElem_mem hi)
  · rw [List.getD_eq_default l 0 (by omega)]
    norm_num

/-- C19: `edgefirst_neon_planar_u8_to_i8` applied twice (on either path, each
time into any destination) returns the original bytes, for every buffer of
bytes and every length `n`; one application maps `0x00, 0x7F, 0x80, 0xFF` to
`0x80, 0xFF, 0x00, 0x7F`. -/
theorem planar_u8_to_i8_self_inverse (a a' : Bool) (src : Nat → Nat) (dst dst' : Buf Nat)
    (n : Nat) (hb : ∀ i, src i < 256) :
    (∀ i, i < n →
      (edgefirst_neon_planar_u8_to_i8 a'
        (edgefirst_neon_planar_u8_to_i8 a src dst n).data dst' n).data i = src i) ∧
    (∀ i, i < n → (src i = 0x00 → (edgefirst_neon_planar_u8_to_i8 a src dst n).data i = 0x80) ∧
      (src i = 0x7F → (edgefirst_neon_planar_u8_to_i8 a src dst n).data i = 0xFF) ∧
      (src i = 0x80 → (edgefirst_neon_planar_u8_to_i8 a src dst n).data i = 0x00) ∧
      (src i = 0xFF → (edgefirst_neon_planar_u8_to_i8 a src dst n).data i = 0x7F)) ∧
    (edgefirst_neon_planar_u8_to_i8 a (bytes_of [0x00, 0x7F, 0x80, 0xFF])
      (Buf.fresh fun _ => 0) 4).take 4 = [0x80, 0xFF, 0x00, 0x7F] := by
  obtain ⟨h1, -⟩ := planar_u8_to_i8_spec a src dst n
  obtain ⟨h2, -⟩ := planar_u8_to_i8_spec a'
    (edgefirst_neon_planar_u8_to_i8 a src dst n).data dst' n
  obtain ⟨h3, -⟩ := planar_u8_to_i8_spec a (bytes_of [0x00, 0x7F, 0x80, 0xFF])
    (Buf.fresh fun _ => 0) 4
  refine ⟨fun i hi => ?_, fun i hi => ?_, ?_⟩
  · rw [h2, if_pos hi, h1, if_pos hi]
    exact xor_0x80_twice (src i) (hb i)
  · rw [h1, if_pos hi]
    refine ⟨fun h => ?_, fun h => ?_, fun h => ?_, fun h => ?_⟩ <;> rw [h] <;> decide
  · simp [Buf.take, List.range_succ, h3, bytes_of]

theorem planar_u8_to_i8_self_inverse_witness :
    (edgefirst_neon_planar_u8_to_i8 true
      (edgefirst_neon_planar_u8_to_i8 true (bytes_of [0x00, 0x7F, 0x80, 0xFF])
        (Buf.fresh fun _ => 0) 4).data (Buf.fresh fun _ => 0) 4).data 1 = 0x7F :=
  (planar_u8_to_i8_self_inverse true true (bytes_of [0x00, 0x7F, 0x80, 0xFF])
    (Buf.fresh fun _ => 0) (Buf.fresh fun _ => 0) 4
    (bytes_of_lt _ (by decide))).1 1 (by decide)

/-! ## The float kernels: vector path against scalar path -/

theorem f32_round_one_255th : f32_round (1 / 255) = 8421505 / 2147483648 := by
  rw [f32_round_of_binade (1 / 255) (-8) (by norm_num) (by norm_num),
    round_half_even_eq_of_near _ 8421505 (by norm_num) (by norm_num)]
  norm_num

theorem f32_round_three_255ths : f32_round (3 / 255) = 12632257 / 1073741824 := by
  rw [f32_round_of_binade (3 / 255) (-7) (by norm_num) (by norm_num),
    round_half_even_eq_of_near _ 12632257 (by norm_num) (by norm_num)]
  norm_num

theorem f32_round_three_scaled :
    f32_round (3 * (8421505 / 2147483648)) = 6316129 / 536870912 := by
  rw [f32_round_of_binade (3 * (8421505 / 2147483648)) (-7) (by norm_num) (by norm_num)]
  have e : (3 * (8421505 / 2147483648) : ℚ) / 2 ^ ((-7 : ℤ) - 23)
      = ((12632257 : ℤ) : ℚ) + 1 / 2 := by norm_num
  rw [e, round_half_even_tie_odd 12632257 (by norm_num)]
  norm_num

/-- The byte 3 with mean 0 and std 1 in binary32: the vector expression gives
`6316129 / 2^29`, the scalar expression `12632257 / 2^30`, one unit in the last
place less. -/
theorem normalize_f32_byte_3 :
    normalize_f32_vec f32_round 3 0 1 = 6316129 / 536870912 ∧
    normalize_f32 f32_round 3 0 1 = 12632257 / 1073741824 := by
  have e3 : f32_round ((3 : ℕ) : ℚ) = 3 := by
    rw [f32_round_natCast 3 (by norm_num)]; norm_num
  have e1 : f32_round (1 : ℚ) = 1 := by
    have := f32_round_natCast 1 (by norm_num)
    simpa using this
  have ev : f32_round (6316129 / 536870912) = 6316129 / 536870912 := by
    have := f32_round_exact 6316129 (-29) (by norm_num)
    norm_num at this
    exact this
  have es : f32_round (12632257 / 1073741824) = 12632257 / 1073741824 := by
    have := f32_round_exact 12632257 (-30) (by norm_num)
    norm_num at this
    exact this
  constructor
  · simp only [normalize_f32_vec, normalize_f32_lanes, vmlsq_f32, vmulq_f32, vdupq_n_f32]
    rw [e3]
    have h1 : (1 : ℚ) / 1 = 1 := by norm_num
    rw [h1, e1, f32_round_one_255th, f32_round_three_scaled, zero_mul, f32_round_zero,
      sub_zero, ev]
  · simp only [normalize_f32]
    rw [e3, f32_round_three_255ths, sub_zero, es, div_one, es]

/-- C20 (amended): for each float32 kernel (`rgba_to_rgb_f32`,
`rgba_to_planar_f32`, `planar_u8_to_f32`), every pixel count, every input, every
mean and every non-zero std: read over exact rationals, the vectorized path
(multiply by `(1/std)/255`, then multiply-subtract `mean * (1/std)`) leaves the
same values as the scalar path `(pixel/255 - mean) / std`; under any rounding,
the elements beyond the last whole block of 8 are those of the scalar path;
and the vectorized path stores exactly once to each output index in range. -/
theorem float_paths_agree_over_rationals (fl : ℚ → ℚ) (src : Nat → Nat) (dst : Buf ℚ)
    (n : Nat) (mean std : Fin 3 → ℚ) (m s : ℚ) (bgr : Bool)
    (hstd : ∀ c, std c ≠ 0) (hs : s ≠ 0) :
    ((∀ j, (edgefirst_neon_rgba_to_rgb_f32 true id src dst n mean std bgr).data j
        = (edgefirst_neon_rgba_to_rgb_f32 false id src dst n mean std bgr).data j) ∧
      (∀ j, 8 * (n / 8) ≤ j / 3 →
        (edgefirst_neon_rgba_to_rgb_f32 true fl src dst n mean std bgr).data j
          = (edgefirst_neon_rgba_to_rgb_f32 false fl src dst n mean std bgr).data j) ∧
      (∀ j, (edgefirst_neon_rgba_to_rgb_f32 true fl src dst n mean std bgr).log.count j
        = dst.log.count j + (if j < 3 * n then 1 else 0))) ∧
    ((∀ j, (edgefirst_neon_rgba_to_planar_f32 true id src dst n mean std bgr).data j
        = (edgefirst_neon_rgba_to_planar_f32 false id src dst n mean std bgr).data j) ∧
      (∀ i c, c < 3 → 8 * (n / 8) ≤ i → i < n →
        (edgefirst_neon_rgba_to_planar_f32 true fl src dst n mean std bgr).data (c * n + i)
          = (edgefirst_neon_rgba_to_planar_f32 false fl src dst n mean std bgr).data
              (c * n + i)) ∧
      (∀ j, (edgefirst_neon_rgba_to_planar_f32 true fl src dst n mean std bgr).log.count j
        = dst.log.count j + (if j < 3 * n then 1 else 0))) ∧
    ((∀ j, (edgefirst_neon_planar_u8_to_f32 true id src dst n m s).data j
        = (edgefirst_neon_planar_u8_to_f32 false id src dst n m s).data j) ∧
      (∀ j, 8 * (n / 8) ≤ j →
        (edgefirst_neon_planar_u8_to_f32 true fl src dst n m s).data j
          = (edgefirst_neon_planar_u8_to_f32 false fl src dst n m s).data j) ∧
      (∀ j, (edgefirst_neon_planar_u8_to_f32 true fl src dst n m s).log.count j
        = dst.log.count j + (if j < n then 1 else 0))) := by
  refine ⟨⟨fun j => ?_, fun j hj => ?_, (rgba_to_rgb_f32_neon_spec fl src dst n mean std bgr).2⟩,
    ⟨fun j => ?_, fun i c hc hi hin => ?_,
      (rgba_to_planar_f32_neon_spec fl src dst n mean std bgr).2⟩,
    ⟨fun j => ?_, fun j hj => ?_, (planar_u8_to_f32_neon_spec fl src dst n m s).2⟩⟩
  · rw [(rgba_to_rgb_f32_neon_spec id src dst n mean std bgr).1,
      (rgba_to_rgb_f32_scalar_spec id src dst n mean std bgr).1]
    simp only [normalize_f32_vec_exact _ _ _ (hstd _), ite_self]
  · rw [(rgba_to_rgb_f32_neon_spec fl src dst n mean std bgr).1,
      (rgba_to_rgb_f32_scalar_spec fl src dst n mean std bgr).1]
    have hlt : ¬ j / 3 < 8 * (n / 8) := by omega
    simp only [if_neg hlt]
  · rw [(rgba_to_planar_f32_neon_spec id src dst n mean std bgr).1,
      (rgba_to_planar_f32_scalar_spec id src dst n mean std bgr).1]
    simp only [normalize_f32_vec_exact _ _ _ (hstd _), ite_self]
  · rw [(rgba_to_planar_f32_neon_spec fl src dst n mean std bgr).1,
      (rgba_to_planar_f32_scalar_spec fl src dst n mean std bgr).1]
    have hc3 : c = 0 ∨ c = 1 ∨ c = 2 := by omega
    rcases hc3 with h | h | h
    · subst h
      have h0 : ¬ (0 * n + i < 8 * (n / 8)) := by omega
      have g0 : 0 * n + i < n := by omega
      simp only [if_neg h0, if_pos g0]
    · subst h
      have h0 : ¬ (1 * n + i - n < 8 * (n / 8)) := by omega
      have g0 : ¬ (1 * n + i < n) := by omega
      have g1 : 1 * n + i < 2 * n := by omega
      simp only [if_neg h0, if_neg g0, if_pos g1]
    · subst h
      have h0 : ¬ (2 * n + i - 2 * n < 8 * (n / 8)) := by omega
      have g0 : ¬ (2 * n + i < n) := by omega
      have g1 : ¬ (2 * n + i < 2 * n) := by omega
      have g2 : 2 * n + i < 3 * n := by omega
      simp only [if_neg h0, if_neg g0, if_neg g1, if_pos g2]
  · rw [(planar_u8_to_f32_neon_spec id src dst n m s).1,
      (planar_u8_to_f32_scalar_spec id src dst n m s).1]
    simp only [normalize_f32_vec_exact _ _ _ hs, ite_self]
  · rw [(planar_u8_to_f32_neon_spec fl src dst n m s).1,
      (planar_u8_to_f32_scalar_spec fl src dst n m s).1]
    have hlt : ¬ j < 8 * (n / 8) := by omega
    simp only [if_neg hlt]

theorem float_paths_agree_over_rationals_witness :
    (edgefirst_neon_planar_u8_to_f32 true id (fun _ => 3) (Buf.fresh fun _ => 0) 9 0 1).data 0
      = (edgefirst_neon_planar_u8_to_f32 false id (fun _ => 3) (Buf.fresh fun _ => 0)
          9 0 1).data 0 ∧
    (edgefirst_neon_planar_u8_to_f32 true f32_round (fun _ => 3) (Buf.fresh fun _ => 0)
        9 0 1).data 8
      = (edgefirst_neon_planar_u8_to_f32 false f32_round (fun _ => 3) (Buf.fresh fun _ => 0)
          9 0 1).data 8 :=
  ⟨(float_paths_agree_over_rationals id (fun _ => 3) (Buf.fresh fun _ => 0) 9
      (fun _ => 0) (fun _ => 1) 0 1 false (fun _ => one_ne_zero) one_ne_zero).2.2.1 0,
    (float_paths_agree_over_rationals f32_round (fun _ => 3) (Buf.fresh fun _ => 0) 9
      (fun _ => 0) (fun _ => 1) 0 1 false (fun _ => one_ne_zero) one_ne_zero).2.2.2.1 8
      (by decide)⟩

/-- C20, as stated, fails in binary32: for 8 elements of value 3 with mean 0
and std 1 the vectorized path of each float kernel stores `6316129 / 2^29` at
index 0 where the scalar path stores `12632257 / 2^30`. -/
theorem binary32_vector_path_differs :
    ((edgefirst_neon_planar_u8_to_f32 true f32_round (fun _ => 3) (Buf.fresh fun _ => 0)
        8 0 1).data 0 = 6316129 / 536870912 ∧
      (edgefirst_neon_planar_u8_to_f32 false f32_round (fun _ => 3) (Buf.fresh fun _ => 0)
        8 0 1).data 0 = 12632257 / 1073741824) ∧
    ((edgefirst_neon_rgba_to_rgb_f32 true f32_round (fun _ => 3) (Buf.fresh fun _ => 0)
        8 (fun _ => 0) (fun _ => 1) false).data 0 = 6316129 / 536870912 ∧
      (edgefirst_neon_rgba_to_rgb_f32 false f32_round (fun _ => 3) (Buf.fresh fun _ => 0)
        8 (fun _ => 0) (fun _ => 1) false).data 0 = 12632257 / 1073741824) ∧
    ((edgefirst_neon_rgba_to_planar_f32 true f32_round (fun _ => 3) (Buf.fresh fun _ => 0)
        8 (fun _ => 0) (fun _ => 1) false).data 0 = 6316129 / 536870912 ∧
      (edgefirst_neon_rgba_to_planar_f32 false f32_round (fun _ => 3) (Buf.fresh fun _ => 0)
        8 (fun _ => 0) (fun _ => 1) false).data 0 = 12632257 / 1073741824) ∧
    (6316129 / 536870912 : ℚ) ≠ 12632257 / 1073741824 := by
  obtain ⟨hv, hsc⟩ := normalize_f32_byte_3
  refine ⟨⟨?_, ?_⟩, ⟨?_, ?_⟩, ⟨?_, ?_⟩, by norm_num⟩
  · rw [(planar_u8_to_f32_neon_spec f32_round _ _ 8 0 1).1]
    simpa using hv
  · rw [(planar_u8_to_f32_scalar_spec f32_round _ _ 8 0 1).1]
    simpa using hsc
  · rw [(rgba_to_rgb_f32_neon_spec f32_round _ _ 8 _ _ false).1]
    simpa using hv
  · rw [(rgba_to_rgb_f32_scalar_spec f32_round _ _ 8 _ _ false).1]
    simpa using hsc
  · rw [(rgba_to_planar_f32_neon_spec f32_round _ _ 8 _ _ false).1]
    simpa using hv
  · rw [(rgba_to_planar_f32_scalar_spec f32_round _ _ 8 _ _ false).1]
    simpa using hsc

/-! ## The loops of the fallback post-processing -/

/-- The loop `for (i = 0; i < 3 * m; i += 3)` visits `0, 3, ..., 3 * (m - 1)`. -/
theorem for_stride_three {σ : Type} (m : Nat) (body : Nat → σ → σ) (fuel i : Nat) (s : σ)
    (hfuel : m - i ≤ fuel) :
    for_stride 3 (3 * m) body fuel (3 * i) s
      = lanes (fun k => body (3 * (i + k))) (m - i) s := by
  induction fuel generalizing i s with
  | zero =>
    have h0 : m - i = 0 := by omega
    rw [h0]; rfl
  | succ fuel ih =>
    unfold for_stride
    by_cases h : i < m
    · have h3 : 3 * i < 3 * m := by omega
      have e : 3 * i + 3 = 3 * (i + 1) := by omega
      rw [if_pos h3, e, ih (i + 1) (body (3 * i) s) (by omega)]
      have hk : m - i = (m - (i + 1)) + 1 := by omega
      rw [hk, lanes_succ_front]
      have hf : (fun k => body (3 * (i + 1 + k))) = (fun l => body (3 * (i + (l + 1)))) := by
        funext l
        have : i + 1 + l = i + (l + 1) := by omega
        rw [this]
      rw [hf]
      rfl
    · have h3 : ¬ 3 * i < 3 * m := by omega
      rw [if_neg h3]
      have h0 : m - i = 0 := by omega
      rw [h0]; rfl

theorem for_stride_three_all {σ : Type} (m : Nat) (body : Nat → σ → σ) (s : σ) :
    for_stride 3 (3 * m) body (3 * m) 0 s = lanes (fun k => body (3 * k)) m s := by
  have h := for_stride_three m body (3 * m) 0 s (by omega)
  simp only [Nat.mul_zero, Nat.zero_add, Nat.sub_zero] at h
  exact h

/-- Contents after `memcpy (dst + d, src + s, n)`. -/
theorem memcpy_data (dst : Buf Nat) (d : Nat) (src : Nat → Nat) (s n : Nat) (j : Nat) :
    (memcpy dst d src s n).data j
      = if d ≤ j ∧ j < d + n then src (s + (j - d)) else dst.data j := by
  unfold memcpy
  rw [for_each_eq_lanes n _ n 0 dst (by omega)]
  simp only [Nat.zero_add, Nat.sub_zero]
  exact lanes_contig_data d (fun l => src (s + l)) n dst j

/-- Contents after the in-place exchange loop over `m` pixels. -/
theorem lanes_swap_data (m : Nat) (o : Buf Nat) (j : Nat) :
    (lanes (fun k => swap_first_third (3 * k)) m o).data j
      = if j < 3 * m then
          (if j % 3 = 0 then o.data (j + 2) else if j % 3 = 2 then o.data (j - 2)
            else o.data j)
        else o.data j := by
  induction m generalizing j with
  | zero => rw [if_neg (by omega)]; rfl
  | succ m ih =>
    show (swap_first_third (3 * m) (lanes (fun k => swap_first_third (3 * k)) m o)).data j = _
    simp only [swap_first_third, Buf.store]
    rw [ih (3 * m), ih (3 * m + 2), ih j]
    have a0 : ¬ (3 * m < 3 * m) := by omega
    have a2 : ¬ (3 * m + 2 < 3 * m) := by omega
    simp only [if_neg a0, if_neg a2]
    by_cases h2 : j = 3 * m + 2
    · subst h2
      have b1 : 3 * m + 2 < 3 * (m + 1) := by omega
      have b2 : ¬ (3 * m + 2) % 3 = 0 := by omega
      have b3 : (3 * m + 2) % 3 = 2 := by omega
      simp only [if_true, if_pos b1, if_neg b2, if_pos b3, Nat.add_sub_cancel]
    · by_cases h0 : j = 3 * m
      · subst h0
        have b1 : 3 * m < 3 * (m + 1) := by omega
        have b2 : (3 * m) % 3 = 0 := by omega
        have b3 : ¬ (3 * m = 3 * m + 2) := by omega
        simp only [if_neg b3, if_true, if_pos b1, if_pos b2]
      · simp only [if_neg h2, if_neg h0]
        by_cases hj : j < 3 * m
        · have b1 : j < 3 * (m + 1) := by omega
          simp only [if_pos hj, if_pos b1]
        · by_cases h1 : j = 3 * m + 1
          · subst h1
            have c1 : 3 * m + 1 < 3 * (m + 1) := by omega
            have c2 : ¬ (3 * m + 1) % 3 = 0 := by omega
            have c3 : ¬ (3 * m + 1) % 3 = 2 := by omega
            simp only [if_neg hj, if_pos c1, if_neg c2, if_neg c3]
          · have c1 : ¬ j < 3 * (m + 1) := by omega
            simp only [if_neg hj, if_neg c1]

/-- Contents after the copying exchange loop of the uint8 interleaved BGR case. -/
theorem copy_swapped_data (n : Nat) (src : Nat → Nat) (omap : Buf Nat) (j : Nat) :
    (for_stride 3 (3 * n)
      (fun i (o : Buf Nat) =>
        ((o.store i (src (i + 2))).store (i + 1) (src (i + 1))).store (i + 2) (src i))
      (3 * n) 0 omap).data j
      = if j < 3 * n then
          (if j % 3 = 0 then src (j + 2) else if j % 3 = 1 then src j else src (j - 2))
        else omap.data j := by
  rw [for_stride_three_all]
  have hform : (fun k (o : Buf Nat) =>
        ((o.store (3 * k) (src (3 * k + 2))).store (3 * k + 1) (src (3 * k + 1))).store
          (3 * k + 2) (src (3 * k)))
      = (fun l (b : Buf Nat) =>
        ((b.store (0 + 3 * l) (src (3 * l + 2))).store (0 + 3 * l + 1)
          (src (3 * l + 1))).store (0 + 3 * l + 2) (src (3 * l))) := by
    funext l b
    simp only [Nat.zero_add]
  rw [hform, lanes_interleaved_data 0 (fun l => src (3 * l + 2)) (fun l => src (3 * l + 1))
    (fun l => src (3 * l)) n omap j]
  simp only [Nat.zero_le, true_and, Nat.zero_add, Nat.sub_zero]
  by_cases hj : j < 3 * n
  · simp only [if_pos hj]
    by_cases h0 : j % 3 = 0
    · have e : 3 * (j / 3) + 2 = j + 2 := by omega
      simp only [if_pos h0, e]
    · by_cases h1 : j % 3 = 1
      · have e : 3 * (j / 3) + 1 = j := by omega
        simp only [if_neg h0, if_pos h1, e]
      · have e : 3 * (j / 3) = j - 2 := by omega
        simp only [if_neg h0, if_neg h1, e]
  · simp only [if_neg hj]

/-- Contents after the in-place exchange loop. -/
theorem swap_loop_data (n : Nat) (o : Buf Nat) (j : Nat) :
    (for_stride 3 (3 * n) swap_first_third (3 * n) 0 o).data j
      = if j < 3 * n then
          (if j % 3 = 0 then o.data (j + 2) else if j % 3 = 2 then o.data (j - 2)
            else o.data j)
        else o.data j := by
  rw [for_stride_three_all]
  exact lanes_swap_data n o j

/-- Contents after an element-wise loop `dst[i] = g (i)`. -/
theorem for_each_store_data {α : Type} (n : Nat) (g : Nat → α) (dst : Buf α) (j : Nat) :
    (for_each n (fun i (o : Buf α) => o.store i (g i)) n 0 dst).data j
      = if j < n then g j else dst.data j :=
  (linear_scalar_spec (fun i (o : Buf α) => o.store i (g i)) g n dst (fun _ _ => rfl)).1 j

theorem at3_lt (a : Fin 3 → ℚ) (c : Nat) (h : c < 3) : at3 a c = a ⟨c, h⟩ := by
  unfold at3
  rw [dif_pos h]

theorem output_sizes (self : EdgefirstCameraAdaptor) (hch : self.out_channels = 3)
    (hsz : self.out_width * self.out_height * 3 < 2 ^ 32) :
    to_guint (self.out_width * self.out_height) = self.out_width * self.out_height ∧
    to_guint (to_guint (self.out_width * self.out_height) * self.out_channels)
      = 3 * (self.out_width * self.out_height) := by
  have h1 : to_guint (self.out_width * self.out_height)
      = self.out_width * self.out_height := by
    unfold to_guint
    exact Nat.mod_eq_of_lt (by omega)
  refine ⟨h1, ?_⟩
  rw [h1, hch]
  unfold to_guint
  rw [Nat.mod_eq_of_lt hsz]
  omega

/-- The uint8 case of the fallback against the uint8 Stage-2 kernels. -/
theorem fallback_u8_matches (a : Bool) (fl : ℚ → ℚ) (self : EdgefirstCameraAdaptor)
    (rt : Runtime) (work isrc : Nat → Nat) (omap : Buf Nat) (omap_f32 : Buf ℚ)
    (hd : self.dtype = Dtype.UINT8) (hch : self.out_channels = 3)
    (hgray : self.colorspace ≠ Colorspace.GRAY)
    (hsz : self.out_width * self.out_height * 3 < 2 ^ 32)
    (hdma : self.out_dmabuf_buf = false)
    (hsame : ∀ i c, i < self.out_width * self.out_height → c < 3 →
      work (if self.layout = Layout.HWC then i * 3 + c
        else c * (self.out_width * self.out_height) + i) = isrc (i * 4 + c)) (j : Nat) :
    (fallback_sysmem fl self work omap omap_f32).1.data j
      = (camera_adaptor_stage2 a fl self rt (some isrc) true omap omap_f32).outbuf.data j := by
  obtain ⟨hn, hos⟩ := output_sizes self hch hsz
  generalize hN : self.out_width * self.out_height = n at hn hos hsame
  rw [hn] at hos
  unfold fallback_sysmem camera_adaptor_stage2
  simp only [hN, hn, hos, hd, hdma, Bool.false_eq_true, if_false, Bool.not_true]
  cases hl : self.layout
  · -- HWC
    simp only [hl, if_true] at hsame
    cases hc : self.colorspace
    · -- RGB
      simp only [reduceCtorEq, false_and, and_false, if_false, if_true, decide_False]
      rw [memcpy_data, (rgba_to_rgb_u8_spec a isrc omap n false).1]
      simp only [Nat.zero_le, true_and, Nat.zero_add, Nat.sub_zero, Bool.false_eq_true,
        if_false]
      by_cases hj : j < 3 * n
      · simp only [if_pos hj]
        have hi : j / 3 < n := by omega
        by_cases h0 : j % 3 = 0
        · have e : j = j / 3 * 3 + 0 := by omega
          rw [if_pos h0]
          conv_lhs => rw [e]
          exact hsame (j / 3) 0 hi (by omega)
        · by_cases h1 : j % 3 = 1
          · have e : j = j / 3 * 3 + 1 := by omega
            rw [if_neg h0, if_pos h1]
            conv_lhs => rw [e]
            exact hsame (j / 3) 1 hi (by omega)
          · have e : j = j / 3 * 3 + 2 := by omega
            rw [if_neg h0, if_neg h1]
            conv_lhs => rw [e]
            exact hsame (j / 3) 2 hi (by omega)
      · simp only [if_neg hj]
    · -- BGR
      simp only [and_self, if_true, decide_True]
      rw [copy_swapped_data, (rgba_to_rgb_u8_spec a isrc omap n true).1]
      simp only [if_true]
      by_cases hj : j < 3 * n
      · simp only [if_pos hj]
        have hi : j / 3 < n := by omega
        by_cases h0 : j % 3 = 0
        · have e : j + 2 = j / 3 * 3 + 2 := by omega
          rw [if_pos h0, if_pos h0, e]
          exact hsame (j / 3) 2 hi (by omega)
        · by_cases h1 : j % 3 = 1
          · have e : j = j / 3 * 3 + 1 := by omega
            rw [if_neg h0, if_pos h1, if_neg h0, if_pos h1]
            conv_lhs => rw [e]
            exact hsame (j / 3) 1 hi (by omega)
          · have e : j - 2 = j / 3 * 3 + 0 := by omega
            rw [if_neg h0, if_neg h1, if_neg h0, if_neg h1, e]
            exact hsame (j / 3) 0 hi (by omega)
      · simp only [if_neg hj]
    · exact absurd hc hgray
  · -- CHW
    simp only [hl, reduceCtorEq, if_false] at hsame
    cases hc : self.colorspace
    · -- RGB
      simp only [reduceCtorEq, false_and, and_false, if_false, decide_False]
      rw [memcpy_data, (rgba_to_planar_u8_spec a isrc omap n false).1]
      simp only [Nat.zero_le, true_and, Nat.zero_add, Nat.sub_zero, Bool.false_eq_true,
        if_false]
      by_cases hj : j < 3 * n
      · simp only [if_pos hj]
        by_cases h0 : j < n
        · have e : j = 0 * n + j := by omega
          rw [if_pos h0]
          conv_lhs => rw [e]
          exact hsame j 0 h0 (by omega)
        · by_cases h1 : j < 2 * n
          · have e : j = 1 * n + (j - n) := by omega
            rw [if_neg h0, if_pos h1]
            conv_lhs => rw [e]
            exact hsame (j - n) 1 (by omega) (by omega)
          · have e : j = 2 * n + (j - 2 * n) := by omega
            rw [if_neg h0, if_neg h1]
            conv_lhs => rw [e]
            exact hsame (j - 2 * n) 2 (by omega) (by omega)
      · have h0 : ¬ j < n := by omega
        have h1 : ¬ j < 2 * n := by omega
        simp only [if_neg hj, if_neg h0, if_neg h1]
    · -- BGR
      simp only [reduceCtorEq, and_false, and_self, if_false, if_true, decide_True]
      rw [memcpy_data, memcpy_data, memcpy_data, (rgba_to_planar_u8_spec a isrc omap n true).1]
      simp only [Nat.zero_le, true_and, Nat.zero_add, Nat.sub_zero, if_true]
      by_cases h0 : j < n
      · have a2 : ¬ (2 * n ≤ j ∧ j < 2 * n + n) := by omega
        have a1 : ¬ (n ≤ j ∧ j < n + n) := by omega
        have e : 2 * n + j = 2 * n + j := rfl
        simp only [if_neg a2, if_neg a1, if_pos h0]
        exact hsame j 2 h0 (by omega)
      · by_cases h1 : j < 2 * n
        · have a2 : ¬ (2 * n ≤ j ∧ j < 2 * n + n) := by omega
          have a1 : n ≤ j ∧ j < n + n := by omega
          have e : n + (j - n) = 1 * n + (j - n) := by omega
          simp only [if_neg a2, if_pos a1, if_neg h0, if_pos h1, e]
          exact hsame (j - n) 1 (by omega) (by omega)
        · by_cases h2 : j < 3 * n
          · have a2 : 2 * n ≤ j ∧ j < 2 * n + n := by omega
            have e : j - 2 * n = 0 * n + (j - 2 * n) := by omega
            simp only [if_pos a2, if_neg h0, if_neg h1, if_pos h2]
            conv_lhs => rw [e]
            exact hsame (j - 2 * n) 0 (by omega) (by omega)
          · have a2 : ¬ (2 * n ≤ j ∧ j < 2 * n + n) := by omega
            have a1 : ¬ (n ≤ j ∧ j < n + n) := by omega
            simp only [if_neg a2, if_neg a1, if_neg h0, if_neg h1, if_neg h2]
    · exact absurd hc hgray

/-- The int8 case of the fallback against the int8 Stage-2 kernels, for RGB and
for interleaved BGR. -/
theorem fallback_i8_matches (a : Bool) (fl : ℚ → ℚ) (self : EdgefirstCameraAdaptor)
    (rt : Runtime) (work isrc : Nat → Nat) (omap : Buf Nat) (omap_f32 : Buf ℚ)
    (hd : self.dtype = Dtype.INT8) (hch : self.out_channels = 3)
    (hgray : self.colorspace ≠ Colorspace.GRAY)
    (hcase : self.colorspace = Colorspace.RGB ∨ self.layout = Layout.HWC)
    (hsz : self.out_width * self.out_height * 3 < 2 ^ 32)
    (hdma : self.out_dmabuf_buf = false)
    (hsame : ∀ i c, i < self.out_width * self.out_height → c < 3 →
      work (if self.layout = Layout.HWC then i * 3 + c
        else c * (self.out_width * self.out_height) + i) = isrc (i * 4 + c)) (j : Nat) :
    (fallback_sysmem fl self work omap omap_f32).1.data j
      = (camera_adaptor_stage2 a fl self rt (some isrc) true omap omap_f32).outbuf.data j := by
  obtain ⟨hn, hos⟩ := output_sizes self hch hsz
  generalize hN : self.out_width * self.out_height = n at hn hos hsame
  rw [hn] at hos
  unfold fallback_sysmem camera_adaptor_stage2
  simp only [hN, hn, hos, hd, hdma, Bool.false_eq_true, if_false, Bool.not_true]
  cases hl : self.layout
  · -- HWC
    simp only [hl, if_true] at hsame
    cases hc : self.colorspace
    · -- RGB
      simp only [reduceCtorEq, false_and, and_false, if_false, if_true, decide_False]
      rw [for_each_store_data, (rgba_to_rgb_i8_spec a isrc omap n false).1]
      simp only [Bool.false_eq_true, if_false]
      by_cases hj : j < 3 * n
      · simp only [if_pos hj]
        have hi : j / 3 < n := by omega
        by_cases h0 : j % 3 = 0
        · have e : j = j / 3 * 3 + 0 := by omega
          rw [if_pos h0]
          conv_lhs => rw [e]
          rw [hsame (j / 3) 0 hi (by omega)]
        · by_cases h1 : j % 3 = 1
          · have e : j = j / 3 * 3 + 1 := by omega
            rw [if_neg h0, if_pos h1]
            conv_lhs => rw [e]
            rw [hsame (j / 3) 1 hi (by omega)]
          · have e : j = j / 3 * 3 + 2 := by omega
            rw [if_neg h0, if_neg h1]
            conv_lhs => rw [e]
            rw [hsame (j / 3) 2 hi (by omega)]
      · simp only [if_neg hj]
    · -- BGR
      simp only [and_self, if_true, decide_True]
      rw [swap_loop_data, (rgba_to_rgb_i8_spec a isrc omap n true).1]
      simp only [for_each_store_data, if_true]
      by_cases hj : j < 3 * n
      · simp only [if_pos hj]
        have hi : j / 3 < n := by omega
        by_cases h0 : j % 3 = 0
        · have e : j + 2 = j / 3 * 3 + 2 := by omega
          have b : j + 2 < 3 * n := by omega
          rw [if_pos h0, if_pos h0, if_pos b, e, hsame (j / 3) 2 hi (by omega)]
        · by_cases h1 : j % 3 = 1
          · have e : j = j / 3 * 3 + 1 := by omega
            have h2 : ¬ j % 3 = 2 := by omega
            rw [if_neg h0, if_neg h2, if_neg h0, if_pos h1]
            conv_lhs => rw [e]
            rw [hsame (j / 3) 1 hi (by omega)]
          · have e : j - 2 = j / 3 * 3 + 0 := by omega
            have h2 : j % 3 = 2 := by omega
            have b : j - 2 < 3 * n := by omega
            rw [if_neg h0, if_pos h2, if_neg h0, if_neg h1, if_pos b, e,
              hsame (j / 3) 0 hi (by omega)]
      · simp only [if_neg hj]
    · exact absurd hc hgray
  · -- CHW
    simp only [hl, reduceCtorEq, if_false] at hsame
    have hrgb : self.colorspace = Colorspace.RGB := by
      rcases hcase with h | h
      · exact h
      · rw [hl] at h; cases h
    simp only [hrgb, reduceCtorEq, false_and, and_false, if_false, decide_False]
    rw [for_each_store_data, (rgba_to_planar_i8_spec a isrc omap n false).1]
    simp only [Bool.false_eq_true, if_false]
    by_cases hj : j < 3 * n
    · simp only [if_pos hj]
      by_cases h0 : j < n
      · have e : j = 0 * n + j := by omega
        rw [if_pos h0]
        conv_lhs => rw [e]
        rw [hsame j 0 h0 (by omega)]
      · by_cases h1 : j < 2 * n
        · have e : j = 1 * n + (j - n) := by omega
          rw [if_neg h0, if_pos h1]
          conv_lhs => rw [e]
          rw [hsame (j - n) 1 (by omega) (by omega)]
        · have e : j = 2 * n + (j - 2 * n) := by omega
          rw [if_neg h0, if_neg h1]
          conv_lhs => rw [e]
          rw [hsame (j - 2 * n) 2 (by omega) (by omega)]
    · have h0 : ¬ j < n := by omega
      have h1 : ¬ j < 2 * n := by omega
      simp only [if_neg hj, if_neg h0, if_neg h1]

theorem to_guint_small (k : Nat) (h : k < 2 ^ 32) : to_guint k = k := by
  unfold to_guint
  exact Nat.mod_eq_of_lt h

/-- The float32 case of the fallback, RGB, against the scalar path of the
float32 Stage-2 kernels. -/
theorem fallback_f32_matches (fl : ℚ → ℚ) (self : EdgefirstCameraAdaptor)
    (rt : Runtime) (work isrc : Nat → Nat) (omap : Buf Nat) (omap_f32 : Buf ℚ)
    (hd : self.dtype = Dtype.FLOAT32) (hch : self.out_channels = 3)
    (hrgb : self.colorspace = Colorspace.RGB)
    (hsz : self.out_width * self.out_height * 3 < 2 ^ 32)
    (hdma : self.out_dmabuf_buf = false)
    (hsame : ∀ i c, i < self.out_width * self.out_height → c < 3 →
      work (if self.layout = Layout.HWC then i * 3 + c
        else c * (self.out_width * self.out_height) + i) = isrc (i * 4 + c)) (j : Nat) :
    (fallback_sysmem fl self work omap omap_f32).2.data j
      = (camera_adaptor_stage2 false fl self rt (some isrc) true omap
          omap_f32).outbuf_f32.data j := by
  obtain ⟨hn, hos⟩ := output_sizes self hch hsz
  have helem : fallback_f32_elem fl self work
      = (fun i (o : Buf ℚ) => o.store i (normalize_f32 fl (work i)
          (at3 self.mean (to_guint (if self.layout = Layout.HWC then i % self.out_channels
            else i / to_guint (self.out_width * self.out_height))))
          (at3 self.std (to_guint (if self.layout = Layout.HWC then i % self.out_channels
            else i / to_guint (self.out_width * self.out_height)))))) := rfl
  generalize hN : self.out_width * self.out_height = n at hn hos hsame helem hsz
  rw [hn] at hos
  unfold fallback_sysmem camera_adaptor_stage2
  simp only [hN, hn, hos, hd, hdma, hrgb, Bool.false_eq_true, if_false, Bool.not_true,
    reduceCtorEq, decide_False]
  rw [helem, for_each_store_data]
  cases hl : self.layout
  · -- HWC
    simp only [hl, if_true] at hsame
    simp only [if_true, hch]
    rw [(rgba_to_rgb_f32_scalar_spec fl isrc omap_f32 n self.mean self.std false).1]
    simp only [Bool.false_eq_true, if_false]
    by_cases hj : j < 3 * n
    · simp only [if_pos hj]
      have hi : j / 3 < n := by omega
      have hm : to_guint (j % 3) = j % 3 := to_guint_small _ (by omega)
      rw [hm]
      by_cases h0 : j % 3 = 0
      · have e : j = j / 3 * 3 + 0 := by omega
        rw [if_pos h0, h0, at3_lt _ 0 (by omega), at3_lt _ 0 (by omega)]
        conv_lhs => rw [e]
        rw [hsame (j / 3) 0 hi (by omega)]
        rfl
      · by_cases h1 : j % 3 = 1
        · have e : j = j / 3 * 3 + 1 := by omega
          rw [if_neg h0, if_pos h1, h1, at3_lt _ 1 (by omega), at3_lt _ 1 (by omega)]
          conv_lhs => rw [e]
          rw [hsame (j / 3) 1 hi (by omega)]
          rfl
        · have e : j = j / 3 * 3 + 2 := by omega
          have h2 : j % 3 = 2 := by omega
          rw [if_neg h0, if_neg h1, h2, at3_lt _ 2 (by omega), at3_lt _ 2 (by omega)]
          conv_lhs => rw [e]
          rw [hsame (j / 3) 2 hi (by omega)]
          rfl
    · simp only [if_neg hj]
  · -- CHW
    simp only [hl, reduceCtorEq, if_false] at hsame
    simp only [reduceCtorEq, if_false]
    rw [(rgba_to_planar_f32_scalar_spec fl isrc omap_f32 n self.mean self.std false).1]
    simp only [Bool.false_eq_true, if_false]
    by_cases hj : j < 3 * n
    · simp only [if_pos hj]
      have hnpos : 0 < n := by omega
      by_cases h0 : j < n
      · have e : j = 0 * n + j := by omega
        have hq : j / n = 0 := Nat.div_eq_of_lt h0
        rw [if_pos h0, hn, hq, to_guint_small 0 (by norm_num), at3_lt _ 0 (by omega),
          at3_lt _ 0 (by omega)]
        conv_lhs => rw [e]
        rw [hsame j 0 h0 (by omega)]
        rfl
      · by_cases h1 : j < 2 * n
        · have e : j = 1 * n + (j - n) := by omega
          have hq : j / n = 1 := Nat.div_eq_of_lt_le (by omega) (by omega)
          rw [if_neg h0, if_pos h1, hn, hq, to_guint_small 1 (by norm_num), at3_lt _ 1 (by omega),
            at3_lt _ 1 (by omega)]
          conv_lhs => rw [e]
          rw [hsame (j - n) 1 (by omega) (by omega)]
          rfl
        · have e : j = 2 * n + (j - 2 * n) := by omega
          have hq : j / n = 2 := Nat.div_eq_of_lt_le (by omega) (by omega)
          rw [if_neg h0, if_neg h1, hn, hq, to_guint_small 2 (by norm_num), at3_lt _ 2 (by omega),
            at3_lt _ 2 (by omega)]
          conv_lhs => rw [e]
          rw [hsame (j - 2 * n) 2 (by omega) (by omega)]
          rfl
    · have h0 : ¬ j < n := by omega
      have h1 : ¬ j < 2 * n := by omega
      simp only [if_neg hj, if_neg h0, if_neg h1]

/-- Over exact rationals the vector path of the float32 Stage-2 kernels
leaves the values of the scalar path. -/
theorem stage2_f32_exact (self : EdgefirstCameraAdaptor) (rt : Runtime) (isrc : Nat → Nat)
    (omap : Buf Nat) (omap_f32 : Buf ℚ) (hd : self.dtype = Dtype.FLOAT32)
    (hdma : self.out_dmabuf_buf = false) (hstd : ∀ c, self.std c ≠ 0) (j : Nat) :
    (camera_adaptor_stage2 true id self rt (some isrc) true omap omap_f32).outbuf_f32.data j
      = (camera_adaptor_stage2 false id self rt (some isrc) true omap
          omap_f32).outbuf_f32.data j := by
  unfold camera_adaptor_stage2
  simp only [hd, hdma, Bool.false_eq_true, if_false, Bool.not_true]
  cases hl : self.layout
  · simp only [if_true]
    rw [(rgba_to_rgb_f32_neon_spec id isrc omap_f32 _ self.mean self.std _).1,
      (rgba_to_rgb_f32_scalar_spec id isrc omap_f32 _ self.mean self.std _).1]
    simp only [normalize_f32_vec_exact _ _ _ (hstd _), ite_self]
  · simp only [reduceCtorEq, if_false]
    rw [(rgba_to_planar_f32_neon_spec id isrc omap_f32 _ self.mean self.std _).1,
      (rgba_to_planar_f32_scalar_spec id isrc omap_f32 _ self.mean self.std _).1]
    simp only [normalize_f32_vec_exact _ _ _ (hstd _), ite_self]

/-- C14 (amended): for colorspace RGB with every layout and dtype, and for
colorspace BGR with uint8 (either layout) or with interleaved int8, for every
output size whose element count fits 32 bits and every mean/std: the fallback
post-processing for a system-memory output, applied to the 8-bit RGB work
tensor (interleaved for HWC, planar R, G, B for CHW), leaves in the output
buffer the values the Stage-2 kernel selected for that layout, dtype and bgr
flag leaves there from an RGBA intermediate carrying the same R, G, B values:
the same bytes for uint8 and int8 on either kernel path, and for float32 the
values of the kernel's scalar path under any rounding, which over exact
rationals (std non-zero) are also those of its vector path. -/
theorem fallback_matches_stage2 (a : Bool) (fl : ℚ → ℚ) (self : EdgefirstCameraAdaptor)
    (rt : Runtime) (work isrc : Nat → Nat) (omap : Buf Nat) (omap_f32 : Buf ℚ)
    (hch : self.out_channels = 3) (hgray : self.colorspace ≠ Colorspace.GRAY)
    (hsz : self.out_width * self.out_height * 3 < 2 ^ 32)
    (hdma : self.out_dmabuf_buf = false)
    (hsame : ∀ i c, i < self.out_width * self.out_height → c < 3 →
      work (if self.layout = Layout.HWC then i * 3 + c
        else c * (self.out_width * self.out_height) + i) = isrc (i * 4 + c))
    (hcase : self.colorspace = Colorspace.RGB ∨ self.dtype = Dtype.UINT8 ∨
      (self.dtype = Dtype.INT8 ∧ self.layout = Layout.HWC)) :
    (self.dtype ≠ Dtype.FLOAT32 → ∀ j,
      (fallback_sysmem fl self work omap omap_f32).1.data j
        = (camera_adaptor_stage2 a fl self rt (some isrc) true omap omap_f32).outbuf.data j) ∧
    (self.dtype = Dtype.FLOAT32 → ∀ j,
      (fallback_sysmem fl self work omap omap_f32).2.data j
        = (camera_adaptor_stage2 false fl self rt (some isrc) true omap
            omap_f32).outbuf_f32.data j) ∧
    (self.dtype = Dtype.FLOAT32 → (∀ c, self.std c ≠ 0) → ∀ j,
      (fallback_sysmem id self work omap omap_f32).2.data j
        = (camera_adaptor_stage2 true id self rt (some isrc) true omap
            omap_f32).outbuf_f32.data j) := by
  have hrgb_of_f32 : self.dtype = Dtype.FLOAT32 → self.colorspace = Colorspace.RGB := by
    intro hd
    rcases hcase with h | h | ⟨h, -⟩
    · exact h
    · rw [hd] at h; cases h
    · rw [hd] at h; cases h
  refine ⟨fun hd j => ?_, fun hd j => ?_, fun hd hstd j => ?_⟩
  · cases hdt : self.dtype
    · exact fallback_u8_matches a fl self rt work isrc omap omap_f32 hdt hch hgray hsz hdma
        hsame j
    · have hc2 : self.colorspace = Colorspace.RGB ∨ self.layout = Layout.HWC := by
        rcases hcase with h | h | ⟨-, h⟩
        · exact Or.inl h
        · rw [hdt] at h; cases h
        · exact Or.inr h
      exact fallback_i8_matches a fl self rt work isrc omap omap_f32 hdt hch hgray hc2 hsz
        hdma hsame j
    · exact absurd hdt hd
  · exact fallback_f32_matches fl self rt work isrc omap omap_f32 hd hch (hrgb_of_f32 hd) hsz
      hdma hsame j
  · rw [stage2_f32_exact self rt isrc omap omap_f32 hd hdma hstd j]
    exact fallback_f32_matches id self rt work isrc omap omap_f32 hd hch (hrgb_of_f32 hd) hsz
      hdma hsame j

theorem fallback_matches_stage2_witness :
    (fallback_sysmem f32_round
      (negotiated [.PROP_COLORSPACE .BGR, .PROP_MODEL_WIDTH 1, .PROP_MODEL_HEIGHT 1])
      (bytes_of [10, 20, 30]) (Buf.fresh fun _ => 0) (Buf.fresh fun _ => 0)).1.data 0
      = (camera_adaptor_stage2 true f32_round
          (negotiated [.PROP_COLORSPACE .BGR, .PROP_MODEL_WIDTH 1, .PROP_MODEL_HEIGHT 1])
          allocated (some (bytes_of [10, 20, 30, 255])) true (Buf.fresh fun _ => 0)
          (Buf.fresh fun _ => 0)).outbuf.data 0 :=
  (fallback_matches_stage2 true f32_round
    (negotiated [.PROP_COLORSPACE .BGR, .PROP_MODEL_WIDTH 1, .PROP_MODEL_HEIGHT 1]) allocated
    (bytes_of [10, 20, 30]) (bytes_of [10, 20, 30, 255]) (Buf.fresh fun _ => 0)
    (Buf.fresh fun _ => 0) rfl (by decide) (by decide) rfl
    (by
      intro i c hi hc
      have hi0 : i = 0 := by
        have : i < 1 * 1 := hi
        omega
      subst hi0
      have hc3 : c = 0 ∨ c = 1 ∨ c = 2 := by omega
      rcases hc3 with h | h | h <;> subst h <;> rfl)
    (Or.inr (Or.inl rfl))).1 (by decide) 0

/-- C14, as stated, fails.  In binary32 on the vector path, for eight RGB
pixels of value 3 with mean 0 and std 1, interleaved float32 output starts with
`6316129 / 2^29` from Stage 2 and with `12632257 / 2^30` from the fallback.  And
for BGR output the fallback misses the channel exchange: for one pixel with
R, G, B = 10, 20, 30, planar int8 BGR output is `[158, 148, 138]` from Stage 2
but `[138, 148, 158]` from the fallback; for one pixel with R, G, B = 0, 51, 255,
interleaved float32 BGR output over exact rationals is `[1, 1/5, 0]` from
Stage 2 but `[0, 1/5, 1]` from the fallback. -/
theorem fallback_differs_from_stage2 :
    ((edgefirst_camera_adaptor_transform true f32_round
        (negotiated [.PROP_DTYPE .FLOAT32, .PROP_MODEL_WIDTH 8, .PROP_MODEL_HEIGHT 1])
        allocated { frame_with 0 with intermediate := fun _ => 3 }).outbuf_f32.data 0
        = 6316129 / 536870912 ∧
      (edgefirst_camera_adaptor_transform true f32_round
        (negotiated [.PROP_DTYPE .FLOAT32, .PROP_MODEL_WIDTH 8, .PROP_MODEL_HEIGHT 1])
        allocated { frame_with (-1) with ref_data := fun _ => 3 }).outbuf_f32.data 0
        = 12632257 / 1073741824) ∧
    ((edgefirst_camera_adaptor_transform true f32_round
        (negotiated [.PROP_COLORSPACE .BGR, .PROP_LAYOUT .CHW, .PROP_DTYPE .INT8,
          .PROP_MODEL_WIDTH 1, .PROP_MODEL_HEIGHT 1]) allocated
        { frame_with 0 with intermediate := bytes_of [10, 20, 30, 255] }).outbuf.take 3
        = [158, 148, 138] ∧
      (edgefirst_camera_adaptor_transform true f32_round
        (negotiated [.PROP_COLORSPACE .BGR, .PROP_LAYOUT .CHW, .PROP_DTYPE .INT8,
          .PROP_MODEL_WIDTH 1, .PROP_MODEL_HEIGHT 1]) allocated
        { frame_with (-1) with ref_data := bytes_of [10, 20, 30] }).outbuf.take 3
        = [138, 148, 158]) ∧
    ((edgefirst_camera_adaptor_transform false id
        (negotiated [.PROP_COLORSPACE .BGR, .PROP_DTYPE .FLOAT32,
          .PROP_MODEL_WIDTH 1, .PROP_MODEL_HEIGHT 1]) allocated
        { frame_with 0 with intermediate := bytes_of [0, 51, 255, 255] }).outbuf_f32.take 3
        = [1, 1 / 5, 0] ∧
      (edgefirst_camera_adaptor_transform false id
        (negotiated [.PROP_COLORSPACE .BGR, .PROP_DTYPE .FLOAT32,
          .PROP_MODEL_WIDTH 1, .PROP_MODEL_HEIGHT 1]) allocated
        { frame_with (-1) with ref_data := bytes_of [0, 51, 255] }).outbuf_f32.take 3
        = [0, 1 / 5, 1]) := by
  obtain ⟨hv, hsc⟩ := normalize_f32_byte_3
  refine ⟨⟨?_, ?_⟩, ⟨by decide, by decide⟩, ⟨?_, ?_⟩⟩
  · have e : (edgefirst_camera_adaptor_transform true f32_round
        (negotiated [.PROP_DTYPE .FLOAT32, .PROP_MODEL_WIDTH 8, .PROP_MODEL_HEIGHT 1])
        allocated { frame_with 0 with intermediate := fun _ => 3 }).outbuf_f32
        = edgefirst_neon_rgba_to_rgb_f32 true f32_round (fun _ => 3) (Buf.fresh fun _ => 0) 8
          (fun _ => 0) (fun _ => 1) false := rfl
    rw [e, (rgba_to_rgb_f32_neon_spec f32_round _ _ 8 _ _ false).1]
    simpa using hv
  · have e : (edgefirst_camera_adaptor_transform true f32_round
        (negotiated [.PROP_DTYPE .FLOAT32, .PROP_MODEL_WIDTH 8, .PROP_MODEL_HEIGHT 1])
        allocated { frame_with (-1) with ref_data := fun _ => 3 }).outbuf_f32
        = for_each 24 (fun i (o : Buf ℚ) => o.store i
            (normalize_f32 f32_round 3 (at3 (fun _ => 0) (to_guint (i % 3)))
              (at3 (fun _ => 1) (to_guint (i % 3))))) 24 0 (Buf.fresh fun _ => 0) := rfl
    rw [e, for_each_store_data]
    simpa [at3, to_guint] using hsc
  · simp [edgefirst_camera_adaptor_transform, negotiated, frame_with, create_input_image,
      sysmem_input, edgefirst_camera_adaptor_set_caps, configure,
      edgefirst_camera_adaptor_set_property, edgefirst_camera_adaptor_init,
      compute_letterbox, gst_format_to_hal, format_needs_conversion, create_input_image_copy,
      input_geometry, create_input_image_wrap,
      camera_adaptor_stage2, edgefirst_neon_rgba_to_rgb_f32, for_each, rgba_to_rgb_f32_pixel,
      to_guint, Buf.take, Buf.store, Buf.fresh, List.range_succ, normalize_f32, bytes_of]
    norm_num
  · simp [edgefirst_camera_adaptor_transform, negotiated, frame_with, create_input_image,
      sysmem_input, edgefirst_camera_adaptor_set_caps, configure,
      edgefirst_camera_adaptor_set_property, edgefirst_camera_adaptor_init,
      compute_letterbox, gst_format_to_hal, format_needs_conversion, create_input_image_copy,
      input_geometry, create_input_image_wrap,
      transform_fallback, allocated, fallback_sysmem, fallback_f32_elem, at3, for_each,
      to_guint, Buf.take, Buf.store, Buf.fresh, List.range_succ, normalize_f32, bytes_of]
    norm_num

/-! ## The int8 conversion as an offset -/

set_option maxRecDepth 100000 in
theorem int8_of_xor_0x80 (b : Nat) (hb : b < 256) :
    int8_of_byte ((b ^^^ 0x80) % 256) = (b : Int) - 128 := by
  have h : ∀ b : Fin 256, int8_of_byte ((b.val ^^^ 0x80) % 256) = (b.val : Int) - 128 := by
    decide
  exact h ⟨b, hb⟩

/-- C22: XOR 0x80 is the uint8 to int8 offset conversion.  For every byte `b`,
`b XOR 0x80` read as a two's-complement `int8_t` is `b - 128`; the mapping is
strictly increasing, takes its values in `[-128, 127]` and reaches each of
them, so nothing is clamped.  Accordingly every in-range output byte of the
three int8 kernels (on either path), read as `int8_t`, is the source byte
found at that position by the corresponding uint8 kernel, minus 128. -/
theorem xor_0x80_is_offset_conversion (a a' : Bool) (src : Nat → Nat) (dst dst' : Buf Nat)
    (n : Nat) (bgr : Bool) (hb : ∀ i, src i < 256) :
    (∀ b, b < 256 → int8_of_byte ((b ^^^ 0x80) % 256) = (b : Int) - 128) ∧
    (∀ b b', b < 256 → b' < 256 →
      (b < b' ↔ int8_of_byte ((b ^^^ 0x80) % 256) < int8_of_byte ((b' ^^^ 0x80) % 256))) ∧
    (∀ b, b < 256 → -128 ≤ int8_of_byte ((b ^^^ 0x80) % 256) ∧
      int8_of_byte ((b ^^^ 0x80) % 256) ≤ 127) ∧
    (∀ v : Int, -128 ≤ v → v ≤ 127 →
      ∃ b, b < 256 ∧ int8_of_byte ((b ^^^ 0x80) % 256) = v) ∧
    (∀ j, j < 3 * n →
      int8_of_byte ((edgefirst_neon_rgba_to_rgb_i8 a src dst n bgr).data j)
        = ((edgefirst_neon_rgba_to_rgb_u8 a' src dst' n bgr).data j : Int) - 128) ∧
    (∀ j, j < 3 * n →
      int8_of_byte ((edgefirst_neon_rgba_to_planar_i8 a src dst n bgr).data j)
        = ((edgefirst_neon_rgba_to_planar_u8 a' src dst' n bgr).data j : Int) - 128) ∧
    (∀ j, j < n →
      int8_of_byte ((edgefirst_neon_planar_u8_to_i8 a src dst n).data j)
        = (src j : Int) - 128) := by
  refine ⟨int8_of_xor_0x80, fun b b' h h' => ?_, fun b h => ?_, fun v h1 h2 => ?_,
    fun j hj => ?_, fun j hj => ?_, fun j hj => ?_⟩
  · rw [int8_of_xor_0x80 b h, int8_of_xor_0x80 b' h']; omega
  · rw [int8_of_xor_0x80 b h]; omega
  · refine ⟨(v + 128).toNat, by omega, ?_⟩
    rw [int8_of_xor_0x80 _ (by omega)]; omega
  · rw [(rgba_to_rgb_i8_spec a src dst n bgr).1 j, (rgba_to_rgb_u8_spec a' src dst' n bgr).1 j,
      if_pos hj, if_pos hj]
    split_ifs <;> exact int8_of_xor_0x80 _ (hb _)
  · rw [(rgba_to_planar_i8_spec a src dst n bgr).1 j,
      (rgba_to_planar_u8_spec a' src dst' n bgr).1 j]
    split_ifs <;> exact int8_of_xor_0x80 _ (hb _)
  · rw [(planar_u8_to_i8_spec a src dst n).1 j, if_pos hj]
    exact int8_of_xor_0x80 _ (hb _)

theorem xor_0x80_is_offset_conversion_witness :
    int8_of_byte ((edgefirst_neon_rgba_to_rgb_i8 true (bytes_of [0, 127, 128, 255])
        (Buf.fresh fun _ => 0) 1 false).data 2) = 0 ∧
    int8_of_byte ((edgefirst_neon_planar_u8_to_i8 true (bytes_of [0, 127, 128, 255])
        (Buf.fresh fun _ => 0) 4).data 0) = -128 ∧
    int8_of_byte ((edgefirst_neon_planar_u8_to_i8 true (bytes_of [0, 127, 128, 255])
        (Buf.fresh fun _ => 0) 4).data 3) = 127 := by
  have h := xor_0x80_is_offset_conversion true true (bytes_of [0, 127, 128, 255])
    (Buf.fresh fun _ => 0) (Buf.fresh fun _ => 0) 4 false (bytes_of_lt _ (by decide))
  have h1 := xor_0x80_is_offset_conversion true true (bytes_of [0, 127, 128, 255])
    (Buf.fresh fun _ => 0) (Buf.fresh fun _ => 0) 1 false (bytes_of_lt _ (by decide))
  refine ⟨?_, ?_, ?_⟩
  · rw [h1.2.2.2.2.1 2 (by norm_num)]; decide
  · rw [h.2.2.2.2.2.2 0 (by norm_num)]; decide
  · rw [h.2.2.2.2.2.2 3 (by norm_num)]; decide

/-! ## The size product in 32 bits -/

theorem guint_product (w h c : Nat) : to_guint (to_guint (w * h) * c) = (w * h * c) % 2 ^ 32 := by
  unfold to_guint
  exact Nat.mod_mul_mod

theorem fallback_f32_elem_shape (fl : ℚ → ℚ) (self : EdgefirstCameraAdaptor) (src : Nat → Nat)
    (i : Nat) (b : Buf ℚ) :
    fallback_f32_elem fl self src i b = b.store i (normalize_f32 fl (src i)
      (at3 self.mean (to_guint (if self.layout = Layout.HWC then i % self.out_channels
        else i / to_guint (self.out_width * self.out_height))))
      (at3 self.std (to_guint (if self.layout = Layout.HWC then i % self.out_channels
        else i / to_guint (self.out_width * self.out_height))))) := rfl

/-- C29: the size product `out_width * out_height * out_channels` is formed in
`guint` and only then widened.  For `w`, `h` in `[1, 2^32 - 1]` and a `guint`
channel count `c`, `transform_size` (sink direction) and
`prepare_output_buffer` (no persistent buffer) compute
`((w * h * c) mod 2^32) * element_size` bytes, the post-processing loops of
`transform` (here the float32 loops of both variants) run over
`(w * h * c) mod 2^32` elements, and the byte size equals
`w * h * c * element_size` exactly when `w * h * c < 2^32`. -/
theorem size_product_wraps_at_32_bits (fl : ℚ → ℚ) (self : EdgefirstCameraAdaptor)
    (rt : Runtime) (caps : Option GstVideoInfo) (src : Nat → Nat) (omap : Buf Nat)
    (omap_f32 : Buf ℚ) (w h c : Nat)
    (hw : 1 ≤ w ∧ w < 2 ^ 32) (hh : 1 ≤ h ∧ h < 2 ^ 32)
    (hsw : self.out_width = w) (hsh : self.out_height = h) (hsc : self.out_channels = c) :
    edgefirst_camera_adaptor_transform_size self GstPadDirection.GST_PAD_SINK caps
      = some ((w * h * c) % 2 ^ 32 * output_element_size self.dtype) ∧
    edgefirst_camera_adaptor_prepare_output_buffer { self with out_dmabuf_buf := false }
      = OutputBuffer.allocated ((w * h * c) % 2 ^ 32 * output_element_size self.dtype) ∧
    (self.dtype = Dtype.FLOAT32 →
      (∀ j, (fallback_sysmem fl self src omap omap_f32).2.log.count j
        = omap_f32.log.count j + (if j < (w * h * c) % 2 ^ 32 then 1 else 0)) ∧
      (∀ j, (fallback_dmabuf fl self rt).out_float.log.count j
        = rt.out_float.log.count j + (if j < (w * h * c) % 2 ^ 32 then 1 else 0))) ∧
    ((w * h * c) % 2 ^ 32 * output_element_size self.dtype
        = w * h * c * output_element_size self.dtype ↔ w * h * c < 2 ^ 32) := by
  have hes : output_element_size self.dtype = 1 ∨ output_element_size self.dtype = 4 := by
    unfold output_element_size; split_ifs <;> simp
  have hlt : (w * h * c) % 2 ^ 32 < 2 ^ 32 := Nat.mod_lt _ (by norm_num)
  have hsmall : to_gsize ((w * h * c) % 2 ^ 32 * output_element_size self.dtype)
      = (w * h * c) % 2 ^ 32 * output_element_size self.dtype := by
    unfold to_gsize
    apply Nat.mod_eq_of_lt
    rcases hes with e | e <;> rw [e] <;> omega
  have hw0 : (w == 0) = false := by simp; omega
  have hh0 : (h == 0) = false := by simp; omega
  refine ⟨?_, ?_, fun hd => ⟨fun j => ?_, fun j => ?_⟩, ?_⟩
  · simp only [edgefirst_camera_adaptor_transform_size, hsw, hsh, hsc, hw0, hh0,
      Bool.or_self, Bool.false_eq_true, if_false, if_true, guint_product, hsmall]
  · simp only [edgefirst_camera_adaptor_prepare_output_buffer, hsw, hsh, hsc,
      Bool.false_eq_true, if_false, guint_product, hsmall]
  · simp only [fallback_sysmem, hd, hsw, hsh, hsc, guint_product]
    exact (linear_scalar_spec _ _ _ omap_f32 (fun i b => by
      rw [fallback_f32_elem_shape])).2 j
  · have h8 : ¬ (Dtype.FLOAT32 = Dtype.INT8) := by decide
    simp only [fallback_dmabuf, hd, h8, if_false, if_true, hsw, hsh, hsc, guint_product]
    exact (linear_scalar_spec _ _ _ rt.out_float (fun i b => by
      rw [fallback_f32_elem_shape])).2 j
  · constructor
    · intro e
      by_contra hge
      have hpos : 0 < output_element_size self.dtype := by rcases hes with e | e <;> omega
      have := Nat.eq_of_mul_eq_mul_right hpos e
      omega
    · intro hl
      rw [Nat.mod_eq_of_lt hl]

theorem size_product_wraps_at_32_bits_witness :
    edgefirst_camera_adaptor_transform_size
      { edgefirst_camera_adaptor_init with
        out_width := 65536, out_height := 65536, out_channels := 3, dtype := .FLOAT32 }
      GstPadDirection.GST_PAD_SINK none = some 0 ∧
    edgefirst_camera_adaptor_transform_size
      { edgefirst_camera_adaptor_init with
        out_width := 40000, out_height := 40000, out_channels := 3, dtype := .FLOAT32 }
      GstPadDirection.GST_PAD_SINK none = some 2020130816 ∧
    edgefirst_camera_adaptor_transform_size
      { edgefirst_camera_adaptor_init with
        out_width := 640, out_height := 480, out_channels := 3, dtype := .FLOAT32 }
      GstPadDirection.GST_PAD_SINK none = some 3686400 := by
  refine ⟨?_, ?_, ?_⟩
  · exact (size_product_wraps_at_32_bits id _ allocated none (fun _ => 0) (Buf.fresh fun _ => 0)
      (Buf.fresh fun _ => 0) 65536 65536 3 (by norm_num) (by norm_num) rfl rfl rfl).1
  · exact (size_product_wraps_at_32_bits id _ allocated none (fun _ => 0) (Buf.fresh fun _ => 0)
      (Buf.fresh fun _ => 0) 40000 40000 3 (by norm_num) (by norm_num) rfl rfl rfl).1
  · exact (size_product_wraps_at_32_bits id _ allocated none (fun _ => 0) (Buf.fresh fun _ => 0)
      (Buf.fresh fun _ => 0) 640 480 3 (by norm_num) (by norm_num) rfl rfl rfl).1

/-! ## Channel order of mean and std -/

theorem rgba_to_rgb_f32_value (a : Bool) (fl : ℚ → ℚ) (src : Nat → Nat) (dst : Buf ℚ) (n : Nat)
    (mean std : Fin 3 → ℚ) (bgr : Bool) (i : Nat) (hi : i < n) (c : Fin 3) :
    (edgefirst_neon_rgba_to_rgb_f32 a fl src dst n mean std bgr).data (3 * i + c.val)
      = (if a = true ∧ i < 8 * (n / 8) then normalize_f32_vec fl else normalize_f32 fl)
          (src (4 * i + (if bgr then 2 - c.val else c.val))) (mean c) (std c) := by
  have hj : 3 * i + c.val < 3 * n := by have := c.isLt; omega
  have hd : (3 * i + c.val) / 3 = i := by have := c.isLt; omega
  have hm : (3 * i + c.val) % 3 = c.val := by have := c.isLt; omega
  have h4 : i * 4 = 4 * i := by ring
  cases a
  · rw [(rgba_to_rgb_f32_scalar_spec fl src dst n mean std bgr).1, if_pos hj, hm, hd, h4]
    fin_cases c <;> cases bgr <;> simp
  · rw [(rgba_to_rgb_f32_neon_spec fl src dst n mean std bgr).1, if_pos hj, hm, hd, h4]
    by_cases hb : i < 8 * (n / 8)
    · fin_cases c <;> cases bgr <;> simp [hb]
    · fin_cases c <;> cases bgr <;> simp [hb]

theorem rgba_to_planar_f32_value (a : Bool) (fl : ℚ → ℚ) (src : Nat → Nat) (dst : Buf ℚ)
    (n : Nat) (mean std : Fin 3 → ℚ) (bgr : Bool) (i : Nat) (hi : i < n) (c : Fin 3) :
    (edgefirst_neon_rgba_to_planar_f32 a fl src dst n mean std bgr).data (c.val * n + i)
      = (if a = true ∧ i < 8 * (n / 8) then normalize_f32_vec fl else normalize_f32 fl)
          (src (4 * i + (if bgr then 2 - c.val else c.val))) (mean c) (std c) := by
  have h4 : i * 4 = 4 * i := by ring
  cases a
  · rw [(rgba_to_planar_f32_scalar_spec fl src dst n mean std bgr).1]
    fin_cases c
    · have e : (0 : Nat) * n + i = i := by omega
      simp only [Fin.zero_eta, Fin.val_zero, e, if_pos hi, h4]
      cases bgr <;> simp
    · have e : (1 : Nat) * n + i = n + i := by omega
      have e1 : ¬ (n + i < n) := by omega
      have e2 : n + i < 2 * n := by omega
      have e3 : n + i - n = i := by omega
      simp only [Fin.mk_one, Fin.val_one, e, if_neg e1, if_pos e2, e3, h4]
      cases bgr <;> simp
    · have e1 : ¬ (2 * n + i < n) := by omega
      have e2 : ¬ (2 * n + i < 2 * n) := by omega
      have e3 : 2 * n + i < 3 * n := by omega
      have e4 : 2 * n + i - 2 * n = i := by omega
      simp only [Fin.reduceFinMk, Fin.val_two, if_neg e1, if_neg e2, if_pos e3, e4, h4]
      cases bgr <;> simp
  · rw [(rgba_to_planar_f32_neon_spec fl src dst n mean std bgr).1]
    by_cases hb : i < 8 * (n / 8)
    · fin_cases c
      · have e : (0 : Nat) * n + i = i := by omega
        simp only [Fin.zero_eta, Fin.val_zero, e, if_pos hi, h4]
        cases bgr <;> simp [hb]
      · have e : (1 : Nat) * n + i = n + i := by omega
        have e1 : ¬ (n + i < n) := by omega
        have e2 : n + i < 2 * n := by omega
        have e3 : n + i - n = i := by omega
        simp only [Fin.mk_one, Fin.val_one, e, if_neg e1, if_pos e2, e3, h4]
        cases bgr <;> simp [hb]
      · have e1 : ¬ (2 * n + i < n) := by omega
        have e2 : ¬ (2 * n + i < 2 * n) := by omega
        have e3 : 2 * n + i < 3 * n := by omega
        have e4 : 2 * n + i - 2 * n = i := by omega
        simp only [Fin.reduceFinMk, Fin.val_two, if_neg e1, if_neg e2, if_pos e3, e4, h4]
        cases bgr <;> simp [hb]
    · fin_cases c
      · have e : (0 : Nat) * n + i = i := by omega
        simp only [Fin.zero_eta, Fin.val_zero, e, if_pos hi, h4]
        cases bgr <;> simp [hb]
      · have e : (1 : Nat) * n + i = n + i := by omega
        have e1 : ¬ (n + i < n) := by omega
        have e2 : n + i < 2 * n := by omega
        have e3 : n + i - n = i := by omega
        simp only [Fin.mk_one, Fin.val_one, e, if_neg e1, if_pos e2, e3, h4]
        cases bgr <;> simp [hb]
      · have e1 : ¬ (2 * n + i < n) := by omega
        have e2 : ¬ (2 * n + i < 2 * n) := by omega
        have e3 : 2 * n + i < 3 * n := by omega
        have e4 : 2 * n + i - 2 * n = i := by omega
        simp only [Fin.reduceFinMk, Fin.val_two, if_neg e1, if_neg e2, if_pos e3, e4, h4]
        cases bgr <;> simp [hb]

theorem f32_round_255 : f32_round 255 = 255 := by
  have := f32_round_natCast 255 (by norm_num)
  simpa using this

theorem f32_round_one : f32_round 1 = 1 := by
  have := f32_round_natCast 1 (by norm_num)
  simpa using this

theorem normalize_f32_255 (m : ℚ) (hm : m = 0 ∨ m = 1) :
    normalize_f32 f32_round 255 m 1 = 1 - m := by
  unfold normalize_f32
  rcases hm with h | h <;> subst h <;>
    norm_num [f32_round_255, f32_round_one, f32_round_zero]

/-- C21 (amended): in the float32 kernels `mean` and `std` are indexed by output
channel.  For every pixel `i`, either value of `bgr`, either path and any
rounding, output channel `c` of the pixel (element `3 i + c` of the interleaved
output, element `c n + i` of the planar output) is the source byte of channel
`c` (of channel `2 - c` when `bgr` is set) normalised with `mean[c]` and
`std[c]`: with `bgr` set the blue byte is normalised with `mean[0]`, `std[0]`
and the red byte with `mean[2]`, `std[2]`.  The value is the scalar expression
`normalize_f32`, or the multiply and multiply-subtract `normalize_f32_vec` inside the
whole blocks of 8 of the intrinsics path. -/
theorem float_mean_std_by_output_channel (a : Bool) (fl : ℚ → ℚ) (src : Nat → Nat)
    (dst : Buf ℚ) (n : Nat) (mean std : Fin 3 → ℚ) (bgr : Bool) :
    (∀ i, i < n → ∀ c : Fin 3,
      (edgefirst_neon_rgba_to_rgb_f32 a fl src dst n mean std bgr).data (3 * i + c.val)
        = (if a = true ∧ i < 8 * (n / 8) then normalize_f32_vec fl else normalize_f32 fl)
            (src (4 * i + (if bgr then 2 - c.val else c.val))) (mean c) (std c)) ∧
    (∀ i, i < n → ∀ c : Fin 3,
      (edgefirst_neon_rgba_to_planar_f32 a fl src dst n mean std bgr).data (c.val * n + i)
        = (if a = true ∧ i < 8 * (n / 8) then normalize_f32_vec fl else normalize_f32 fl)
            (src (4 * i + (if bgr then 2 - c.val else c.val))) (mean c) (std c)) :=
  ⟨fun i hi c => rgba_to_rgb_f32_value a fl src dst n mean std bgr i hi c,
   fun i hi c => rgba_to_planar_f32_value a fl src dst n mean std bgr i hi c⟩

/-- C21, as stated, fails when `bgr` is set.  One pure red pixel
`(255, 0, 0, 255)` with `mean = (0, 0, 1)` and `std = (1, 1, 1)`: normalising the
red byte with `mean[0]`, `std[0]` gives `1`, but both kernels, on either path,
store `0` for it (at output channel 2): the red byte is normalised with
`mean[2]`. -/
theorem bgr_red_byte_uses_third_mean :
    normalize_f32 f32_round 255 0 1 = 1 ∧
    (edgefirst_neon_rgba_to_rgb_f32 false f32_round (bytes_of [255, 0, 0, 255])
      (Buf.fresh fun _ => 7) 1 (fun c => if c = 2 then 1 else 0) (fun _ => 1) true).data 2 = 0 ∧
    (edgefirst_neon_rgba_to_rgb_f32 true f32_round (bytes_of [255, 0, 0, 255])
      (Buf.fresh fun _ => 7) 1 (fun c => if c = 2 then 1 else 0) (fun _ => 1) true).data 2 = 0 ∧
    (edgefirst_neon_rgba_to_planar_f32 false f32_round (bytes_of [255, 0, 0, 255])
      (Buf.fresh fun _ => 7) 1 (fun c => if c = 2 then 1 else 0) (fun _ => 1) true).data 2 = 0 ∧
    (edgefirst_neon_rgba_to_planar_f32 true f32_round (bytes_of [255, 0, 0, 255])
      (Buf.fresh fun _ => 7) 1 (fun c => if c = 2 then 1 else 0) (fun _ => 1) true).data 2 = 0 := by
  have hv : normalize_f32 f32_round (bytes_of [255, 0, 0, 255] (4 * 0 + (2 - (2 : Fin 3).val)))
      ((fun c : Fin 3 => if c = 2 then (1 : ℚ) else 0) 2) 1 = 0 := by
    have e : bytes_of [255, 0, 0, 255] (4 * 0 + (2 - (2 : Fin 3).val)) = 255 := by decide
    rw [e]
    have := normalize_f32_255 1 (Or.inr rfl)
    simpa using this
  refine ⟨?_, ?_, ?_, ?_, ?_⟩
  · have := normalize_f32_255 0 (Or.inl rfl)
    simpa using this
  · have h := rgba_to_rgb_f32_value false f32_round (bytes_of [255, 0, 0, 255])
      (Buf.fresh fun _ => 7) 1 (fun c => if c = 2 then 1 else 0) (fun _ => 1) true 0
      (by norm_num) 2
    simp only [Bool.false_eq_true, false_and, if_false, if_true] at h
    rw [show 3 * 0 + (2 : Fin 3).val = 2 from rfl] at h
    rw [h]; exact hv
  · have h := rgba_to_rgb_f32_value true f32_round (bytes_of [255, 0, 0, 255])
      (Buf.fresh fun _ => 7) 1 (fun c => if c = 2 then 1 else 0) (fun _ => 1) true 0
      (by norm_num) 2
    have hb : ¬ ((true = true) ∧ 0 < 8 * (1 / 8)) := by norm_num
    rw [if_neg hb] at h
    simp only [if_true] at h
    rw [show 3 * 0 + (2 : Fin 3).val = 2 from rfl] at h
    rw [h]; exact hv
  · have h := rgba_to_planar_f32_value false f32_round (bytes_of [255, 0, 0, 255])
      (Buf.fresh fun _ => 7) 1 (fun c => if c = 2 then 1 else 0) (fun _ => 1) true 0
      (by norm_num) 2
    simp only [Bool.false_eq_true, false_and, if_false, if_true] at h
    rw [show (2 : Fin 3).val * 1 + 0 = 2 from rfl] at h
    rw [h]; exact hv
  · have h := rgba_to_planar_f32_value true f32_round (bytes_of [255, 0, 0, 255])
      (Buf.fresh fun _ => 7) 1 (fun c => if c = 2 then 1 else 0) (fun _ => 1) true 0
      (by norm_num) 2
    have hb : ¬ ((true = true) ∧ 0 < 8 * (1 / 8)) := by norm_num
    rw [if_neg hb] at h
    simp only [if_true] at h
    rw [show (2 : Fin 3).val * 1 + 0 = 2 from rfl] at h
    rw [h]; exact hv

/-! ## Letterbox geometry over exact rationals -/

theorem gfloat_to_guint_le (x : ℚ) (n : Nat) (h0 : 0 ≤ x) (h : x ≤ n) (hn : n < 2 ^ 32) :
    gfloat_to_guint x ≤ n := by
  unfold gfloat_to_guint
  have h1 : ¬ x < 0 := not_lt.mpr h0
  have h2 : ¬ ((2 : ℚ) ^ 32 ≤ x) := by
    intro h3
    have : (n : ℚ) < 2 ^ 32 := by exact_mod_cast hn
    linarith
  rw [if_neg h1, if_neg h2]
  have hf : ⌊x⌋ ≤ (n : ℤ) := by
    have := Int.floor_le x
    have h4 : ((⌊x⌋ : ℤ) : ℚ) ≤ ((n : ℤ) : ℚ) := by push_cast; linarith
    exact_mod_cast h4
  omega

theorem gfloat_to_guint_floor (x : ℚ) (h0 : 0 ≤ x) (h : x < 2 ^ 32) :
    gfloat_to_guint x = ⌊x⌋.toNat := by
  unfold gfloat_to_guint
  rw [if_neg (not_lt.mpr h0), if_neg (not_le.mpr h)]

/-- Over exact rationals the scaled size fits the target and fills it along at
least one axis. -/
theorem exact_scaled_fits (tw th sw sh : Nat) (hsw : sw ≠ 0) (hsh : sh ≠ 0)
    (htw : tw < 2 ^ 32) (hth : th < 2 ^ 32) (scale : ℚ)
    (hscale : scale = MIN ((tw : ℚ) / sw) ((th : ℚ) / sh)) :
    gfloat_to_guint ((sw : ℚ) * scale) ≤ tw ∧ gfloat_to_guint ((sh : ℚ) * scale) ≤ th ∧
    (gfloat_to_guint ((sw : ℚ) * scale) = tw ∨ gfloat_to_guint ((sh : ℚ) * scale) = th) ∧
    0 ≤ scale ∧ (sw : ℚ) * scale < 2 ^ 32 ∧ (sh : ℚ) * scale < 2 ^ 32 := by
  have hsw' : (0 : ℚ) < sw := by exact_mod_cast Nat.pos_of_ne_zero hsw
  have hsh' : (0 : ℚ) < sh := by exact_mod_cast Nat.pos_of_ne_zero hsh
  have htw' : (tw : ℚ) < 2 ^ 32 := by exact_mod_cast htw
  have hth' : (th : ℚ) < 2 ^ 32 := by exact_mod_cast hth
  have hs0 : 0 ≤ scale := by
    rw [hscale]
    exact MIN_nonneg _ _ (div_nonneg (Nat.cast_nonneg _) (le_of_lt hsw'))
      (div_nonneg (Nat.cast_nonneg _) (le_of_lt hsh'))
  have h1 : (sw : ℚ) * scale ≤ tw := by
    have := MIN_le_left ((tw : ℚ) / sw) ((th : ℚ) / sh)
    rw [← hscale] at this
    calc (sw : ℚ) * scale ≤ sw * ((tw : ℚ) / sw) := by
          exact mul_le_mul_of_nonneg_left this (le_of_lt hsw')
      _ = tw := by field_simp
  have h2 : (sh : ℚ) * scale ≤ th := by
    have := MIN_le_right ((tw : ℚ) / sw) ((th : ℚ) / sh)
    rw [← hscale] at this
    calc (sh : ℚ) * scale ≤ sh * ((th : ℚ) / sh) := by
          exact mul_le_mul_of_nonneg_left this (le_of_lt hsh')
      _ = th := by field_simp
  refine ⟨gfloat_to_guint_le _ _ (mul_nonneg (le_of_lt hsw') hs0) h1 htw,
    gfloat_to_guint_le _ _ (mul_nonneg (le_of_lt hsh') hs0) h2 hth, ?_, hs0,
    by linarith, by linarith⟩
  by_cases hlt : (tw : ℚ) / sw < (th : ℚ) / sh
  · left
    have e : scale = (tw : ℚ) / sw := by rw [hscale]; unfold MIN; rw [if_pos hlt]
    have e2 : (sw : ℚ) * scale = tw := by rw [e]; field_simp
    rw [e2]
    exact gfloat_to_guint_natCast tw htw
  · right
    have e : scale = (th : ℚ) / sh := by rw [hscale]; unfold MIN; rw [if_neg hlt]
    have e2 : (sh : ℚ) * scale = th := by rw [e]; field_simp
    rw [e2]
    exact gfloat_to_guint_natCast th hth

/-- The destination rectangle `compute_letterbox` sets, in terms of the padding it
leaves in the instance. -/
theorem compute_letterbox_rect (fl : ℚ → ℚ) (self : EdgefirstCameraAdaptor)
    (src_w src_h : ℕ) (hlb : self.letterbox = true) (hsw : src_w ≠ 0) (hsh : src_h ≠ 0) :
    (compute_letterbox fl self src_w src_h).crop.dst_rect
      = some (gint_to_guint (MAX (compute_letterbox fl self src_w src_h).lb_left 0),
          gint_to_guint (MAX (compute_letterbox fl self src_w src_h).lb_top 0),
          guint_sub (guint_sub self.out_width
            (gint_to_guint (MAX (compute_letterbox fl self src_w src_h).lb_left 0)))
            (gint_to_guint (MAX (compute_letterbox fl self src_w src_h).lb_right 0)),
          guint_sub (guint_sub self.out_height
            (gint_to_guint (MAX (compute_letterbox fl self src_w src_h).lb_top 0)))
            (gint_to_guint (MAX (compute_letterbox fl self src_w src_h).lb_bottom 0))) := by
  have hc : (!self.letterbox || src_w == 0 || src_h == 0) = false := by
    simp [hlb, hsw, hsh]
  unfold compute_letterbox
  simp only [hc, Bool.false_eq_true, if_false]

theorem centered_split (total : ℤ) (h0 : 0 ≤ total) (h1 : total < 2 ^ 31) :
    0 ≤ total.tdiv 2 ∧ total.tdiv 2 ≤ total ∧
    to_gint (total - total.tdiv 2) = total - total.tdiv 2 ∧
    0 ≤ total - total.tdiv 2 ∧ (total = 0 → total.tdiv 2 = 0) := by
  have e : total.tdiv 2 = total / 2 := Int.tdiv_eq_ediv h0 (by norm_num)
  rw [e]
  refine ⟨by omega, by omega, ?_, by omega, by omega⟩
  rw [to_gint_of_range _ (by omega) (by omega)]

/-- The fields `compute_letterbox` writes over exact rationals, with no edge
overridden. -/
theorem compute_letterbox_exact (self : EdgefirstCameraAdaptor) (src_w src_h : ℕ)
    (hlb : self.letterbox = true) (hsw : src_w ≠ 0) (hsh : src_h ≠ 0)
    (hno : self.lb_top_override = false ∧ self.lb_bottom_override = false ∧
        self.lb_left_override = false ∧ self.lb_right_override = false)
    (scale : ℚ) (total_w total_h : ℤ)
    (hscale : scale = MIN ((self.out_width : ℚ) / src_w) ((self.out_height : ℚ) / src_h))
    (htw : total_w = to_gint (guint_sub self.out_width
      (gfloat_to_guint ((src_w : ℚ) * scale))))
    (hth : total_h = to_gint (guint_sub self.out_height
      (gfloat_to_guint ((src_h : ℚ) * scale)))) :
    (compute_letterbox id self src_w src_h).lb_scale = scale ∧
    (compute_letterbox id self src_w src_h).lb_top = total_h.tdiv 2 ∧
    (compute_letterbox id self src_w src_h).lb_bottom
      = to_gint (total_h - total_h.tdiv 2) ∧
    (compute_letterbox id self src_w src_h).lb_left = total_w.tdiv 2 ∧
    (compute_letterbox id self src_w src_h).lb_right
      = to_gint (total_w - total_w.tdiv 2) := by
  obtain ⟨hs, htop, hbot, hleft, hright, -⟩ := compute_letterbox_enabled id self src_w src_h
    hlb hsw hsh scale total_w total_h hscale htw hth
  obtain ⟨o1, o2, o3, o4⟩ := hno
  rw [o1] at htop
  rw [o2] at hbot
  rw [o3] at hleft
  rw [o4] at hright
  simp only [Bool.false_eq_true, if_false] at htop hbot hleft hright
  rw [htop] at hbot
  rw [hleft] at hright
  exact ⟨hs, htop, hbot, hleft, hright⟩

theorem clamp_nonneg (z : ℤ) (h0 : 0 ≤ z) (h1 : z < 2 ^ 31) :
    gint_to_guint (MAX z 0) = z.toNat := by
  unfold MAX gint_to_guint
  split_ifs <;> omega

/-- Padding of one axis from its leftover, when the leftover fits a `gint`. -/
theorem padding_from_leftover (t s : ℕ) (hs : s ≤ t) (ht : t < 2 ^ 32) (hl : t - s < 2 ^ 31)
    (lead trail : ℤ) (hlead : lead = (to_gint (guint_sub t s)).tdiv 2)
    (htrail : trail = to_gint (to_gint (guint_sub t s) - (to_gint (guint_sub t s)).tdiv 2)) :
    0 ≤ lead ∧ 0 ≤ trail ∧ lead + trail = (t : ℤ) - s ∧ (s = t → lead = 0 ∧ trail = 0) ∧
    gint_to_guint (MAX lead 0) = lead.toNat ∧
    guint_sub (guint_sub t (gint_to_guint (MAX lead 0))) (gint_to_guint (MAX trail 0)) = s ∧
    lead.toNat + s ≤ t := by
  have g : guint_sub t s = t - s := guint_sub_of_le _ _ hs ht
  have tg : to_gint ((guint_sub t s : ℕ) : ℤ) = (t : ℤ) - s := by
    rw [g, to_gint_of_range _ (by omega) (by omega)]; omega
  rw [tg] at hlead htrail
  obtain ⟨a1, a2, a3, a4, a5⟩ := centered_split ((t : ℤ) - s) (by omega) (by omega)
  rw [← hlead] at a1 a2 a3 a4 a5 htrail
  rw [a3] at htrail
  have hL := clamp_nonneg lead a1 (by omega)
  have hT := clamp_nonneg trail (by omega) (by omega)
  refine ⟨a1, by omega, by omega, fun e => ?_, hL, ?_, by omega⟩
  · have : lead = 0 := a5 (by omega)
    omega
  · rw [hL, hT, guint_sub_of_le _ _ (by omega) ht, guint_sub_of_le _ _ (by omega) (by omega)]
    omega

/-- C30 (amended): with letterbox enabled, all four dimensions non-zero (target
dimensions being `guint` values) and the scale evaluated in exact rational
arithmetic, `scale = MIN (target_w / source_w, target_h / source_h)`, the scaled
size `floor (source * scale)` fits the target on both axes and equals it on at
least one.  With no edge overridden, and the leftover on each axis below
`2^31` (the range of the `gint` it is stored in; target dimensions below `2^31`
suffice), the four paddings are non-negative, sum with the scaled size to the
target on each axis, are zero on at least one axis, and the destination
rectangle is `(left, top, scaled_w, scaled_h)`, inside the target. -/
theorem letterbox_exact_fits (self r : EdgefirstCameraAdaptor)
    (src_w src_h scaled_w scaled_h : ℕ)
    (hlb : self.letterbox = true) (hsw : src_w ≠ 0) (hsh : src_h ≠ 0)
    (hdw : self.out_width ≠ 0 ∧ self.out_width < 2 ^ 32)
    (hdh : self.out_height ≠ 0 ∧ self.out_height < 2 ^ 32)
    (hr : r = compute_letterbox id self src_w src_h)
    (hnw : scaled_w = gfloat_to_guint ((src_w : ℚ) * r.lb_scale))
    (hnh : scaled_h = gfloat_to_guint ((src_h : ℚ) * r.lb_scale)) :
    r.lb_scale = MIN ((self.out_width : ℚ) / src_w) ((self.out_height : ℚ) / src_h) ∧
    scaled_w = ⌊(src_w : ℚ) * r.lb_scale⌋.toNat ∧
    scaled_h = ⌊(src_h : ℚ) * r.lb_scale⌋.toNat ∧
    scaled_w ≤ self.out_width ∧ scaled_h ≤ self.out_height ∧
    (scaled_w = self.out_width ∨ scaled_h = self.out_height) ∧
    (self.lb_top_override = false ∧ self.lb_bottom_override = false ∧
        self.lb_left_override = false ∧ self.lb_right_override = false →
      self.out_width - scaled_w < 2 ^ 31 → self.out_height - scaled_h < 2 ^ 31 →
      0 ≤ r.lb_top ∧ 0 ≤ r.lb_bottom ∧ 0 ≤ r.lb_left ∧ 0 ≤ r.lb_right ∧
      r.lb_left + r.lb_right = (self.out_width : ℤ) - scaled_w ∧
      r.lb_top + r.lb_bottom = (self.out_height : ℤ) - scaled_h ∧
      ((r.lb_top = 0 ∧ r.lb_bottom = 0) ∨ (r.lb_left = 0 ∧ r.lb_right = 0)) ∧
      r.crop.dst_rect = some (r.lb_left.toNat, r.lb_top.toNat, scaled_w, scaled_h) ∧
      r.lb_left.toNat + scaled_w ≤ self.out_width ∧
      r.lb_top.toNat + scaled_h ≤ self.out_height) := by
  have hs : r.lb_scale
      = MIN ((self.out_width : ℚ) / src_w) ((self.out_height : ℚ) / src_h) := by
    rw [hr]
    exact (compute_letterbox_enabled id self src_w src_h hlb hsw hsh _ _ _ rfl rfl rfl).1
  obtain ⟨fw, fh, fill, hs0, bw, bh⟩ := exact_scaled_fits self.out_width self.out_height
    src_w src_h hsw hsh hdw.2 hdh.2 r.lb_scale hs
  rw [← hnw] at fw fill
  rw [← hnh] at fh fill
  refine ⟨hs, ?_, ?_, fw, fh, fill, ?_⟩
  · rw [hnw]; exact gfloat_to_guint_floor _ (mul_nonneg (Nat.cast_nonneg _) hs0) bw
  · rw [hnh]; exact gfloat_to_guint_floor _ (mul_nonneg (Nat.cast_nonneg _) hs0) bh
  intro hno lw lh
  obtain ⟨-, htop, hbot, hleft, hright⟩ := compute_letterbox_exact self src_w src_h hlb hsw hsh
    hno r.lb_scale _ _ hs rfl rfl
  have hrect := compute_letterbox_rect id self src_w src_h hlb hsw hsh
  rw [← hr] at htop hbot hleft hright hrect
  rw [← hnw] at hleft hright
  rw [← hnh] at htop hbot
  obtain ⟨x1, x2, x3, x4, x5, x6, x7⟩ := padding_from_leftover self.out_width scaled_w fw
    hdw.2 lw r.lb_left r.lb_right hleft hright
  obtain ⟨y1, y2, y3, y4, y5, y6, y7⟩ := padding_from_leftover self.out_height scaled_h fh
    hdh.2 lh r.lb_top r.lb_bottom htop hbot
  refine ⟨y1, y2, x1, x2, x3, y3, ?_, ?_, x7, y7⟩
  · rcases fill with e | e
    · exact Or.inr (x4 e)
    · exact Or.inl (y4 e)
  · rw [hrect, x6, y6, x5, y5]

theorem exact_scale_640x480 :
    (compute_letterbox id { edgefirst_camera_adaptor_init with
      letterbox := true, out_width := 320, out_height := 320 } 640 480).lb_scale = 1 / 2 := by
  rw [(compute_letterbox_enabled id { edgefirst_camera_adaptor_init with
      letterbox := true, out_width := 320, out_height := 320 } 640 480 rfl (by norm_num)
      (by norm_num) _ _ _ rfl rfl rfl).1]
  unfold MIN
  norm_num

theorem gfloat_to_guint_320 : gfloat_to_guint (((640 : ℕ) : ℚ) * (1 / 2)) = 320 := by
  have e : ((640 : ℕ) : ℚ) * (1 / 2) = ((320 : ℕ) : ℚ) := by norm_num
  rw [e]
  exact gfloat_to_guint_natCast 320 (by norm_num)

theorem gfloat_to_guint_240 : gfloat_to_guint (((480 : ℕ) : ℚ) * (1 / 2)) = 240 := by
  have e : ((480 : ℕ) : ℚ) * (1 / 2) = ((240 : ℕ) : ℚ) := by norm_num
  rw [e]
  exact gfloat_to_guint_natCast 240 (by norm_num)

/-- A 640x480 source into a 320x320 target over exact rationals: scale 1/2,
scaled size 320x240, top = bottom = 40, left = right = 0, rectangle
`(0, 40, 320, 240)`. -/
theorem letterbox_exact_fits_witness :
    (compute_letterbox id { edgefirst_camera_adaptor_init with
      letterbox := true, out_width := 320, out_height := 320 } 640 480).lb_top
      + (compute_letterbox id { edgefirst_camera_adaptor_init with
      letterbox := true, out_width := 320, out_height := 320 } 640 480).lb_bottom = 80 ∧
    (compute_letterbox id { edgefirst_camera_adaptor_init with
      letterbox := true, out_width := 320, out_height := 320 } 640 480).lb_left = 0 ∧
    (compute_letterbox id { edgefirst_camera_adaptor_init with
      letterbox := true, out_width := 320, out_height := 320 } 640 480).crop.dst_rect
      = some ((compute_letterbox id { edgefirst_camera_adaptor_init with
          letterbox := true, out_width := 320, out_height := 320 } 640 480).lb_left.toNat,
        (compute_letterbox id { edgefirst_camera_adaptor_init with
          letterbox := true, out_width := 320, out_height := 320 } 640 480).lb_top.toNat,
        320, 240) := by
  have h := (letterbox_exact_fits
    { edgefirst_camera_adaptor_init with letterbox := true, out_width := 320, out_height := 320 }
    _ 640 480 320 240 rfl (by norm_num) (by norm_num)
    ⟨by norm_num, by norm_num⟩ ⟨by norm_num, by norm_num⟩ rfl
    (by rw [exact_scale_640x480]; exact gfloat_to_guint_320.symm)
    (by rw [exact_scale_640x480]; exact gfloat_to_guint_240.symm)).2.2.2.2.2.2
    ⟨rfl, rfl, rfl, rfl⟩ (by norm_num) (by norm_num)
  obtain ⟨-, -, l0, r0, hl, ht, hz, hrect, -, -⟩ := h
  refine ⟨?_, ?_, hrect⟩
  · rw [ht]; norm_num
  · rcases hz with ⟨z1, z2⟩ | ⟨z1, z2⟩
    · rw [z1, z2] at ht; norm_num at ht
    · exact z1

theorem gfloat_to_guint_one : gfloat_to_guint (((1 : ℕ) : ℚ) * 1) = 1 := by
  rw [mul_one]
  exact gfloat_to_guint_natCast 1 (by norm_num)

/-- C30, as stated, fails when the leftover does not fit a `gint`.  A 1x1 source
into a target of width 1 and height `2^31 + 1`, letterbox enabled, no override,
exact arithmetic: the scale is 1 and the scaled size 1x1, but the leftover
`2^31` of the vertical axis is stored in a `gint` and reads `-2^31`; top and
bottom are `-2^30`, and the destination rectangle is `(0, 0, 1, 2^31 + 1)`, the
whole target, not `(left, top, 1, 1)`. -/
theorem letterbox_leftover_wraps :
    (compute_letterbox id { edgefirst_camera_adaptor_init with
      letterbox := true, out_width := 1, out_height := 2147483649 } 1 1).lb_scale = 1 ∧
    gfloat_to_guint (((1 : ℕ) : ℚ) * (compute_letterbox id { edgefirst_camera_adaptor_init with
      letterbox := true, out_width := 1, out_height := 2147483649 } 1 1).lb_scale) = 1 ∧
    (compute_letterbox id { edgefirst_camera_adaptor_init with
      letterbox := true, out_width := 1, out_height := 2147483649 } 1 1).lb_top
      = -1073741824 ∧
    (compute_letterbox id { edgefirst_camera_adaptor_init with
      letterbox := true, out_width := 1, out_height := 2147483649 } 1 1).lb_bottom
      = -1073741824 ∧
    (compute_letterbox id { edgefirst_camera_adaptor_init with
      letterbox := true, out_width := 1, out_height := 2147483649 } 1 1).crop.dst_rect
      = some (0, 0, 1, 2147483649) := by
  have hmin : (1 : ℚ) = MIN (((1 : ℕ) : ℚ) / ((1 : ℕ) : ℚ))
      (((2147483649 : ℕ) : ℚ) / ((1 : ℕ) : ℚ)) := by
    unfold MIN; norm_num
  have htw : (0 : ℤ) = to_gint (guint_sub 1 (gfloat_to_guint (((1 : ℕ) : ℚ) * 1))) := by
    rw [gfloat_to_guint_one]; decide
  have hth : (-2147483648 : ℤ)
      = to_gint (guint_sub 2147483649 (gfloat_to_guint (((1 : ℕ) : ℚ) * 1))) := by
    rw [gfloat_to_guint_one]; decide
  obtain ⟨hs, htop, hbot, hleft, hright⟩ := compute_letterbox_exact
    { edgefirst_camera_adaptor_init with
      letterbox := true, out_width := 1, out_height := 2147483649 } 1 1 rfl (by norm_num)
    (by norm_num) ⟨rfl, rfl, rfl, rfl⟩ 1 0 (-2147483648) hmin htw hth
  have hrect := compute_letterbox_rect id
    { edgefirst_camera_adaptor_init with
      letterbox := true, out_width := 1, out_height := 2147483649 } 1 1 rfl (by norm_num)
    (by norm_num)
  have e1 : (-2147483648 : ℤ).tdiv 2 = -1073741824 := by decide
  have e2 : to_gint (-2147483648 - (-2147483648 : ℤ).tdiv 2) = -1073741824 := by decide
  have e3 : (0 : ℤ).tdiv 2 = 0 := by decide
  have e4 : to_gint (0 - (0 : ℤ).tdiv 2) = 0 := by decide
  rw [e1] at htop
  rw [e2] at hbot
  rw [e3] at hleft
  rw [e4] at hright
  refine ⟨hs, ?_, htop, hbot, ?_⟩
  · rw [hs]; exact gfloat_to_guint_one
  · rw [hrect, htop, hbot, hleft, hright]
    decide

/-! ## Rigid transforms -/

theorem apply_eq_matrix {K : Type} [CommRing K] (transform : EdgefirstTransformData K)
    (p : K × K × K) :
    edgefirst_transform_data_apply id transform p
      = ((rotation_matrix_apply transform.rotation p).1 + transform.translation 0,
         (rotation_matrix_apply transform.rotation p).2.1 + transform.translation 1,
         (rotation_matrix_apply transform.rotation p).2.2 + transform.translation 2) := by
  simp only [edgefirst_transform_data_apply, rotation_matrix_apply, id]
  refine Prod.ext ?_ (Prod.ext ?_ ?_) <;> simp only <;> ring

theorem matrix_eq_conjugation {K : Type} [CommRing K] (q : Fin 4 → K) (p : K × K × K)
    (hq : q 0 * q 0 + q 1 * q 1 + q 2 * q 2 + q 3 * q 3 = 1) :
    quaternion_rotate q p
      = ⟨0, (rotation_matrix_apply q p).1, (rotation_matrix_apply q p).2.1,
          (rotation_matrix_apply q p).2.2⟩ := by
  simp only [quaternion_rotate, to_quaternion, rotation_matrix_apply]
  ext
  · simp only [Quaternion.mul_re, Quaternion.mul_imI, Quaternion.mul_imJ, Quaternion.mul_imK,
      Quaternion.star_re, Quaternion.star_imI, Quaternion.star_imJ, Quaternion.star_imK]
    ring
  · simp only [Quaternion.mul_re, Quaternion.mul_imI, Quaternion.mul_imJ, Quaternion.mul_imK,
      Quaternion.star_re, Quaternion.star_imI, Quaternion.star_imJ, Quaternion.star_imK]
    linear_combination p.1 * hq
  · simp only [Quaternion.mul_re, Quaternion.mul_imI, Quaternion.mul_imJ, Quaternion.mul_imK,
      Quaternion.star_re, Quaternion.star_imI, Quaternion.star_imJ, Quaternion.star_imK]
    linear_combination p.2.1 * hq
  · simp only [Quaternion.mul_re, Quaternion.mul_imI, Quaternion.mul_imJ, Quaternion.mul_imK,
      Quaternion.star_re, Quaternion.star_imI, Quaternion.star_imJ, Quaternion.star_imK]
    linear_combination p.2.2 * hq

theorem matrix_preserves_norm {K : Type} [CommRing K] (q : Fin 4 → K) (p : K × K × K)
    (hq : q 0 * q 0 + q 1 * q 1 + q 2 * q 2 + q 3 * q 3 = 1) :
    norm_sq3 (rotation_matrix_apply q p) = norm_sq3 p := by
  simp only [norm_sq3, rotation_matrix_apply]
  linear_combination
    4 * ((q 0 * q 0 + q 1 * q 1 + q 2 * q 2) * (p.1 * p.1 + p.2.1 * p.2.1 + p.2.2 * p.2.2)
      - (q 0 * p.1 + q 1 * p.2.1 + q 2 * p.2.2) * (q 0 * p.1 + q 1 * p.2.1 + q 2 * p.2.2)) * hq

/-- C24: over exact arithmetic (`K` any field of characteristic zero, the reals
among them) `edgefirst_transform_data_apply` maps a point `p` to `R(q) p + t`, with
`R(q)` the rotation matrix of the stored quaternion `q = (x, y, z, w)` and `t` the
translation; for a unit quaternion `R(q) p` is the rotation `q p q*` of `p` by
`q`.  The identity transform leaves every point unchanged, the identity
quaternion gives `p + t`, a unit quaternion with `t = 0` preserves the squared
Euclidean norm, `q = (1/2, 1/2, 1/2, 1/2)` maps `(1, 0, 0)` to `(0, 1, 0)`, and
`q = (0, 0, 1, 0)` maps `(1, 0, 0)` to `(-1, 0, 0)`. -/
theorem transform_apply_is_rotation_plus_translation {K : Type} [Field K] [CharZero K]
    (transform : EdgefirstTransformData K) (p : K × K × K) :
    edgefirst_transform_data_apply id transform p
      = ((rotation_matrix_apply transform.rotation p).1 + transform.translation 0,
         (rotation_matrix_apply transform.rotation p).2.1 + transform.translation 1,
         (rotation_matrix_apply transform.rotation p).2.2 + transform.translation 2) ∧
    (transform.rotation 0 * transform.rotation 0 + transform.rotation 1 * transform.rotation 1
        + transform.rotation 2 * transform.rotation 2
        + transform.rotation 3 * transform.rotation 3 = 1 →
      quaternion_rotate transform.rotation p
        = ⟨0, (rotation_matrix_apply transform.rotation p).1,
            (rotation_matrix_apply transform.rotation p).2.1,
            (rotation_matrix_apply transform.rotation p).2.2⟩ ∧
      ((∀ i, transform.translation i = 0) →
        norm_sq3 (edgefirst_transform_data_apply id transform p) = norm_sq3 p)) ∧
    edgefirst_transform_data_apply id (edgefirst_transform_data_set_identity transform) p = p ∧
    (transform.rotation 0 = 0 ∧ transform.rotation 1 = 0 ∧ transform.rotation 2 = 0 ∧
        transform.rotation 3 = 1 →
      edgefirst_transform_data_apply id transform p
        = (p.1 + transform.translation 0, p.2.1 + transform.translation 1,
            p.2.2 + transform.translation 2)) ∧
    edgefirst_transform_data_apply id
      { transform with
        translation := fun _ => (0 : K), rotation := ![1 / 2, 1 / 2, 1 / 2, 1 / 2] }
      ((1, 0, 0) : K × K × K) = (0, 1, 0) ∧
    edgefirst_transform_data_apply id
      { transform with translation := fun _ => (0 : K), rotation := ![0, 0, 1, 0] }
      ((1, 0, 0) : K × K × K) = (-1, 0, 0) := by
  refine ⟨apply_eq_matrix transform p, fun hq => ⟨matrix_eq_conjugation _ p hq, fun ht => ?_⟩,
    ?_, ?_, ?_, ?_⟩
  · rw [apply_eq_matrix, ht 0, ht 1, ht 2, ← matrix_preserves_norm transform.rotation p hq]
    simp only [norm_sq3, add_zero]
  · simp only [edgefirst_transform_data_apply, edgefirst_transform_data_set_identity, id]
    refine Prod.ext ?_ (Prod.ext ?_ ?_) <;> simp
  · rintro ⟨h0, h1, h2, h3⟩
    simp only [edgefirst_transform_data_apply, id, h0, h1, h2, h3]
    refine Prod.ext ?_ (Prod.ext ?_ ?_) <;> simp
  · simp only [edgefirst_transform_data_apply, id]
    refine Prod.ext ?_ (Prod.ext ?_ ?_) <;> simp <;> norm_num
  · simp only [edgefirst_transform_data_apply, id]
    refine Prod.ext ?_ (Prod.ext ?_ ?_) <;> norm_num

/-- The quaternion `(1/2, 1/2, 1/2, 1/2)` over the rationals is a unit quaternion;
it maps `(1, 2, 3)` to `(3, 1, 2)`, of the same squared norm 14. -/
theorem transform_apply_is_rotation_plus_translation_witness :
    norm_sq3 (edgefirst_transform_data_apply id
      { translation := fun _ => (0 : ℚ), rotation := ![1 / 2, 1 / 2, 1 / 2, 1 / 2]
        child_frame_id := [], parent_frame_id := [], timestamp_ns := 0 } (1, 2, 3))
      = norm_sq3 ((1, 2, 3) : ℚ × ℚ × ℚ) ∧
    edgefirst_transform_data_apply id
      { translation := fun _ => (0 : ℚ), rotation := ![1 / 2, 1 / 2, 1 / 2, 1 / 2]
        child_frame_id := [], parent_frame_id := [], timestamp_ns := 0 } (1, 2, 3)
      = (3, 1, 2) := by
  have h := (transform_apply_is_rotation_plus_translation
    { translation := fun _ => (0 : ℚ), rotation := ![1 / 2, 1 / 2, 1 / 2, 1 / 2]
      child_frame_id := [], parent_frame_id := [], timestamp_ns := 0 } (1, 2, 3)).2.1
    (by simp; norm_num)
  refine ⟨h.2 (fun _ => rfl), ?_⟩
  simp only [edgefirst_transform_data_apply, id]
  refine Prod.ext ?_ (Prod.ext ?_ ?_) <;> simp <;> norm_num

/-! ## The two variants of the fallback post-processing -/

theorem store_data {α : Type} (b : Buf α) (i : Nat) (v : α) (j : Nat) :
    (b.store i v).data j = if j = i then v else b.data j := rfl

theorem lanes_inplace_data {α : Type} (g : Nat → α → α) (k : Nat) (b : Buf α) (j : Nat) :
    (lanes (fun i (d : Buf α) => d.store i (g i (d.data i))) k b).data j
      = if j < k then g j (b.data j) else b.data j := by
  induction k generalizing j with
  | zero => simp [lanes]
  | succ k ih =>
    show ((lanes (fun i (d : Buf α) => d.store i (g i (d.data i))) k b).store k
      (g k ((lanes (fun i (d : Buf α) => d.store i (g i (d.data i))) k b).data k))).data j = _
    rw [store_data]
    by_cases hj : j = k
    · subst hj
      rw [if_pos rfl, ih, if_neg (by omega), if_pos (by omega)]
    · rw [if_neg hj, ih]
      by_cases h1 : j < k
      · rw [if_pos h1, if_pos (by omega)]
      · rw [if_neg h1, if_neg (by omega)]

theorem for_each_inplace_data {α : Type} (g : Nat → α → α) (n : Nat) (b : Buf α) (j : Nat) :
    (for_each n (fun i (d : Buf α) => d.store i (g i (d.data i))) n 0 b).data j
      = if j < n then g j (b.data j) else b.data j := by
  rw [for_each_eq_lanes n _ n 0 b (by omega)]
  simp only [Nat.zero_add, Nat.sub_zero]
  exact lanes_inplace_data g n b j

theorem fallback_f32_data (fl : ℚ → ℚ) (self : EdgefirstCameraAdaptor) (src : Nat → Nat)
    (n : Nat) (dst : Buf ℚ) (j : Nat) :
    (for_each n (fallback_f32_elem fl self src) n 0 dst).data j
      = if j < n then normalize_f32 fl (src j)
          (at3 self.mean (to_guint (if self.layout = Layout.HWC then j % self.out_channels
            else j / to_guint (self.out_width * self.out_height))))
          (at3 self.std (to_guint (if self.layout = Layout.HWC then j % self.out_channels
            else j / to_guint (self.out_width * self.out_height))))
        else dst.data j :=
  (linear_scalar_spec _ _ n dst (fun i b => by rw [fallback_f32_elem_shape])).1 j

/-- Outside uint8 with BGR in the planar layout, the in-place variant of the
fallback post-processing leaves in the final tensor what the copying variant
leaves in the output buffer. -/
theorem fallback_variants_agree (fl : ℚ → ℚ) (self : EdgefirstCameraAdaptor) (rt : Runtime)
    (work : Nat → Nat) (omap : Buf Nat) (omap_f32 : Buf ℚ) (n : Nat)
    (hbgr : self.colorspace = Colorspace.BGR →
      to_guint (to_guint (self.out_width * self.out_height) * self.out_channels) = 3 * n)
    (hcase : ¬ (self.dtype = Dtype.UINT8 ∧ self.colorspace = Colorspace.BGR ∧
      self.layout = Layout.CHW))
    (j : Nat)
    (hj : j < to_guint (to_guint (self.out_width * self.out_height) * self.out_channels)) :
    (self.dtype ≠ Dtype.FLOAT32 →
      (fallback_dmabuf fl self { rt with work := { data := work, log := rt.work.log } }).work.data j
        = (fallback_sysmem fl self work omap omap_f32).1.data j) ∧
    (self.dtype = Dtype.FLOAT32 →
      (fallback_dmabuf fl self
          { rt with work := { data := work, log := rt.work.log } }).out_float.data j
        = (fallback_sysmem fl self work omap omap_f32).2.data j) := by
  generalize hN : to_guint (to_guint (self.out_width * self.out_height) * self.out_channels)
    = N at hbgr hj
  have hmod : j % 3 < 3 := Nat.mod_lt _ (by norm_num)
  refine ⟨fun hf => ?_, fun hf => ?_⟩
  · cases hd : self.dtype with
    | FLOAT32 => exact absurd hd hf
    | INT8 =>
      by_cases hb : self.colorspace = Colorspace.BGR ∧ self.layout = Layout.HWC
      · have h3 := hbgr hb.1
        simp only [fallback_dmabuf, fallback_sysmem, hd, hN, if_true, if_pos hb]
        rw [h3] at hj ⊢
        rw [swap_loop_data, swap_loop_data, if_pos hj, if_pos hj]
        rw [for_each_inplace_data (fun _ x => (x ^^^ 0x80) % 256),
          for_each_inplace_data (fun _ x => (x ^^^ 0x80) % 256),
          for_each_inplace_data (fun _ x => (x ^^^ 0x80) % 256)]
        rw [for_each_store_data, for_each_store_data, for_each_store_data]
        have e1 : (j % 3 = 0 → j + 2 < 3 * n) := fun _ => by omega
        have e2 : (j % 3 = 2 → j - 2 < 3 * n) := fun _ => by omega
        split_ifs <;> first | rfl | omega
      · simp only [fallback_dmabuf, fallback_sysmem, hd, hN, if_true, if_neg hb]
        rw [for_each_inplace_data (fun _ x => (x ^^^ 0x80) % 256), for_each_store_data,
          if_pos hj, if_pos hj]
    | UINT8 =>
      have h1 : ¬ (Dtype.UINT8 = Dtype.INT8) := by decide
      have h2 : ¬ (Dtype.UINT8 = Dtype.FLOAT32) := by decide
      by_cases hb : self.colorspace = Colorspace.BGR ∧ self.layout = Layout.HWC
      · have h3 := hbgr hb.1
        simp only [fallback_dmabuf, fallback_sysmem, hd, hN, h1, h2, if_false, if_pos hb]
        rw [h3] at hj ⊢
        rw [swap_loop_data, copy_swapped_data, if_pos hj, if_pos hj]
        split_ifs <;> first | rfl | omega
      · have hc : ¬ (self.colorspace = Colorspace.BGR ∧ self.layout = Layout.CHW) :=
          fun h => hcase ⟨hd, h⟩
        simp only [fallback_dmabuf, fallback_sysmem, hd, hN, h1, h2, if_false, if_neg hb,
          if_neg hc]
        rw [memcpy_data, if_pos ⟨by omega, by omega⟩]
        simp
  · have h1 : ¬ (Dtype.FLOAT32 = Dtype.INT8) := by decide
    simp only [fallback_dmabuf, fallback_sysmem, hf, hN, h1, if_false, if_true]
    rw [fallback_f32_data, fallback_f32_data, if_pos hj, if_pos hj]

/-- C28 fails for uint8 with BGR in the planar layout, and only there.  For every
other (layout, dtype, colorspace) combination, every mean/std and every
work-tensor content, the in-place variant of the fallback post-processing
leaves in the final tensor (the work tensor, or the float tensor for float32)
exactly what the copying variant leaves in the output buffer, at every element
index below the output size (for BGR the size is three times the pixel count).
For uint8, BGR, CHW the copying variant exchanges the first and third plane and
the in-place variant does nothing: a 1x1 work tensor `[10, 20, 30]` comes out as
`[30, 20, 10]` in the output buffer (as from Stage 2) and stays `[10, 20, 30]`
in the persistent DMA-BUF output. -/
theorem fallback_variants_differ_on_planar_bgr_u8 (fl : ℚ → ℚ)
    (self : EdgefirstCameraAdaptor) (rt : Runtime) (work : Nat → Nat) (omap : Buf Nat)
    (omap_f32 : Buf ℚ) (n : Nat) :
    ((self.colorspace = Colorspace.BGR →
        to_guint (to_guint (self.out_width * self.out_height) * self.out_channels) = 3 * n) →
      ¬ (self.dtype = Dtype.UINT8 ∧ self.colorspace = Colorspace.BGR ∧
        self.layout = Layout.CHW) →
      ∀ j, j < to_guint (to_guint (self.out_width * self.out_height) * self.out_channels) →
        (self.dtype ≠ Dtype.FLOAT32 →
          (fallback_dmabuf fl self
              { rt with work := { data := work, log := rt.work.log } }).work.data j
            = (fallback_sysmem fl self work omap omap_f32).1.data j) ∧
        (self.dtype = Dtype.FLOAT32 →
          (fallback_dmabuf fl self
              { rt with work := { data := work, log := rt.work.log } }).out_float.data j
            = (fallback_sysmem fl self work omap omap_f32).2.data j)) ∧
    (edgefirst_camera_adaptor_transform true f32_round
      { negotiated [.PROP_COLORSPACE .BGR, .PROP_LAYOUT .CHW, .PROP_MODEL_WIDTH 1,
          .PROP_MODEL_HEIGHT 1] with use_two_stage := false, out_dmabuf_buf := false }
      allocated { frame_with 0 with ref_data := bytes_of [10, 20, 30] }).outbuf.take 3
      = [30, 20, 10] ∧
    (edgefirst_camera_adaptor_transform true f32_round
      { negotiated [.PROP_COLORSPACE .BGR, .PROP_LAYOUT .CHW, .PROP_MODEL_WIDTH 1,
          .PROP_MODEL_HEIGHT 1] with use_two_stage := false, out_dmabuf_buf := true }
      allocated { frame_with 0 with ref_data := bytes_of [10, 20, 30] }).rt.work.take 3
      = [10, 20, 30] ∧
    (edgefirst_camera_adaptor_transform true f32_round
      { negotiated [.PROP_COLORSPACE .BGR, .PROP_LAYOUT .CHW, .PROP_MODEL_WIDTH 1,
          .PROP_MODEL_HEIGHT 1] with use_two_stage := false, out_dmabuf_buf := true }
      allocated { frame_with 0 with ref_data := bytes_of [10, 20, 30] }).flow
      = GstFlowReturn.GST_FLOW_OK ∧
    (edgefirst_camera_adaptor_transform true f32_round
      (negotiated [.PROP_COLORSPACE .BGR, .PROP_LAYOUT .CHW, .PROP_MODEL_WIDTH 1,
          .PROP_MODEL_HEIGHT 1])
      allocated { frame_with 0 with intermediate := bytes_of [10, 20, 30, 255] }).outbuf.take 3
      = [30, 20, 10] := by
  refine ⟨fun hbgr hcase j hj => fallback_variants_agree fl self rt work omap omap_f32 n hbgr
    hcase j hj, by decide, by decide, by decide, by decide⟩

/-! ## Strings of the point-field utilities -/

theorem digit_char_toNat (d : Nat) (h : d < 10) : (Char.ofNat (48 + d)).toNat = 48 + d := by
  interval_cases d <;> rfl

theorem digit_char_isdigit (d : Nat) (h : d < 10) :
    g_ascii_isdigit (Char.ofNat (48 + d)) = true := by
  interval_cases d <;> rfl

theorem utoa_rev_digits (fuel n : Nat) : ∀ c ∈ utoa_rev fuel n, g_ascii_isdigit c = true := by
  induction fuel generalizing n with
  | zero => intro c hc; simp [utoa_rev] at hc
  | succ fuel ih =>
    intro c hc
    simp only [utoa_rev, List.mem_cons] at hc
    rcases hc with hc | hc
    · rw [hc]; exact digit_char_isdigit _ (Nat.mod_lt _ (by norm_num))
    · split_ifs at hc
      · simp at hc
      · exact ih _ c hc

theorem utoa_rev_ne_nil (fuel n : Nat) : utoa_rev (fuel + 1) n ≠ [] := by
  simp [utoa_rev]

/-- The value of a digit string given least significant digit first. -/
theorem utoa_rev_value (fuel n : Nat) (h : n < fuel) :
    (utoa_rev fuel n).foldr (fun c acc => acc * 10 + (c.toNat - 48)) 0 = n := by
  induction fuel generalizing n with
  | zero => omega
  | succ fuel ih =>
    simp only [utoa_rev]
    have hd : (Char.ofNat (48 + n % 10)).toNat - 48 = n % 10 := by
      rw [digit_char_toNat _ (Nat.mod_lt _ (by norm_num))]; omega
    by_cases h0 : n / 10 = 0
    · rw [if_pos h0]
      simp only [List.foldr_cons, List.foldr_nil, hd]
      omega
    · rw [if_neg h0]
      simp only [List.foldr_cons, hd]
      rw [ih (n / 10) (by omega)]
      omega

theorem printf_u_digits (n : Nat) : ∀ c ∈ printf_u n, g_ascii_isdigit c = true := by
  intro c hc
  unfold printf_u at hc
  rw [List.mem_reverse] at hc
  exact utoa_rev_digits _ _ c hc

theorem printf_u_ne_nil (n : Nat) : printf_u n ≠ [] := by
  unfold printf_u
  simp [utoa_rev]

theorem isdigit_not_isspace (c : Char) (h : g_ascii_isdigit c = true) :
    g_ascii_isspace c = false := by
  unfold g_ascii_isdigit at h
  unfold g_ascii_isspace
  simp only [Bool.and_eq_true, decide_eq_true_eq] at h
  simp only [Bool.or_eq_false_iff, decide_eq_false_iff_not, Bool.and_eq_false_imp,
    decide_eq_true_eq]
  omega

theorem isdigit_ne (c : Char) (h : g_ascii_isdigit c = true) (k : Nat) (hk : k < 48) :
    c ≠ Char.ofNat k := by
  intro e
  subst e
  interval_cases k <;> revert h <;> decide

/-- The call `g_ascii_strtoull` reads back what `%u` printed. -/
theorem strtoull_printf_u (n : Nat) (h : n < 2 ^ 64) : g_ascii_strtoull (printf_u n) = n := by
  have hd := printf_u_digits n
  have hne := printf_u_ne_nil n
  obtain ⟨c, cs, hcs⟩ := List.exists_cons_of_ne_nil hne
  have hc : g_ascii_isdigit c = true := hd c (by rw [hcs]; exact List.mem_cons_self _ _)
  have hsp : g_ascii_isspace c = false := isdigit_not_isspace c hc
  have h45 : c ≠ Char.ofNat 45 := isdigit_ne c hc 45 (by norm_num)
  have h43 : c ≠ Char.ofNat 43 := isdigit_ne c hc 43 (by norm_num)
  have hdrop : (printf_u n).dropWhile g_ascii_isspace = printf_u n := by
    rw [hcs, List.dropWhile_cons, hsp]; simp
  have htake : (printf_u n).takeWhile g_ascii_isdigit = printf_u n :=
    List.takeWhile_eq_self_iff.mpr hd
  have hhead : (printf_u n).head? = some c := by rw [hcs]; rfl
  have hval : (printf_u n).foldl (fun acc c => acc * 10 + (c.toNat - 48)) 0 = n := by
    unfold printf_u
    rw [List.foldl_reverse]
    exact utoa_rev_value (n + 1) n (by omega)
  unfold g_ascii_strtoull
  simp only [hdrop, hhead, Option.some.injEq, h45, h43, or_self, if_false, htake, hval,
    decide_False]
  rw [if_neg (by omega)]
  simp

theorem g_strstrip_id (s : List Char)
    (hh : ∀ c, s.head? = some c → g_ascii_isspace c = false)
    (hl : ∀ c, s.getLast? = some c → g_ascii_isspace c = false) : g_strstrip s = s := by
  unfold g_strstrip g_strchomp g_strchug
  have h1 : s.dropWhile g_ascii_isspace = s := by
    cases s with
    | nil => rfl
    | cons c cs => rw [List.dropWhile_cons, hh c rfl]; simp
  rw [h1]
  have h2 : s.reverse.dropWhile g_ascii_isspace = s.reverse := by
    cases hr : s.reverse with
    | nil => rfl
    | cons c cs =>
      have : s.getLast? = some c := by
        rw [← List.head?_reverse, hr]; rfl
      rw [List.dropWhile_cons, hl c this]; simp
  rw [h2, List.reverse_reverse]

theorem g_strstrip_of_digits (s : List Char) (h : ∀ c ∈ s, g_ascii_isdigit c = true) :
    g_strstrip s = s := by
  apply g_strstrip_id
  · intro c hc
    exact isdigit_not_isspace c (h c (List.mem_of_mem_head? hc))
  · intro c hc
    exact isdigit_not_isspace c (h c (List.mem_of_mem_getLast? hc))

theorem datatype_string_cases (d : Nat) (h1 : 1 ≤ d) (h8 : d ≤ 8) :
    edgefirst_point_field_datatype_to_string d ≠ [] ∧
    Char.ofNat 44 ∉ edgefirst_point_field_datatype_to_string d ∧
    Char.ofNat 58 ∉ edgefirst_point_field_datatype_to_string d ∧
    g_strstrip (edgefirst_point_field_datatype_to_string d)
      = edgefirst_point_field_datatype_to_string d ∧
    edgefirst_point_field_datatype_from_string
      (some (edgefirst_point_field_datatype_to_string d)) = d := by
  interval_cases d <;> decide

theorem intercalate_three (x : Char) (a b c : List Char) :
    [x].intercalate [a, b, c] = a ++ [x] ++ b ++ [x] ++ c := by
  simp [List.intercalate, List.intersperse]

theorem format_point_field_split (f : EdgefirstPointFieldDesc)
    (hn : Char.ofNat 58 ∉ f.name) (h1 : 1 ≤ f.datatype) (h8 : f.datatype ≤ 8) :
    g_strsplit (format_point_field f) (Char.ofNat 58)
      = [f.name, edgefirst_point_field_datatype_to_string f.datatype, printf_u f.offset] := by
  have hne : format_point_field f ≠ [] := by
    unfold format_point_field; simp
  unfold g_strsplit
  rw [if_neg hne]
  unfold format_point_field
  rw [← intercalate_three]
  apply List.splitOn_intercalate
  · intro l hl
    simp only [List.mem_cons, List.mem_singleton, List.not_mem_nil, or_false] at hl
    rcases hl with hl | hl | hl
    · rw [hl]; exact hn
    · rw [hl]; exact (datatype_string_cases _ h1 h8).2.2.1
    · rw [hl]
      intro hmem
      have := printf_u_digits f.offset _ hmem
      revert this; decide
  · simp

theorem round_trip_field_iff {f : EdgefirstPointFieldDesc} :
    round_trip_field f = true ↔
      (f.name ≠ [] ∧ f.name.length < 64 ∧ Char.ofNat 44 ∉ f.name ∧ Char.ofNat 58 ∉ f.name ∧
      (∀ c, f.name.head? = some c → g_ascii_isspace c = false) ∧
      (∀ c, f.name.getLast? = some c → g_ascii_isspace c = false) ∧
      1 ≤ f.datatype ∧ f.datatype ≤ 8 ∧ f.offset < 2 ^ 32 ∧ f.count = 1) := by
  unfold round_trip_field
  simp only [Bool.and_eq_true, decide_eq_true_eq, Bool.not_eq_true',
    List.elem_eq_mem, decide_eq_false_iff_not, ne_eq, and_assoc]
  have e1 : ∀ o : Option Char, o.any g_ascii_isspace = false
      ↔ ∀ c, o = some c → g_ascii_isspace c = false := by
    intro o
    cases o with
    | none => simp
    | some x => simp
  rw [e1, e1]

theorem format_point_field_props (f : EdgefirstPointFieldDesc) (h : round_trip_field f = true) :
    format_point_field f ≠ [] ∧ Char.ofNat 44 ∉ format_point_field f ∧
    g_strstrip (format_point_field f) = format_point_field f := by
  obtain ⟨hne, hlen, h44, h58, hh, hl, d1, d8, hoff, hcnt⟩ := round_trip_field_iff.mp h
  obtain ⟨c, cs, hcs⟩ := List.exists_cons_of_ne_nil hne
  refine ⟨by unfold format_point_field; simp, ?_, ?_⟩
  · unfold format_point_field
    simp only [List.mem_append, List.mem_singleton, not_or]
    refine ⟨⟨⟨⟨h44, by decide⟩, (datatype_string_cases _ d1 d8).2.1⟩, by decide⟩, ?_⟩
    intro hmem
    have := printf_u_digits f.offset _ hmem
    revert this; decide
  · apply g_strstrip_id
    · intro x hx
      apply hh x
      unfold format_point_field at hx
      rw [hcs] at hx ⊢
      simpa using hx
    · intro x hx
      unfold format_point_field at hx
      rw [List.getLast?_append] at hx
      obtain ⟨y, ys, hys⟩ := List.exists_cons_of_ne_nil (List.reverse_ne_nil_iff.mpr
        (printf_u_ne_nil f.offset))
      have hlast : (printf_u f.offset).getLast? = some y := by
        rw [← List.head?_reverse, hys]; rfl
      rw [hlast] at hx
      simp only [Option.or, Option.some.injEq] at hx
      rw [← hx]
      apply isdigit_not_isspace
      apply printf_u_digits f.offset
      exact List.mem_of_mem_getLast? hlast

theorem parse_point_field_of_parts (token t a b c : List Char) (h1 : g_strstrip token = t)
    (h2 : t ≠ []) (h3 : g_strsplit t (Char.ofNat 58) = [a, b, c]) :
    parse_point_field token
      = if edgefirst_point_field_datatype_from_string (some (g_strstrip b)) ≠ 0
          ∧ g_strlcpy (g_strstrip a) 64 ≠ [] then
          some { name := g_strlcpy (g_strstrip a) 64
                 datatype := edgefirst_point_field_datatype_from_string (some (g_strstrip b))
                 offset := g_ascii_strtoull (g_strstrip c) % 2 ^ 32
                 count := 1 }
        else none := by
  unfold parse_point_field
  simp only [h1, if_neg h2, h3]
  rfl

theorem parse_format_point_field (f : EdgefirstPointFieldDesc) (h : round_trip_field f = true) :
    parse_point_field (format_point_field f) = some f := by
  obtain ⟨hne', -, hstrip⟩ := format_point_field_props f h
  obtain ⟨hne, hlen, h44, h58, hh, hl, d1, d8, hoff, hcnt⟩ := round_trip_field_iff.mp h
  obtain ⟨-, -, -, hds, hdf⟩ := datatype_string_cases f.datatype d1 d8
  rw [parse_point_field_of_parts _ _ _ _ _ hstrip hne' (format_point_field_split f h58 d1 d8)]
  have htake : g_strlcpy f.name 64 = f.name := by
    unfold g_strlcpy
    exact List.take_of_length_le (by omega)
  have hoff64 : f.offset < 2 ^ 64 := by
    have : (2 : Nat) ^ 32 < 2 ^ 64 := by norm_num
    omega
  rw [g_strstrip_id f.name hh hl, hds, hdf,
    g_strstrip_of_digits _ (printf_u_digits f.offset),
    strtoull_printf_u f.offset hoff64, Nat.mod_eq_of_lt hoff, htake]
  have hd0 : f.datatype ≠ 0 := by omega
  rw [if_pos ⟨hd0, hne⟩, ← hcnt]

theorem parse_point_tokens_format (max_fields : Nat) (fields : List EdgefirstPointFieldDesc) :
    ∀ out : List EdgefirstPointFieldDesc, out.length + fields.length ≤ max_fields →
      (∀ f ∈ fields, round_trip_field f = true) →
      parse_point_tokens max_fields (fields.map format_point_field) out = out ++ fields := by
  induction fields with
  | nil => intro out _ _; simp [parse_point_tokens]
  | cons f fs ih =>
    intro out hlen hf
    simp only [List.length_cons] at hlen
    simp only [List.map_cons, parse_point_tokens]
    rw [if_pos (by omega), parse_format_point_field f (hf f (List.mem_cons_self _ _))]
    simp only
    rw [ih (out ++ [f]) (by simp; omega) (fun g hg => hf g (List.mem_cons_of_mem _ hg))]
    simp

theorem format_point_fields_from_pos (fields : List EdgefirstPointFieldDesc) :
    ∀ (i : Nat) (s : List Char), 0 < i →
      format_point_fields_from i fields s
        = s ++ (fields.map (fun f => Char.ofNat 44 :: format_point_field f)).flatten := by
  induction fields with
  | nil => intro i s _; simp [format_point_fields_from]
  | cons f fs ih =>
    intro i s hi
    simp only [format_point_fields_from, if_pos hi]
    rw [ih (i + 1) _ (by omega)]
    simp

theorem intercalate_cons (x : Char) (a : List Char) (l : List (List Char)) :
    [x].intercalate (a :: l) = a ++ (l.map (fun t => x :: t)).flatten := by
  induction l generalizing a with
  | nil => simp [List.intercalate, List.intersperse]
  | cons b l ih =>
    have := ih b
    simp only [List.intercalate, List.intersperse, List.flatten_cons, List.map_cons,
      List.singleton_append, List.cons_append, List.nil_append] at this ⊢
    rw [this]

theorem format_point_fields_intercalate (f : EdgefirstPointFieldDesc)
    (fs : List EdgefirstPointFieldDesc) :
    edgefirst_format_point_fields (some (f :: fs))
      = [Char.ofNat 44].intercalate ((f :: fs).map format_point_field) := by
  unfold edgefirst_format_point_fields
  simp only [List.length_cons, Nat.add_one_ne_zero, if_false, format_point_fields_from,
    gt_iff_lt, Nat.lt_irrefl, List.nil_append, List.map_cons]
  rw [format_point_fields_from_pos fs 1 _ (by norm_num), intercalate_cons, List.map_map]
  rfl

theorem parse_format_point_fields (fields : List EdgefirstPointFieldDesc) (max_fields : Nat)
    (hlen : fields.length ≤ max_fields) (hf : ∀ f ∈ fields, round_trip_field f = true) :
    edgefirst_parse_point_fields (some (edgefirst_format_point_fields (some fields)))
      max_fields = fields := by
  cases fields with
  | nil =>
    unfold edgefirst_parse_point_fields edgefirst_format_point_fields
    simp only [List.length_nil, if_true]
    split_ifs
    · rfl
    · simp [g_strsplit, parse_point_tokens]
  | cons f fs =>
    have hmax : max_fields ≠ 0 := by simp only [List.length_cons] at hlen; omega
    have hne : [Char.ofNat 44].intercalate ((f :: fs).map format_point_field) ≠ [] := by
      rw [List.map_cons, intercalate_cons]
      have := (format_point_field_props f (hf f (List.mem_cons_self _ _))).1
      simp [this]
    rw [format_point_fields_intercalate]
    unfold edgefirst_parse_point_fields
    simp only [if_neg hmax]
    unfold g_strsplit
    rw [if_neg hne, List.splitOn_intercalate _ _ _ (by simp)]
    · rw [parse_point_tokens_format max_fields (f :: fs) [] (by simpa using hlen) hf]
      rfl
    · intro l hl
      rw [List.mem_map] at hl
      obtain ⟨g, hg, rfl⟩ := hl
      exact (format_point_field_props g (hf g hg)).2.1

/-- C23: point-field descriptors round-trip through their caps string.  For every
list of at most `max_fields` descriptors satisfying `round_trip_field` (non-empty
name shorter than 64 bytes, free of `,` and `:` and of leading or trailing
whitespace; datatype one of the constants 1..8; offset a `guint32`; count 1),
parsing the formatted string returns the same descriptors in the same order;
and for `max_fields` of at least 3 (8 in the test) formatting the parse of
`"x:F32:0,y:F32:4,z:F32:8"` returns that string. -/
theorem point_fields_round_trip (fields : List EdgefirstPointFieldDesc) (max_fields : Nat)
    (hlen : fields.length ≤ max_fields) (hf : ∀ f ∈ fields, round_trip_field f = true) :
    edgefirst_parse_point_fields (some (edgefirst_format_point_fields (some fields)))
      max_fields = fields ∧
    (edgefirst_parse_point_fields (some (edgefirst_format_point_fields (some fields)))
      max_fields).length = fields.length ∧
    (∀ m, 3 ≤ m → edgefirst_format_point_fields
      (some (edgefirst_parse_point_fields (some "x:F32:0,y:F32:4,z:F32:8".toList) m))
      = "x:F32:0,y:F32:4,z:F32:8".toList) := by
  have h := parse_format_point_fields fields max_fields hlen hf
  refine ⟨h, by rw [h], fun m hm => ?_⟩
  have e : "x:F32:0,y:F32:4,z:F32:8".toList
      = edgefirst_format_point_fields (some
        [⟨"x".toList, 7, 0, 1⟩, ⟨"y".toList, 7, 4, 1⟩, ⟨"z".toList, 7, 8, 1⟩]) := by decide
  rw [e, parse_format_point_fields _ m (by simpa using hm) (by decide)]

theorem point_fields_round_trip_witness :
    edgefirst_parse_point_fields (some (edgefirst_format_point_fields (some
      [⟨"intensity".toList, 4, 12, 1⟩, ⟨"ring id".toList, 2, 4294967295, 1⟩]))) 2
      = [⟨"intensity".toList, 4, 12, 1⟩, ⟨"ring id".toList, 2, 4294967295, 1⟩] ∧
    edgefirst_format_point_fields (some
      [⟨"intensity".toList, 4, 12, 1⟩, ⟨"ring id".toList, 2, 4294967295, 1⟩])
      = "intensity:U16:12,ring id:U8:4294967295".toList :=
  ⟨(point_fields_round_trip
      [⟨"intensity".toList, 4, 12, 1⟩, ⟨"ring id".toList, 2, 4294967295, 1⟩] 2
      (by decide) (by decide)).1, by decide⟩

/-! ## Closed forms for the copy loops -/

theorem lanes_congr {σ : Type} (f g : Nat → σ → σ) (k : Nat) (s : σ)
    (h : ∀ l, l < k → ∀ t, f l t = g l t) : lanes f k s = lanes g k s := by
  induction k with
  | zero => rfl
  | succ k ih =>
    show f k (lanes f k s) = g k (lanes g k s)
    rw [ih (fun l hl t => h l (by omega) t), h k (by omega)]

theorem for_each_congr {σ : Type} (f g : Nat → σ → σ) (n : Nat) (s : σ)
    (h : ∀ l, l < n → ∀ t, f l t = g l t) : for_each n f n 0 s = for_each n g n 0 s := by
  rw [for_each_eq_lanes n f n 0 s (by omega), for_each_eq_lanes n g n 0 s (by omega)]
  simp only [Nat.zero_add, Nat.sub_zero]
  exact lanes_congr f g n s h

/-- Rows written one after the other: if the body for row `y` writes the `R` cells
from `base + R * y` on and leaves the others alone, the loop over `H` rows
writes the `R * H` cells from `base` on. -/
theorem rows_data {α : Type} (inner : Nat → Buf α → Buf α) (g : Nat → Nat → α)
    (base R H : Nat) (dst : Buf α)
    (hin : ∀ y, y < H → ∀ (d : Buf α) (j : Nat), (inner y d).data j
      = if base + R * y ≤ j ∧ j < base + R * y + R then g y (j - (base + R * y))
        else d.data j) (j : Nat) :
    (for_each H inner H 0 dst).data j
      = if base ≤ j ∧ j < base + R * H then g ((j - base) / R) ((j - base) % R)
        else dst.data j := by
  rw [for_each_eq_lanes H inner H 0 dst (by omega)]
  simp only [Nat.zero_add, Nat.sub_zero]
  induction H with
  | zero => rw [if_neg (by simp)]; rfl
  | succ H ih =>
    show (inner H (lanes inner H dst)).data j = _
    rw [hin H (by omega), ih (fun y hy => hin y (by omega))]
    have hm : R * (H + 1) = R * H + R := by ring
    by_cases hr : base + R * H ≤ j ∧ j < base + R * H + R
    · rw [if_pos hr, if_pos ⟨by omega, by omega⟩]
      have hR : 0 < R := by omega
      have hdiv : (j - base) / R = H := by
        apply Nat.div_eq_of_lt_le
        · rw [Nat.mul_comm]; omega
        · rw [Nat.mul_comm, hm]; omega
      have hmod : (j - base) % R = j - (base + R * H) := by
        have := Nat.div_add_mod (j - base) R
        rw [hdiv] at this
        omega
      rw [hdiv, hmod]
    · rw [if_neg hr]
      by_cases h0 : base ≤ j ∧ j < base + R * H
      · rw [if_pos h0, if_pos ⟨by omega, by omega⟩]
      · rw [if_neg h0, if_neg (by omega)]

/-- The number of stores to each cell after such a loop, when each row stores
once to each of its cells. -/
theorem rows_count {α : Type} (inner : Nat → Buf α → Buf α)
    (base R H : Nat) (dst : Buf α)
    (hin : ∀ y, y < H → ∀ (d : Buf α) (j : Nat), (inner y d).log.count j
      = d.log.count j + (if base + R * y ≤ j ∧ j < base + R * y + R then 1 else 0))
    (j : Nat) :
    (for_each H inner H 0 dst).log.count j
      = dst.log.count j + (if base ≤ j ∧ j < base + R * H then 1 else 0) := by
  rw [for_each_eq_lanes H inner H 0 dst (by omega)]
  simp only [Nat.zero_add, Nat.sub_zero]
  induction H with
  | zero => rw [if_neg (by simp)]; rfl
  | succ H ih =>
    show (inner H (lanes inner H dst)).log.count j = _
    rw [hin H (by omega), ih (fun y hy => hin y (by omega))]
    have hm : R * (H + 1) = R * H + R := by ring
    by_cases hr : base + R * H ≤ j ∧ j < base + R * H + R
    · rw [if_pos hr, if_neg (by omega), if_pos (by omega)]
    · rw [if_neg hr]
      by_cases h0 : base ≤ j ∧ j < base + R * H
      · rw [if_pos h0, if_pos ⟨by omega, by omega⟩]
      · rw [if_neg h0, if_neg (by omega)]

theorem div_mod_of_row (R y t : Nat) (ht : t < R) :
    (R * y + t) / R = y ∧ (R * y + t) % R = t := by
  have hR : 0 < R := by omega
  constructor
  · rw [Nat.mul_add_div hR, Nat.div_eq_of_lt ht]; rfl
  · rw [Nat.mul_add_mod, Nat.mod_eq_of_lt ht]

/-- Rows of `W` pixels of `B` bytes each: if the body for pixel `(x, y)` writes the
`B` cells from `base + (B * W) * y + B * x` on, the two nested loops write the
`B * W * H` cells from `base` on, cell `c` of pixel `(x, y)` receiving
`val y x c`. -/
theorem pixel_rows_data {α : Type} (pix : Nat → Nat → Buf α → Buf α)
    (val : Nat → Nat → Nat → α) (base B W H : Nat) (dst : Buf α)
    (hpix : ∀ y, y < H → ∀ x, x < W → ∀ (d : Buf α) (j : Nat), (pix y x d).data j
      = if base + (B * W) * y + B * x ≤ j ∧ j < base + (B * W) * y + B * x + B then
          val y x (j - (base + (B * W) * y + B * x))
        else d.data j) (j : Nat) :
    (for_each H (fun y d => for_each W (pix y) W 0 d) H 0 dst).data j
      = if base ≤ j ∧ j < base + (B * W) * H then
          val ((j - base) / (B * W)) (((j - base) % (B * W)) / B) (((j - base) % (B * W)) % B)
        else dst.data j := by
  apply rows_data (fun y d => for_each W (pix y) W 0 d)
    (fun y t => val y (t / B) (t % B)) base (B * W) H dst
  intro y hy d j
  have h := rows_data (pix y) (fun x c => val y x c) (base + (B * W) * y) B W d
    (fun x hx d j => hpix y hy x hx d j) j
  rw [h]

/-- The same, by pixel coordinates. -/
theorem pixel_rows_at {α : Type} (pix : Nat → Nat → Buf α → Buf α)
    (val : Nat → Nat → Nat → α) (base B W H : Nat) (dst : Buf α)
    (hpix : ∀ y, y < H → ∀ x, x < W → ∀ (d : Buf α) (j : Nat), (pix y x d).data j
      = if base + (B * W) * y + B * x ≤ j ∧ j < base + (B * W) * y + B * x + B then
          val y x (j - (base + (B * W) * y + B * x))
        else d.data j) (y x c : Nat) (hy : y < H) (hx : x < W) (hc : c < B) :
    (for_each H (fun y d => for_each W (pix y) W 0 d) H 0 dst).data
      (base + (B * W) * y + B * x + c) = val y x c := by
  rw [pixel_rows_data pix val base B W H dst hpix]
  have hB : 0 < B := by omega
  have h1 : B * x + c < B * W := by
    have : B * (x + 1) ≤ B * W := Nat.mul_le_mul_left B (by omega)
    have e : B * (x + 1) = B * x + B := by ring
    omega
  have h2 : (B * W) * (y + 1) ≤ (B * W) * H := Nat.mul_le_mul_left _ (by omega)
  have e2 : (B * W) * (y + 1) = (B * W) * y + B * W := by ring
  have e3 : base + (B * W) * y + B * x + c - base = (B * W) * y + (B * x + c) := by omega
  rw [if_pos ⟨by omega, by omega⟩, e3]
  obtain ⟨d1, m1⟩ := div_mod_of_row (B * W) y (B * x + c) h1
  obtain ⟨d2, m2⟩ := div_mod_of_row B x c hc
  rw [d1, m1, d2, m2]

theorem to_gsize_small (k : Nat) (h : k < 2 ^ 64) : to_gsize k = k := by
  unfold to_gsize; exact Nat.mod_eq_of_lt h

theorem two_stores_data {α : Type} (d : Buf α) (P : Nat) (a b : α) (j : Nat) :
    ((d.store P a).store (P + 1) b).data j
      = if P ≤ j ∧ j < P + 2 then (if j - P = 0 then a else b) else d.data j := by
  simp only [store_data]
  by_cases h1 : j = P + 1
  · subst h1; simp
  · by_cases h0 : j = P
    · subst h0; simp
    · rw [if_neg h1, if_neg h0, if_neg (by omega)]

theorem three_stores_data {α : Type} (d : Buf α) (P : Nat) (a b c : α) (j : Nat) :
    (((d.store P a).store (P + 1) b).store (P + 2) c).data j
      = if P ≤ j ∧ j < P + 3 then (if j - P = 0 then a else if j - P = 1 then b else c)
        else d.data j := by
  simp only [store_data]
  by_cases h2 : j = P + 2
  · subst h2; simp
  · by_cases h1 : j = P + 1
    · subst h1; simp
    · by_cases h0 : j = P
      · subst h0; simp
      · rw [if_neg h2, if_neg h1, if_neg h0, if_neg (by omega)]

theorem four_stores_data {α : Type} (d : Buf α) (P : Nat) (a b c e : α) (j : Nat) :
    ((((d.store P a).store (P + 1) b).store (P + 2) c).store (P + 3) e).data j
      = if P ≤ j ∧ j < P + 4 then
          (if j - P = 0 then a else if j - P = 1 then b else if j - P = 2 then c else e)
        else d.data j := by
  simp only [store_data]
  by_cases h3 : j = P + 3
  · subst h3; simp
  · by_cases h2 : j = P + 2
    · subst h2; simp
    · by_cases h1 : j = P + 1
      · subst h1; simp
      · by_cases h0 : j = P
        · subst h0; simp
        · rw [if_neg h3, if_neg h2, if_neg h1, if_neg h0, if_neg (by omega)]

/-- Offsets of a frame whose planes the code can address: for a non-negative
stride `S` with `S * H` at most `2^32`, the `guint` product `y * stride` is
`S * y` for every row `y < H`. -/
theorem row_offset (stride : Int) (S H y : Nat) (hS : stride = (S : Int)) (hS31 : S < 2 ^ 31)
    (hrows : S * H ≤ 2 ^ 32) (hy : y < H) :
    to_guint (y * gint_to_guint stride) = S * y := by
  rw [hS, gint_to_guint_natCast S hS31, Nat.mul_comm]
  apply to_guint_small
  by_cases h0 : S = 0
  · subst h0; simp
  · have : S * y < S * H := Nat.mul_lt_mul_of_pos_left hy (Nat.pos_of_ne_zero h0)
    omega

theorem row_start (R H y : Nat) (hsz : R * H < 2 ^ 64) (hy : y < H) :
    to_gsize (y * R) = R * y := by
  rw [Nat.mul_comm]
  apply to_gsize_small
  have : R * y ≤ R * H := Nat.mul_le_mul_left R (by omega)
  omega

theorem pixel_offsets (B W x : Nat) (_hB : 0 < B) (hw : B * W < 2 ^ 32) (hx : x < W) (c : Nat)
    (hc : c < B) : B * x + c < 2 ^ 32 := by
  have h1 : B * (x + 1) ≤ B * W := Nat.mul_le_mul_left B (by omega)
  have e : B * (x + 1) = B * x + B := by ring
  omega

/-- The BGR branch of the copy loops: byte `c` of pixel `(x, y)` of the tensor is
byte `2 - c` of the source pixel at offset `stride * y + 3 * x`. -/
theorem fill_bgr_at (self : EdgefirstCameraAdaptor) (info : GstVideoInfo)
    (frame : GstVideoFrame) (dst : Buf Nat) (S : Nat)
    (hin : self.in_info = some info) (hf : self.src_fourcc = HalFourcc.RGB)
    (hv : self.in_vformat = GstVideoFormat.BGR)
    (hS : frame.stride 0 = (S : Int)) (hS31 : S < 2 ^ 31)
    (hw : 3 * info.width < 2 ^ 32) (hsz : (3 * info.width) * info.height < 2 ^ 64)
    (hrows : S * info.height ≤ 2 ^ 32)
    (y x c : Nat) (hy : y < info.height) (hx : x < info.width) (hc : c < 3) :
    (create_input_image_fill self frame dst).data ((3 * info.width) * y + 3 * x + c)
      = frame.data 0 (S * y + 3 * x + (2 - c)) := by
  simp only [create_input_image_fill, hin, hf, hv, input_geometry]
  simp only [reduceCtorEq, false_and, and_false, if_false, and_self, if_true, true_and]
  have hR : to_guint (info.width * 3) = 3 * info.width := by
    rw [Nat.mul_comm]; exact to_guint_small _ hw
  rw [hR]
  have h := pixel_rows_at
    (fun y x d =>
      ((d.store (to_gsize (y * (3 * info.width)) + to_guint (x * 3))
          (frame.data 0 (to_guint (y * gint_to_guint (frame.stride 0))
            + to_guint (to_guint (x * 3) + 2)))).store
        (to_gsize (y * (3 * info.width)) + to_guint (to_guint (x * 3) + 1))
          (frame.data 0 (to_guint (y * gint_to_guint (frame.stride 0))
            + to_guint (to_guint (x * 3) + 1)))).store
        (to_gsize (y * (3 * info.width)) + to_guint (to_guint (x * 3) + 2))
          (frame.data 0 (to_guint (y * gint_to_guint (frame.stride 0)) + to_guint (x * 3))))
    (fun y x c => if c = 0 then frame.data 0 (S * y + (3 * x + 2))
      else if c = 1 then frame.data 0 (S * y + (3 * x + 1)) else frame.data 0 (S * y + 3 * x))
    0 3 info.width info.height dst
    (fun y hy x hx d j => by
      beta_reduce
      have e2 := pixel_offsets 3 info.width x (by norm_num) hw hx 2 (by norm_num)
      have a0 : to_guint (x * 3) = 3 * x := by
        rw [Nat.mul_comm]; exact to_guint_small _ (by omega)
      have a1 : to_guint (3 * x + 1) = 3 * x + 1 := to_guint_small _ (by omega)
      have a2 : to_guint (3 * x + 2) = 3 * x + 2 := to_guint_small _ (by omega)
      rw [a0, a1, a2, row_offset _ S info.height y hS hS31 hrows hy,
        row_start (3 * info.width) info.height y hsz hy]
      have p1 : 3 * info.width * y + (3 * x + 1) = (0 + 3 * info.width * y + 3 * x) + 1 := by
        omega
      have p2 : 3 * info.width * y + (3 * x + 2) = (0 + 3 * info.width * y + 3 * x) + 2 := by
        omega
      have p0 : 3 * info.width * y + 3 * x = 0 + 3 * info.width * y + 3 * x := by omega
      rw [p1, p2, p0, three_stores_data])
    y x c hy hx hc
  simp only [Nat.zero_add] at h
  rw [h]
  have c3 : c = 0 ∨ c = 1 ∨ c = 2 := by omega
  rcases c3 with e | e | e <;> subst e <;> simp <;> congr 1

/-- The BGRA/BGRx branch of the copy loops: bytes 0 and 2 of each pixel are
exchanged, bytes 1 and 3 are copied. -/
theorem fill_bgra_at (self : EdgefirstCameraAdaptor) (info : GstVideoInfo)
    (frame : GstVideoFrame) (dst : Buf Nat) (S : Nat)
    (hin : self.in_info = some info) (hf : self.src_fourcc = HalFourcc.RGBA)
    (hv : self.in_vformat = GstVideoFormat.BGRA ∨ self.in_vformat = GstVideoFormat.BGRx)
    (hS : frame.stride 0 = (S : Int)) (hS31 : S < 2 ^ 31)
    (hw : 4 * info.width < 2 ^ 32) (hsz : (4 * info.width) * info.height < 2 ^ 64)
    (hrows : S * info.height ≤ 2 ^ 32)
    (y x c : Nat) (hy : y < info.height) (hx : x < info.width) (hc : c < 4) :
    (create_input_image_fill self frame dst).data ((4 * info.width) * y + 4 * x + c)
      = frame.data 0 (S * y + 4 * x + (if c = 0 then 2 else if c = 2 then 0 else c)) := by
  have hv' : ¬ (self.in_vformat = GstVideoFormat.NV12) ∧
      ¬ (self.in_vformat = GstVideoFormat.NV21) := by
    rcases hv with h | h <;> rw [h] <;> exact ⟨by decide, by decide⟩
  simp only [create_input_image_fill, hin, hf, input_geometry]
  simp only [reduceCtorEq, false_and, and_false, if_false, and_self, if_true, true_and, hv]
  have hR : to_guint (info.width * 4) = 4 * info.width := by
    rw [Nat.mul_comm]; exact to_guint_small _ hw
  rw [hR]
  have h := pixel_rows_at
    (fun y x d =>
      (((d.store (to_gsize (y * (4 * info.width)) + to_guint (x * 4))
          (frame.data 0 (to_guint (y * gint_to_guint (frame.stride 0))
            + to_guint (to_guint (x * 4) + 2)))).store
        (to_gsize (y * (4 * info.width)) + to_guint (to_guint (x * 4) + 1))
          (frame.data 0 (to_guint (y * gint_to_guint (frame.stride 0))
            + to_guint (to_guint (x * 4) + 1)))).store
        (to_gsize (y * (4 * info.width)) + to_guint (to_guint (x * 4) + 2))
          (frame.data 0 (to_guint (y * gint_to_guint (frame.stride 0))
            + to_guint (x * 4)))).store
        (to_gsize (y * (4 * info.width)) + to_guint (to_guint (x * 4) + 3))
          (frame.data 0 (to_guint (y * gint_to_guint (frame.stride 0))
            + to_guint (to_guint (x * 4) + 3))))
    (fun y x c => if c = 0 then frame.data 0 (S * y + (4 * x + 2))
      else if c = 1 then frame.data 0 (S * y + (4 * x + 1))
      else if c = 2 then frame.data 0 (S * y + 4 * x) else frame.data 0 (S * y + (4 * x + 3)))
    0 4 info.width info.height dst
    (fun y hy x hx d j => by
      beta_reduce
      have e3 := pixel_offsets 4 info.width x (by norm_num) hw hx 3 (by norm_num)
      have a0 : to_guint (x * 4) = 4 * x := by
        rw [Nat.mul_comm]; exact to_guint_small _ (by omega)
      have a1 : to_guint (4 * x + 1) = 4 * x + 1 := to_guint_small _ (by omega)
      have a2 : to_guint (4 * x + 2) = 4 * x + 2 := to_guint_small _ (by omega)
      have a3 : to_guint (4 * x + 3) = 4 * x + 3 := to_guint_small _ (by omega)
      rw [a0, a1, a2, a3, row_offset _ S info.height y hS hS31 hrows hy,
        row_start (4 * info.width) info.height y hsz hy]
      have p1 : 4 * info.width * y + (4 * x + 1) = (0 + 4 * info.width * y + 4 * x) + 1 := by
        omega
      have p2 : 4 * info.width * y + (4 * x + 2) = (0 + 4 * info.width * y + 4 * x) + 2 := by
        omega
      have p3 : 4 * info.width * y + (4 * x + 3) = (0 + 4 * info.width * y + 4 * x) + 3 := by
        omega
      have p0 : 4 * info.width * y + 4 * x = 0 + 4 * info.width * y + 4 * x := by omega
      rw [p1, p2, p3, p0, four_stores_data])
    y x c hy hx hc
  simp only [Nat.zero_add] at h
  rw [h]
  have c4 : c = 0 ∨ c = 1 ∨ c = 2 ∨ c = 3 := by omega
  rcases c4 with e | e | e | e <;> subst e <;> simp <;> congr 1

/-- The formats `create_input_image` copies unchanged. -/
theorem fill_direct_at (self : EdgefirstCameraAdaptor) (info : GstVideoInfo)
    (frame : GstVideoFrame) (dst : Buf Nat) (S R : Nat) (shape : List Nat)
    (hin : self.in_info = some info)
    (hgeo : input_geometry self.src_fourcc info.width info.height = some (shape, R))
    (hf : self.src_fourcc ≠ HalFourcc.NV12 ∧ self.src_fourcc ≠ HalFourcc.NV16)
    (hv : self.in_vformat ≠ GstVideoFormat.UYVY ∧ self.in_vformat ≠ GstVideoFormat.BGR ∧
      self.in_vformat ≠ GstVideoFormat.BGRA ∧ self.in_vformat ≠ GstVideoFormat.BGRx)
    (hS : frame.stride 0 = (S : Int)) (hS31 : S < 2 ^ 31)
    (hw : R < 2 ^ 32) (hsz : R * info.height < 2 ^ 64) (hrows : S * info.height ≤ 2 ^ 32)
    (y k : Nat) (hy : y < info.height) (hk : k < R) :
    (create_input_image_fill self frame dst).data (R * y + k) = frame.data 0 (S * y + k) := by
  simp only [create_input_image_fill, hin, hgeo]
  simp only [hf.1, hf.2, hv.1, hv.2.1, hv.2.2.1, hv.2.2.2, false_and, and_false, if_false,
    or_self]
  have hg : gint_to_gsize (frame.stride 0) = R ↔ S = R := by
    rw [hS, gint_to_gsize_eq_iff (S : Int) R (by omega) hw]
    exact Nat.cast_inj
  have hlt : R * y + k < R * info.height := by
    have h1 : R * (y + 1) ≤ R * info.height := Nat.mul_le_mul_left R (by omega)
    have e : R * (y + 1) = R * y + R := by ring
    omega
  by_cases ht : S = R
  · rw [if_pos (hg.mpr ht), memcpy_data, to_gsize_small _ hsz,
      if_pos ⟨by omega, by omega⟩, ht]
    simp
  · rw [if_neg (fun h => ht (hg.mp h))]
    rw [rows_data _ (fun y t => frame.data 0 (S * y + t)) 0 R info.height dst
      (fun y hy d j => by
        rw [memcpy_data, row_offset _ S info.height y hS hS31 hrows hy,
          row_start R info.height y hsz hy, Nat.zero_add])]
    rw [if_pos ⟨by omega, by omega⟩, Nat.sub_zero]
    obtain ⟨d1, m1⟩ := div_mod_of_row R y k hk
    rw [d1, m1]

/-! ## Planar YUV to NV12 -/

theorem guint_row (W H y : Nat) (hWH : W * H < 2 ^ 32) (hy : y < H) :
    to_guint (y * W) = W * y := by
  rw [Nat.mul_comm]
  apply to_guint_small
  have : W * y ≤ W * H := Nat.mul_le_mul_left W (by omega)
  omega

/-- Contents after the row loop of a plane. -/
theorem copy_plane_rows_data (dst : Buf Nat) (base W rows : Nat) (data : Nat → Nat)
    (stride : Int) (S : Nat) (hS : stride = (S : Int)) (hS31 : S < 2 ^ 31)
    (hWH : W * rows < 2 ^ 32) (hrows : S * rows ≤ 2 ^ 32) (j : Nat) :
    (copy_plane_rows dst base W rows data stride).data j
      = if base ≤ j ∧ j < base + W * rows then
          data (S * ((j - base) / W) + (j - base) % W)
        else dst.data j := by
  unfold copy_plane_rows
  rw [rows_data _ (fun y t => data (S * y + t)) base W rows dst
    (fun y hy d j => by
      rw [memcpy_data, row_offset _ S rows y hS hS31 hrows hy, guint_row W rows y hWH hy])]

theorem for_stride_guint_two {σ : Type} (m : Nat) (hm : 2 * m < 2 ^ 32) (body : Nat → σ → σ)
    (fuel i : Nat) (s : σ) (hfuel : m - i ≤ fuel) :
    for_stride_guint 2 (2 * m) body fuel (2 * i) s
      = lanes (fun k => body (2 * (i + k))) (m - i) s := by
  induction fuel generalizing i s with
  | zero =>
    have h0 : m - i = 0 := by omega
    rw [h0]; rfl
  | succ fuel ih =>
    unfold for_stride_guint
    by_cases h : i < m
    · have h3 : 2 * i < 2 * m := by omega
      have e : to_guint (2 * i + 2) = 2 * (i + 1) := by
        rw [to_guint_small _ (by omega)]; ring
      rw [if_pos h3, e, ih (i + 1) (body (2 * i) s) (by omega)]
      have hk : m - i = (m - (i + 1)) + 1 := by omega
      rw [hk, lanes_succ_front]
      have hf : (fun k => body (2 * (i + 1 + k))) = (fun l => body (2 * (i + (l + 1)))) := by
        funext l
        have : i + 1 + l = i + (l + 1) := by omega
        rw [this]
      rw [hf]
      rfl
    · have h3 : ¬ 2 * i < 2 * m := by omega
      rw [if_neg h3]
      have h0 : m - i = 0 := by omega
      rw [h0]; rfl

theorem for_stride_guint_two_all {σ : Type} (m : Nat) (hm : 2 * m < 2 ^ 32)
    (body : Nat → σ → σ) (s : σ) :
    for_stride_guint 2 (2 * m) body (2 * m) 0 s = for_each m (fun k => body (2 * k)) m 0 s := by
  have h := for_stride_guint_two m hm body (2 * m) 0 s (by omega)
  simp only [Nat.mul_zero, Nat.zero_add, Nat.sub_zero] at h
  rw [h, lanes_eq_for_each]

/-- The I420/YV12 branch of the copy loops, cell by cell: the luma rows are
copied, and the chroma rows interleave the bytes of the plane read as U with
those of the plane read as V. -/
theorem fill_planar_data (self : EdgefirstCameraAdaptor) (info : GstVideoInfo)
    (frame : GstVideoFrame) (dst : Buf Nat) (S0 Su Sv m : Nat)
    (hin : self.in_info = some info) (hf : self.src_fourcc = HalFourcc.NV12)
    (hv : self.in_vformat = GstVideoFormat.I420 ∨ self.in_vformat = GstVideoFormat.YV12)
    (hW : info.width = 2 * m) (hWH : info.width * info.height < 2 ^ 32)
    (hS0 : frame.stride 0 = (S0 : Int)) (h0 : S0 < 2 ^ 31)
    (hr0 : S0 * info.height ≤ 2 ^ 32)
    (hSu : frame.stride (if self.in_vformat = GstVideoFormat.I420 then 1 else 2) = (Su : Int))
    (hu : Su < 2 ^ 31) (hru : Su * (info.height / 2) ≤ 2 ^ 32)
    (hSv : frame.stride (if self.in_vformat = GstVideoFormat.I420 then 2 else 1) = (Sv : Int))
    (hv31 : Sv < 2 ^ 31) (hrv : Sv * (info.height / 2) ≤ 2 ^ 32) (j : Nat) :
    (create_input_image_fill self frame dst).data j
      = if info.height * info.width ≤ j
            ∧ j < info.height * info.width + (2 * m) * (info.height / 2) then
          (if ((j - info.height * info.width) % (2 * m)) % 2 = 0 then
            frame.data (if self.in_vformat = GstVideoFormat.I420 then 1 else 2)
              (Su * ((j - info.height * info.width) / (2 * m))
                + ((j - info.height * info.width) % (2 * m)) / 2)
          else
            frame.data (if self.in_vformat = GstVideoFormat.I420 then 2 else 1)
              (Sv * ((j - info.height * info.width) / (2 * m))
                + ((j - info.height * info.width) % (2 * m)) / 2))
        else if j < info.width * info.height then
          frame.data 0 (S0 * (j / info.width) + j % info.width)
        else dst.data j := by
  have hv' : self.in_vformat ≠ GstVideoFormat.NV12 ∧ self.in_vformat ≠ GstVideoFormat.NV21 := by
    rcases hv with h | h <;> rw [h] <;> exact ⟨by decide, by decide⟩
  simp only [create_input_image_fill, hin, hf, input_geometry]
  simp only [hv'.1, hv'.2, hv, and_false, and_self, if_false, if_true, true_and]
  have hm : info.width / 2 = m := by omega
  have hbase : to_guint (info.height * info.width) = info.height * info.width := by
    apply to_guint_small; rw [Nat.mul_comm]; exact hWH
  rw [hm, hbase]
  have hhalf : info.width * (info.height / 2) < 2 ^ 32 := by
    have : info.width * (info.height / 2) ≤ info.width * info.height :=
      Nat.mul_le_mul_left _ (Nat.div_le_self _ _)
    omega
  rw [pixel_rows_data _
    (fun y x c => if c = 0 then
        frame.data (if self.in_vformat = GstVideoFormat.I420 then 1 else 2) (Su * y + x)
      else frame.data (if self.in_vformat = GstVideoFormat.I420 then 2 else 1) (Sv * y + x))
    (info.height * info.width) 2 m (info.height / 2) _
    (fun y hy x hx d j => by
      beta_reduce
      have hWlt : info.width < 2 ^ 32 := by
        have : info.width * 1 ≤ info.width * info.height := Nat.mul_le_mul_left _ (by omega)
        omega
      have hx2 : 2 * x + 1 < 2 ^ 32 := by omega
      have a0 : to_guint (x * 2) = 2 * x := by
        rw [Nat.mul_comm]; exact to_guint_small _ (by omega)
      have a1 : to_guint (2 * x + 1) = 2 * x + 1 := to_guint_small _ hx2
      rw [a0, a1, row_offset _ Su (info.height / 2) y hSu hu hru hy,
        row_offset _ Sv (info.height / 2) y hSv hv31 hrv hy,
        guint_row info.width (info.height / 2) y hhalf hy, hW]
      have p0 : info.height * (2 * m) + 2 * m * y + (2 * x + 1)
          = (info.height * (2 * m) + 2 * m * y + 2 * x) + 1 := by omega
      rw [p0, two_stores_data])]
  rw [copy_plane_rows_data dst 0 info.width info.height (frame.data 0) (frame.stride 0) S0 hS0 h0
    hWH hr0 j]
  simp only [Nat.zero_add, Nat.zero_le, true_and, Nat.sub_zero]

/-- The NV21 branch of the copy loops, cell by cell, for an even width: the luma
rows are copied, and each byte pair of the chroma rows is stored exchanged. -/
theorem fill_nv21_data (self : EdgefirstCameraAdaptor) (info : GstVideoInfo)
    (frame : GstVideoFrame) (dst : Buf Nat) (S0 S1 m : Nat)
    (hin : self.in_info = some info) (hf : self.src_fourcc = HalFourcc.NV12)
    (hv : self.in_vformat = GstVideoFormat.NV21)
    (hW : info.width = 2 * m) (hWH : info.width * info.height < 2 ^ 32)
    (hS0 : frame.stride 0 = (S0 : Int)) (h0 : S0 < 2 ^ 31)
    (hr0 : S0 * info.height ≤ 2 ^ 32)
    (hS1 : frame.stride 1 = (S1 : Int)) (h1 : S1 < 2 ^ 31)
    (hr1 : S1 * (info.height / 2) ≤ 2 ^ 32) (j : Nat) :
    (create_input_image_fill self frame dst).data j
      = if info.height * info.width ≤ j
            ∧ j < info.height * info.width + (2 * m) * (info.height / 2) then
          (if ((j - info.height * info.width) % (2 * m)) % 2 = 0 then
            frame.data 1 (S1 * ((j - info.height * info.width) / (2 * m))
                + (2 * (((j - info.height * info.width) % (2 * m)) / 2) + 1))
          else
            frame.data 1 (S1 * ((j - info.height * info.width) / (2 * m))
                + 2 * (((j - info.height * info.width) % (2 * m)) / 2)))
        else if j < info.width * info.height then
          frame.data 0 (S0 * (j / info.width) + j % info.width)
        else dst.data j := by
  simp only [create_input_image_fill, hin, hf, hv, input_geometry]
  simp only [reduceCtorEq, and_false, and_self, if_false, if_true, true_and]
  have hbase : to_guint (info.height * info.width) = info.height * info.width := by
    apply to_guint_small; rw [Nat.mul_comm]; exact hWH
  rw [hbase]
  have hhalf : info.width * (info.height / 2) < 2 ^ 32 := by
    have : info.width * (info.height / 2) ≤ info.width * info.height :=
      Nat.mul_le_mul_left _ (Nat.div_le_self _ _)
    omega
  by_cases hH : info.height / 2 = 0
  · rw [hH]
    simp only [for_each, Nat.mul_zero, Nat.add_zero]
    rw [if_neg (by omega)]
    rw [copy_plane_rows_data dst 0 info.width info.height (frame.data 0) (frame.stride 0) S0 hS0
      h0 hWH hr0 j]
    simp only [Nat.zero_add, Nat.zero_le, true_and, Nat.sub_zero]
  have hWlt : 2 * m < 2 ^ 32 := by
    have : info.width * 1 ≤ info.width * info.height := Nat.mul_le_mul_left _ (by omega)
    omega
  have hloop : ∀ (body : Nat → Buf Nat → Buf Nat) (d : Buf Nat),
      for_stride_guint 2 info.width body info.width 0 d
        = for_each m (fun k => body (2 * k)) m 0 d := by
    intro body d
    rw [hW]
    exact for_stride_guint_two_all m hWlt body d
  simp only [hloop]
  rw [pixel_rows_data _
    (fun y x c => if c = 0 then frame.data 1 (S1 * y + (2 * x + 1))
      else frame.data 1 (S1 * y + 2 * x))
    (info.height * info.width) 2 m (info.height / 2) _
    (fun y hy x hx d j => by
      beta_reduce
      have a1 : to_guint (2 * x + 1) = 2 * x + 1 := to_guint_small _ (by omega)
      rw [a1, row_offset _ S1 (info.height / 2) y hS1 h1 hr1 hy,
        guint_row info.width (info.height / 2) y hhalf hy, hW]
      have p0 : info.height * (2 * m) + 2 * m * y + (2 * x + 1)
          = (info.height * (2 * m) + 2 * m * y + 2 * x) + 1 := by omega
      rw [p0, two_stores_data])]
  rw [copy_plane_rows_data dst 0 info.width info.height (frame.data 0) (frame.stride 0) S0 hS0 h0
    hWH hr0 j]
  simp only [Nat.zero_add, Nat.zero_le, true_and, Nat.sub_zero]

/-- Reading a tensor laid out as NV12 by coordinates: `L` gives the luma rows,
`A` the even and `B` the odd bytes of the chroma rows. -/
theorem nv12_cells (out : Nat → Nat) (A B L : Nat → Nat → Nat) (D : Nat → Nat) (W H m : Nat)
    (hW : W = 2 * m)
    (hout : ∀ j, out j
      = if H * W ≤ j ∧ j < H * W + (2 * m) * (H / 2) then
          (if ((j - H * W) % (2 * m)) % 2 = 0 then
            A ((j - H * W) / (2 * m)) (((j - H * W) % (2 * m)) / 2)
          else B ((j - H * W) / (2 * m)) (((j - H * W) % (2 * m)) / 2))
        else if j < W * H then L (j / W) (j % W) else D j) :
    (∀ y k, y < H → k < W → out (W * y + k) = L y k) ∧
    (∀ y x, y < H / 2 → x < m →
      out (H * W + W * y + 2 * x) = A y x ∧ out (H * W + W * y + 2 * x + 1) = B y x) := by
  have hcomm : H * W = W * H := Nat.mul_comm H W
  have cell : ∀ y x c, y < H / 2 → x < m → c < 2 →
      out (H * W + W * y + 2 * x + c) = if c = 0 then A y x else B y x := by
    intro y x c hy hx hc
    have h1 : 2 * x + c < 2 * m := by omega
    have h2 : (2 * m) * (y + 1) ≤ (2 * m) * (H / 2) := Nat.mul_le_mul_left _ (by omega)
    have e2 : (2 * m) * (y + 1) = (2 * m) * y + 2 * m := by ring
    have e3 : H * W + W * y + 2 * x + c - H * W = (2 * m) * y + (2 * x + c) := by
      rw [hW]; omega
    have e4 : W * y = (2 * m) * y := by rw [hW]
    rw [hout, if_pos ⟨by omega, by omega⟩, e3]
    obtain ⟨d1, m1⟩ := div_mod_of_row (2 * m) y (2 * x + c) h1
    obtain ⟨d2, m2⟩ := div_mod_of_row 2 x c hc
    rw [d1, m1, d2, m2]
  refine ⟨fun y k hy hk => ?_, fun y x hy hx => ⟨?_, ?_⟩⟩
  · have h2 : W * (y + 1) ≤ W * H := Nat.mul_le_mul_left _ (by omega)
    have e2 : W * (y + 1) = W * y + W := by ring
    obtain ⟨d1, m1⟩ := div_mod_of_row W y k hk
    rw [hout, if_neg (by omega), if_pos (by omega), d1, m1]
  · have h := cell y x 0 hy hx (by norm_num)
    rw [Nat.add_zero, if_pos rfl] at h
    exact h
  · have h := cell y x 1 hy hx (by norm_num)
    rw [if_neg (by norm_num)] at h
    exact h

/-- The I420 branch on a frame and the YV12 branch on the frame with its chroma
planes exchanged run the same stores. -/
theorem fill_exchange (s1 s2 : EdgefirstCameraAdaptor) (i1 i2 : GstVideoInfo)
    (frame : GstVideoFrame) (dst : Buf Nat)
    (hin1 : s1.in_info = some i1) (hin2 : s2.in_info = some i2)
    (hw : i2.width = i1.width) (hh : i2.height = i1.height)
    (hf1 : s1.src_fourcc = HalFourcc.NV12) (hf2 : s2.src_fourcc = HalFourcc.NV12)
    (hv1 : s1.in_vformat = GstVideoFormat.I420) (hv2 : s2.in_vformat = GstVideoFormat.YV12) :
    create_input_image_fill s2 (exchange_chroma_planes frame) dst
      = create_input_image_fill s1 frame dst := by
  simp only [create_input_image_fill, hin1, hin2, hf1, hf2, hv1, hv2, input_geometry, hw, hh]
  simp only [reduceCtorEq, and_false, and_self, if_false, if_true, true_and, or_true, true_or]
  rfl

/-- C25: the 2-byte-step NV21 loop and the 4-byte-step UYVY loop leave the tensor
when the width is odd.  A 1x2 NV21 frame gets a tensor of `3 * 1` bytes; the
copy stores to the indices `0, 1, 2, 3`, and cell 2 holds `17`, the byte at
offset 1 (the tight row size) of the chroma plane.  A 3x2 NV21 frame gets 9
bytes and the store to index 9.  A 1x1 UYVY frame gets `1 * 1 * 2` bytes; the
copy stores to `0, 1, 2, 3` and cells 2 and 3 hold the source bytes at the
offsets 3 and 2, past the 2 bytes of the row.  A 3x2 UYVY frame gets 12 bytes
and the stores to 12 and 13. -/
theorem copy_path_odd_width_leaves_tensor :
    ((input_geometry HalFourcc.NV12 1 2).map (fun g => tensor_size g.1) = some 3 ∧
      (create_input_image_fill (edgefirst_camera_adaptor_set_caps f32_round
          edgefirst_camera_adaptor_init (some { width := 1, height := 2, format := .NV21 })).2
        (ramp_frame 4) (Buf.fresh fun _ => 999)).log = [3, 2, 1, 0] ∧
      (create_input_image_fill (edgefirst_camera_adaptor_set_caps f32_round
          edgefirst_camera_adaptor_init (some { width := 1, height := 2, format := .NV21 })).2
        (ramp_frame 4) (Buf.fresh fun _ => 999)).take 4 = [0, 4, 17, 16]) ∧
    ((input_geometry HalFourcc.NV12 3 2).map (fun g => tensor_size g.1) = some 9 ∧
      9 ∈ (create_input_image_fill (edgefirst_camera_adaptor_set_caps f32_round
          edgefirst_camera_adaptor_init (some { width := 3, height := 2, format := .NV21 })).2
        (ramp_frame 4) (Buf.fresh fun _ => 999)).log) ∧
    ((input_geometry HalFourcc.YUYV 1 1).map (fun g => tensor_size g.1) = some 2 ∧
      (create_input_image_fill (edgefirst_camera_adaptor_set_caps f32_round
          edgefirst_camera_adaptor_init (some { width := 1, height := 1, format := .UYVY })).2
        (ramp_frame 4) (Buf.fresh fun _ => 999)).log = [3, 2, 1, 0] ∧
      (create_input_image_fill (edgefirst_camera_adaptor_set_caps f32_round
          edgefirst_camera_adaptor_init (some { width := 1, height := 1, format := .UYVY })).2
        (ramp_frame 4) (Buf.fresh fun _ => 999)).take 4 = [1, 0, 3, 2]) ∧
    ((input_geometry HalFourcc.YUYV 3 2).map (fun g => tensor_size g.1) = some 12 ∧
      12 ∈ (create_input_image_fill (edgefirst_camera_adaptor_set_caps f32_round
          edgefirst_camera_adaptor_init (some { width := 3, height := 2, format := .UYVY })).2
        (ramp_frame 8) (Buf.fresh fun _ => 999)).log ∧
      13 ∈ (create_input_image_fill (edgefirst_camera_adaptor_set_caps f32_round
          edgefirst_camera_adaptor_init (some { width := 3, height := 2, format := .UYVY })).2
        (ramp_frame 8) (Buf.fresh fun _ => 999)).log) := by
  refine ⟨⟨by decide, by decide, by decide⟩, ⟨by decide, by decide⟩,
    ⟨by decide, by decide, by decide⟩, ⟨by decide, by decide, by decide⟩⟩

/-! ## Overridden edges over a sequence of calls -/

theorem compute_letterbox_flags (fl : ℚ → ℚ) (self : EdgefirstCameraAdaptor) (src_w src_h : Nat) :
    (compute_letterbox fl self src_w src_h).letterbox = self.letterbox ∧
    (compute_letterbox fl self src_w src_h).lb_top_override = self.lb_top_override ∧
    (compute_letterbox fl self src_w src_h).lb_bottom_override = self.lb_bottom_override ∧
    (compute_letterbox fl self src_w src_h).lb_left_override = self.lb_left_override ∧
    (compute_letterbox fl self src_w src_h).lb_right_override = self.lb_right_override := by
  unfold compute_letterbox
  split <;> simp

theorem set_property_other_edge (self : EdgefirstCameraAdaptor) (p : PropertyValue) :
    (edge_set_by (.set_property p) ≠ some 0 →
      (edgefirst_camera_adaptor_set_property self p).lb_top = self.lb_top ∧
      (edgefirst_camera_adaptor_set_property self p).lb_top_override = self.lb_top_override) ∧
    (edge_set_by (.set_property p) ≠ some 1 →
      (edgefirst_camera_adaptor_set_property self p).lb_bottom = self.lb_bottom ∧
      (edgefirst_camera_adaptor_set_property self p).lb_bottom_override
        = self.lb_bottom_override) ∧
    (edge_set_by (.set_property p) ≠ some 2 →
      (edgefirst_camera_adaptor_set_property self p).lb_left = self.lb_left ∧
      (edgefirst_camera_adaptor_set_property self p).lb_left_override
        = self.lb_left_override) ∧
    (edge_set_by (.set_property p) ≠ some 3 →
      (edgefirst_camera_adaptor_set_property self p).lb_right = self.lb_right ∧
      (edgefirst_camera_adaptor_set_property self p).lb_right_override
        = self.lb_right_override) := by
  cases p <;> simp [edge_set_by, edgefirst_camera_adaptor_set_property]

theorem set_caps_keeps_edges (fl : ℚ → ℚ) (self : EdgefirstCameraAdaptor) (info : GstVideoInfo)
    (hlb : self.letterbox = true) (hw : info.width ≠ 0) (hh : info.height ≠ 0) :
    ((edgefirst_camera_adaptor_set_caps fl self (some info)).2.lb_top_override
        = self.lb_top_override ∧
      (self.lb_top_override = true →
        (edgefirst_camera_adaptor_set_caps fl self (some info)).2.lb_top = self.lb_top)) ∧
    ((edgefirst_camera_adaptor_set_caps fl self (some info)).2.lb_bottom_override
        = self.lb_bottom_override ∧
      (self.lb_bottom_override = true →
        (edgefirst_camera_adaptor_set_caps fl self (some info)).2.lb_bottom = self.lb_bottom)) ∧
    ((edgefirst_camera_adaptor_set_caps fl self (some info)).2.lb_left_override
        = self.lb_left_override ∧
      (self.lb_left_override = true →
        (edgefirst_camera_adaptor_set_caps fl self (some info)).2.lb_left = self.lb_left)) ∧
    ((edgefirst_camera_adaptor_set_caps fl self (some info)).2.lb_right_override
        = self.lb_right_override ∧
      (self.lb_right_override = true →
        (edgefirst_camera_adaptor_set_caps fl self (some info)).2.lb_right = self.lb_right)) := by
  simp only [edgefirst_camera_adaptor_set_caps]
  obtain ⟨-, f1, f2, f3, f4⟩ := compute_letterbox_flags fl
    { self with
      in_info := some info, in_info_valid := true, in_vformat := info.format,
      src_fourcc := gst_format_to_hal info.format,
      needs_input_conversion := format_needs_conversion info.format,
      out_width := if self.model_width > 0 then self.model_width else info.width,
      out_height := if self.model_height > 0 then self.model_height else info.height,
      out_channels := if self.colorspace = Colorspace.GRAY then 1 else 3,
      target_fourcc :=
        if self.colorspace = Colorspace.GRAY then HalFourcc.GREY
        else if self.layout = Layout.CHW then HalFourcc.PLANAR_RGB
        else HalFourcc.RGB,
      intermediate_fourcc :=
        if self.colorspace = Colorspace.GRAY then HalFourcc.GREY else HalFourcc.RGBA }
    info.width info.height
  obtain ⟨a, b, c, d⟩ := overridden_kept_aux fl
    { self with
      in_info := some info, in_info_valid := true, in_vformat := info.format,
      src_fourcc := gst_format_to_hal info.format,
      needs_input_conversion := format_needs_conversion info.format,
      out_width := if self.model_width > 0 then self.model_width else info.width,
      out_height := if self.model_height > 0 then self.model_height else info.height,
      out_channels := if self.colorspace = Colorspace.GRAY then 1 else 3,
      target_fourcc :=
        if self.colorspace = Colorspace.GRAY then HalFourcc.GREY
        else if self.layout = Layout.CHW then HalFourcc.PLANAR_RGB
        else HalFourcc.RGB,
      intermediate_fourcc :=
        if self.colorspace = Colorspace.GRAY then HalFourcc.GREY else HalFourcc.RGBA }
    info.width info.height hlb hw hh
  exact ⟨⟨f1, a⟩, ⟨f2, b⟩, ⟨f3, c⟩, ⟨f4, d⟩⟩

theorem set_caps_keeps_letterbox (fl : ℚ → ℚ) (self : EdgefirstCameraAdaptor)
    (info : GstVideoInfo) :
    (edgefirst_camera_adaptor_set_caps fl self (some info)).2.letterbox = self.letterbox := by
  simp only [edgefirst_camera_adaptor_set_caps]
  rw [(compute_letterbox_flags fl _ _ _).1]

/-- An edge whose override flag is set keeps its value and its flag over every
list of calls in which no `set_caps` takes the early return of
`compute_letterbox` and the edge is not set again. -/
theorem run_calls_keeps_edges (fl : ℚ → ℚ) (calls : List ElementCall) :
    ∀ self : EdgefirstCameraAdaptor,
    letterbox_computed_at_every_set_caps fl self calls = true →
    (self.lb_top_override = true → (∀ c ∈ calls, edge_set_by c ≠ some 0) →
      (run_calls fl self calls).lb_top = self.lb_top ∧
      (run_calls fl self calls).lb_top_override = true) ∧
    (self.lb_bottom_override = true → (∀ c ∈ calls, edge_set_by c ≠ some 1) →
      (run_calls fl self calls).lb_bottom = self.lb_bottom ∧
      (run_calls fl self calls).lb_bottom_override = true) ∧
    (self.lb_left_override = true → (∀ c ∈ calls, edge_set_by c ≠ some 2) →
      (run_calls fl self calls).lb_left = self.lb_left ∧
      (run_calls fl self calls).lb_left_override = true) ∧
    (self.lb_right_override = true → (∀ c ∈ calls, edge_set_by c ≠ some 3) →
      (run_calls fl self calls).lb_right = self.lb_right ∧
      (run_calls fl self calls).lb_right_override = true) := by
  induction calls with
  | nil =>
    intro self _
    exact ⟨fun h _ => ⟨rfl, h⟩, fun h _ => ⟨rfl, h⟩, fun h _ => ⟨rfl, h⟩, fun h _ => ⟨rfl, h⟩⟩
  | cons c calls ih =>
    intro self hg
    cases c with
    | set_property p =>
      have hg' : letterbox_computed_at_every_set_caps fl
          (edgefirst_camera_adaptor_set_property self p) calls = true := hg
      obtain ⟨i0, i1, i2, i3⟩ := ih _ hg'
      obtain ⟨p0, p1, p2, p3⟩ := set_property_other_edge self p
      refine ⟨fun h hn => ?_, fun h hn => ?_, fun h hn => ?_, fun h hn => ?_⟩
      · obtain ⟨e, f⟩ := p0 (hn _ (List.mem_cons_self _ _))
        have := i0 (by rw [f]; exact h) (fun c hc => hn c (List.mem_cons_of_mem _ hc))
        exact ⟨by rw [← e]; exact this.1, this.2⟩
      · obtain ⟨e, f⟩ := p1 (hn _ (List.mem_cons_self _ _))
        have := i1 (by rw [f]; exact h) (fun c hc => hn c (List.mem_cons_of_mem _ hc))
        exact ⟨by rw [← e]; exact this.1, this.2⟩
      · obtain ⟨e, f⟩ := p2 (hn _ (List.mem_cons_self _ _))
        have := i2 (by rw [f]; exact h) (fun c hc => hn c (List.mem_cons_of_mem _ hc))
        exact ⟨by rw [← e]; exact this.1, this.2⟩
      · obtain ⟨e, f⟩ := p3 (hn _ (List.mem_cons_self _ _))
        have := i3 (by rw [f]; exact h) (fun c hc => hn c (List.mem_cons_of_mem _ hc))
        exact ⟨by rw [← e]; exact this.1, this.2⟩
    | set_caps info =>
      have hg' : (self.letterbox && info.width != 0 && info.height != 0 &&
          letterbox_computed_at_every_set_caps fl
            (edgefirst_camera_adaptor_set_caps fl self (some info)).2 calls) = true := hg
      simp only [Bool.and_eq_true, bne_iff_ne, ne_eq] at hg'
      obtain ⟨⟨⟨hlb, hw⟩, hh⟩, hrest⟩ := hg'
      obtain ⟨i0, i1, i2, i3⟩ := ih _ hrest
      obtain ⟨⟨f0, e0⟩, ⟨f1, e1⟩, ⟨f2, e2⟩, ⟨f3, e3⟩⟩ :=
        set_caps_keeps_edges fl self info hlb hw hh
      refine ⟨fun h hn => ?_, fun h hn => ?_, fun h hn => ?_, fun h hn => ?_⟩
      · have := i0 (by rw [f0]; exact h) (fun c hc => hn c (List.mem_cons_of_mem _ hc))
        exact ⟨by rw [← e0 h]; exact this.1, this.2⟩
      · have := i1 (by rw [f1]; exact h) (fun c hc => hn c (List.mem_cons_of_mem _ hc))
        exact ⟨by rw [← e1 h]; exact this.1, this.2⟩
      · have := i2 (by rw [f2]; exact h) (fun c hc => hn c (List.mem_cons_of_mem _ hc))
        exact ⟨by rw [← e2 h]; exact this.1, this.2⟩
      · have := i3 (by rw [f3]; exact h) (fun c hc => hn c (List.mem_cons_of_mem _ hc))
        exact ⟨by rw [← e3 h]; exact this.1, this.2⟩

/-- C9, as amended: with letterbox enabled and non-zero source dimensions,
`compute_letterbox` leaves the padding value of every edge whose override flag
is set as it was before the call, for any target dimensions and any rounding;
an edge just set through `set_property` keeps the value set.  Hence an edge
keeps the value the user set over every later list of property changes and
`set_caps` calls in which the edge is not set again and every `set_caps` runs
with letterbox enabled and non-zero source dimensions.  A call with letterbox
disabled or a zero source dimension zeroes all four edges and leaves the four
override flags as they were. -/
theorem overridden_edges_kept (fl : ℚ → ℚ) (self : EdgefirstCameraAdaptor)
    (src_w src_h : ℕ) (hlb : self.letterbox = true) (hsw : src_w ≠ 0) (hsh : src_h ≠ 0) :
    (self.lb_top_override = true →
      (compute_letterbox fl self src_w src_h).lb_top = self.lb_top) ∧
    (self.lb_bottom_override = true →
      (compute_letterbox fl self src_w src_h).lb_bottom = self.lb_bottom) ∧
    (self.lb_left_override = true →
      (compute_letterbox fl self src_w src_h).lb_left = self.lb_left) ∧
    (self.lb_right_override = true →
      (compute_letterbox fl self src_w src_h).lb_right = self.lb_right) ∧
    (∀ v, (compute_letterbox fl
      (edgefirst_camera_adaptor_set_property self (.PROP_LETTERBOX_TOP v)) src_w src_h).lb_top
        = v) ∧
    (∀ v, (compute_letterbox fl
      (edgefirst_camera_adaptor_set_property self (.PROP_LETTERBOX_BOTTOM v)) src_w
        src_h).lb_bottom = v) ∧
    (∀ v, (compute_letterbox fl
      (edgefirst_camera_adaptor_set_property self (.PROP_LETTERBOX_LEFT v)) src_w src_h).lb_left
        = v) ∧
    (∀ v, (compute_letterbox fl
      (edgefirst_camera_adaptor_set_property self (.PROP_LETTERBOX_RIGHT v)) src_w
        src_h).lb_right = v) ∧
    (∀ (s : EdgefirstCameraAdaptor) (v : Int) (calls : List ElementCall),
      letterbox_computed_at_every_set_caps fl
        (edgefirst_camera_adaptor_set_property s (.PROP_LETTERBOX_TOP v)) calls = true →
      (∀ c ∈ calls, edge_set_by c ≠ some 0) →
      (run_calls fl (edgefirst_camera_adaptor_set_property s (.PROP_LETTERBOX_TOP v))
        calls).lb_top = v) ∧
    (∀ (s : EdgefirstCameraAdaptor) (v : Int) (calls : List ElementCall),
      letterbox_computed_at_every_set_caps fl
        (edgefirst_camera_adaptor_set_property s (.PROP_LETTERBOX_BOTTOM v)) calls = true →
      (∀ c ∈ calls, edge_set_by c ≠ some 1) →
      (run_calls fl (edgefirst_camera_adaptor_set_property s (.PROP_LETTERBOX_BOTTOM v))
        calls).lb_bottom = v) ∧
    (∀ (s : EdgefirstCameraAdaptor) (v : Int) (calls : List ElementCall),
      letterbox_computed_at_every_set_caps fl
        (edgefirst_camera_adaptor_set_property s (.PROP_LETTERBOX_LEFT v)) calls = true →
      (∀ c ∈ calls, edge_set_by c ≠ some 2) →
      (run_calls fl (edgefirst_camera_adaptor_set_property s (.PROP_LETTERBOX_LEFT v))
        calls).lb_left = v) ∧
    (∀ (s : EdgefirstCameraAdaptor) (v : Int) (calls : List ElementCall),
      letterbox_computed_at_every_set_caps fl
        (edgefirst_camera_adaptor_set_property s (.PROP_LETTERBOX_RIGHT v)) calls = true →
      (∀ c ∈ calls, edge_set_by c ≠ some 3) →
      (run_calls fl (edgefirst_camera_adaptor_set_property s (.PROP_LETTERBOX_RIGHT v))
        calls).lb_right = v) ∧
    (∀ (s : EdgefirstCameraAdaptor) (w h : Nat), (s.letterbox = false ∨ w = 0 ∨ h = 0) →
      (compute_letterbox fl s w h).lb_top = 0 ∧
      (compute_letterbox fl s w h).lb_bottom = 0 ∧
      (compute_letterbox fl s w h).lb_left = 0 ∧
      (compute_letterbox fl s w h).lb_right = 0 ∧
      (compute_letterbox fl s w h).lb_top_override = s.lb_top_override ∧
      (compute_letterbox fl s w h).lb_bottom_override = s.lb_bottom_override ∧
      (compute_letterbox fl s w h).lb_left_override = s.lb_left_override ∧
      (compute_letterbox fl s w h).lb_right_override = s.lb_right_override) := by
  obtain ⟨a, b, c, d⟩ := overridden_kept_aux fl self src_w src_h hlb hsw hsh
  refine ⟨a, b, c, d, fun v => ?_, fun v => ?_, fun v => ?_, fun v => ?_,
    fun s v calls hg hn => ?_, fun s v calls hg hn => ?_, fun s v calls hg hn => ?_,
    fun s v calls hg hn => ?_, fun s w h hd => ?_⟩
  · exact (overridden_kept_aux fl
      (edgefirst_camera_adaptor_set_property self (.PROP_LETTERBOX_TOP v)) src_w src_h hlb
      hsw hsh).1 rfl
  · exact (overridden_kept_aux fl
      (edgefirst_camera_adaptor_set_property self (.PROP_LETTERBOX_BOTTOM v)) src_w src_h hlb
      hsw hsh).2.1 rfl
  · exact (overridden_kept_aux fl
      (edgefirst_camera_adaptor_set_property self (.PROP_LETTERBOX_LEFT v)) src_w src_h hlb
      hsw hsh).2.2.1 rfl
  · exact (overridden_kept_aux fl
      (edgefirst_camera_adaptor_set_property self (.PROP_LETTERBOX_RIGHT v)) src_w src_h hlb
      hsw hsh).2.2.2 rfl
  · exact ((run_calls_keeps_edges fl calls _ hg).1 rfl hn).1
  · exact ((run_calls_keeps_edges fl calls _ hg).2.1 rfl hn).1
  · exact ((run_calls_keeps_edges fl calls _ hg).2.2.1 rfl hn).1
  · exact ((run_calls_keeps_edges fl calls _ hg).2.2.2 rfl hn).1
  · obtain ⟨-, z0, z1, z2, z3, -⟩ := compute_letterbox_disabled fl s w h hd
    obtain ⟨-, f0, f1, f2, f3⟩ := compute_letterbox_flags fl s w h
    exact ⟨z0, z1, z2, z3, f0, f1, f2, f3⟩

/-- With letterbox enabled and the top edge set to 10, the top padding of 640x480
into 320x320 is 10; and it is still 10 after a negotiation at 640x480, a change
of `model-width` and of the left edge, and a second negotiation at 1280x720. -/
theorem overridden_edges_kept_witness :
    (compute_letterbox f32_round
      { configure [.PROP_LETTERBOX true, .PROP_LETTERBOX_TOP 10] with
        out_width := 320, out_height := 320 } 640 480).lb_top = 10 ∧
    (run_calls f32_round
      (edgefirst_camera_adaptor_set_property (configure [.PROP_LETTERBOX true])
        (.PROP_LETTERBOX_TOP 10))
      [.set_caps { width := 640, height := 480, format := .RGB },
        .set_property (.PROP_MODEL_WIDTH 320), .set_property (.PROP_LETTERBOX_LEFT 4),
        .set_caps { width := 1280, height := 720, format := .NV12 }]).lb_top = 10 :=
  ⟨(overridden_edges_kept f32_round
      { configure [.PROP_LETTERBOX true, .PROP_LETTERBOX_TOP 10] with
        out_width := 320, out_height := 320 } 640 480 rfl (by decide) (by decide)).1 rfl,
    (overridden_edges_kept f32_round
      { configure [.PROP_LETTERBOX true, .PROP_LETTERBOX_TOP 10] with
        out_width := 320, out_height := 320 } 640 480 rfl (by decide)
      (by decide)).2.2.2.2.2.2.2.2.1 (configure [.PROP_LETTERBOX true]) 10
      [.set_caps { width := 640, height := 480, format := .RGB },
        .set_property (.PROP_MODEL_WIDTH 320), .set_property (.PROP_LETTERBOX_LEFT 4),
        .set_caps { width := 1280, height := 720, format := .NV12 }]
      (by decide) (by decide)⟩

/-- C9 fails as stated: with letterbox disabled the early return zeroes all four
edges, so a top edge the user set to 10 (override flag set) is 0 after
`compute_letterbox`, and the flag stays set.  The 0 then stays: after the user
sets the top edge to 10 with letterbox off, a negotiation at 640x480, enabling
letterbox and a second negotiation, the element has letterbox on, the flag of
the top edge set and the top padding 0. -/
theorem disabled_letterbox_resets_pinned_edge :
    (configure [.PROP_LETTERBOX_TOP 10]).letterbox = false ∧
    (configure [.PROP_LETTERBOX_TOP 10]).lb_top_override = true ∧
    (configure [.PROP_LETTERBOX_TOP 10]).lb_top = 10 ∧
    (compute_letterbox f32_round (configure [.PROP_LETTERBOX_TOP 10]) 640 480).lb_top = 0 ∧
    (compute_letterbox f32_round (configure [.PROP_LETTERBOX_TOP 10]) 640
      480).lb_top_override = true ∧
    (run_calls f32_round edgefirst_camera_adaptor_init
      [.set_property (.PROP_LETTERBOX_TOP 10),
        .set_caps { width := 640, height := 480, format := .RGB },
        .set_property (.PROP_LETTERBOX true),
        .set_caps { width := 640, height := 480, format := .RGB }]).letterbox = true ∧
    (run_calls f32_round edgefirst_camera_adaptor_init
      [.set_property (.PROP_LETTERBOX_TOP 10),
        .set_caps { width := 640, height := 480, format := .RGB },
        .set_property (.PROP_LETTERBOX true),
        .set_caps { width := 640, height := 480, format := .RGB }]).lb_top_override = true ∧
    (run_calls f32_round edgefirst_camera_adaptor_init
      [.set_property (.PROP_LETTERBOX_TOP 10),
        .set_caps { width := 640, height := 480, format := .RGB },
        .set_property (.PROP_LETTERBOX true),
        .set_caps { width := 640, height := 480, format := .RGB }]).lb_top = 0 := by
  refine ⟨rfl, rfl, rfl, ?_, ?_, by decide, by decide, by decide⟩
  · exact (compute_letterbox_disabled f32_round _ 640 480 (Or.inl rfl)).2.1
  · unfold compute_letterbox
    simp [configure, edgefirst_camera_adaptor_set_property, edgefirst_camera_adaptor_init]

theorem row_size_bound (R H : Nat) (hR : R < 2 ^ 32) (hH : H < 2 ^ 32) : R * H < 2 ^ 64 := by
  have h2 : R * H ≤ (2 ^ 32 - 1) * (2 ^ 32 - 1) := Nat.mul_le_mul (by omega) (by omega)
  have e : (2 ^ 32 - 1) * (2 ^ 32 - 1) < 2 ^ 64 := by norm_num
  omega

/-- C26, as amended: the packed formats on the copy path.  For any state `set_caps`
leaves and a mapped frame whose plane-0 stride `S` is a non-negative `gint`
with `S * height` at most `2^32`, and whose tight row size `bpp * width` is
below `2^32` (so that the offsets the code forms in `guint` do not wrap):
for BGR, and for BGRA and BGRx, byte `c` of pixel `(x, y)` of the tightly packed
tensor (at `row_bytes * y + bpp * x + c`) is the byte of the source pixel at
`S * y + bpp * x` with the first and third bytes exchanged and the second, and
the fourth of a 4-byte pixel, unchanged; copying the tensor once more as a
tight frame of the same format gives back the bytes of the source pixels; and
for RGB, RGBA, RGBx, GRAY8 and YUY2 each row of the tensor is the first
`row_bytes` bytes of the source row, whether `S` is the tight size (one
`memcpy`) or not (row by row). -/
theorem copy_path_packed_formats (fl : ℚ → ℚ) (self : EdgefirstCameraAdaptor)
    (info : GstVideoInfo) (frame : GstVideoFrame) (dst dst' : Buf Nat) (S : Nat)
    (hS : frame.stride 0 = (S : Int)) (hS31 : S < 2 ^ 31)
    (hH : info.height < 2 ^ 32) (hrows : S * info.height ≤ 2 ^ 32) :
    (info.format = GstVideoFormat.BGR → 3 * info.width < 2 ^ 32 →
      ∀ y x, y < info.height → x < info.width →
      ((create_input_image_fill (edgefirst_camera_adaptor_set_caps fl self (some info)).2
          frame dst).data ((3 * info.width) * y + 3 * x) = frame.data 0 (S * y + 3 * x + 2) ∧
        (create_input_image_fill (edgefirst_camera_adaptor_set_caps fl self (some info)).2
          frame dst).data ((3 * info.width) * y + 3 * x + 1)
          = frame.data 0 (S * y + 3 * x + 1) ∧
        (create_input_image_fill (edgefirst_camera_adaptor_set_caps fl self (some info)).2
          frame dst).data ((3 * info.width) * y + 3 * x + 2) = frame.data 0 (S * y + 3 * x)) ∧
      (3 * info.width < 2 ^ 31 → (3 * info.width) * info.height ≤ 2 ^ 32 → ∀ c, c < 3 →
        (create_input_image_fill (edgefirst_camera_adaptor_set_caps fl self (some info)).2
          { data := fun _ => (create_input_image_fill
              (edgefirst_camera_adaptor_set_caps fl self (some info)).2 frame dst).data
            stride := fun _ => ((3 * info.width : Nat) : Int) } dst').data
            ((3 * info.width) * y + 3 * x + c) = frame.data 0 (S * y + 3 * x + c))) ∧
    (info.format = GstVideoFormat.BGRA ∨ info.format = GstVideoFormat.BGRx →
      4 * info.width < 2 ^ 32 →
      ∀ y x, y < info.height → x < info.width →
      ((create_input_image_fill (edgefirst_camera_adaptor_set_caps fl self (some info)).2
          frame dst).data ((4 * info.width) * y + 4 * x) = frame.data 0 (S * y + 4 * x + 2) ∧
        (create_input_image_fill (edgefirst_camera_adaptor_set_caps fl self (some info)).2
          frame dst).data ((4 * info.width) * y + 4 * x + 1)
          = frame.data 0 (S * y + 4 * x + 1) ∧
        (create_input_image_fill (edgefirst_camera_adaptor_set_caps fl self (some info)).2
          frame dst).data ((4 * info.width) * y + 4 * x + 2) = frame.data 0 (S * y + 4 * x) ∧
        (create_input_image_fill (edgefirst_camera_adaptor_set_caps fl self (some info)).2
          frame dst).data ((4 * info.width) * y + 4 * x + 3)
          = frame.data 0 (S * y + 4 * x + 3)) ∧
      (4 * info.width < 2 ^ 31 → (4 * info.width) * info.height ≤ 2 ^ 32 → ∀ c, c < 4 →
        (create_input_image_fill (edgefirst_camera_adaptor_set_caps fl self (some info)).2
          { data := fun _ => (create_input_image_fill
              (edgefirst_camera_adaptor_set_caps fl self (some info)).2 frame dst).data
            stride := fun _ => ((4 * info.width : Nat) : Int) } dst').data
            ((4 * info.width) * y + 4 * x + c) = frame.data 0 (S * y + 4 * x + c))) ∧
    (info.format = GstVideoFormat.RGB ∨ info.format = GstVideoFormat.RGBA ∨
        info.format = GstVideoFormat.RGBx ∨ info.format = GstVideoFormat.GRAY8 ∨
        info.format = GstVideoFormat.YUY2 →
      (if info.format = GstVideoFormat.RGB then 3 * info.width
          else if info.format = GstVideoFormat.GRAY8 then info.width
          else if info.format = GstVideoFormat.YUY2 then 2 * info.width
          else 4 * info.width) < 2 ^ 32 →
      ∀ shape row_bytes,
        input_geometry (gst_format_to_hal info.format) info.width info.height
          = some (shape, row_bytes) →
        row_bytes = (if info.format = GstVideoFormat.RGB then 3 * info.width
          else if info.format = GstVideoFormat.GRAY8 then info.width
          else if info.format = GstVideoFormat.YUY2 then 2 * info.width
          else 4 * info.width) ∧
        ∀ y k, y < info.height → k < row_bytes →
          (create_input_image_fill (edgefirst_camera_adaptor_set_caps fl self (some info)).2
            frame dst).data (row_bytes * y + k) = frame.data 0 (S * y + k)) := by
  obtain ⟨hin, hfc, -, hvf⟩ := set_caps_input fl self info
  refine ⟨fun hfmt b3 y x hy hx => ?_, fun hfmt b4 y x hy hx => ?_,
    fun hfmt hlt shape R hgeo => ?_⟩
  · have z3 := row_size_bound _ _ b3 hH
    rw [hfmt] at hfc hvf
    have hfc' : (edgefirst_camera_adaptor_set_caps fl self (some info)).2.src_fourcc
        = HalFourcc.RGB := hfc
    have h := fill_bgr_at _ info frame dst S hin hfc' hvf hS hS31 b3 z3 hrows y x
    refine ⟨⟨?_, ?_, ?_⟩, fun hR31 hRH c hc => ?_⟩
    · exact h 0 hy hx (by norm_num)
    · exact h 1 hy hx (by norm_num)
    · exact h 2 hy hx (by norm_num)
    · rw [fill_bgr_at _ info _ dst' (3 * info.width) hin hfc' hvf rfl hR31 b3 z3 hRH y x c
        hy hx hc]
      show (create_input_image_fill _ frame dst).data (3 * info.width * y + 3 * x + (2 - c)) = _
      rw [h (2 - c) hy hx (by omega)]
      congr 1
      omega
  · have z4 := row_size_bound _ _ b4 hH
    have hfc' : (edgefirst_camera_adaptor_set_caps fl self (some info)).2.src_fourcc
        = HalFourcc.RGBA := by
      rw [hfc]; rcases hfmt with e | e <;> rw [e] <;> rfl
    have hvf' : (edgefirst_camera_adaptor_set_caps fl self (some info)).2.in_vformat
          = GstVideoFormat.BGRA ∨
        (edgefirst_camera_adaptor_set_caps fl self (some info)).2.in_vformat
          = GstVideoFormat.BGRx := by
      rw [hvf]; exact hfmt
    have h := fill_bgra_at _ info frame dst S hin hfc' hvf' hS hS31 b4 z4 hrows y x
    refine ⟨⟨?_, ?_, ?_, ?_⟩, fun hR31 hRH c hc => ?_⟩
    · exact h 0 hy hx (by norm_num)
    · exact h 1 hy hx (by norm_num)
    · exact h 2 hy hx (by norm_num)
    · exact h 3 hy hx (by norm_num)
    · have h2 := fill_bgra_at _ info
        { data := fun _ => (create_input_image_fill
            (edgefirst_camera_adaptor_set_caps fl self (some info)).2 frame dst).data
          stride := fun _ => ((4 * info.width : Nat) : Int) } dst' (4 * info.width) hin hfc'
        hvf' rfl hR31 b4 z4 hRH y x c hy hx hc
      have c4 : c = 0 ∨ c = 1 ∨ c = 2 ∨ c = 3 := by omega
      rcases c4 with e | e | e | e <;> subst e <;> rw [h2] <;> simp only [if_true, if_false,
        OfNat.ofNat_ne_zero, OfNat.ofNat_ne_one, OfNat.one_ne_ofNat, one_ne_zero,
        Nat.reduceEqDiff]
      · exact h 2 hy hx (by norm_num)
      · exact h 1 hy hx (by norm_num)
      · exact h 0 hy hx (by norm_num)
      · exact h 3 hy hx (by norm_num)
  · have hR : R = (if info.format = GstVideoFormat.RGB then 3 * info.width
          else if info.format = GstVideoFormat.GRAY8 then info.width
          else if info.format = GstVideoFormat.YUY2 then 2 * info.width
          else 4 * info.width) := by
      rcases hfmt with e | e | e | e | e <;> rw [e] at hgeo hlt ⊢ <;>
        simp only [gst_format_to_hal, input_geometry, Option.some.injEq, Prod.mk.injEq,
          reduceCtorEq, if_true, if_false] at hgeo hlt ⊢ <;>
        first
          | exact hgeo.2.symm
          | (rw [← hgeo.2, Nat.mul_comm]; exact to_guint_small _ hlt)
    have hRlt : R < 2 ^ 32 := by rw [hR]; exact hlt
    refine ⟨hR, fun y k hy hk => ?_⟩
    rw [← hfc] at hgeo
    have hsz : R * info.height < 2 ^ 64 := row_size_bound _ _ hRlt hH
    apply fill_direct_at _ info frame dst S R shape hin hgeo _ _ hS hS31 hRlt hsz hrows
      y k hy hk
    · rw [hfc]
      rcases hfmt with e | e | e | e | e <;> rw [e] <;> exact ⟨by decide, by decide⟩
    · rw [hvf]
      rcases hfmt with e | e | e | e | e <;> rw [e] <;>
        exact ⟨by decide, by decide, by decide, by decide⟩

/-- A 2x2 BGR frame with stride 8 whose byte at offset `i` is `i`: pixel `(1, 1)` of
the tensor, at offset 9, holds `13, 12, 11`; the 2x2 RGB frame is copied row
by row. -/
theorem copy_path_packed_formats_witness :
    (create_input_image_fill (edgefirst_camera_adaptor_set_caps f32_round
        edgefirst_camera_adaptor_init (some { width := 2, height := 2, format := .BGR })).2
      (ramp_frame 8) (Buf.fresh fun _ => 0)).data 9 = 13 ∧
    (create_input_image_fill (edgefirst_camera_adaptor_set_caps f32_round
        edgefirst_camera_adaptor_init (some { width := 2, height := 2, format := .BGR })).2
      (ramp_frame 8) (Buf.fresh fun _ => 0)).data 11 = 11 ∧
    (create_input_image_fill (edgefirst_camera_adaptor_set_caps f32_round
        edgefirst_camera_adaptor_init (some { width := 2, height := 2, format := .RGB })).2
      (ramp_frame 8) (Buf.fresh fun _ => 0)).take 12
      = [0, 1, 2, 3, 4, 5, 8, 9, 10, 11, 12, 13] := by
  have h := ((copy_path_packed_formats f32_round edgefirst_camera_adaptor_init
    { width := 2, height := 2, format := .BGR } (ramp_frame 8) (Buf.fresh fun _ => 0)
    (Buf.fresh fun _ => 0) 8 rfl (by norm_num) (by norm_num)
    (by norm_num)).1 rfl (by norm_num) 1 1 (by norm_num) (by norm_num)).1
  exact ⟨h.1, h.2.2, by decide⟩

/-- C26 fails as stated for a stride with `stride * height` above `2^32`: the row
offset `y * stride` is a 32-bit product.  A 1x5 frame with stride `2^30` whose
byte at offset `i` is the row number `i / 2^30`: the rows 0 to 3 of the tensor
hold 0, 1, 2, 3, but row 4 (cells 12 to 14) holds the bytes of source row 0,
not the 4 found at offset `2^30 * 4`, for BGR, for BGRA and for the RGB copy
alike.  And the tight row size `width * 4` is itself a 32-bit product: for a
width of `2^30` it is 0. -/
theorem packed_row_offset_wraps :
    (create_input_image_fill (edgefirst_camera_adaptor_set_caps f32_round
        edgefirst_camera_adaptor_init (some { width := 1, height := 5, format := .BGR })).2
      { data := fun _ i => i / 1073741824, stride := fun _ => 1073741824 }
      (Buf.fresh fun _ => 999)).take 15 = [0, 0, 0, 1, 1, 1, 2, 2, 2, 3, 3, 3, 0, 0, 0] ∧
    (create_input_image_fill (edgefirst_camera_adaptor_set_caps f32_round
        edgefirst_camera_adaptor_init (some { width := 1, height := 5, format := .BGRA })).2
      { data := fun _ i => i / 1073741824, stride := fun _ => 1073741824 }
      (Buf.fresh fun _ => 999)).take 20
      = [0, 0, 0, 0, 1, 1, 1, 1, 2, 2, 2, 2, 3, 3, 3, 3, 0, 0, 0, 0] ∧
    (create_input_image_fill (edgefirst_camera_adaptor_set_caps f32_round
        edgefirst_camera_adaptor_init (some { width := 1, height := 5, format := .RGB })).2
      { data := fun _ i => i / 1073741824, stride := fun _ => 1073741824 }
      (Buf.fresh fun _ => 999)).take 15 = [0, 0, 0, 1, 1, 1, 2, 2, 2, 3, 3, 3, 0, 0, 0] ∧
    ({ data := fun _ i => i / 1073741824, stride := fun _ => 1073741824 } : GstVideoFrame).data 0
      (1073741824 * 4 + 3 * 0 + 2) = 4 ∧
    input_geometry HalFourcc.RGBA 1073741824 1 = some ([1, 1073741824, 4], 0) := by
  refine ⟨by decide, by decide, by decide, by decide, by decide⟩

/-- C27 fails as stated for a stride with `stride * rows` above `2^32`: a 2x6 I420
frame with stride `2^30` on every plane whose plane `p` holds `10 * p` plus the
row number `i / 2^30` at offset `i`.  The luma rows 0 to 3 of the tensor hold
the row number, but rows 4 and 5 (cells 8 to 11) hold the bytes of the source
rows 0 and 1; the three chroma rows are right.  And the chroma offset
`height * width` is itself a 32-bit product: for 65536x65536 it is 0. -/
theorem planar_row_offset_wraps :
    (create_input_image_fill (edgefirst_camera_adaptor_set_caps f32_round
        edgefirst_camera_adaptor_init (some { width := 2, height := 6, format := .I420 })).2
      { data := fun p i => 10 * p + i / 1073741824, stride := fun _ => 1073741824 }
      (Buf.fresh fun _ => 999)).take 18
      = [0, 0, 1, 1, 2, 2, 3, 3, 0, 0, 1, 1, 10, 20, 11, 21, 12, 22] ∧
    ({ data := fun p i => 10 * p + i / 1073741824,
       stride := fun _ => 1073741824 } : GstVideoFrame).data 0 (1073741824 * 4 + 0) = 4 ∧
    to_guint (65536 * 65536) = 0 := by
  refine ⟨by decide, by decide, by decide⟩

/-- C27, as amended: on the copy path, for an even width `w` with `w * h < 2^32`
and a frame whose strides are non-negative `gint`s with `S * rows <= 2^32` on
each plane the format has (so that the offsets the code forms in `guint` do
not wrap): I420, YV12 and NV21 all get the canonical format NV12 and the luma
rows copied, cell `w * y + k` of the tensor from offset `S0 * y + k` of plane 0;
chroma row `y < h / 2` starts at `h * w + w * y` and holds at `2 * x` and
`2 * x + 1`, for `x < w / 2`, the bytes `x` of row `y` of planes 1 and 2 for
I420, of planes 2 and 1 for YV12, and the bytes `2 * x + 1` and `2 * x` of row
`y` of plane 1 for NV21.  For any size and strides, the YV12 frame with the
chroma planes of an I420 frame exchanged gives the same tensor as the I420
frame, store by store. -/
theorem copy_path_to_nv12 (fl : ℚ → ℚ) (self : EdgefirstCameraAdaptor)
    (info : GstVideoInfo) (frame : GstVideoFrame) (dst : Buf Nat) (S0 S1 : Nat)
    (hW : info.width % 2 = 0) (hWH : info.width * info.height < 2 ^ 32)
    (hS0 : frame.stride 0 = (S0 : Int)) (h0 : S0 < 2 ^ 31)
    (hr0 : S0 * info.height ≤ 2 ^ 32)
    (hS1 : frame.stride 1 = (S1 : Int)) (h1 : S1 < 2 ^ 31)
    (hr1 : S1 * (info.height / 2) ≤ 2 ^ 32) :
    (info.format = GstVideoFormat.I420 ∨ info.format = GstVideoFormat.YV12 ∨
        info.format = GstVideoFormat.NV21 →
      (edgefirst_camera_adaptor_set_caps fl self (some info)).2.src_fourcc = HalFourcc.NV12) ∧
    (info.format = GstVideoFormat.I420 →
      ∀ S2 : Nat, frame.stride 2 = (S2 : Int) → S2 < 2 ^ 31 →
        S2 * (info.height / 2) ≤ 2 ^ 32 →
      (∀ y k, y < info.height → k < info.width →
        (create_input_image_fill (edgefirst_camera_adaptor_set_caps fl self (some info)).2
          frame dst).data (info.width * y + k) = frame.data 0 (S0 * y + k)) ∧
      (∀ y x, y < info.height / 2 → x < info.width / 2 →
        (create_input_image_fill (edgefirst_camera_adaptor_set_caps fl self (some info)).2
            frame dst).data (info.height * info.width + info.width * y + 2 * x)
          = frame.data 1 (S1 * y + x) ∧
        (create_input_image_fill (edgefirst_camera_adaptor_set_caps fl self (some info)).2
            frame dst).data (info.height * info.width + info.width * y + 2 * x + 1)
          = frame.data 2 (S2 * y + x))) ∧
    (info.format = GstVideoFormat.YV12 →
      ∀ S2 : Nat, frame.stride 2 = (S2 : Int) → S2 < 2 ^ 31 →
        S2 * (info.height / 2) ≤ 2 ^ 32 →
      (∀ y k, y < info.height → k < info.width →
        (create_input_image_fill (edgefirst_camera_adaptor_set_caps fl self (some info)).2
          frame dst).data (info.width * y + k) = frame.data 0 (S0 * y + k)) ∧
      (∀ y x, y < info.height / 2 → x < info.width / 2 →
        (create_input_image_fill (edgefirst_camera_adaptor_set_caps fl self (some info)).2
            frame dst).data (info.height * info.width + info.width * y + 2 * x)
          = frame.data 2 (S2 * y + x) ∧
        (create_input_image_fill (edgefirst_camera_adaptor_set_caps fl self (some info)).2
            frame dst).data (info.height * info.width + info.width * y + 2 * x + 1)
          = frame.data 1 (S1 * y + x))) ∧
    (info.format = GstVideoFormat.NV21 →
      (∀ y k, y < info.height → k < info.width →
        (create_input_image_fill (edgefirst_camera_adaptor_set_caps fl self (some info)).2
          frame dst).data (info.width * y + k) = frame.data 0 (S0 * y + k)) ∧
      (∀ y x, y < info.height / 2 → x < info.width / 2 →
        (create_input_image_fill (edgefirst_camera_adaptor_set_caps fl self (some info)).2
            frame dst).data (info.height * info.width + info.width * y + 2 * x)
          = frame.data 1 (S1 * y + (2 * x + 1)) ∧
        (create_input_image_fill (edgefirst_camera_adaptor_set_caps fl self (some info)).2
            frame dst).data (info.height * info.width + info.width * y + 2 * x + 1)
          = frame.data 1 (S1 * y + 2 * x))) ∧
    (∀ (w h : Nat) (self' : EdgefirstCameraAdaptor) (frame' : GstVideoFrame) (dst' : Buf Nat),
      create_input_image_fill (edgefirst_camera_adaptor_set_caps fl self'
          (some { width := w, height := h, format := GstVideoFormat.YV12 })).2
          (exchange_chroma_planes frame') dst'
        = create_input_image_fill (edgefirst_camera_adaptor_set_caps fl self'
          (some { width := w, height := h, format := GstVideoFormat.I420 })).2 frame' dst') := by
  obtain ⟨hin, hfc, -, hvf⟩ := set_caps_input fl self info
  have hm : info.width = 2 * (info.width / 2) := by omega
  have planar : ∀ (Su Sv : Nat),
      info.format = GstVideoFormat.I420 ∨ info.format = GstVideoFormat.YV12 →
      frame.stride (if info.format = GstVideoFormat.I420 then 1 else 2) = (Su : Int) →
      Su < 2 ^ 31 → Su * (info.height / 2) ≤ 2 ^ 32 →
      frame.stride (if info.format = GstVideoFormat.I420 then 2 else 1) = (Sv : Int) →
      Sv < 2 ^ 31 → Sv * (info.height / 2) ≤ 2 ^ 32 →
      (∀ y k, y < info.height → k < info.width →
        (create_input_image_fill (edgefirst_camera_adaptor_set_caps fl self (some info)).2
          frame dst).data (info.width * y + k) = frame.data 0 (S0 * y + k)) ∧
      (∀ y x, y < info.height / 2 → x < info.width / 2 →
        (create_input_image_fill (edgefirst_camera_adaptor_set_caps fl self (some info)).2
            frame dst).data (info.height * info.width + info.width * y + 2 * x)
          = frame.data (if info.format = GstVideoFormat.I420 then 1 else 2) (Su * y + x) ∧
        (create_input_image_fill (edgefirst_camera_adaptor_set_caps fl self (some info)).2
            frame dst).data (info.height * info.width + info.width * y + 2 * x + 1)
          = frame.data (if info.format = GstVideoFormat.I420 then 2 else 1) (Sv * y + x)) := by
    intro Su Sv hfmt hSu hu hru hSv hv hrv
    have hfc' : (edgefirst_camera_adaptor_set_caps fl self (some info)).2.src_fourcc
        = HalFourcc.NV12 := by
      rw [hfc]; rcases hfmt with e | e <;> rw [e] <;> rfl
    rw [← hvf] at hfmt hSu hSv
    have key := fill_planar_data _ info frame dst S0 Su Sv (info.width / 2) hin hfc' hfmt hm hWH
      hS0 h0 hr0 hSu hu hru hSv hv hrv
    rw [hvf] at key
    exact nv12_cells _
      (fun y x => frame.data (if info.format = GstVideoFormat.I420 then 1 else 2) (Su * y + x))
      (fun y x => frame.data (if info.format = GstVideoFormat.I420 then 2 else 1) (Sv * y + x))
      (fun y k => frame.data 0 (S0 * y + k)) dst.data info.width info.height (info.width / 2)
      hm key
  refine ⟨fun hfmt => ?_, fun e S2 hS2 h2 hr2 => ?_, fun e S2 hS2 h2 hr2 => ?_, fun e => ?_,
    fun w h self' frame' dst' => ?_⟩
  · rw [hfc]; rcases hfmt with e | e | e <;> rw [e] <;> rfl
  · have h := planar S1 S2 (Or.inl e) (by rw [if_pos e]; exact hS1) h1 hr1
      (by rw [if_pos e]; exact hS2) h2 hr2
    rw [if_pos e, if_pos e] at h
    exact h
  · have h := planar S2 S1 (Or.inr e) (by rw [e, if_neg (by decide)]; exact hS2) h2 hr2
      (by rw [e, if_neg (by decide)]; exact hS1) h1 hr1
    rw [e, if_neg (by decide), if_neg (by decide)] at h
    exact h
  · have hfc' : (edgefirst_camera_adaptor_set_caps fl self (some info)).2.src_fourcc
        = HalFourcc.NV12 := by
      rw [hfc, e]; rfl
    rw [e] at hvf
    have key := fill_nv21_data _ info frame dst S0 S1 (info.width / 2) hin hfc' hvf hm hWH
      hS0 h0 hr0 hS1 h1 hr1
    exact nv12_cells _
      (fun y x => frame.data 1 (S1 * y + (2 * x + 1)))
      (fun y x => frame.data 1 (S1 * y + 2 * x))
      (fun y k => frame.data 0 (S0 * y + k)) dst.data info.width info.height (info.width / 2)
      hm key
  · obtain ⟨a1, b1, -, c1⟩ := set_caps_input fl self'
      { width := w, height := h, format := GstVideoFormat.I420 }
    obtain ⟨a2, b2, -, c2⟩ := set_caps_input fl self'
      { width := w, height := h, format := GstVideoFormat.YV12 }
    exact fill_exchange _ _ _ _ frame' dst' a1 a2 rfl rfl b1 b2 c1 c2

/-- A 2x2 I420 frame with stride 4 whose plane `p` holds `16 * p + i` at offset
`i`: the chroma row of the tensor, at offset 4, holds `16, 32`; the YV12 frame
gives `32, 16` there and the NV21 frame `17, 16`. -/
theorem copy_path_to_nv12_witness :
    ((create_input_image_fill (edgefirst_camera_adaptor_set_caps f32_round
        edgefirst_camera_adaptor_init (some { width := 2, height := 2, format := .I420 })).2
      (ramp_frame 4) (Buf.fresh fun _ => 0)).data 4 = 16 ∧
    (create_input_image_fill (edgefirst_camera_adaptor_set_caps f32_round
        edgefirst_camera_adaptor_init (some { width := 2, height := 2, format := .I420 })).2
      (ramp_frame 4) (Buf.fresh fun _ => 0)).data 5 = 32) ∧
    (create_input_image_fill (edgefirst_camera_adaptor_set_caps f32_round
        edgefirst_camera_adaptor_init (some { width := 2, height := 2, format := .I420 })).2
      (ramp_frame 4) (Buf.fresh fun _ => 0)).take 6 = [0, 1, 4, 5, 16, 32] ∧
    (create_input_image_fill (edgefirst_camera_adaptor_set_caps f32_round
        edgefirst_camera_adaptor_init (some { width := 2, height := 2, format := .YV12 })).2
      (ramp_frame 4) (Buf.fresh fun _ => 0)).take 6 = [0, 1, 4, 5, 32, 16] ∧
    (create_input_image_fill (edgefirst_camera_adaptor_set_caps f32_round
        edgefirst_camera_adaptor_init (some { width := 2, height := 2, format := .NV21 })).2
      (ramp_frame 4) (Buf.fresh fun _ => 0)).take 6 = [0, 1, 4, 5, 17, 16] :=
  ⟨((copy_path_to_nv12 f32_round edgefirst_camera_adaptor_init
      { width := 2, height := 2, format := .I420 } (ramp_frame 4) (Buf.fresh fun _ => 0)
      4 4 rfl (by norm_num) rfl (by norm_num) (by norm_num) rfl (by norm_num)
      (by norm_num)).2.1 rfl 4 rfl (by norm_num) (by norm_num)).2 0 0 (by norm_num)
      (by norm_num),
    by decide, by decide, by decide⟩

end EdgeFirst
